import Mathlib

/-!
# View construction pipeline of the Urho3D engine (Engine/Graphics/View.cpp)

A shallow embedding of `View::Define`, `View::Update`, `View::GetDrawables`,
`View::GetBatches`, `View::GetLitBatches`, `View::ProcessLight`,
`View::ProcessLightQuery`, `View::SplitLight`, `View::SortBatches`,
`View::RenderBatchQueue` and `View::GetTechnique`, followed by theorems about them.

Conventions of the embedding:
* a C++ pointer that may be null is an `Option`;
* objects compared by address carry an `id : Nat` standing for the address;
* `float` values are the rationals they denote, and comparisons are those of the
  rationals; the arithmetic of `View::SplitLight` is rounded to single precision after every
  operation (`Float32.round`), with `powf` a function of the renderer environment;
* `int` and `unsigned` values are integers or naturals; no embedded arithmetic leaves the
  32-bit range under the hypotheses stated with each theorem;
* the octree, the renderer and the graphics subsystem are collaborators whose source is
  not part of View.cpp: queries against them are fields of explicit environment records.
-/

namespace Urho3D

/-! ## Data model -/

/-- Blend modes of a pass; only `BLEND_REPLACE` is distinguished by View.cpp. -/
inductive BlendMode where
  | BLEND_REPLACE
  | BLEND_ADD
  | BLEND_ALPHA
  deriving DecidableEq

/-- Symbolic pass names looked up by `Technique::GetPass`. -/
inductive PassType where
  | PASS_SHADOW
  | PASS_GBUFFER
  | PASS_BASE
  | PASS_LITBASE
  | PASS_LIGHT
  | PASS_EXTRA
  deriving DecidableEq

/-- The part of a `Pass` that View.cpp reads. -/
structure Pass where
  blendMode : BlendMode
  alphaTest : Bool
  alphaMask : Bool
  deriving DecidableEq

/-- The part of a `Technique` that View.cpp reads: its address, `IsSM3()`, and one slot per
pass type (`GetPass` returns null for an absent pass). -/
structure Technique where
  id : Nat
  isSM3 : Bool
  shadowPass : Option Pass
  gbufferPass : Option Pass
  basePass : Option Pass
  litBasePass : Option Pass
  lightPass : Option Pass
  extraPass : Option Pass
  deriving DecidableEq

/-- Embeds `Technique::GetPass(type)`. -/
def Technique.GetPass (t : Technique) : PassType → Option Pass
  | .PASS_SHADOW => t.shadowPass
  | .PASS_GBUFFER => t.gbufferPass
  | .PASS_BASE => t.basePass
  | .PASS_LITBASE => t.litBasePass
  | .PASS_LIGHT => t.lightPass
  | .PASS_EXTRA => t.extraPass

/-- Embeds `Technique::HasPass(type)`. -/
def Technique.HasPass (t : Technique) (ty : PassType) : Bool :=
  (t.GetPass ty).isSome

/-- One entry of a material's technique list. -/
structure TechniqueEntry where
  technique_ : Option Technique
  qualityLevel_ : Int
  lodDistance_ : Rat
  deriving DecidableEq

/-- The part of a `Material` that View.cpp reads. -/
structure Material where
  id : Nat
  techniques : List TechniqueEntry
  auxViewFrameNumber : Nat
  deriving DecidableEq

/-- Light types; `LIGHT_SPLITPOINT` tags one cube face of a split point light. -/
inductive LightType where
  | LIGHT_DIRECTIONAL
  | LIGHT_POINT
  | LIGHT_SPOT
  | LIGHT_SPLITPOINT
  deriving DecidableEq

/-- Rendering modes; View.cpp tests `mode_` against `RENDER_FORWARD` and `RENDER_DEFERRED`,
every mode other than `RENDER_FORWARD` takes the deferred path. -/
inductive RenderMode where
  | RENDER_FORWARD
  | RENDER_PREPASS
  | RENDER_DEFERRED
  deriving DecidableEq

/-- Integer rectangle with the field names of `IntRect`. -/
structure IntRect where
  left_ : Int
  top_ : Int
  right_ : Int
  bottom_ : Int
  deriving DecidableEq

/-- The constant `IntRect::ZERO`. -/
def IntRect.ZERO : IntRect := ⟨0, 0, 0, 0⟩

/-- The part of a `Camera` that View.cpp reads or writes. `projectionValid` is the value of
`IsProjectionValid()`, `zoom` the value that `SetZoom` sets and `GetZoom` returns. -/
structure Camera where
  id : Nat
  viewMask : Nat
  viewOverrideFlags : Nat
  projectionValid : Bool
  autoAspectRatio : Bool
  aspectRatio : Rat
  projectionOffset : Rat × Rat
  nearClip : Rat
  farClip : Rat
  orthographic : Bool
  halfViewSize : Rat
  orthoSize : Rat
  zoom : Rat
  deriving DecidableEq

/-- Cascade parameters of a directional light (`CascadeParameters`). -/
structure CascadeParameters where
  splits_ : Nat
  lambda_ : Rat
  splitFadeRange_ : Rat
  shadowRange_ : Rat
  deriving DecidableEq

/-- A draw call under construction. `geometry_`, `worldTransform_`, `camera_` and `light_`
hold addresses. `pass_` is the pass handed to `Renderer::SetBatchShaders`, and `technique_`
records the technique handed to the same call (the C++ batch keeps only the shaders chosen
from it); both stay null for a batch that never went through `SetBatchShaders`.
`instancible_` says whether the fields of the batch that View.cpp does not touch (geometry
type, per-instance shader data) allow instancing. -/
structure Batch where
  geometry_ : Option Nat
  material_ : Option Material
  worldTransform_ : Option Nat
  camera_ : Option Nat
  light_ : Option Nat
  distance_ : Rat
  hasPriority_ : Bool
  overrideView_ : Bool
  pass_ : Option Pass
  technique_ : Option Technique
  allowShadows_ : Bool
  instancible_ : Bool
  deriving DecidableEq

/-- A default-constructed `Batch` (the local `Batch shadowBatch;` and its siblings). -/
def Batch.empty : Batch :=
  { geometry_ := none, material_ := none, worldTransform_ := none, camera_ := none,
    light_ := none, distance_ := 0, hasPriority_ := false, overrideView_ := false,
    pass_ := none, technique_ := none, allowShadows_ := true, instancible_ := true }

/-- What `Drawable::GetBatch` writes into the batch it is given. -/
structure SourceBatch where
  geometry_ : Option Nat
  material_ : Option Material
  worldTransform_ : Option Nat
  indexCount : Nat
  instancible_ : Bool
  deriving DecidableEq

/-- Everything View.cpp reads through a `Drawable*`, a `Light*` or a `Zone*`. View.cpp
reaches lights and zones by `static_cast` from `Drawable*`, so one record carries the fields
of all three classes and the casts are the identity.

Fields that depend on the view camera hold the value for the camera of the frame being
updated: `distance` and `lodDistance` are what `UpdateDistance(frame_)` stores,
`viewDepthMin`/`viewDepthMax` are the z extent of the world bounding box transformed into
view space, `boxDiagonal` is the length of the bounding box diagonal, `containsCamera` is
`Zone::IsInside(cameraPos)` and `sortValue` is what `SetIntensitySortValue(cameraPos)`
stores for a light. `shadowFocus` and `shadowZoomOut` are the flags `focus_` and `zoomOut_`
of `GetShadowFocus()`, `range` is `Light::GetRange()`. -/
structure Drawable where
  id : Nat
  drawableFlags : Nat
  viewMask : Nat
  lightMask : Nat
  drawDistance : Rat
  shadowDistance : Rat
  distance : Rat
  lodDistance : Rat
  castShadows : Bool
  occluder : Bool
  maxLights : Nat
  batches : List SourceBatch
  viewDepthMin : Rat
  viewDepthMax : Rat
  boxDiagonal : Rat
  sortValue : Rat
  priority : Int
  containsCamera : Bool
  lightType : LightType
  shadowIntensity : Rat
  shadowResolution : Rat
  shadowCascade : CascadeParameters
  shadowFocus : Bool
  shadowZoomOut : Bool
  nearSplit : Rat
  farSplit : Rat
  nearFadeRange : Rat
  farFadeRange : Rat
  shadowCamera : Option Camera
  shadowMap : Option Nat
  rampTexture : Option Nat
  shapeTexture : Option Nat
  fov : Rat
  aspectRatio : Rat
  range : Rat
  direction : Option (Int × Int × Int)
  originalLight : Option Nat
  deriving DecidableEq

/-- A `Light` seen through its `Drawable` base. -/
abbrev Light := Drawable

/-- A `Zone` seen through its `Drawable` base. -/
abbrev Zone := Drawable

/-- Drawable type flag of geometries (Drawable.h). -/
def DRAWABLE_GEOMETRY : Nat := 1

/-- Drawable type flag of lights (Drawable.h). -/
def DRAWABLE_LIGHT : Nat := 2

/-- Drawable type flag of zones (Drawable.h). -/
def DRAWABLE_ZONE : Nat := 4

/-- View override flag of a camera: force low material quality (Camera.h). -/
def VOF_LOW_MATERIAL_QUALITY : Nat := 1

/-- View override flag of a camera: disable shadows (Camera.h). -/
def VOF_DISABLE_SHADOWS : Nat := 2

/-- View override flag of a camera: disable occlusion (Camera.h). -/
def VOF_DISABLE_OCCLUSION : Nat := 4

/-- Lowest material quality level (GraphicsDefs.h). -/
def QUALITY_LOW : Int := 0

/-- Least value of a 32-bit `int` (MathDefs.h). -/
def M_MIN_INT : Int := -2147483648

/-- Embeds `Drawable::GetNumBatches()`. -/
def Drawable.GetNumBatches (d : Drawable) : Nat := d.batches.length

/-- Embeds `Drawable::GetBatch(frame, index, batch)` applied to a default-constructed batch;
an index past the end leaves the batch as it was. -/
def Drawable.GetBatch (d : Drawable) (index : Nat) : Batch :=
  match d.batches.get? index with
  | some src =>
    { Batch.empty with
      geometry_ := src.geometry_, material_ := src.material_,
      worldTransform_ := src.worldTransform_, instancible_ := src.instancible_ }
  | none => Batch.empty

/-! ## Collaborators -/

/-- The part of a `RenderSurface` that View.cpp reads; `id` is its address. -/
structure RenderSurface where
  id : Nat
  width : Int
  height : Int
  linkedDepthBuffer : Option Nat
  deriving DecidableEq

/-- Answers of the octree (Octree.cpp and OctreeQuery.cpp are collaborators). Each field is
the result vector of one kind of query issued by View.cpp, as a function of what the query
is built from.
* `pointQuery c`: zones at the position of camera `c`;
* `occluderQuery c`: occluder geometries in the frustum of `c`;
* `frustumQuery c`: geometries and lights in the frustum of `c`;
* `occludedFrustumQuery c occ`: the same, refined by the occlusion buffer into which the
  occluders `occ` were drawn;
* `shadowOccluderQuery sc`: shadow-casting occluders in the frustum of shadow camera `sc`;
* `shadowCasterQuery l useOcclusion`: geometries in the shadow camera frustum of the
  directional split `l`;
* `sphereQuery l`: geometries in the sphere of point light `l`;
* `lightFrustumQuery l`: geometries in the frustum of the spot or split-point light `l`. -/
structure Octree where
  id : Nat
  pointQuery : Camera → List Drawable
  occluderQuery : Camera → List Drawable
  frustumQuery : Camera → List Drawable
  occludedFrustumQuery : Camera → List Drawable → List Drawable
  shadowOccluderQuery : Camera → List Drawable
  shadowCasterQuery : Light → Bool → List Drawable
  sphereQuery : Light → List Drawable
  lightFrustumQuery : Light → List Drawable

/-- The part of a `Scene` that `View::Define` reads: the asynchronous-loading flag and the
result of `GetComponent<Octree>()`. -/
structure Scene where
  asyncLoading : Bool
  octree : Option Octree

/-- A `Viewport`: scene, camera and rectangle. -/
structure Viewport where
  scene_ : Option Scene
  camera_ : Option Camera
  rect_ : IntRect

/-- The part of the `Graphics` subsystem that View.cpp reads while building a view. -/
structure Graphics where
  width : Int
  height : Int
  renderMode : RenderMode
  sm3Support : Bool
  deriving DecidableEq

/-- The `Renderer` subsystem as View.cpp uses it while building a view (Renderer.cpp is a
collaborator). Settings are plain fields. The three counters are the mutable state behind
`CreateShadowCamera`, `CreateSplitLight` and `GetShadowMap`; `shadowCameraAt`,
`splitLightIdAt` and `shadowMapAt` say what the n-th request returns. `lightGeometry` is
`GetLightGeometry`, `limitLights` is what `Drawable::LimitLights()` leaves in a drawable's
light list, and the remaining functions stand for geometric code: `setupShadowCamera` for
what `SetupShadowCamera` does after it has reset the zoom, `quantizeDirShadowCamera` for
`QuantizeDirShadowCamera` on the combined box of `FinalizeShadowCamera`, `lightViewZ` for the
z coordinate of a light in the view space of a camera, `focusViewSize` for the local
`viewSize` that `FinalizeShadowCamera` computes for a focused spot light,
`shadowMapWidth`/`shadowMapHeight` for the size of a shadow map texture, and the last four
for `Camera::GetDistance`, the degenerate split frustum test of `ProcessLightQuery` and the
two frustum tests of `IsShadowCasterVisible`. -/
structure Renderer where
  defaultZone : Option Zone
  defaultMaterial : Option Material
  drawShadows : Bool
  materialQuality : Int
  maxOccluderTriangles : Nat
  occluderSizeThreshold : Rat
  reuseShadowMaps : Bool
  defaultLightRamp : Option Nat
  defaultLightSpot : Option Nat
  numShadowCameras : Nat
  numSplitLights : Nat
  shadowMapUseCount : Nat
  shadowCameraAt : Nat → Camera
  splitLightIdAt : Nat → Nat
  shadowMapAt : Nat → Rat → Option Nat
  lightGeometry : Light → Option Nat
  limitLights : Drawable → List Light → List Light
  powf : Rat → Rat → Rat
  setupShadowCamera : Camera → Light → Bool → Camera → Camera
  quantizeDirShadowCamera : Light → Camera → Camera
  lightViewZ : Camera → Light → Rat
  focusViewSize : Light → Camera → Rat
  shadowMapWidth : Nat → Int
  shadowMapHeight : Nat → Int
  cameraDistance : Camera → Drawable → Rat
  degenerateSplitFrustum : Camera → Light → Bool
  orthoCasterVisible : Drawable → Light → Bool
  perspectiveCasterVisible : Drawable → Light → Bool

/-- Embeds `Renderer::CreateShadowCamera()`: the next pooled shadow camera. -/
def Renderer.CreateShadowCamera (r : Renderer) : Camera × Renderer :=
  (r.shadowCameraAt r.numShadowCameras, { r with numShadowCameras := r.numShadowCameras + 1 })

/-- Embeds `Renderer::GetShadowMap(resolution)`: a shadow map texture, or null when none can
be supplied. -/
def Renderer.GetShadowMap (r : Renderer) (resolution : Rat) : Option Nat × Renderer :=
  (r.shadowMapAt r.shadowMapUseCount resolution,
   { r with shadowMapUseCount := r.shadowMapUseCount + 1 })

/-- Embeds `Renderer::CreateSplitLight(original)`: a fresh copy of the light that remembers
the light it was copied from. -/
def Renderer.CreateSplitLight (r : Renderer) (original : Light) : Light × Renderer :=
  ({ original with id := r.splitLightIdAt r.numSplitLights, originalLight := some original.id },
   { r with numSplitLights := r.numSplitLights + 1 })

/-- Embeds `Renderer::ResetShadowMapUseCount()`. -/
def Renderer.ResetShadowMapUseCount (r : Renderer) : Renderer :=
  { r with shadowMapUseCount := 0 }

/-- Embeds `Renderer::SetBatchShaders(batch, technique, pass, allowShadows)`: the batch
remembers the pass, and here also the technique, it was given. -/
def Renderer.SetBatchShaders (batch : Batch) (tech : Technique) (pass : Pass)
    (allowShadows : Bool) : Batch :=
  { batch with pass_ := some pass, technique_ := some tech, allowShadows_ := allowShadows }

/-- Embeds `Renderer::SetLightVolumeShaders(batch)`: chooses shaders by light type; it is
given no technique and no pass, so the batch records none. -/
def Renderer.SetLightVolumeShaders (batch : Batch) : Batch := batch

/-- State of scene objects and of the renderer that a view changes through pointers while it
is updated. `viewFrameNumber` and `viewCamera` are the marks written by
`Drawable::MarkInView` and `MarkInShadowView`, `basePassFlags d i` is `HasBasePass(i)` of
drawable `d`, and `lights d` is the per-drawable light list filled by `AddLight`; all three
are indexed by the drawable's address. -/
structure World where
  renderer : Renderer
  viewFrameNumber : Nat → Option Nat
  viewCamera : Nat → Option Nat
  basePassFlags : Nat → Nat → Bool
  lights : Nat → List Light

/-- Frame information kept by the view (`FrameInfo`); `camera_` is the camera's address. -/
structure FrameInfo where
  camera_ : Option Nat
  timeStep_ : Rat
  frameNumber_ : Nat
  viewSize_ : Int × Int
  deriving DecidableEq

/-- Embeds `Drawable::IsInView(frame)`. -/
def World.IsInView (w : World) (frame : FrameInfo) (d : Drawable) : Bool :=
  decide (w.viewFrameNumber d.id = some frame.frameNumber_) &&
    decide (w.viewCamera d.id = frame.camera_)

/-- Embeds `Drawable::MarkInView(frame)`; the per-frame light list of the drawable starts
empty for the frame. -/
def World.MarkInView (w : World) (frame : FrameInfo) (d : Drawable) : World :=
  { w with
    viewFrameNumber := Function.update w.viewFrameNumber d.id (some frame.frameNumber_),
    viewCamera := Function.update w.viewCamera d.id frame.camera_,
    lights := Function.update w.lights d.id [] }

/-- Embeds `Drawable::MarkInShadowView(frame)`: a drawable not yet marked for this frame is
marked with a null view camera. -/
def World.MarkInShadowView (w : World) (frame : FrameInfo) (d : Drawable) : World :=
  if w.viewFrameNumber d.id = some frame.frameNumber_ then w
  else
    { w with
      viewFrameNumber := Function.update w.viewFrameNumber d.id (some frame.frameNumber_),
      viewCamera := Function.update w.viewCamera d.id none }

/-- Embeds `Drawable::ClearBasePass()`. -/
def World.ClearBasePass (w : World) (d : Drawable) : World :=
  { w with basePassFlags := Function.update w.basePassFlags d.id (fun _ => false) }

/-- Embeds `Drawable::SetBasePass(batchIndex)`. -/
def World.SetBasePass (w : World) (d : Drawable) (batchIndex : Nat) : World :=
  { w with
    basePassFlags :=
      Function.update w.basePassFlags d.id (Function.update (w.basePassFlags d.id) batchIndex true) }

/-- Embeds `Drawable::HasBasePass(batchIndex)`. -/
def World.HasBasePass (w : World) (d : Drawable) (batchIndex : Nat) : Bool :=
  w.basePassFlags d.id batchIndex

/-- Embeds `Drawable::AddLight(light)`. -/
def World.AddLight (w : World) (d : Drawable) (light : Light) : World :=
  { w with lights := Function.update w.lights d.id (w.lights d.id ++ [light]) }

/-- Embeds `Drawable::LimitLights()`. -/
def World.LimitLights (w : World) (d : Drawable) : World :=
  { w with lights := Function.update w.lights d.id (w.renderer.limitLights d (w.lights d.id)) }

/-- Modelled from the spec: Batch.cpp, which implements `BatchQueue`, is not among the embedded
sources. Whether a batch is instanced: it was added without `noInstancing`, it qualifies for
instancing and it does not override the view. -/
def Batch.instanced (p : Batch × Bool) : Bool :=
  !p.2 && p.1.instancible_ && !p.1.overrideView_

/-- Modelled from the spec: the key by which "instancible batches are additionally grouped",
"(geometry, material, light)"; the material is identified by its address. -/
def Batch.groupKey (b : Batch) : Option Nat × Option Nat × Option Nat :=
  (b.geometry_, b.material_.map (fun m => m.id), b.light_)

/-- Modelled from the spec: the batches of one list grouped by `Batch.groupKey`, the groups
in the order in which their keys first occur (the specification leaves the order of the
groups open). -/
def groupBatches : List Batch → List (List Batch)
  | [] => []
  | b :: rest =>
    (b :: rest.filter (fun x => decide (x.groupKey = b.groupKey))) ::
      groupBatches (rest.filter (fun x => !decide (x.groupKey = b.groupKey)))
termination_by l => l.length
decreasing_by
  simp_wf
  exact Nat.lt_succ_of_le (List.length_filter_le _ _)

/-- Modelled from the spec: the sort of a batch vector "front-to-back (ascending camera
distance)". -/
def SortBatchesFrontToBack (l : List Batch) : List Batch :=
  l.insertionSort (fun a b => a.distance_ ≤ b.distance_)

/-- Modelled from the spec: the sort of a batch vector "back-to-front (descending
distance)". -/
def SortBatchesBackToFront (l : List Batch) : List Batch :=
  l.insertionSort (fun a b => a.distance_ ≥ b.distance_)

/-- A `BatchQueue` as View.cpp drives it. `added_` lists the `AddBatch` calls since the last
`Clear` in call order, each batch with the `noInstancing` argument of the call.
`sortedPriorityBatches_` and `sortedBatches_` are the two vectors of that name, which
`RenderBatchQueue` reads; they are filled by the sort functions. -/
structure BatchQueue where
  added_ : List (Batch × Bool)
  sortedPriorityBatches_ : List Batch
  sortedBatches_ : List Batch
  deriving DecidableEq

/-- An empty queue: the state after `BatchQueue::Clear()`. -/
def BatchQueue.Clear : BatchQueue :=
  { added_ := [], sortedPriorityBatches_ := [], sortedBatches_ := [] }

/-- Embeds `BatchQueue::AddBatch(batch, noInstancing)` as seen from View.cpp: the call is
recorded. -/
def BatchQueue.AddBatch (q : BatchQueue) (batch : Batch) (noInstancing : Bool) : BatchQueue :=
  { q with added_ := q.added_ ++ [(batch, noInstancing)] }

/-- All batches added to a queue since it was cleared, instanced or not. -/
def BatchQueue.batches (q : BatchQueue) : List Batch := q.added_.map Prod.fst

/-- Modelled from the spec: the vector `batches_` of a queue, holding the batches that are
drawn individually ("the remainder draw individually in sorted order"). -/
def BatchQueue.batches_ (q : BatchQueue) : List Batch :=
  (q.added_.filter (fun p => !Batch.instanced p)).map Prod.fst

/-- Modelled from the spec: the map `priorityBatchGroups_` of a queue, the instanced groups
of its priority batches. -/
def BatchQueue.priorityBatchGroups_ (q : BatchQueue) : List (List Batch) :=
  groupBatches ((q.added_.filter (fun p => Batch.instanced p && p.1.hasPriority_)).map Prod.fst)

/-- Modelled from the spec: the map `batchGroups_` of a queue, the instanced groups of its
non-priority batches. -/
def BatchQueue.batchGroups_ (q : BatchQueue) : List (List Batch) :=
  groupBatches ((q.added_.filter (fun p => Batch.instanced p && !p.1.hasPriority_)).map Prod.fst)

/-- Modelled from the spec: `BatchQueue::SortFrontToBack()`. Within a queue "priority batches
(replace-blend, no alpha test/mask) are drawn before non-priority ones", so the individually
drawn batches are divided by priority and each part is sorted front to back. -/
def BatchQueue.SortFrontToBack (q : BatchQueue) : BatchQueue :=
  { q with
    sortedPriorityBatches_ := SortBatchesFrontToBack (q.batches_.filter (fun b => b.hasPriority_)),
    sortedBatches_ := SortBatchesFrontToBack (q.batches_.filter (fun b => !b.hasPriority_)) }

/-- Modelled from the spec: `BatchQueue::SortBackToFront()`. `RenderBatchQueue` notes that
"for the transparent queue, both priority and non-priority batches are copied" to
`sortedBatches_`, so all individually drawn batches are sorted back to front into that
vector. -/
def BatchQueue.SortBackToFront (q : BatchQueue) : BatchQueue :=
  { q with
    sortedPriorityBatches_ := [],
    sortedBatches_ := SortBatchesBackToFront q.batches_ }

/-- Per-split light queue (`LightBatchQueue`). -/
structure LightBatchQueue where
  light_ : Option Light
  shadowBatches_ : BatchQueue
  litBatches_ : BatchQueue
  volumeBatches_ : List Batch
  firstSplit_ : Bool
  deriving DecidableEq

/-- A default-constructed `LightBatchQueue`, as `Vector::Resize` creates it. -/
def LightBatchQueue.empty : LightBatchQueue :=
  { light_ := none, shadowBatches_ := BatchQueue.Clear, litBatches_ := BatchQueue.Clear,
    volumeBatches_ := [], firstSplit_ := false }

/-- The z extent of the visible scene in view space (`sceneViewBox_`), the only part of the
scene bounding boxes that the embedded code reads. -/
structure DepthBox where
  minZ : Rat
  maxZ : Rat
  defined_ : Bool
  deriving DecidableEq

/-- Embeds `BoundingBox::Merge(box)` on the z extent. -/
def DepthBox.Merge (b : DepthBox) (lo hi : Rat) : DepthBox :=
  if b.defined_ then { minZ := min b.minZ lo, maxZ := max b.maxZ hi, defined_ := true }
  else { minZ := lo, maxZ := hi, defined_ := true }

/-- Per-geometry view-space depth range (`GeometryDepthBounds`). -/
structure GeometryDepthBounds where
  min_ : Rat
  max_ : Rat
  deriving DecidableEq

/-- The members of `View`. The first group survives from frame to frame, the second group
is the per-frame state cleared by `Update`, the third is scratch storage reused by
`GetDrawables` and `ProcessLight`. `gBufferErrorDisplayed_` holds render target addresses;
`lightScissorCache_` holds the addresses of the lights with a cached scissor rectangle. -/
structure View where
  octree_ : Option Octree
  camera_ : Option Camera
  zone_ : Option Zone
  renderTarget_ : Option RenderSurface
  depthStencil_ : Option Nat
  mode_ : RenderMode
  screenRect_ : IntRect
  width_ : Int
  height_ : Int
  drawShadows_ : Bool
  materialQuality_ : Int
  maxOccluderTriangles_ : Nat
  gBufferErrorDisplayed_ : List Nat
  frame_ : FrameInfo
  lightScissorCache_ : List Nat
  geometries_ : List Drawable
  geometryDepthBounds_ : List GeometryDepthBounds
  lights_ : List Light
  occluders_ : List Drawable
  shadowOccluders_ : List Drawable
  gBufferQueue_ : BatchQueue
  baseQueue_ : BatchQueue
  extraQueue_ : BatchQueue
  transparentQueue_ : BatchQueue
  noShadowLightQueue_ : BatchQueue
  lightQueues_ : List LightBatchQueue
  tempDrawables_ : List Drawable
  splitLights_ : Nat → Option Light
  litGeometries_ : Nat → List Drawable
  shadowCasters_ : Nat → List Drawable
  sceneViewBox_ : DepthBox

/-! ## Technique resolution -/

/-- The `for` loop of `View::GetTechnique`: `some t` when the loop returns technique `t`,
`none` when it runs to the end of the list. -/
def View.GetTechnique.loop (g : Graphics) (v : View) (lodDistance : Rat) :
    List TechniqueEntry → Option Technique
  | [] => none
  | entry :: rest =>
    match entry.technique_ with
    | none => View.GetTechnique.loop g v lodDistance rest
    | some technique =>
      if (technique.isSM3 && !g.sm3Support) || decide (v.materialQuality_ < entry.qualityLevel_) then
        View.GetTechnique.loop g v lodDistance rest
      else if lodDistance ≥ entry.lodDistance_ then some technique
      else View.GetTechnique.loop g v lodDistance rest

/-- Embeds `View::GetTechnique(drawable, material)`. The first component is the returned
technique, the second the value left in the reference parameter `material`. -/
def View.GetTechnique (g : Graphics) (r : Renderer) (v : View) (drawable : Drawable)
    (material : Option Material) : Option Technique × Option Material :=
  let material := match material with
    | none => r.defaultMaterial
    | some m => some m
  match material with
  | none => (none, none)
  | some m =>
    let lodDistance := drawable.lodDistance
    if m.techniques.isEmpty then (none, some m)
    else
      match View.GetTechnique.loop g v lodDistance m.techniques with
      | some technique => (some technique, some m)
      | none => ((m.techniques.getLast?).bind (fun e => e.technique_), some m)


/-! ## View definition -/

/-- Modelled from the spec: `Clamp` of MathDefs.h, which is not among the embedded sources;
the specification says the screen rectangle is "clamped to target bounds". A value below the
lower bound becomes the lower bound, a value above the upper bound becomes the upper bound. -/
def Clamp (value lo hi : Int) : Int :=
  if value < lo then lo else if value > hi then hi else value

/-- The text passed to `LOGERROR` by `View::Define`. -/
def gBufferErrorText : String := "Render texture is larger than the G-buffer, can not render"

/-- Outcome of one `View::Define` call: the returned flag, the view afterwards, and the
messages passed to `LOGERROR` during the call. -/
structure DefineResult where
  ok : Bool
  view : View
  logged : List String

/-- Embeds `View::Define(renderTarget, viewport)`. `useOpenGL` is the compile-time switch
`USE_OPENGL`. -/
def View.Define (useOpenGL : Bool) (g : Graphics) (r : Renderer) (v : View)
    (renderTarget : Option RenderSurface) (viewport : Viewport) : DefineResult :=
  match viewport.scene_, viewport.camera_ with
  | none, _ => { ok := false, view := v, logged := [] }
  | _, none => { ok := false, view := v, logged := [] }
  | some scene, some camera =>
    if scene.asyncLoading then { ok := false, view := v, logged := [] }
    else
      match scene.octree with
      | none => { ok := false, view := v, logged := [] }
      | some octree =>
        let v := { v with mode_ := g.renderMode }
        let oversized : Option RenderSurface :=
          match renderTarget with
          | some rt =>
            if v.mode_ ≠ RenderMode.RENDER_FORWARD ∧ (rt.width > g.width ∨ rt.height > g.height)
            then some rt else none
          | none => none
        match oversized with
        | some rt =>
          if rt.id ∈ v.gBufferErrorDisplayed_ then { ok := false, view := v, logged := [] }
          else
            { ok := false,
              view := { v with gBufferErrorDisplayed_ := rt.id :: v.gBufferErrorDisplayed_ },
              logged := [gBufferErrorText] }
        | none =>
          let depthStencil : Option Nat :=
            match renderTarget with
            | none => none
            | some rt =>
              if useOpenGL then rt.linkedDepthBuffer
              else if v.mode_ = RenderMode.RENDER_FORWARD then rt.linkedDepthBuffer
              else none
          let rtWidth : Int := match renderTarget with
            | some rt => rt.width
            | none => g.width
          let rtHeight : Int := match renderTarget with
            | some rt => rt.height
            | none => g.height
          let screenRect : IntRect :=
            if viewport.rect_ ≠ IntRect.ZERO then
              let left := Clamp viewport.rect_.left_ 0 (rtWidth - 1)
              let top := Clamp viewport.rect_.top_ 0 (rtHeight - 1)
              let right := Clamp viewport.rect_.right_ (left + 1) rtWidth
              let bottom := Clamp viewport.rect_.bottom_ (top + 1) rtHeight
              { left_ := left, top_ := top, right_ := right, bottom_ := bottom }
            else { left_ := 0, top_ := 0, right_ := rtWidth, bottom_ := rtHeight }
          let viewOverrideFlags := camera.viewOverrideFlags
          { ok := true,
            view :=
              { v with
                octree_ := some octree,
                camera_ := some camera,
                renderTarget_ := renderTarget,
                depthStencil_ := depthStencil,
                zone_ := r.defaultZone,
                screenRect_ := screenRect,
                width_ := screenRect.right_ - screenRect.left_,
                height_ := screenRect.bottom_ - screenRect.top_,
                drawShadows_ :=
                  if viewOverrideFlags &&& VOF_DISABLE_SHADOWS ≠ 0 then false else r.drawShadows,
                materialQuality_ :=
                  if viewOverrideFlags &&& VOF_LOW_MATERIAL_QUALITY ≠ 0 then QUALITY_LOW
                  else r.materialQuality,
                maxOccluderTriangles_ :=
                  if viewOverrideFlags &&& VOF_DISABLE_OCCLUSION ≠ 0 then 0
                  else r.maxOccluderTriangles },
            logged := [] }

/-- The width `rtWidth` that `View::Define` validates the viewport rectangle against: the
width of the render target, or of the back buffer when the render target is null. -/
def targetWidth (g : Graphics) (renderTarget : Option RenderSurface) : Int :=
  match renderTarget with
  | some rt => rt.width
  | none => g.width

/-- The height `rtHeight` that `View::Define` validates the viewport rectangle against. -/
def targetHeight (g : Graphics) (renderTarget : Option RenderSurface) : Int :=
  match renderTarget with
  | some rt => rt.height
  | none => g.height

/-- The arguments and surroundings of one `Define` call: the graphics and renderer subsystems
as they are at the time of the call, the render target and the viewport. -/
structure DefineCall where
  graphics : Graphics
  renderer : Renderer
  renderTarget : Option RenderSurface
  viewport : Viewport

/-- The view after a sequence of `Define` calls made one after the other on it. -/
def View.afterDefines (useOpenGL : Bool) (v : View) (calls : List DefineCall) : View :=
  calls.foldl
    (fun v c => (View.Define useOpenGL c.graphics c.renderer v c.renderTarget c.viewport).view) v

/-! ## Visible drawables -/

/-- Modelled from the spec: `Sort` with `CompareDrawables` (Sort.h and Drawable.h are not
among the embedded sources); the specification describes a "stable ascending sort on that
key", the key being the sort value stored on the drawable. -/
def SortDrawables (l : List Drawable) : List Drawable :=
  l.insertionSort (fun a b => a.sortValue ≤ b.sortValue)

/-- Embeds the draw distance test shared by `GetDrawables`, `UpdateOccluders` and
`ProcessLightQuery`: `maxDistance > 0.0f && drawable->GetDistance() > maxDistance`. -/
def Drawable.beyondDrawDistance (d : Drawable) : Bool :=
  decide (d.drawDistance > 0) && decide (d.distance > d.drawDistance)

/-- The comparison `a / b < c` on floats: a division by zero yields an infinity with the
sign of `a` (or NaN for 0 / 0), which is below a finite `c` only when it is negative. -/
def divLess (a b c : Rat) : Bool :=
  if b = 0 then decide (a < 0) else decide (a / b < c)

/-- The loop body of `View::UpdateOccluders` up to the decision `erase`. -/
def View.UpdateOccluders.erase (w : World) (camera : Camera) (occluder : Drawable) : Bool :=
  let erase := occluder.beyondDrawDistance
  let tooSmall :=
    if !camera.orthographic then
      divLess (occluder.boxDiagonal * camera.halfViewSize) occluder.distance
        w.renderer.occluderSizeThreshold
    else divLess occluder.boxDiagonal camera.orthoSize w.renderer.occluderSizeThreshold
  if tooSmall then true else erase

/-- The sort key stored by `View::UpdateOccluders` on an occluder it keeps: the total
triangle count of its batches divided by the screen coverage `compare`. -/
def View.UpdateOccluders.sortKey (camera : Camera) (occluder : Drawable) : Rat :=
  let compare : Rat :=
    if !camera.orthographic then occluder.boxDiagonal * camera.halfViewSize / occluder.distance
    else occluder.boxDiagonal * (1 / camera.orthoSize)
  let totalTriangles : Nat :=
    occluder.batches.foldl
      (fun total b => if b.geometry_.isSome then total + b.indexCount / 3 else total) 0
  (totalTriangles : Rat) / compare

/-- The `for` loop of `View::UpdateOccluders` from index `i` on. The index and
`occluders.Size()` are of type `unsigned`, so the size is read modulo 2^32, the loop increment
`++i` is an addition modulo 2^32, and erasing element `i` is followed by `--i`, a subtraction
modulo 2^32 (which wraps at `i = 0`), and then by the loop increment. -/
def View.UpdateOccluders.loop (w : World) (camera : Camera) (i : Nat)
    (occluders : List Drawable) : List Drawable :=
  if h : i < occluders.length % 4294967296 then
    have hlen : i < occluders.length := Nat.lt_of_lt_of_le h (Nat.mod_le _ _)
    let occluder := occluders.get ⟨i, hlen⟩
    if View.UpdateOccluders.erase w camera occluder then
      View.UpdateOccluders.loop w camera (((i + 4294967296 - 1) % 4294967296 + 1) % 4294967296)
        (occluders.eraseIdx i)
    else
      View.UpdateOccluders.loop w camera ((i + 1) % 4294967296)
        (occluders.set i { occluder with sortValue := View.UpdateOccluders.sortKey camera occluder })
  else occluders
termination_by occluders.length - i
decreasing_by
  · have hlen := List.length_eraseIdx occluders i
    have hle := Nat.mod_le occluders.length 4294967296
    simp only [Nat.lt_of_lt_of_le h hle, if_true] at hlen
    simp_wf
    omega
  · simp_wf
    omega

/-- Embeds `View::UpdateOccluders(occluders, camera)`; the result is the vector left in
`occluders`. -/
def View.UpdateOccluders (w : World) (camera : Camera) (occluders : List Drawable) :
    List Drawable :=
  let occluders := View.UpdateOccluders.loop w camera 0 occluders
  if occluders.length ≠ 0 then SortDrawables occluders else occluders

/-- The zone loop of `View::GetDrawables`: one step on the pair (`zone_`,
`highestZonePriority`). -/
def View.GetDrawables.zoneStep (acc : Option Zone × Int) (zone : Zone) : Option Zone × Int :=
  if zone.containsCamera && decide (zone.priority > acc.2) then (some zone, zone.priority)
  else acc

/-- State carried by the main loop of `View::GetDrawables`. -/
structure GetDrawablesState where
  world : World
  sceneViewBox : DepthBox
  geometryDepthBounds : List GeometryDepthBounds
  geometries : List Drawable
  lights : List Light

/-- The body of the main loop of `View::GetDrawables` for one drawable of the query result.
A light is tested against the view mask of the active zone `zone`; with a null zone the C++
code would dereference a null pointer, and the embedding culls the light. -/
def View.GetDrawables.step (frame : FrameInfo) (zone : Option Zone) (st : GetDrawablesState)
    (drawable : Drawable) : GetDrawablesState :=
  if drawable.beyondDrawDistance then st
  else
    let flags := drawable.drawableFlags
    if flags &&& DRAWABLE_GEOMETRY ≠ 0 then
      let w := (st.world.ClearBasePass drawable).MarkInView frame drawable
      { st with
        world := w,
        sceneViewBox := st.sceneViewBox.Merge drawable.viewDepthMin drawable.viewDepthMax,
        geometryDepthBounds :=
          st.geometryDepthBounds ++ [{ min_ := drawable.viewDepthMin, max_ := drawable.viewDepthMax }],
        geometries := st.geometries ++ [drawable] }
    else if flags &&& DRAWABLE_LIGHT ≠ 0 then
      match zone with
      | none => st
      | some z =>
        if drawable.viewMask &&& z.viewMask = 0 then st
        else
          { st with
            world := st.world.MarkInView frame drawable,
            lights := st.lights ++ [drawable] }
    else st

/-- Embeds `View::GetDrawables()` for a view whose camera and octree are `camera` and
`octree` (the caller `Update` has checked both pointers). Rendering the occluders into the
occlusion buffer is visible here only through the occluder list handed to the occluded
query. -/
def View.GetDrawables (camera : Camera) (octree : Octree) (v : View) (w : World) :
    View × World :=
  let tempDrawables := octree.pointQuery camera
  let zoneResult := tempDrawables.foldl View.GetDrawables.zoneStep (v.zone_, M_MIN_INT)
  let v := { v with tempDrawables_ := tempDrawables, zone_ := zoneResult.1 }
  let occluders : List Drawable :=
    if v.maxOccluderTriangles_ > 0 then View.UpdateOccluders w camera (octree.occluderQuery camera)
    else v.occluders_
  let buffer : Bool := decide (v.maxOccluderTriangles_ > 0) && decide (occluders.length ≠ 0)
  let v := { v with occluders_ := occluders }
  let tempDrawables :=
    if !buffer then octree.frustumQuery camera
    else octree.occludedFrustumQuery camera occluders
  let st := tempDrawables.foldl (View.GetDrawables.step v.frame_ v.zone_)
    { world := w, sceneViewBox := { minZ := 0, maxZ := 0, defined_ := false },
      geometryDepthBounds := v.geometryDepthBounds_, geometries := v.geometries_,
      lights := v.lights_ }
  ({ v with
      tempDrawables_ := tempDrawables,
      sceneViewBox_ := st.sceneViewBox,
      geometryDepthBounds_ := st.geometryDepthBounds,
      geometries_ := st.geometries,
      lights_ := SortDrawables st.lights },
   st.world)

/-! ## Single precision arithmetic

The cascade distances of `View::SplitLight` are computed in `float`, and the claims about
them speak of equal and of strictly increasing distances, which rounding can break. The
operations of that function are therefore embedded with the rounding of IEEE 754 binary32:
every operation is the exact operation on rationals followed by `Float32.round`, each
operation of an expression being rounded on its own (no extended precision, no fused
multiply-add). Infinities and NaN are not embedded. -/

/-- Rounding of a rational to the nearest integer, a tie going to the even one. -/
def roundHalfEven (x : Rat) : Int :=
  if x - (⌊x⌋ : Int) < 1 / 2 then ⌊x⌋
  else if 1 / 2 < x - (⌊x⌋ : Int) then ⌊x⌋ + 1
  else if ⌊x⌋ % 2 = 0 then ⌊x⌋ else ⌊x⌋ + 1

/-- The integer part of the binary logarithm of `n`, computed with at most `fuel`
halvings. -/
def Float32.log2Fuel : Nat → Nat → Nat
  | 0, _ => 0
  | fuel + 1, n => if n < 2 then 0 else Float32.log2Fuel fuel (n / 2) + 1

/-- The integer part of the binary logarithm of `n`, and 0 for `n = 0`. -/
def Float32.log2 (n : Nat) : Nat := Float32.log2Fuel n n

/-- Rounding of a real result to `float`: round to nearest, ties to even, with the 24 bit
significand of binary32. The exponent `q` is chosen from the sizes of the numerator and the
denominator so that `m = |x| / 2^q` lies in [2^23, 2^25); below 2^24 the significand `m` is
rounded to an integer, from 2^24 on `m / 2` is, with the exponent `q + 1`. The exponent
range is not bounded: the result is that of the hardware whenever the magnitude of the rounded
value is below 2^128 and that of `x` is 0 or at least 2^-126 (no overflow to infinity, no
subnormal result). -/
def Float32.round (x : Rat) : Rat :=
  if x = 0 then 0
  else
    let a := |x|
    let q : Int := (Float32.log2 a.num.natAbs : Int) - (Float32.log2 a.den : Int) - 24
    let m := a / (2 : Rat) ^ q
    let r : Rat :=
      if m < 16777216 then (roundHalfEven m : Rat) * (2 : Rat) ^ q
      else (roundHalfEven (m / 2) : Rat) * (2 : Rat) ^ (q + 1)
    if x < 0 then -r else r

/-- The `float` sum `a + b`. -/
def Float32.add (a b : Rat) : Rat := Float32.round (a + b)

/-- The `float` difference `a - b`. -/
def Float32.sub (a b : Rat) : Rat := Float32.round (a - b)

/-- The `float` product `a * b`. -/
def Float32.mul (a b : Rat) : Rat := Float32.round (a * b)

/-- The `float` quotient `a / b` for a divisor that is not zero. -/
def Float32.div (a b : Rat) : Rat := Float32.round (a / b)

/-- The conversion `(float)n` of an `unsigned`. -/
def Float32.ofNat (n : Nat) : Rat := Float32.round (n : Rat)

/-! ## Light processing -/

/-- Largest number of splits of one light (Light.h). -/
def MAX_LIGHT_SPLITS : Nat := 6

/-- Number of faces of a cube map (GraphicsDefs.h). -/
def MAX_CUBEMAP_FACES : Nat := 6

/-- Smallest near clip distance used for shadow splits (MathDefs.h): the `float` constant
`0.01f`. -/
def M_MIN_NEARCLIP : Rat := Float32.round (1 / 100)

/-- The table `directions` at the top of View.cpp. -/
def directions : List (Int × Int × Int) :=
  [(1, 0, 0), (-1, 0, 0), (0, 1, 0), (0, -1, 0), (0, 0, 1), (0, 0, -1)]

/-- The assignment `splitLights_[i] = light`. -/
def View.setSplitLight (v : View) (i : Nat) (light : Light) : View :=
  { v with splitLights_ := Function.update v.splitLights_ i (some light) }

/-- The split distance computed twice in each iteration of the cascade loop of
`View::SplitLight`, for the near and for the far plane:
`log * cascade.lambda_ + uniform * (1.0f - cascade.lambda_)` with
`log = nearClip * powf(farClip / nearClip, iPerM)` and
`uniform = nearClip + (farClip - nearClip) * iPerM`, every operation rounded to `float`. -/
def View.SplitLight.splitDistance (powf : Rat → Rat → Rat) (cascade : CascadeParameters)
    (farClip nearClip iPerM : Rat) : Rat :=
  let log := Float32.mul nearClip (powf (Float32.div farClip nearClip) iPerM)
  let uniform := Float32.add nearClip (Float32.mul (Float32.sub farClip nearClip) iPerM)
  Float32.add (Float32.mul log cascade.lambda_)
    (Float32.mul uniform (Float32.sub 1 cascade.lambda_))

/-- The shadow-casting split light set up in iteration `i` of the cascade loop of
`View::SplitLight` from the freshly created copy `created`. -/
def View.SplitLight.cascadeSplit (camera : Camera) (created : Light) (splits i : Nat)
    (createExtraSplit : Bool) (nearSplit nearFadeRange farSplit farFadeRange : Rat) : Light :=
  { created with
    nearSplit := if i ≠ 0 then nearSplit else camera.nearClip,
    nearFadeRange := nearFadeRange,
    farSplit := farSplit,
    farFadeRange := if createExtraSplit || decide (i < splits - 1) then farFadeRange else 0 }

/-- The extra split light without shadows set up in the last iteration of the cascade loop
of `View::SplitLight` from the freshly created copy `created`. -/
def View.SplitLight.extraSplit (created : Light) (farSplit farFadeRange : Rat) : Light :=
  { created with nearSplit := farSplit, nearFadeRange := farFadeRange, castShadows := false }

/-- The `for` loop of the directional branch of `View::SplitLight` from index `i` on; the
first component of the result is the value of `i` when the loop ends or breaks. The
arithmetic is that of `float`: `0.001f` is `Float32.round (1 / 1000)`, and `iPerM` is the
quotient of two converted integers. -/
def View.SplitLight.loop (camera : Camera) (light : Light) (splits : Nat)
    (farClip nearClip : Rat) (createExtraSplit : Bool) (i : Nat) (v : View) (w : World) :
    Nat × View × World :=
  if i < splits then
    let cascade := light.shadowCascade
    let splitFadeRange := max cascade.splitFadeRange_ (Float32.round (1 / 1000))
    let nearSplit := View.SplitLight.splitDistance w.renderer.powf cascade farClip nearClip
      (Float32.div (Float32.ofNat i) (Float32.ofNat splits))
    let nearFadeRange := Float32.mul nearSplit splitFadeRange
    let farSplit := View.SplitLight.splitDistance w.renderer.powf cascade farClip nearClip
      (Float32.div (Float32.ofNat (i + 1)) (Float32.ofNat splits))
    let farFadeRange := Float32.mul farSplit splitFadeRange
    if Float32.sub nearSplit nearFadeRange > camera.farClip then (i, v, w)
    else
      let created := w.renderer.CreateSplitLight light
      let splitLight := View.SplitLight.cascadeSplit camera created.1 splits i createExtraSplit
        nearSplit nearFadeRange farSplit farFadeRange
      let v := v.setSplitLight i splitLight
      let w := { w with renderer := created.2 }
      if createExtraSplit && decide (i = splits - 1) then
        let created := w.renderer.CreateSplitLight light
        let extraLight := View.SplitLight.extraSplit created.1 farSplit farFadeRange
        View.SplitLight.loop camera light splits farClip nearClip createExtraSplit (i + 1)
          (v.setSplitLight (i + 1) extraLight) { w with renderer := created.2 }
      else
        View.SplitLight.loop camera light splits farClip nearClip createExtraSplit (i + 1) v w
  else (i, v, w)
termination_by splits - i

/-- The `for` loop of the point light branch of `View::SplitLight` over the cube faces
`faces`, given as (index, direction) pairs. -/
def View.SplitLight.pointLoop (light : Light) (faces : List (Nat × (Int × Int × Int)))
    (v : View) (w : World) : View × World :=
  faces.foldl
    (fun (st : View × World) face =>
      let created := st.2.renderer.CreateSplitLight light
      let splitLight : Light :=
        { created.1 with
          lightType := LightType.LIGHT_SPLITPOINT, direction := some face.2, fov := 90,
          aspectRatio := 1 }
      (st.1.setSplitLight face.1 splitLight, { st.2 with renderer := created.2 }))
    (v, w)

/-- Embeds `View::SplitLight(light)`; the first component is the returned split count. -/
def View.SplitLight (camera : Camera) (v : View) (w : World) (light : Light) :
    Nat × View × World :=
  let type := light.lightType
  if type = LightType.LIGHT_DIRECTIONAL then
    let cascade := light.shadowCascade
    let splits := if cascade.splits_ > MAX_LIGHT_SPLITS - 1 then MAX_LIGHT_SPLITS - 1
      else cascade.splits_
    let farClip := min cascade.shadowRange_ camera.farClip
    let nearClip := max camera.nearClip M_MIN_NEARCLIP
    let createExtraSplit := decide (farClip < camera.farClip)
    let res := View.SplitLight.loop camera light splits farClip nearClip createExtraSplit 0 v w
    if createExtraSplit then (res.1 + 1, res.2.1, res.2.2) else res
  else if type = LightType.LIGHT_POINT then
    let res := View.SplitLight.pointLoop light
      ((List.range MAX_CUBEMAP_FACES).zip directions) v w
    (MAX_CUBEMAP_FACES, res.1, res.2)
  else
    let created := w.renderer.CreateSplitLight light
    (1, v.setSplitLight 0 created.1, { w with renderer := created.2 })

/-- Embeds `View::IsShadowCasterVisible`; the two frustum tests are answered by the renderer
record. -/
def View.IsShadowCasterVisible (w : World) (frame : FrameInfo) (drawable : Drawable)
    (light : Light) (shadowCamera : Camera) : Bool :=
  if drawable.occluder then true
  else if shadowCamera.orthographic then w.renderer.orthoCasterVisible drawable light
  else if w.IsInView frame drawable then true
  else w.renderer.perspectiveCasterVisible drawable light

/-- State carried by the loop of `View::ProcessLightQuery`: the world, the two vectors
`litGeometries_[splitIndex]` and `shadowCasters_[splitIndex]`, and whether the geometry box
and the shadow caster box have been merged into. -/
structure LightQueryState where
  world : World
  litGeometries : List Drawable
  shadowCasters : List Drawable
  geometryBoxDefined : Bool
  shadowCasterBoxDefined : Bool

/-- The first block of the loop body of `View::ProcessLightQuery`: the drawable becomes a lit
geometry if lit geometries are wanted and it is in the main view this frame. -/
def View.ProcessLightQuery.addLit (mergeBoxes getLitGeometries inView : Bool)
    (st : LightQueryState) (drawable : Drawable) : LightQueryState :=
  if getLitGeometries && inView then
    { st with
      litGeometries := st.litGeometries ++ [drawable],
      geometryBoxDefined := st.geometryBoxDefined || mergeBoxes }
  else st

/-- The second block of the loop body of `View::ProcessLightQuery`: the drawable becomes a
shadow caster if shadow casters are wanted, it casts shadows, it is within its shadow
distance and its shadow is visible. -/
def View.ProcessLightQuery.addCaster (frame : FrameInfo) (light : Light)
    (mergeBoxes getShadowCasters inView : Bool) (st : LightQueryState) (drawable : Drawable) :
    LightQueryState :=
  if getShadowCasters && drawable.castShadows then
    if decide (drawable.shadowDistance > 0) &&
        decide (drawable.distance > drawable.shadowDistance) then st
    else
      match light.shadowCamera with
      | none => st
      | some shadowCamera =>
        if View.IsShadowCasterVisible st.world frame drawable light shadowCamera then
          { st with
            shadowCasterBoxDefined := st.shadowCasterBoxDefined || mergeBoxes,
            world := if !inView then st.world.MarkInShadowView frame drawable else st.world,
            shadowCasters := st.shadowCasters ++ [drawable] }
        else st
  else st

/-- The loop body of `View::ProcessLightQuery` for one drawable of the query result. -/
def View.ProcessLightQuery.step (frame : FrameInfo) (light : Light)
    (mergeBoxes getLitGeometries getShadowCasters : Bool) (st : LightQueryState)
    (drawable : Drawable) : LightQueryState :=
  if drawable.beyondDrawDistance then st
  else if drawable.lightMask &&& light.lightMask = 0 then st
  else
    let inView := st.world.IsInView frame drawable
    View.ProcessLightQuery.addCaster frame light mergeBoxes getShadowCasters inView
      (View.ProcessLightQuery.addLit mergeBoxes getLitGeometries inView st drawable) drawable

/-- Embeds `View::ProcessLightQuery(splitIndex, result, geometryBox, shadowCasterBox,
getLitGeometries, getShadowCasters)`. The two boxes are represented by their `defined_`
flags, passed in and returned. An unassigned `splitLights_[splitIndex]` leaves everything
unchanged. -/
def View.ProcessLightQuery (camera : Camera) (v : View) (w : World) (splitIndex : Nat)
    (result : List Drawable) (geometryBoxDefined shadowCasterBoxDefined : Bool)
    (getLitGeometries getShadowCasters : Bool) : View × World × Bool × Bool :=
  match v.splitLights_ splitIndex with
  | none => (v, w, geometryBoxDefined, shadowCasterBoxDefined)
  | some light =>
    let mergeBoxes : Bool :=
      match light.shadowCamera with
      | some _ => decide (light.lightType ≠ LightType.LIGHT_SPLITPOINT) && light.shadowFocus
      | none => false
    let getShadowCasters : Bool :=
      match light.shadowCamera with
      | some _ => if w.renderer.degenerateSplitFrustum camera light then false else getShadowCasters
      | none => false
    let st := result.foldl
      (View.ProcessLightQuery.step v.frame_ light mergeBoxes getLitGeometries getShadowCasters)
      { world := w, litGeometries := v.litGeometries_ splitIndex,
        shadowCasters := v.shadowCasters_ splitIndex,
        geometryBoxDefined := geometryBoxDefined,
        shadowCasterBoxDefined := shadowCasterBoxDefined }
    ({ v with
        litGeometries_ := Function.update v.litGeometries_ splitIndex st.litGeometries,
        shadowCasters_ := Function.update v.shadowCasters_ splitIndex st.shadowCasters },
     st.world, st.geometryBoxDefined, st.shadowCasterBoxDefined)

/-- The local `isShadowed` of `View::ProcessLight` after its two assignments. -/
def View.ProcessLight.isShadowed (v : View) (light : Light) : Bool :=
  let isShadowed := v.drawShadows_ && light.castShadows && decide (light.shadowIntensity < 1)
  if isShadowed && decide (light.shadowDistance > 0) &&
      decide (light.distance > light.shadowDistance) then false
  else isShadowed

/-- The default ramp and spot textures that `View::ProcessLight` gives to a light without
them. -/
def View.ProcessLight.setDefaultTextures (w : World) (light : Light) : Light :=
  let light :=
    if light.lightType ≠ LightType.LIGHT_DIRECTIONAL ∧ light.rampTexture = none then
      { light with rampTexture := w.renderer.defaultLightRamp }
    else light
  if light.lightType = LightType.LIGHT_SPOT ∧ light.shapeTexture = none then
    { light with shapeTexture := w.renderer.defaultLightSpot }
  else light

/-- State carried through the split loop of `View::ProcessLight`. -/
structure ProcessLightState where
  view : View
  world : World
  numLitGeometries : Nat
  numShadowCasters : Nat

/-- Smallest size in pixels to which a spot light shadow map is zoomed out (Renderer.h). -/
def SHADOW_MIN_PIXELS : Rat := 64

/-- Embeds `View::SetupShadowCamera(light, shadowOcclusion)` as a function of the shadow
camera: the zoom is reset to 1, and the rest of the function, which sets the transform, the
projection and the clip distances of the camera and never its zoom, is the geometric code
`setupShadowCamera`. -/
def View.SetupShadowCamera (camera : Camera) (r : Renderer) (light : Light)
    (shadowOcclusion : Bool) (shadowCamera : Camera) : Camera :=
  { r.setupShadowCamera camera light shadowOcclusion { shadowCamera with zoom := 1 } with
    zoom := 1 }

/-- Embeds `View::QuantizeDirShadowCamera(light, viewBox)` as a function of the shadow camera:
it sets the orthographic size and translates the camera node, and never sets the zoom. -/
def View.QuantizeDirShadowCamera (r : Renderer) (light : Light) (shadowCamera : Camera) :
    Camera :=
  { r.quantizeDirShadowCamera light shadowCamera with zoom := shadowCamera.zoom }

/-- The last statement of `View::FinalizeShadowCamera`: "For unzoomed spot and directional
lights, set a zoom factor now to ensure that we do not render to the shadow map border".
`shadowMap` is the shadow map of the light. -/
def View.FinalizeShadowCamera.safetyZoom (r : Renderer) (shadowMap : Nat)
    (shadowCamera : Camera) : Camera :=
  if shadowCamera.zoom ≥ 1 then
    { shadowCamera with
      zoom := shadowCamera.zoom *
        (((r.shadowMapWidth shadowMap - 2 : Int) : Rat) / ((r.shadowMapWidth shadowMap : Int) : Rat)) }
  else shadowCamera

/-- The `LIGHT_SPOT` case of `View::FinalizeShadowCamera`: the out-zooming of a far away spot
light and, if the camera was not out-zoomed, the focusing. -/
def View.FinalizeShadowCamera.spot (camera : Camera) (v : View) (r : Renderer) (light : Light)
    (shadowMap : Nat) (shadowCamera : Camera) : Camera :=
  let shadowCamera :=
    if light.shadowZoomOut then
      let distance := max (r.lightViewZ camera light - light.range) 1
      let lightPixels := ((v.height_ : Rat) * light.range * camera.zoom * (1 / 2)) / distance
      let lightPixels := if lightPixels < SHADOW_MIN_PIXELS then SHADOW_MIN_PIXELS else lightPixels
      { shadowCamera with
        zoom := min (lightPixels / ((r.shadowMapHeight shadowMap : Int) : Rat)) 1 }
    else shadowCamera
  if light.shadowFocus && decide (shadowCamera.zoom ≥ 1) then
    let viewSize := r.focusViewSize light shadowCamera
    if viewSize < 1 then { shadowCamera with zoom := 1 / viewSize } else shadowCamera
  else shadowCamera

/-- Embeds `View::FinalizeShadowCamera(light, geometryBox, shadowCasterBox)` as a function of
the shadow camera of the light, given whether the two boxes are defined. The function reads
the size of the shadow map of the light; for a light without a shadow map, which
`ProcessLight` never passes, the camera is returned as it is. A light of type `LIGHT_POINT`
has no case in the `switch` and goes on to the last statement. -/
def View.FinalizeShadowCamera (camera : Camera) (v : View) (r : Renderer) (light : Light)
    (geometryBoxDefined shadowCasterBoxDefined : Bool) (shadowCamera : Camera) : Camera :=
  if !geometryBoxDefined || !shadowCasterBoxDefined then shadowCamera
  else
    match light.shadowMap with
    | none => shadowCamera
    | some shadowMap =>
      match light.lightType with
      | LightType.LIGHT_DIRECTIONAL =>
        View.FinalizeShadowCamera.safetyZoom r shadowMap
          (if light.shadowFocus then View.QuantizeDirShadowCamera r light shadowCamera
           else shadowCamera)
      | LightType.LIGHT_SPOT =>
        View.FinalizeShadowCamera.safetyZoom r shadowMap
          (View.FinalizeShadowCamera.spot camera v r light shadowMap shadowCamera)
      | LightType.LIGHT_SPLITPOINT => shadowCamera
      | LightType.LIGHT_POINT => View.FinalizeShadowCamera.safetyZoom r shadowMap shadowCamera

/-- The first part of the split loop body of `View::ProcessLight`: choosing the shadow map
and the shadow camera of `split`. The result is the split afterwards, the local
`isSplitShadowed`, and the renderer. -/
def View.ProcessLight.chooseShadowMap (camera : Camera) (r : Renderer) (isShadowed : Bool)
    (split : Light) : Light × Bool × Renderer :=
  if isShadowed && split.castShadows then
    let cam := r.CreateShadowCamera
    let map := cam.2.GetShadowMap split.shadowResolution
    let split := { split with shadowMap := map.1 }
    if split.shadowMap.isSome then
      let split := { split with shadowCamera := some cam.1 }
      ({ split with
          shadowCamera := some (View.SetupShadowCamera camera map.2 split false cam.1) },
        true, map.2)
    else ({ split with shadowCamera := none }, false, map.2)
  else ({ split with shadowCamera := none, shadowMap := none }, false, r)

/-- The lit geometries of a directional split: the loop over `geometries_` in the
`LIGHT_DIRECTIONAL` case of `View::ProcessLight`. -/
def View.ProcessLight.directionalLit (v : View) (split : Light) (optimize : Bool)
    (nearSplit farSplit : Rat) : List Drawable :=
  if !optimize then
    ((v.geometries_.zip v.geometryDepthBounds_).filter
      (fun p => decide (p.2.min_ ≤ farSplit) && decide (p.2.max_ ≥ nearSplit) &&
        decide (p.1.lightMask &&& split.lightMask ≠ 0))).map Prod.fst
  else v.geometries_.filter (fun d => decide (d.lightMask &&& split.lightMask ≠ 0))

/-- The end of the split loop body of `View::ProcessLight`: a split without shadow casters
loses its shadow map, another one has its shadow camera finalized; then the counters are
updated. -/
def View.ProcessLight.finishSplit (camera : Camera) (v : View) (w : World) (i : Nat)
    (geometryBoxDefined shadowCasterBoxDefined : Bool) (st : ProcessLightState) :
    ProcessLightState :=
  let v :=
    match v.splitLights_ i with
    | none => v
    | some split =>
      if (v.shadowCasters_ i).length = 0 then v.setSplitLight i { split with shadowMap := none }
      else
        v.setSplitLight i
          { split with
            shadowCamera := split.shadowCamera.map
              (View.FinalizeShadowCamera camera v w.renderer split geometryBoxDefined
                shadowCasterBoxDefined) }
  { view := v, world := w,
    numLitGeometries := st.numLitGeometries + (v.litGeometries_ i).length,
    numShadowCasters := st.numShadowCasters + (v.shadowCasters_ i).length }

/-- The body of the split loop of `View::ProcessLight` for split `i`. An unassigned
`splitLights_[i]` is skipped. -/
def View.ProcessLight.splitStep (camera : Camera) (octree : Octree)
    (isShadowed useOcclusion : Bool) (st : ProcessLightState) (i : Nat) : ProcessLightState :=
  match st.view.splitLights_ i with
  | none => st
  | some split0 =>
    let type := split0.lightType
    let chosen := View.ProcessLight.chooseShadowMap camera st.world.renderer isShadowed split0
    let split := chosen.1
    let isSplitShadowed := chosen.2.1
    let w : World := { st.world with renderer := chosen.2.2 }
    let v := st.view.setSplitLight i split
    match type with
    | LightType.LIGHT_DIRECTIONAL =>
      let nearSplit := split.nearSplit - split.nearFadeRange
      let farSplit := split.farSplit
      let optimize := decide (nearSplit ≤ camera.nearClip) && decide (farSplit ≥ camera.farClip)
      if v.sceneViewBox_.minZ > farSplit ∨ v.sceneViewBox_.maxZ < nearSplit then
        { st with view := v.setSplitLight i { split with shadowMap := none }, world := w }
      else
        let generateBoxes := isSplitShadowed && split.shadowFocus
        let lit := View.ProcessLight.directionalLit v split optimize nearSplit farSplit
        let v := { v with
          litGeometries_ := Function.update v.litGeometries_ i (v.litGeometries_ i ++ lit) }
        let geometryBoxDefined := generateBoxes && decide (lit.length ≠ 0)
        if isSplitShadowed && decide ((v.litGeometries_ i).length ≠ 0) then
          let tempDrawables := octree.shadowCasterQuery split useOcclusion
          let v := { v with tempDrawables_ := tempDrawables }
          let res := View.ProcessLightQuery camera v w i tempDrawables geometryBoxDefined false
            false isSplitShadowed
          View.ProcessLight.finishSplit camera res.1 res.2.1 i res.2.2.1 res.2.2.2 st
        else View.ProcessLight.finishSplit camera v w i geometryBoxDefined false st
    | LightType.LIGHT_POINT =>
      let tempDrawables := octree.sphereQuery split
      let v := { v with tempDrawables_ := tempDrawables }
      let res := View.ProcessLightQuery camera v w i tempDrawables false false true false
      View.ProcessLight.finishSplit camera res.1 res.2.1 i res.2.2.1 res.2.2.2 st
    | _ =>
      let tempDrawables := octree.lightFrustumQuery split
      let v := { v with tempDrawables_ := tempDrawables }
      let res := View.ProcessLightQuery camera v w i tempDrawables false false true
        isSplitShadowed
      View.ProcessLight.finishSplit camera res.1 res.2.1 i res.2.2.1 res.2.2.2 st

/-- The drawables of a list without repetition of an address, in the order of first
occurrence: the contents of the `HashSet<Drawable*>` built from the list (the iteration
order of the hash set itself is not specified). -/
def dedupDrawables : List Drawable → List Drawable
  | [] => []
  | d :: rest => d :: dedupDrawables (rest.filter (fun x => decide (x.id ≠ d.id)))
termination_by l => l.length
decreasing_by
  simp_wf
  exact Nat.lt_succ_of_le (List.length_filter_le _ _)

/-- The occluder part of `View::ProcessLight` for a shadowed directional light when occlusion
is in use: the light gets a shadow camera of its own and the shadow occluders are queried
and updated. The result is the light, the view, the world and the local `useOcclusion`. -/
def View.ProcessLight.shadowOcclusion (camera : Camera) (octree : Octree) (v : View)
    (w : World) (light : Light) (isShadowed : Bool) : Light × View × World × Bool :=
  if v.maxOccluderTriangles_ > 0 ∧ isShadowed = true ∧
      light.lightType = LightType.LIGHT_DIRECTIONAL then
    let cam := w.renderer.CreateShadowCamera
    let light := { light with shadowCamera := some cam.1 }
    let shadowCamera := View.SetupShadowCamera camera cam.2 light true cam.1
    let light := { light with shadowCamera := some shadowCamera }
    let w : World := { w with renderer := cam.2 }
    let shadowOccluders := View.UpdateOccluders w shadowCamera (octree.shadowOccluderQuery shadowCamera)
    (light, { v with shadowOccluders_ := shadowOccluders }, w, decide (shadowOccluders.length ≠ 0))
  else (light, v, w, false)

/-- What `View::ProcessLight` has computed when it enters its split loop: the locals
`numSplits`, `isShadowed` and `useOcclusion`, the light, and the state with the lists of the
first `numSplits` splits cleared and both counters 0. -/
structure ProcessLightSetup where
  numSplits : Nat
  isShadowed : Bool
  useOcclusion : Bool
  light : Light
  state : ProcessLightState

/-- The part of `View::ProcessLight(light)` before the split loop. When the light is not
shadowed it is its own split `splitLights_[0]`. -/
def View.ProcessLight.setup (camera : Camera) (octree : Octree) (v : View) (w : World)
    (light : Light) : ProcessLightSetup :=
  let isShadowed := View.ProcessLight.isShadowed v light
  let light := View.ProcessLight.setDefaultTextures w light
  let splitRes : Nat × View × World :=
    if isShadowed then View.SplitLight camera v w light
    else (1, v.setSplitLight 0 light, w)
  let numSplits := splitRes.1
  let occ := View.ProcessLight.shadowOcclusion camera octree splitRes.2.1 splitRes.2.2 light
    isShadowed
  let v := occ.2.1
  let v := { v with
    litGeometries_ := fun i => if i < numSplits then [] else v.litGeometries_ i,
    shadowCasters_ := fun i => if i < numSplits then [] else v.shadowCasters_ i }
  { numSplits := numSplits, isShadowed := isShadowed, useOcclusion := occ.2.2.2, light := occ.1,
    state := { view := v, world := occ.2.2.1, numLitGeometries := 0, numShadowCasters := 0 } }

/-- The state of `View::ProcessLight(light)` after the first `k` iterations of its split
loop. -/
def View.ProcessLight.splitLoop (camera : Camera) (octree : Octree) (v : View) (w : World)
    (light : Light) (k : Nat) : ProcessLightState :=
  (List.range k).foldl
    (View.ProcessLight.splitStep camera octree
      (View.ProcessLight.setup camera octree v w light).isShadowed
      (View.ProcessLight.setup camera octree v w light).useOcclusion)
    (View.ProcessLight.setup camera octree v w light).state

/-- The part of `View::ProcessLight` after the split loop, from the state `st` the loop has
left. When the light is not shadowed it is `splitLights_[0]`, so what the split loop has done
to that split has been done to the light. -/
def View.ProcessLight.finish (s : ProcessLightSetup) (st : ProcessLightState) :
    Nat × View × World :=
  let light : Light :=
    if s.isShadowed then s.light
    else
      match st.view.splitLights_ 0 with
      | some l => l
      | none => s.light
  if st.numLitGeometries = 0 then (0, st.view, st.world)
  else if st.numShadowCasters = 0 then
    let v := st.view
    let v :=
      if s.numSplits > 1 then
        { v with
          litGeometries_ := Function.update v.litGeometries_ 0
            (dedupDrawables ((List.range s.numSplits).flatMap (fun i => v.litGeometries_ i))) }
      else v
    (1, v.setSplitLight 0 { light with shadowMap := none }, st.world)
  else (s.numSplits, st.view, st.world)

/-- Embeds `View::ProcessLight(light)` for a view whose camera and octree are `camera` and
`octree`. The first component is the returned number of splits. -/
def View.ProcessLight (camera : Camera) (octree : Octree) (v : View) (w : World)
    (light : Light) : Nat × View × World :=
  View.ProcessLight.finish (View.ProcessLight.setup camera octree v w light)
    (View.ProcessLight.splitLoop camera octree v w light
      (View.ProcessLight.setup camera octree v w light).numSplits)

/-! ## Batch collection -/

/-- State carried through `View::GetBatches`: the view, the world, and the locals
`litTransparencies` (triples of light address, drawable address and batch index),
`maxLightsDrawables`, `lightQueueIndex` (pairs of split light address and queue index) and
`lightQueueCount`. -/
structure GetBatchesState where
  view : View
  world : World
  litTransparencies : List (Nat × Nat × Nat)
  maxLightsDrawables : List Drawable
  lightQueueIndex : List (Nat × Nat)
  lightQueueCount : Nat

/-- Embeds `Vector::Resize` on `lightQueues_`. -/
def resizeLightQueues (l : List LightBatchQueue) (n : Nat) : List LightBatchQueue :=
  l.take n ++ List.replicate (n - l.length) LightBatchQueue.empty

/-- An update of the light queue at `index`, when there is one. -/
def View.modifyLightQueue (v : View) (index : Nat) (f : LightBatchQueue → LightBatchQueue) :
    View :=
  { v with lightQueues_ := v.lightQueues_.modify f index }

/-- The innermost loop body of the shadow caster loop of `View::GetBatches`: batch `l` of
`drawable` for the split `splitLight`, whose light queue has index `queueIndex`. -/
def View.GetBatches.shadowBatchStep (g : Graphics) (splitLight : Light) (queueIndex : Nat)
    (drawable : Drawable) (st : GetBatchesState) (l : Nat) : GetBatchesState :=
  let shadowBatch := drawable.GetBatch l
  let res := View.GetTechnique g st.world.renderer st.view drawable shadowBatch.material_
  let shadowBatch := { shadowBatch with material_ := res.2 }
  match shadowBatch.geometry_, res.1 with
  | none, _ => st
  | _, none => st
  | some _, some tech =>
    match tech.GetPass PassType.PASS_SHADOW with
    | none => st
    | some pass =>
      let shadowBatch :=
        { shadowBatch with
          camera_ := splitLight.shadowCamera.map (fun c => c.id),
          distance_ :=
            match splitLight.shadowCamera with
            | some c => st.world.renderer.cameraDistance c drawable
            | none => 0,
          light_ := some splitLight.id,
          hasPriority_ := !pass.alphaTest && !pass.alphaMask }
      let shadowBatch := Renderer.SetBatchShaders shadowBatch tech pass true
      { st with
        view := st.view.modifyLightQueue queueIndex
          (fun q => { q with shadowBatches_ := q.shadowBatches_.AddBatch shadowBatch false }) }

/-- The lit base pass that `View::GetLitBatches` selects for batch `i` of `drawable`: for a
directional split of the first light of `lights_`, when the batch has no base pass yet, the
`PASS_LITBASE` pass of the technique; otherwise null. `light` is the address of the original
light. -/
def View.GetLitBatches.litBasePass (v : View) (w : World) (drawable : Drawable) (light : Nat)
    (splitLight : Light) (tech : Technique) (i : Nat) : Option Pass :=
  let firstLight : Bool :=
    match v.lights_ with
    | first :: _ => decide (light = first.id)
    | [] => false
  if firstLight && decide (splitLight.lightType = LightType.LIGHT_DIRECTIONAL) &&
      !w.HasBasePass drawable i then tech.GetPass PassType.PASS_LITBASE
  else none

/-- The end of the loop body of `View::GetLitBatches`, from the test of the ambient pass on:
the filled lit batch `litBatch` with technique `tech` and pass `pass` is added to a queue.
`w` is the world after the lit base pass selection. -/
def View.GetLitBatches.addBatch (drawable : Drawable) (light : Nat) (splitLight : Light)
    (lightQueue : Option Nat) (st : GetBatchesState) (w : World) (i : Nat) (litBatch : Batch)
    (tech : Technique) (pass : Pass) : GetBatchesState :=
  let v := st.view
  let splitPointLight := decide (splitLight.lightType = LightType.LIGHT_SPLITPOINT)
  let allowShadows := !st.world.renderer.reuseShadowMaps && !splitPointLight
  let replaceBlend : Bool :=
    match tech.GetPass PassType.PASS_BASE with
    | none => true
    | some ambientPass => decide (ambientPass.blendMode = BlendMode.BLEND_REPLACE)
  if replaceBlend then
    if v.mode_ = RenderMode.RENDER_FORWARD then
      match lightQueue with
      | some index =>
        let litBatch := Renderer.SetBatchShaders litBatch tech pass true
        { st with
          world := w,
          view := v.modifyLightQueue index
            (fun q => { q with litBatches_ := q.litBatches_.AddBatch litBatch false }) }
      | none => { st with world := w }
    else
      let litBatch := Renderer.SetBatchShaders litBatch tech pass allowShadows
      { st with
        world := w,
        view := { v with baseQueue_ := v.baseQueue_.AddBatch litBatch false } }
  else
    let check := (light, drawable.id, i)
    let fresh := splitPointLight && !decide (check ∈ st.litTransparencies)
    let litBatch := if fresh then { litBatch with light_ := some light } else litBatch
    let litTransparencies :=
      if fresh then check :: st.litTransparencies else st.litTransparencies
    let litBatch := Renderer.SetBatchShaders litBatch tech pass allowShadows
    { st with
      world := w,
      litTransparencies := litTransparencies,
      view := { v with transparentQueue_ := v.transparentQueue_.AddBatch litBatch true } }

/-- The loop body of `View::GetLitBatches` for batch `i` of `drawable`. `light` is the
address of the original light, `lightQueue` the index of the light queue the pointer
argument refers to, if it is not null. -/
def View.GetLitBatches.step (g : Graphics) (camera : Camera) (drawable : Drawable)
    (light : Nat) (splitLight : Light) (lightQueue : Option Nat) (st : GetBatchesState)
    (i : Nat) : GetBatchesState :=
  let v := st.view
  let litBatch := drawable.GetBatch i
  let res := View.GetTechnique g st.world.renderer v drawable litBatch.material_
  let litBatch := { litBatch with material_ := res.2 }
  match litBatch.geometry_, res.1 with
  | none, _ => st
  | _, none => st
  | some _, some tech =>
    if v.mode_ ≠ RenderMode.RENDER_FORWARD ∧ tech.HasPass PassType.PASS_GBUFFER = true then st
    else
      let litBase := View.GetLitBatches.litBasePass v st.world drawable light splitLight tech i
      let priority := litBase.isSome
      let w := if litBase.isSome then st.world.SetBasePass drawable i else st.world
      let pass : Option Pass :=
        match litBase with
        | some p => some p
        | none => tech.GetPass PassType.PASS_LIGHT
      match pass with
      | none => { st with world := w }
      | some pass =>
        View.GetLitBatches.addBatch drawable light splitLight lightQueue st w i
          { litBatch with
            camera_ := some camera.id, distance_ := drawable.distance,
            light_ := some splitLight.id, hasPriority_ := priority }
          tech pass

/-- Embeds `View::GetLitBatches(drawable, light, splitLight, lightQueue, litTransparencies)`. -/
def View.GetLitBatches (g : Graphics) (camera : Camera) (drawable : Drawable) (light : Nat)
    (splitLight : Light) (lightQueue : Option Nat) (st : GetBatchesState) : GetBatchesState :=
  (List.range drawable.GetNumBatches).foldl
    (View.GetLitBatches.step g camera drawable light splitLight lightQueue) st

/-- The light volume batch that `View::GetBatches` builds for a split in the non-forward
modes. -/
def View.GetBatches.volumeBatch (camera : Camera) (w : World) (splitLight : Light) : Batch :=
  Renderer.SetLightVolumeShaders
    { Batch.empty with
      geometry_ := w.renderer.lightGeometry splitLight,
      worldTransform_ := some splitLight.id,
      overrideView_ := decide (splitLight.lightType = LightType.LIGHT_DIRECTIONAL),
      camera_ := some camera.id,
      light_ := some splitLight.id,
      distance_ := splitLight.distance }

/-- The loop body of the lit geometry loop of `View::GetBatches` for one drawable. -/
def View.GetBatches.litGeometryStep (g : Graphics) (camera : Camera) (light : Light)
    (splitLight : Light) (st : GetBatchesState) (drawable : Drawable) : GetBatchesState :=
  if drawable.maxLights = 0 then
    View.GetLitBatches g camera drawable light.id splitLight (some st.lightQueueCount) st
  else
    { st with
      world := st.world.AddLight drawable splitLight,
      maxLightsDrawables :=
        if st.maxLightsDrawables.any (fun d => decide (d.id = drawable.id)) then
          st.maxLightsDrawables
        else st.maxLightsDrawables ++ [drawable] }

/-- The start of the split loop body of `View::GetBatches`: the light queue at index
`lightQueueCount` is set up for `splitLight`. -/
def View.GetBatches.resetLightQueue (splitLight : Light) (firstSplitStored : Bool)
    (st : GetBatchesState) : GetBatchesState :=
  { st with
    view := st.view.modifyLightQueue st.lightQueueCount
      (fun _ =>
        { light_ := some splitLight, shadowBatches_ := BatchQueue.Clear,
          litBatches_ := BatchQueue.Clear, volumeBatches_ := [],
          firstSplit_ := !firstSplitStored }) }

/-- The shadow caster loop of `View::GetBatches` for one split: the shadow batches of the
drawables `casters` go to the light queue at index `lightQueueCount`. -/
def View.GetBatches.shadowBatches (g : Graphics) (splitLight : Light)
    (casters : List Drawable) (st : GetBatchesState) : GetBatchesState :=
  casters.foldl
    (fun (st : GetBatchesState) (drawable : Drawable) =>
      (List.range drawable.GetNumBatches).foldl
        (View.GetBatches.shadowBatchStep g splitLight st.lightQueueCount drawable) st)
    st

/-- The end of the split loop body of `View::GetBatches` for a split with lit geometries:
"Store the light queue, and light volume batch in deferred mode". The second component is
the local `firstSplitStored` afterwards. -/
def View.GetBatches.storeLightQueue (camera : Camera) (splitLight : Light)
    (firstSplitStored : Bool) (st : GetBatchesState) : GetBatchesState × Bool :=
  if st.view.mode_ ≠ RenderMode.RENDER_FORWARD then
    let volumeBatch := View.GetBatches.volumeBatch camera st.world splitLight
    if splitLight.shadowMap.isSome ∨ splitLight.lightType = LightType.LIGHT_SPLITPOINT then
      ({ st with
          view := st.view.modifyLightQueue st.lightQueueCount
            (fun q => { q with volumeBatches_ := q.volumeBatches_ ++ [volumeBatch] }),
          lightQueueIndex := (splitLight.id, st.lightQueueCount) :: st.lightQueueIndex,
          lightQueueCount := st.lightQueueCount + 1 },
        true)
    else
      ({ st with
          view := { st.view with
            noShadowLightQueue_ := st.view.noShadowLightQueue_.AddBatch volumeBatch true } },
        firstSplitStored)
  else
    ({ st with
        lightQueueIndex := (splitLight.id, st.lightQueueCount) :: st.lightQueueIndex,
        lightQueueCount := st.lightQueueCount + 1 },
      true)

/-- The body of the split loop of `View::GetBatches` for split `j` of `light`. The second
component of the state is the local `firstSplitStored`. An unassigned `splitLights_[j]` is
skipped. -/
def View.GetBatches.splitStep (g : Graphics) (camera : Camera) (light : Light)
    (acc : GetBatchesState × Bool) (j : Nat) : GetBatchesState × Bool :=
  let st := acc.1
  let firstSplitStored := acc.2
  match st.view.splitLights_ j with
  | none => acc
  | some splitLight =>
    let st := View.GetBatches.resetLightQueue splitLight firstSplitStored st
    let st := View.GetBatches.shadowBatches g splitLight (st.view.shadowCasters_ j) st
    if (st.view.litGeometries_ j).length ≠ 0 then
      let st : GetBatchesState := (st.view.litGeometries_ j).foldl
        (View.GetBatches.litGeometryStep g camera light splitLight) st
      View.GetBatches.storeLightQueue camera splitLight firstSplitStored st
    else (st, firstSplitStored)

/-- The resize of `lightQueues_` before the split loop of `View::GetBatches`: "Prepare lit
object + shadow caster queues for each split". -/
def View.GetBatches.prepareLightQueues (st : GetBatchesState) (splits : Nat) :
    GetBatchesState :=
  if st.view.lightQueues_.length < st.lightQueueCount + splits then
    { st with
      view := { st.view with
        lightQueues_ := resizeLightQueues st.view.lightQueues_ (st.lightQueueCount + splits) } }
  else st

/-- The body of the light loop of `View::GetBatches` for one light of `lights_`. -/
def View.GetBatches.lightStep (g : Graphics) (camera : Camera) (octree : Octree)
    (st : GetBatchesState) (light : Light) : GetBatchesState :=
  let res := View.ProcessLight camera octree st.view st.world light
  let splits := res.1
  let st := { st with view := res.2.1, world := res.2.2 }
  if splits = 0 then st
  else
    ((List.range splits).foldl (View.GetBatches.splitStep g camera light)
      (View.GetBatches.prepareLightQueues st splits, false)).1

/-- The inner loop body of the second pass of `View::GetBatches` over drawables with a
limit on their lights: one light `splitLight` of `drawable`. -/
def View.GetBatches.maxLightsStep (g : Graphics) (camera : Camera) (drawable : Drawable)
    (st : GetBatchesState) (splitLight : Light) : GetBatchesState :=
  let light : Nat :=
    match splitLight.originalLight with
    | some original => original
    | none => splitLight.id
  let queue : Option Nat := (st.lightQueueIndex.find? (fun p => decide (p.1 = splitLight.id))).map
    (fun p => p.2)
  View.GetLitBatches g camera drawable light splitLight queue st

/-- The loop body of the base pass loop of `View::GetBatches` for batch `j` of `drawable`.
Checking the material for auxiliary views does not touch the view and is left out. -/
def View.GetBatches.baseStep (g : Graphics) (camera : Camera) (drawable : Drawable)
    (st : GetBatchesState) (j : Nat) : GetBatchesState :=
  let v := st.view
  let baseBatch := drawable.GetBatch j
  let res := View.GetTechnique g st.world.renderer v drawable baseBatch.material_
  let baseBatch := { baseBatch with material_ := res.2 }
  match baseBatch.geometry_, res.1 with
  | none, _ => st
  | _, none => st
  | some _, some tech =>
    if st.world.HasBasePass drawable j then st
    else
      let baseBatch := { baseBatch with camera_ := some camera.id, distance_ := drawable.distance }
      let gbufferPass : Option Pass :=
        if v.mode_ ≠ RenderMode.RENDER_FORWARD then tech.GetPass PassType.PASS_GBUFFER else none
      match gbufferPass with
      | some pass =>
        let baseBatch := Renderer.SetBatchShaders baseBatch tech pass true
        let baseBatch := { baseBatch with hasPriority_ := !pass.alphaTest && !pass.alphaMask }
        let v := { v with gBufferQueue_ := v.gBufferQueue_.AddBatch baseBatch false }
        match tech.GetPass PassType.PASS_EXTRA with
        | some extra =>
          let baseBatch := Renderer.SetBatchShaders baseBatch tech extra true
          { st with view := { v with baseQueue_ := v.baseQueue_.AddBatch baseBatch false } }
        | none => { st with view := v }
      | none =>
        match tech.GetPass PassType.PASS_BASE with
        | some pass =>
          let baseBatch := Renderer.SetBatchShaders baseBatch tech pass true
          if pass.blendMode = BlendMode.BLEND_REPLACE then
            let baseBatch := { baseBatch with hasPriority_ := !pass.alphaTest && !pass.alphaMask }
            { st with view := { v with baseQueue_ := v.baseQueue_.AddBatch baseBatch false } }
          else
            let baseBatch := { baseBatch with hasPriority_ := true }
            { st with
              view := { v with transparentQueue_ := v.transparentQueue_.AddBatch baseBatch true } }
        | none =>
          match tech.GetPass PassType.PASS_EXTRA with
          | some pass =>
            let baseBatch := { baseBatch with hasPriority_ := false }
            let baseBatch := Renderer.SetBatchShaders baseBatch tech pass true
            { st with view := { v with extraQueue_ := v.extraQueue_.AddBatch baseBatch false } }
          | none => st

/-- Embeds `View::SortBatches()`. -/
def View.SortBatches (v : View) : View :=
  let v :=
    if v.mode_ ≠ RenderMode.RENDER_FORWARD then
      { v with
        gBufferQueue_ := v.gBufferQueue_.SortFrontToBack,
        noShadowLightQueue_ := v.noShadowLightQueue_.SortFrontToBack }
    else v
  { v with
    baseQueue_ := v.baseQueue_.SortFrontToBack,
    extraQueue_ := v.extraQueue_.SortFrontToBack,
    transparentQueue_ := v.transparentQueue_.SortBackToFront,
    lightQueues_ := v.lightQueues_.map
      (fun q => { q with
        shadowBatches_ := q.shadowBatches_.SortFrontToBack,
        litBatches_ := q.litBatches_.SortFrontToBack }) }

/-- The first part of `View::GetBatches()`: the loop over the lights and the final resize of
`lightQueues_`. -/
def View.GetBatches.lights (g : Graphics) (camera : Camera) (octree : Octree) (v : View)
    (w : World) : GetBatchesState :=
  let st := v.lights_.foldl (View.GetBatches.lightStep g camera octree)
    { view := v, world := w, litTransparencies := [], maxLightsDrawables := [],
      lightQueueIndex := [], lightQueueCount := 0 }
  { st with
    view := { st.view with lightQueues_ := resizeLightQueues st.view.lightQueues_ st.lightQueueCount } }

/-- The second part of `View::GetBatches()`: the drawables that limit their lights. -/
def View.GetBatches.maxLights (g : Graphics) (camera : Camera) (st : GetBatchesState) :
    GetBatchesState :=
  st.maxLightsDrawables.foldl
    (fun (st : GetBatchesState) (drawable : Drawable) =>
      let st : GetBatchesState := { st with world := st.world.LimitLights drawable }
      (st.world.lights drawable.id).foldl (View.GetBatches.maxLightsStep g camera drawable) st)
    st

/-- The third part of `View::GetBatches()`: the base pass batches of the visible
geometries. -/
def View.GetBatches.base (g : Graphics) (camera : Camera) (st : GetBatchesState) :
    GetBatchesState :=
  st.view.geometries_.foldl
    (fun (st : GetBatchesState) (drawable : Drawable) =>
      (List.range drawable.GetNumBatches).foldl (View.GetBatches.baseStep g camera drawable) st)
    st

/-- Embeds `View::GetBatches()` for a view whose camera and octree are `camera` and
`octree`. -/
def View.GetBatches (g : Graphics) (camera : Camera) (octree : Octree) (v : View) (w : World) :
    View × World :=
  let st := View.GetBatches.lights g camera octree v w
  let st := View.GetBatches.maxLights g camera st
  let st := View.GetBatches.base g camera st
  (View.SortBatches st.view, st.world)

/-! ## Update and render -/

/-- The clearing of the per-frame containers at the start of `View::Update`. -/
def View.clearFrame (v : View) : View :=
  { v with
    lightScissorCache_ := [], geometries_ := [], geometryDepthBounds_ := [], lights_ := [],
    occluders_ := [], shadowOccluders_ := [], gBufferQueue_ := BatchQueue.Clear,
    baseQueue_ := BatchQueue.Clear, extraQueue_ := BatchQueue.Clear,
    transparentQueue_ := BatchQueue.Clear, noShadowLightQueue_ := BatchQueue.Clear,
    lightQueues_ := [] }

/-- The part of `View::Update(frame)` after the test of the camera and octree pointers,
for a view whose camera and octree are `camera` and `octree`. -/
def View.Update.body (g : Graphics) (camera : Camera) (octree : Octree) (v : View) (w : World)
    (frame : FrameInfo) : View × World :=
  let v := { v with
    frame_ :=
      { camera_ := some camera.id, timeStep_ := frame.timeStep_,
        frameNumber_ := frame.frameNumber_, viewSize_ := (v.width_, v.height_) } }
  let v := v.clearFrame
  if !camera.projectionValid then (v, w)
  else
    let camera :=
      if camera.autoAspectRatio then
        { camera with aspectRatio := (v.frame_.viewSize_.1 : Rat) / (v.frame_.viewSize_.2 : Rat) }
      else camera
    let camera := { camera with projectionOffset := (0, 0) }
    let v := { v with camera_ := some camera }
    let w := { w with renderer := w.renderer.ResetShadowMapUseCount }
    let res := View.GetDrawables camera octree v w
    View.GetBatches g camera octree res.1 res.2

/-- Embeds `View::Update(frame)`. -/
def View.Update (g : Graphics) (v : View) (w : World) (frame : FrameInfo) : View × World :=
  match v.camera_ with
  | none => (v, w)
  | some camera =>
    match v.octree_ with
    | none => (v, w)
    | some octree => View.Update.body g camera octree v w frame

/-- What `View::Render()` does to the members of the view: nothing when the octree or the
camera is null, otherwise the camera, the octree and the zone are forgotten at the end. The
draw calls issued in between do not change the members embedded here. -/
def View.Render (v : View) : View :=
  match v.octree_ with
  | none => v
  | some _ =>
    match v.camera_ with
    | none => v
    | some _ =>
      { v with camera_ := none, octree_ := none, zone_ := none,
               frame_ := { v.frame_ with camera_ := none } }

/-- One draw issued by `View::RenderBatchQueue`: an instanced group or a single batch. -/
inductive DrawCall where
  | group (instances : List Batch)
  | single (batch : Batch)
  deriving DecidableEq

/-- Embeds `View::RenderBatchQueue(queue, useScissor)`: the sequence of `Draw` calls it
issues, in order. The scissor and stencil state changes in between are left out. -/
def View.RenderBatchQueue (queue : BatchQueue) : List DrawCall :=
  queue.priorityBatchGroups_.map DrawCall.group ++
    queue.sortedPriorityBatches_.map DrawCall.single ++
    queue.batchGroups_.map DrawCall.group ++
    queue.sortedBatches_.map DrawCall.single

/-! ## Animation controller (Engine/Graphics/AnimationController.cpp) -/

/-- Largest value of an `unsigned` (MathDefs.h), the "not found" index of `FindAnimation`. -/
def M_MAX_UNSIGNED : Nat := 4294967295

/-- Smallest fade time that `Fade` stores (MathDefs.h). -/
def M_EPSILON : Rat := 1 / 1000000

/-- Modelled from the spec: `Clamp` of MathDefs.h on floats, which is not among the embedded
sources: the value limited to the interval from `lo` to `hi`. -/
def ClampFloat (value lo hi : Rat) : Rat :=
  if value < lo then lo else if value > hi then hi else value

/-- One element of `animations_` (`AnimationControl`). `hash_` is the name hash of the
animation. -/
structure AnimationControl where
  hash_ : Nat
  speed_ : Rat
  targetWeight_ : Rat
  fadeTime_ : Rat
  autoFadeTime_ : Rat
  deriving DecidableEq

/-- What an `AnimationController` reads and writes in the embedded functions: the sibling
`AnimatedModel` component, if there is one, through `GetAnimationState(nameHash)`, which
answers with the name hash of the animation of the state it finds
(`state->GetAnimation()->GetNameHash()`) or with null; and the vector `animations_`. An
animation name is represented by its `StringHash`. -/
structure AnimationController where
  model : Option (Nat → Option Nat)
  animations_ : List AnimationControl

/-- The search loop of `AnimationController::FindAnimation` over the controls from index `i`
on: the index of the first control with hash `nameHash`, or `M_MAX_UNSIGNED`. -/
def AnimationController.FindAnimation.loop (nameHash : Nat) :
    List AnimationControl → Nat → Nat
  | [], _ => M_MAX_UNSIGNED
  | a :: rest, i =>
    if a.hash_ = nameHash then i
    else AnimationController.FindAnimation.loop nameHash rest (i + 1)

/-- Embeds `AnimationController::FindAnimation(name, index, state)`: the pair of `index` and
`state`, the state represented by the name hash of its animation. -/
def AnimationController.FindAnimation (c : AnimationController) (name : Nat) :
    Nat × Option Nat :=
  let state : Option Nat :=
    match c.model with
    | some model => model name
    | none => none
  let nameHash : Nat :=
    match state with
    | some hash => hash
    | none => name
  (AnimationController.FindAnimation.loop nameHash c.animations_ 0, state)

/-- Embeds `AnimationController::Fade(name, targetWeight, fadeTime)`: the returned flag and
the controller afterwards. -/
def AnimationController.Fade (c : AnimationController) (name : Nat) (targetWeight fadeTime : Rat) :
    Bool × AnimationController :=
  let index := (c.FindAnimation name).1
  if index = M_MAX_UNSIGNED then (false, c)
  else
    (true,
      { c with
        animations_ := c.animations_.modify
          (fun a =>
            { a with
              targetWeight_ := ClampFloat targetWeight 0 1,
              fadeTime_ := max fadeTime M_EPSILON })
          index })

/-- Embeds `AnimationController::IsPlaying(name)`. -/
def AnimationController.IsPlaying (c : AnimationController) (name : Nat) : Bool :=
  decide ((c.FindAnimation name).1 ≠ M_MAX_UNSIGNED)

/-- Embeds `AnimationController::GetFadeTarget(name)`. -/
def AnimationController.GetFadeTarget (c : AnimationController) (name : Nat) : Rat :=
  let index := (c.FindAnimation name).1
  if index = M_MAX_UNSIGNED then 0
  else
    match c.animations_[index]? with
    | some a => a.targetWeight_
    | none => 0

/-- Embeds `AnimationController::GetFadeTime(name)`, which returns
`animations_[index].targetWeight_`. -/
def AnimationController.GetFadeTime (c : AnimationController) (name : Nat) : Rat :=
  let index := (c.FindAnimation name).1
  if index = M_MAX_UNSIGNED then 0
  else
    match c.animations_[index]? with
    | some a => a.targetWeight_
    | none => 0

/-! ## Concrete values used to evaluate the embedding -/

/-- Embeds the constructor `View::View`: null octree, camera, zone, render target and depth
stencil, a null frame camera, empty containers. -/
def View.init : View :=
  { octree_ := none, camera_ := none, zone_ := none, renderTarget_ := none,
    depthStencil_ := none, mode_ := RenderMode.RENDER_FORWARD, screenRect_ := IntRect.ZERO,
    width_ := 0, height_ := 0, drawShadows_ := false, materialQuality_ := 0,
    maxOccluderTriangles_ := 0, gBufferErrorDisplayed_ := [],
    frame_ := { camera_ := none, timeStep_ := 0, frameNumber_ := 0, viewSize_ := (0, 0) },
    lightScissorCache_ := [], geometries_ := [], geometryDepthBounds_ := [], lights_ := [],
    occluders_ := [], shadowOccluders_ := [], gBufferQueue_ := BatchQueue.Clear,
    baseQueue_ := BatchQueue.Clear, extraQueue_ := BatchQueue.Clear,
    transparentQueue_ := BatchQueue.Clear, noShadowLightQueue_ := BatchQueue.Clear,
    lightQueues_ := [], tempDrawables_ := [], splitLights_ := fun _ => none,
    litGeometries_ := fun _ => [], shadowCasters_ := fun _ => [],
    sceneViewBox_ := { minZ := 0, maxZ := 0, defined_ := false } }

/-- A graphics subsystem with an 800 x 600 back buffer in forward mode. -/
def Example.graphics : Graphics :=
  { width := 800, height := 600, renderMode := RenderMode.RENDER_FORWARD, sm3Support := true }

/-- The same graphics subsystem in deferred mode. -/
def Example.graphicsDeferred : Graphics :=
  { Example.graphics with renderMode := RenderMode.RENDER_DEFERRED }

/-- A perspective camera with a valid projection. -/
def Example.camera : Camera :=
  { id := 1, viewMask := 1, viewOverrideFlags := 0, projectionValid := true,
    autoAspectRatio := false, aspectRatio := 1, projectionOffset := (0, 0), nearClip := 1,
    farClip := 1000, orthographic := false, halfViewSize := 1, orthoSize := 1, zoom := 1 }

/-- A plain geometry at distance 60 from the camera with draw distance 50 and LOD distance 50,
with no batches. -/
def Example.drawable : Drawable :=
  { id := 10, drawableFlags := DRAWABLE_GEOMETRY, viewMask := 1, lightMask := 1,
    drawDistance := 50, shadowDistance := 0, distance := 60, lodDistance := 50,
    castShadows := false, occluder := false, maxLights := 0, batches := [],
    viewDepthMin := 59, viewDepthMax := 61, boxDiagonal := 2, sortValue := 0, priority := 0,
    containsCamera := false, lightType := LightType.LIGHT_DIRECTIONAL, shadowIntensity := 0,
    shadowResolution := 1,
    shadowCascade := { splits_ := 1, lambda_ := 0, splitFadeRange_ := 0, shadowRange_ := 0 },
    shadowFocus := false, shadowZoomOut := false, nearSplit := 0, farSplit := 0,
    nearFadeRange := 0, farFadeRange := 0, shadowCamera := none, shadowMap := none,
    rampTexture := none, shapeTexture := none, fov := 0, aspectRatio := 1, range := 10,
    direction := none, originalLight := none }

/-- A pass with replace blending. -/
def Example.opaquePass : Pass :=
  { blendMode := BlendMode.BLEND_REPLACE, alphaTest := false, alphaMask := false }

/-- A technique for the high quality level, with a base pass only. -/
def Example.techniqueHigh : Technique :=
  { id := 100, isSM3 := false, shadowPass := none, gbufferPass := none,
    basePass := some Example.opaquePass, litBasePass := none, lightPass := none,
    extraPass := none }

/-- A technique for the low quality level, with a base pass only. -/
def Example.techniqueLow : Technique :=
  { Example.techniqueHigh with id := 101 }

/-- A material whose technique list is [(LOD distance 100, quality 2), (LOD distance 0,
quality 0)]. -/
def Example.material : Material :=
  { id := 200,
    techniques := [⟨some Example.techniqueHigh, 2, 100⟩, ⟨some Example.techniqueLow, 0, 0⟩],
    auxViewFrameNumber := 0 }

/-- A renderer with default settings, no default material, no shadow maps to hand out and
trivial geometric answers. -/
def Example.renderer : Renderer :=
  { defaultZone := none, defaultMaterial := none, drawShadows := true, materialQuality := 2,
    maxOccluderTriangles := 0, occluderSizeThreshold := 0, reuseShadowMaps := false,
    defaultLightRamp := none, defaultLightSpot := none, numShadowCameras := 0,
    numSplitLights := 0, shadowMapUseCount := 0,
    shadowCameraAt := fun n => { Example.camera with id := 1000 + n },
    splitLightIdAt := fun n => 2000 + n, shadowMapAt := fun _ _ => none,
    lightGeometry := fun _ => none, limitLights := fun _ l => l,
    powf := fun x t => 1 + (x - 1) * t,
    setupShadowCamera := fun _ _ _ c => c, quantizeDirShadowCamera := fun _ c => c,
    lightViewZ := fun _ l => l.distance, focusViewSize := fun _ _ => 1,
    shadowMapWidth := fun _ => 1024, shadowMapHeight := fun _ => 1024,
    cameraDistance := fun _ d => d.distance,
    degenerateSplitFrustum := fun _ _ => false, orthoCasterVisible := fun _ _ => true,
    perspectiveCasterVisible := fun _ _ => true }

/-- A camera viewing a scene that has an octree and is not loading. -/
def Example.viewport : Viewport :=
  { scene_ := some
      { asyncLoading := false,
        octree := some
          { id := 1, pointQuery := fun _ => [], occluderQuery := fun _ => [],
            frustumQuery := fun _ => [], occludedFrustumQuery := fun _ _ => [],
            shadowOccluderQuery := fun _ => [], shadowCasterQuery := fun _ _ => [],
            sphereQuery := fun _ => [], lightFrustumQuery := fun _ => [] } },
    camera_ := some Example.camera,
    rect_ := IntRect.ZERO }

/-- A render target of 1024 x 1024 pixels, larger than the 800 x 600 back buffer. -/
def Example.bigTarget : RenderSurface :=
  { id := 7, width := 1024, height := 1024, linkedDepthBuffer := none }

/-- The example viewport restricted to the rectangle (10, 10, 100, 100). -/
def Example.viewportRect : Viewport :=
  { Example.viewport with rect_ := { left_ := 10, top_ := 10, right_ := 100, bottom_ := 100 } }

/-- A `Define` call in deferred mode on the oversized render target. -/
def Example.oversizedCall : DefineCall :=
  { graphics := Example.graphicsDeferred, renderer := Example.renderer,
    renderTarget := some Example.bigTarget, viewport := Example.viewport }

/-- A world around the example renderer in which no drawable is marked. -/
def Example.world : World :=
  { renderer := Example.renderer, viewFrameNumber := fun _ => none, viewCamera := fun _ => none,
    basePassFlags := fun _ _ => false, lights := fun _ => [] }

/-- A frame. -/
def Example.frame : FrameInfo :=
  { camera_ := none, timeStep_ := 0, frameNumber_ := 1, viewSize_ := (0, 0) }

/-- The default zone: priority 0, not asked whether it contains the camera. -/
def Example.defaultZone : Zone :=
  { Example.drawable with id := 20, drawableFlags := DRAWABLE_ZONE, drawDistance := 0 }

/-- A zone of the least priority an `int` can hold, containing the camera. -/
def Example.lowestZone : Zone :=
  { Example.drawable with
    id := 21, drawableFlags := DRAWABLE_ZONE, drawDistance := 0, priority := M_MIN_INT,
    containsCamera := true }

/-- An octree that answers every query with the given zones and drawables. -/
def Example.octree (zones visible : List Drawable) : Octree :=
  { id := 1, pointQuery := fun _ => zones, occluderQuery := fun _ => [],
    frustumQuery := fun _ => visible, occludedFrustumQuery := fun _ _ => visible,
    shadowOccluderQuery := fun _ => [], shadowCasterQuery := fun _ _ => visible,
    sphereQuery := fun _ => visible, lightFrustumQuery := fun _ => visible }

/-- A geometry within its draw distance, with no batches. -/
def Example.nearDrawable : Drawable :=
  { Example.drawable with id := 11, distance := 40 }

/-- A view defined on the example camera and an octree in which `Example.nearDrawable` is
visible, with the example default zone. -/
def Example.definedView : View :=
  { View.init with
    octree_ := some (Example.octree [] [Example.nearDrawable]),
    camera_ := some Example.camera, zone_ := some Example.defaultZone,
    width_ := 800, height_ := 600 }

/-- The example camera with an invalid projection. -/
def Example.invalidCamera : Camera :=
  { Example.camera with projectionValid := false }

/-- A viewport on a scene in which `Example.nearDrawable` is visible. -/
def Example.sceneViewport : Viewport :=
  { scene_ := some { asyncLoading := false, octree := some (Example.octree [] [Example.nearDrawable]) },
    camera_ := some Example.camera, rect_ := IntRect.ZERO }

/-- The same viewport while its scene is loading asynchronously. -/
def Example.loadingViewport : Viewport :=
  { scene_ := some { asyncLoading := true, octree := some (Example.octree [] [Example.nearDrawable]) },
    camera_ := some Example.camera, rect_ := IntRect.ZERO }

/-- The view after `Define` on the scene viewport, one `Update` and one `Render`. -/
def Example.renderedView : View :=
  View.Render
    (View.Update Example.graphics
      (View.Define false Example.graphics Example.renderer View.init none
        Example.sceneViewport).view
      Example.world Example.frame).1

/-- A point light that casts shadows. -/
def Example.pointLight : Light :=
  { Example.drawable with
    id := 30, drawableFlags := DRAWABLE_LIGHT, drawDistance := 0, castShadows := true,
    lightType := LightType.LIGHT_POINT }

/-- A directional light that casts shadows, with a cascade count of 0 and a shadow range of
100, below the far clip distance 1000 of the example camera. -/
def Example.noCascadeLight : Light :=
  { Example.drawable with
    id := 31, drawableFlags := DRAWABLE_LIGHT, drawDistance := 0, castShadows := true,
    lightType := LightType.LIGHT_DIRECTIONAL,
    shadowCascade := { splits_ := 0, lambda_ := 1 / 2, splitFadeRange_ := 1 / 10, shadowRange_ := 100 } }

/-- A directional light that casts shadows, with 4 cascades, lambda 0.5 and a shadow range of
2000, beyond the far clip distance 1000 of the example camera. -/
def Example.cascadeLight : Light :=
  { Example.drawable with
    id := 32, drawableFlags := DRAWABLE_LIGHT, drawDistance := 0, castShadows := true,
    lightType := LightType.LIGHT_DIRECTIONAL,
    shadowCascade := { splits_ := 4, lambda_ := 1 / 2, splitFadeRange_ := 1 / 10, shadowRange_ := 2000 } }

/-- A spot light that casts shadows. -/
def Example.spotLight : Light :=
  { Example.drawable with
    id := 33, drawableFlags := DRAWABLE_LIGHT, drawDistance := 0, castShadows := true,
    lightType := LightType.LIGHT_SPOT }

/-- The initial view with shadow drawing switched on. -/
def Example.shadowView : View :=
  { View.init with drawShadows_ := true }

/-- The example world in which `Example.nearDrawable` is marked as in view for the frame and
camera of `Example.shadowView`. The renderer of this world has no shadow map to hand out. -/
def Example.litWorld : World :=
  { Example.world with
    viewFrameNumber := fun n => if n = 11 then some 0 else none }

/-- A batch at distance 5 without priority. -/
def Example.nearBatch : Batch :=
  { Batch.empty with geometry_ := some 1, distance_ := 5, hasPriority_ := false }

/-- A batch of another geometry, also at distance 5 and without priority. -/
def Example.tiedBatch : Batch :=
  { Batch.empty with geometry_ := some 3, distance_ := 5, hasPriority_ := false }

/-- A batch at distance 10 with priority. -/
def Example.farPriorityBatch : Batch :=
  { Batch.empty with geometry_ := some 2, distance_ := 10, hasPriority_ := true }

/-- A queue to which the near batch and then the far priority batch were added, both without
instancing. -/
def Example.mixedQueue : BatchQueue :=
  (BatchQueue.Clear.AddBatch Example.nearBatch true).AddBatch Example.farPriorityBatch true

/-- A queue to which two batches at the same distance were added without instancing. -/
def Example.tiedQueue : BatchQueue :=
  (BatchQueue.Clear.AddBatch Example.nearBatch true).AddBatch Example.tiedBatch true

/-- A forward-mode view whose base and transparent queues are the mixed queue and whose extra
queue is the tied queue. -/
def Example.sortView : View :=
  { View.init with
    baseQueue_ := Example.mixedQueue, transparentQueue_ := Example.mixedQueue,
    extraQueue_ := Example.tiedQueue }

/-- A batch at distance 10 without priority, as `GetLitBatches` adds for a lit transparent
object. -/
def Example.farBatch : Batch :=
  { Batch.empty with geometry_ := some 4, distance_ := 10, hasPriority_ := false }

/-- A batch at distance 5 with priority, as `GetBatches` adds for the base pass of a
transparent object. -/
def Example.nearPriorityBatch : Batch :=
  { Batch.empty with geometry_ := some 5, distance_ := 5, hasPriority_ := true }

/-- A forward-mode view whose transparent queue received the far batch without priority and
the near batch with priority, both without instancing. -/
def Example.blendView : View :=
  { View.init with
    transparentQueue_ :=
      (BatchQueue.Clear.AddBatch Example.farBatch true).AddBatch Example.nearPriorityBatch true }

/-- A pass with alpha blending. -/
def Example.alphaPass : Pass :=
  { blendMode := BlendMode.BLEND_ALPHA, alphaTest := false, alphaMask := false }

/-- A technique with a G-buffer pass and an alpha-blended base pass. -/
def Example.gbufferAlphaTechnique : Technique :=
  { id := 102, isSM3 := false, shadowPass := none, gbufferPass := some Example.opaquePass,
    basePass := some Example.alphaPass, litBasePass := none, lightPass := none,
    extraPass := none }

/-- A material with the technique above as its only technique. -/
def Example.gbufferAlphaMaterial : Material :=
  { id := 201, techniques := [⟨some Example.gbufferAlphaTechnique, 0, 0⟩],
    auxViewFrameNumber := 0 }

/-- A geometry within its draw distance with one batch of that material. -/
def Example.batchDrawable : Drawable :=
  { Example.nearDrawable with
    id := 12,
    batches := [{ geometry_ := some 1, material_ := some Example.gbufferAlphaMaterial,
                  worldTransform_ := some 1, indexCount := 3, instancible_ := true }] }

/-- The initial view in deferred mode. -/
def Example.deferredView : View :=
  { View.init with mode_ := RenderMode.RENDER_DEFERRED }

/-- The state in which `GetBatches` starts on view `v` in the example world. -/
def Example.batchState (v : View) : GetBatchesState :=
  { view := v, world := Example.world, litTransparencies := [], maxLightsDrawables := [],
    lightQueueIndex := [], lightQueueCount := 0 }

/-- A deferred view with one light queue, whose split 0 is the example spot light with
`Example.nearDrawable` as its only lit geometry. -/
def Example.deferredLitView : View :=
  { Example.deferredView with
    lightQueues_ := [LightBatchQueue.empty],
    splitLights_ := fun _ => some Example.spotLight,
    litGeometries_ := fun _ => [Example.nearDrawable] }

/-- An octree in which the example spot light and `Example.batchDrawable` are visible from
the camera and `Example.batchDrawable` lies in the frustum of every light. -/
def Example.litOctree : Octree :=
  { id := 2, pointQuery := fun _ => [], occluderQuery := fun _ => [],
    frustumQuery := fun _ => [Example.spotLight, Example.batchDrawable],
    occludedFrustumQuery := fun _ _ => [Example.spotLight, Example.batchDrawable],
    shadowOccluderQuery := fun _ => [], shadowCasterQuery := fun _ _ => [],
    sphereQuery := fun _ => [Example.batchDrawable],
    lightFrustumQuery := fun _ => [Example.batchDrawable] }

/-- The example world with a renderer that has a light volume geometry for every light. -/
def Example.volumeWorld : World :=
  { Example.world with
    renderer := { Example.renderer with lightGeometry := fun _ => some 900 } }

/-- A deferred view defined on the example camera and the lit octree, with the example
default zone; it draws no shadows. -/
def Example.deferredSceneView : View :=
  { View.init with
    octree_ := some Example.litOctree, camera_ := some Example.camera,
    zone_ := some Example.defaultZone, mode_ := RenderMode.RENDER_DEFERRED,
    width_ := 800, height_ := 600 }

/-- A view defined on the example camera and an octree in which `Example.drawable` (draw
distance 50, distance 60) and `Example.nearDrawable` are returned by every query. -/
def Example.distanceView : View :=
  { Example.definedView with
    octree_ := some (Example.octree [] [Example.drawable, Example.nearDrawable]) }

/-- A controller without a model that plays the animations with name hashes 7 and 8. -/
def Example.controller : AnimationController :=
  { model := none,
    animations_ :=
      [{ hash_ := 7, speed_ := 1, targetWeight_ := 1, fadeTime_ := 0, autoFadeTime_ := 0 },
       { hash_ := 8, speed_ := 1, targetWeight_ := 1, fadeTime_ := 0, autoFadeTime_ := 0 }] }

/-- The renderer of `Example.renderer` with `Example.material` as its default material. -/
def Example.materialRenderer : Renderer :=
  { Example.renderer with defaultMaterial := some Example.material }

/-- An occluder like `Example.drawable` with no draw distance limit, so that it is within
its draw distance at any distance from the camera. -/
def Example.occluder : Drawable :=
  { Example.drawable with id := 14, drawDistance := 0, occluder := true }

/-- The view `Example.shadowView` after an earlier light, the example spot light, has been
processed: `splitLights_[0]` still points to that light. -/
def Example.staleView : View :=
  Example.shadowView.setSplitLight 0 Example.spotLight

/-- A technique for a transparent object: an alpha-blended base pass and a light pass. -/
def Example.litAlphaTechnique : Technique :=
  { id := 103, isSM3 := false, shadowPass := none, gbufferPass := none,
    basePass := some Example.alphaPass, litBasePass := none,
    lightPass := some Example.alphaPass, extraPass := none }

/-- A material with the technique above as its only technique. -/
def Example.litAlphaMaterial : Material :=
  { id := 202, techniques := [⟨some Example.litAlphaTechnique, 0, 0⟩],
    auxViewFrameNumber := 0 }

/-- A transparent geometry within its draw distance with one batch of that material. -/
def Example.transparentDrawable : Drawable :=
  { Example.nearDrawable with
    id := 13,
    batches := [{ geometry_ := some 1, material_ := some Example.litAlphaMaterial,
                  worldTransform_ := some 1, indexCount := 3, instancible_ := true }] }

/-- The split light that `SplitLight` creates for cube face `k` of the example point light
in the example world when it is the light created after `k` others. -/
def Example.pointFace (k : Nat) : Light :=
  { (({ Example.renderer with numSplitLights := k } : Renderer).CreateSplitLight
      Example.pointLight).1 with
    lightType := LightType.LIGHT_SPLITPOINT, direction := directions.get? k, fov := 90,
    aspectRatio := 1 }

/-- A forward-mode view in the split loop of `GetBatches` for the example point light: the
light is the only light, it has been split into its cube faces, and two light queues are
prepared. -/
def Example.pointLitView : View :=
  { Example.shadowView with
    lights_ := [Example.pointLight],
    lightQueues_ := [LightBatchQueue.empty, LightBatchQueue.empty],
    splitLights_ := fun k => if k < 6 then some (Example.pointFace k) else none }

/-- A geometry within its draw distance that casts shadows; it has the address of
`Example.nearDrawable`, which `Example.litWorld` marks as in view. -/
def Example.caster : Drawable :=
  { Example.nearDrawable with castShadows := true }

/-- The world `Example.litWorld` with a renderer that hands out the shadow map texture 500,
of size 1024 x 1024, at every request. -/
def Example.shadowMapWorld : World :=
  { Example.litWorld with
    renderer := { Example.renderer with shadowMapAt := fun _ _ => some 500 } }

/-- The example spot light with shadow focusing switched on. -/
def Example.focusedSpotLight : Light :=
  { Example.spotLight with shadowFocus := true }

/-- The view `Example.shadowView` with the example spot light as its only light. -/
def Example.spotLitView : View :=
  { Example.shadowView with lights_ := [Example.spotLight] }

/-- A technique for an opaque lit object: a base pass, a lit base pass and a light pass, all
with replace blending. -/
def Example.litBaseTechnique : Technique :=
  { id := 104, isSM3 := false, shadowPass := none, gbufferPass := none,
    basePass := some Example.opaquePass, litBasePass := some Example.opaquePass,
    lightPass := some Example.opaquePass, extraPass := none }

/-- A material with the technique above as its only technique. -/
def Example.litBaseMaterial : Material :=
  { id := 203, techniques := [⟨some Example.litBaseTechnique, 0, 0⟩],
    auxViewFrameNumber := 0 }

/-- An opaque geometry within its draw distance with one batch of that material. -/
def Example.litBaseDrawable : Drawable :=
  { Example.nearDrawable with
    id := 15,
    batches := [{ geometry_ := some 1, material_ := some Example.litBaseMaterial,
                  worldTransform_ := some 1, indexCount := 3, instancible_ := true }] }

/-- A directional light that casts no shadows; its far split distance 100000 is beyond the
far clip distance of the example camera. -/
def Example.sunLight : Light :=
  { Example.drawable with
    id := 34, drawableFlags := DRAWABLE_LIGHT, drawDistance := 0,
    lightType := LightType.LIGHT_DIRECTIONAL, farSplit := 100000 }

/-- An octree in which the directional light above and `Example.litBaseDrawable` are visible
from the camera. -/
def Example.sunOctree : Octree :=
  { id := 3, pointQuery := fun _ => [], occluderQuery := fun _ => [],
    frustumQuery := fun _ => [Example.sunLight, Example.litBaseDrawable],
    occludedFrustumQuery := fun _ _ => [Example.sunLight, Example.litBaseDrawable],
    shadowOccluderQuery := fun _ => [], shadowCasterQuery := fun _ _ => [],
    sphereQuery := fun _ => [], lightFrustumQuery := fun _ => [] }

/-- A forward-mode view defined on the example camera and the octree above, with the example
default zone. -/
def Example.sunView : View :=
  { View.init with
    octree_ := some Example.sunOctree, camera_ := some Example.camera,
    zone_ := some Example.defaultZone, width_ := 800, height_ := 600 }

/-- A renderer whose `powf` answers with the `float` nearest to the linear interpolation
between 1 and the base. At the arguments used in the examples below (exponents 0 and 1, and
the base 1 + 2^-23 with the exponents 1/4, 1/2 and 3/4) this is the correctly rounded
power. -/
def Example.floatRenderer : Renderer :=
  { Example.renderer with powf := fun x t => Float32.round (1 + (x - 1) * t) }

/-- The example world around the renderer above. -/
def Example.floatWorld : World :=
  { Example.world with renderer := Example.floatRenderer }

/-- A camera with the near clip distance `0.3f` and the far clip distance 100. -/
def Example.rangeCamera : Camera :=
  { Example.camera with nearClip := 5033165 / 16777216, farClip := 100 }

/-- A directional light that casts shadows, with 1 cascade, lambda `0.7f` and a shadow range
of 30. -/
def Example.rangeLight : Light :=
  { Example.drawable with
    id := 35, drawableFlags := DRAWABLE_LIGHT, drawDistance := 0, castShadows := true,
    lightType := LightType.LIGHT_DIRECTIONAL,
    shadowCascade :=
      { splits_ := 1, lambda_ := 11744051 / 16777216, splitFadeRange_ := 1 / 8,
        shadowRange_ := 30 } }

/-- A camera with the far clip distance 1000 whose near clip distance is the `float` next
below 1000, which is 1000 - 2^-14. -/
def Example.thinCamera : Camera :=
  { Example.camera with nearClip := 16383999 / 16384, farClip := 1000 }

/-! ## Specification-side definitions -/

/-- The entry test of claim C1, in the words of the specification: the entry has a
technique, the technique does not need SM3 while SM3 is unsupported, the quality level of the
entry is not above the material quality of the view, and the LOD distance threshold of the
entry is at most the LOD distance of the drawable. -/
def Spec.qualifies (g : Graphics) (v : View) (lodDistance : Rat) (e : TechniqueEntry) : Prop :=
  (∃ t, e.technique_ = some t ∧ ¬ (t.isSM3 = true ∧ g.sm3Support = false)) ∧
    e.qualityLevel_ ≤ v.materialQuality_ ∧ e.lodDistance_ ≤ lodDistance


/-- The condition of claims C3 and C4 under which the render target is rejected: the call has
a scene that is not loading and has an octree, a camera, a render mode other than forward and
a render target at address `target` that is wider or taller than the back buffer. -/
def Spec.oversizedCall (c : DefineCall) (target : Nat) : Prop :=
  (∃ scene octree, c.viewport.scene_ = some scene ∧ scene.asyncLoading = false ∧
      scene.octree = some octree) ∧
    (∃ camera, c.viewport.camera_ = some camera) ∧
    c.graphics.renderMode ≠ RenderMode.RENDER_FORWARD ∧
    ∃ rt, c.renderTarget = some rt ∧ rt.id = target ∧
      (rt.width > c.graphics.width ∨ rt.height > c.graphics.height)

/-- The fade range factor used by the cascade loop: `Max(cascade.splitFadeRange_, 0.001f)`. -/
def Spec.fadeFactor (light : Light) : Rat :=
  max light.shadowCascade.splitFadeRange_ (Float32.round (1 / 1000))

/-- The value of `iPerM` for boundary `k` of `splits`: `(float)k / (float)splits`. -/
def Spec.iPerM (k splits : Nat) : Rat := Float32.div (Float32.ofNat k) (Float32.ofNat splits)

/-- The distance of cascade boundary `k` of `splits`: the split distance for
`iPerM = (float)k / (float)splits`. -/
def Spec.boundary (powf : Rat → Rat → Rat) (light : Light) (splits : Nat)
    (farClip nearClip : Rat) (k : Nat) : Rat :=
  View.SplitLight.splitDistance powf light.shadowCascade farClip nearClip (Spec.iPerM k splits)

/-- The fade range at cascade boundary `k`: the `float` product of the distance and the fade
range factor. -/
def Spec.fadeRange (powf : Rat → Rat → Rat) (light : Light) (splits : Nat)
    (farClip nearClip : Rat) (k : Nat) : Rat :=
  Float32.mul (Spec.boundary powf light splits farClip nearClip k) (Spec.fadeFactor light)

/-- What claims C12 to C14 say of the shadow-casting split `i` of a directional light: it
is a copy of the light, it starts at the true near clip distance of the camera (`i = 0`) or
at boundary `i`, ends at boundary `i + 1`, and fades at its far end unless it is the last
split and no extra split follows. -/
def Spec.isCascadeSplit (powf : Rat → Rat → Rat) (camera : Camera) (light : Light)
    (splits : Nat) (farClip nearClip : Rat) (createExtraSplit : Bool) (i : Nat) (s : Light) :
    Prop :=
  s.nearSplit = (if i ≠ 0 then Spec.boundary powf light splits farClip nearClip i
    else camera.nearClip) ∧
  s.farSplit = Spec.boundary powf light splits farClip nearClip (i + 1) ∧
  s.nearFadeRange = Spec.fadeRange powf light splits farClip nearClip i ∧
  s.farFadeRange = (if createExtraSplit = true ∨ i < splits - 1 then
    Spec.fadeRange powf light splits farClip nearClip (i + 1) else 0) ∧
  s.castShadows = light.castShadows ∧ s.lightType = light.lightType ∧
  s.originalLight = some light.id

/-- The number of cascades `splits` used by `SplitLight`: the cascade count of the light,
at most `MAX_LIGHT_SPLITS - 1`. -/
def Spec.cascadeCount (light : Light) : Nat :=
  min light.shadowCascade.splits_ (MAX_LIGHT_SPLITS - 1)

/-- The shadow range end `farClip` of `SplitLight`, the "shadow far limit":
min(shadowRange, camera far clip). -/
def Spec.shadowFar (camera : Camera) (light : Light) : Rat :=
  min light.shadowCascade.shadowRange_ camera.farClip

/-- The shadow range start `nearClip` of `SplitLight`: the near clip distance of the camera,
clamped from below to `M_MIN_NEARCLIP`. -/
def Spec.shadowNear (camera : Camera) : Rat := max camera.nearClip M_MIN_NEARCLIP

/-- The value `x` lies within `k` roundings of the value `y`: between `y * (1 - 2^-24)^k` and
`y * (1 + 2^-24)^k`. -/
def Spec.within (k : Nat) (x y : Rat) : Prop :=
  y * (16777215 / 16777216) ^ k ≤ x ∧ x ≤ y * (16777217 / 16777216) ^ k

/-- The value `x` is not negative and at most `k` roundings above the value `y`. -/
def Spec.atMost (k : Nat) (x y : Rat) : Prop :=
  0 ≤ x ∧ x ≤ y * (16777217 / 16777216) ^ k

/-- The inputs of the cascade loop for which claims C12 and C13 are stated: lambda in
[0, 1] and the shadow range start not above the shadow far limit, with magnitudes for which no
`float` operation of the loop overflows or underflows, so that `Float32.round` is the rounding
of the hardware: a camera far clip of at most 2^100, a lambda that is 0 or at least 2^-100,
and a split fade range of at most 2^20. -/
def Spec.cascadeInputs (camera : Camera) (light : Light) : Prop :=
  0 ≤ light.shadowCascade.lambda_ ∧ light.shadowCascade.lambda_ ≤ 1 ∧
  Spec.shadowNear camera ≤ Spec.shadowFar camera light ∧
  camera.farClip ≤ 2 ^ 100 ∧
  (light.shadowCascade.lambda_ = 0 ∨ 1 / 2 ^ 100 ≤ light.shadowCascade.lambda_) ∧
  light.shadowCascade.splitFadeRange_ ≤ 2 ^ 20

/-- What claims C12 and C13 assume of the library function `powf`: for a positive base and an
exponent in [0, 1] the result lies between 1 and the base. -/
def Spec.powfBounded (powf : Rat → Rat → Rat) : Prop :=
  ∀ x t, 0 < x → 0 ≤ t → t ≤ 1 → min 1 x ≤ powf x t ∧ powf x t ≤ max 1 x

/-- What claim C13 assumes of the library function `powf` for strictly increasing
boundaries: for a base of at least 1 the result does not decrease with the exponent. -/
def Spec.powfMonotone (powf : Rat → Rat → Rat) : Prop :=
  ∀ x t1 t2, 1 ≤ x → 0 ≤ t1 → t1 ≤ t2 → t2 ≤ 1 → powf x t1 ≤ powf x t2

/-- The view without its scratch storage (`tempDrawables_`, `splitLights_`, `litGeometries_`,
`shadowCasters_`, `shadowOccluders_`): used to say that a function changes nothing but the
scratch storage. -/
def View.withoutScratch (v : View) : View :=
  { v with
    tempDrawables_ := [], splitLights_ := fun _ => none, litGeometries_ := fun _ => [],
    shadowCasters_ := fun _ => [], shadowOccluders_ := [] }

/-- The opaque queues of a view in the words of claim C19: the base and extra queues, the
shadow and lit queues of each light queue, and in the non-forward modes the G-buffer and
no-shadow light queues. -/
def Spec.opaqueQueues (v : View) : List BatchQueue :=
  [v.baseQueue_, v.extraQueue_] ++
    v.lightQueues_.flatMap (fun q => [q.shadowBatches_, q.litBatches_]) ++
    (if v.mode_ ≠ RenderMode.RENDER_FORWARD then [v.gBufferQueue_, v.noShadowLightQueue_]
     else [])

/-- The order in which `RenderBatchQueue` draws the individually drawn batches of a queue:
the sorted priority batches, then the sorted batches. -/
def Spec.drawOrder (q : BatchQueue) : List Batch :=
  q.sortedPriorityBatches_ ++ q.sortedBatches_

/-- The batches drawn by one draw call. -/
def DrawCall.batches : DrawCall → List Batch
  | DrawCall.group instances => instances
  | DrawCall.single batch => [batch]

/-- The base batch of `View::GetBatches` for batch `j` of `drawable` when it has passed the
tests of its geometry, its technique and its lit base pass: the batch written by
`Drawable::GetBatch` with the material left by `GetTechnique`, the camera of the view and the
distance of the drawable. -/
def Spec.filledBaseBatch (g : Graphics) (camera : Camera) (drawable : Drawable)
    (st : GetBatchesState) (j : Nat) : Batch :=
  { drawable.GetBatch j with
    material_ :=
      (View.GetTechnique g st.world.renderer st.view drawable (drawable.GetBatch j).material_).2,
    camera_ := some camera.id, distance_ := drawable.distance }

/-- The view without its batch queues: used to say that a function changes nothing but the
batch queues. -/
def View.withoutQueues (v : View) : View :=
  { v with
    gBufferQueue_ := BatchQueue.Clear, baseQueue_ := BatchQueue.Clear,
    extraQueue_ := BatchQueue.Clear, transparentQueue_ := BatchQueue.Clear,
    noShadowLightQueue_ := BatchQueue.Clear, lightQueues_ := [] }

/-- A light queue without its shadow and lit batches. -/
def LightBatchQueue.withoutDrawableBatches (q : LightBatchQueue) : LightBatchQueue :=
  { q with shadowBatches_ := BatchQueue.Clear, litBatches_ := BatchQueue.Clear }

/-- The view without the batches made from drawables: the G-buffer, base, extra and
transparent queues and the shadow and lit batches of every light queue are cleared. What is
left of the queues is the no-shadow light queue and, of each light queue, its light, its
light volume batches and its first-split flag. -/
def View.withoutDrawableBatches (v : View) : View :=
  { v with
    gBufferQueue_ := BatchQueue.Clear, baseQueue_ := BatchQueue.Clear,
    extraQueue_ := BatchQueue.Clear, transparentQueue_ := BatchQueue.Clear,
    lightQueues_ := v.lightQueues_.map LightBatchQueue.withoutDrawableBatches }

/-- The batches made from drawables that the queues of a view hold: the batches added to the
G-buffer, base, extra and transparent queues and to the shadow and lit queues of the light
queues. The light volume batches are not among them. -/
def Spec.drawableBatches (v : View) : List Batch :=
  v.gBufferQueue_.batches ++ v.baseQueue_.batches ++ v.extraQueue_.batches ++
    v.transparentQueue_.batches ++
    v.lightQueues_.flatMap (fun q => q.shadowBatches_.batches ++ q.litBatches_.batches)

/-- Every drawable batch of `v2` is a drawable batch of `v1` or satisfies `good`. -/
def Spec.addsOnly (good : Batch → Prop) (v1 v2 : View) : Prop :=
  ∀ b ∈ Spec.drawableBatches v2, b ∈ Spec.drawableBatches v1 ∨ good b

/-- A batch with a non-null geometry and a non-null technique. -/
def Spec.resolved (b : Batch) : Prop :=
  b.geometry_ ≠ none ∧ b.technique_ ≠ none

/-- A batch made from batch `i` of `drawable` in state `st` of `GetBatches`: it has the
geometry of that batch, which is not null, and its technique is the one `GetTechnique`
returns for the drawable and the material of that batch, which is not null either. -/
def Spec.resolvedFrom (g : Graphics) (st : GetBatchesState) (drawable : Drawable) (i : Nat)
    (b : Batch) : Prop :=
  b.geometry_ = (drawable.GetBatch i).geometry_ ∧ b.geometry_ ≠ none ∧
  b.technique_ =
    (View.GetTechnique g st.world.renderer st.view drawable (drawable.GetBatch i).material_).1 ∧
  b.technique_ ≠ none

/-- What the batch loops of `GetBatches` leave unchanged between two states: everything in
the view but the batches made from drawables, the renderer, and the locals `lightQueueIndex`
and `lightQueueCount`; the drawable batches of the later state are those of the earlier one
and resolved ones. -/
def Spec.batchFrame (st st' : GetBatchesState) : Prop :=
  st'.view.withoutDrawableBatches = st.view.withoutDrawableBatches ∧
  st'.world.renderer = st.world.renderer ∧
  st'.lightQueueIndex = st.lightQueueIndex ∧
  st'.lightQueueCount = st.lightQueueCount ∧
  Spec.addsOnly Spec.resolved st.view st'.view

/-- What all of `GetBatches` leaves unchanged between two views: everything but the batch
queues and the scratch storage; the drawable batches of the later view are those of the
earlier one and resolved ones. -/
def Spec.coreFrame (v v' : View) : Prop :=
  v'.withoutScratch.withoutQueues = v.withoutScratch.withoutQueues ∧
  Spec.addsOnly Spec.resolved v v'

/-- The light volume batches of the light queue at index `k`, if there is such a queue. -/
def Spec.volumeBatchesAt (v : View) (k : Nat) : Option (List Batch) :=
  (v.lightQueues_[k]?).map LightBatchQueue.volumeBatches_

/-- The fade time stored for the animation `name`: the field `fadeTime_` of its control, which
`GetFadeTime` is meant to return. -/
def Spec.storedFadeTime (c : AnimationController) (name : Nat) : Option Rat :=
  (c.animations_[(c.FindAnimation name).1]?).map AnimationControl.fadeTime_

/-- The first-split flag and the light volume batches of the light queue at index `k`, if
there is such a queue. -/
def Spec.queueHeaderAt (v : View) (k : Nat) : Option (Bool × List Batch) :=
  (v.lightQueues_[k]?).map (fun q => (q.firstSplit_, q.volumeBatches_))

/-- The state of `View::GetBatches()` after the first `n` iterations of its loop over
`lights_`. -/
def Spec.lightsState (g : Graphics) (camera : Camera) (octree : Octree) (v : View) (w : World)
    (n : Nat) : GetBatchesState :=
  (v.lights_.take n).foldl (View.GetBatches.lightStep g camera octree)
    { view := v, world := w, litTransparencies := [], maxLightsDrawables := [],
      lightQueueIndex := [], lightQueueCount := 0 }

/-- What the light processing of a view leaves unchanged in the world: the base pass flags
and the light lists of the drawables, and the behaviour of `Drawable::LimitLights`. -/
def Spec.worldFrame (w w' : World) : Prop :=
  w'.basePassFlags = w.basePassFlags ∧ w'.lights = w.lights ∧
    w'.renderer.limitLights = w.renderer.limitLights

/-- A lit base batch of batch `i` of drawable `d`: a batch with the geometry and the world
transform of that source batch, with priority, whose pass is the `PASS_LITBASE` pass of its
technique. -/
def Spec.isLitBaseBatch (d : Drawable) (i : Nat) (b : Batch) : Prop :=
  b.geometry_ = (d.GetBatch i).geometry_ ∧ b.worldTransform_ = (d.GetBatch i).worldTransform_ ∧
    b.hasPriority_ = true ∧
    ∃ tech pass, b.technique_ = some tech ∧ tech.GetPass PassType.PASS_LITBASE = some pass ∧
      b.pass_ = some pass

/-- The batches of the base queue, of the transparent queue and of the lit queues of the
first `n` light queues: the queues to which `GetLitBatches` adds batches, as far as they are
kept until the end of `GetBatches` when `n` light queues have been stored. -/
def Spec.keptLitBatches (v : View) (n : Nat) : List Batch :=
  v.baseQueue_.batches ++ v.transparentQueue_.batches ++
    (v.lightQueues_.take n).flatMap (fun q => q.litBatches_.batches)

/-- What a step of `GetBatches` may do to the lit base bookkeeping, for the drawables whose
address satisfies `fresh`, when the first `n` light queues are kept: no kept batch is lost; a
base pass flag that the step sets belongs to a drawable with a lit base batch for that batch
index among the kept batches; and a light that the step adds to the light list of a drawable
has the address `cur`. -/
def Spec.litBaseStep (fresh : Nat → Prop) (n : Nat) (cur : Option Nat)
    (st st' : GetBatchesState) : Prop :=
  (∀ b ∈ Spec.keptLitBatches st.view n, b ∈ Spec.keptLitBatches st'.view n) ∧
  (∀ id i, fresh id → st'.world.basePassFlags id i = true →
    st.world.basePassFlags id i = true ∨
      ∃ d b, d.id = id ∧ b ∈ Spec.keptLitBatches st'.view n ∧ Spec.isLitBaseBatch d i b) ∧
  (∀ id l, l ∈ st'.world.lights id → l ∈ st.world.lights id ∨ some l.id = cur)

/-- The lit base invariant of `GetBatches` for the drawables whose address satisfies `fresh`:
every base pass flag that is set belongs to a drawable with a lit base batch for that batch
index among the kept batches (in forward mode the light queues stored so far are kept, in the
other modes no light queue is needed); in forward mode every entry of `lightQueueIndex` points
to a stored light queue and every light in the light list of such a drawable has an entry;
and `Drawable::LimitLights` behaves as `limit`. -/
def Spec.litBaseInv (fresh : Nat → Prop) (limit : Drawable → List Light → List Light)
    (st : GetBatchesState) : Prop :=
  (∀ id i, fresh id → st.world.basePassFlags id i = true →
    ∃ d b, d.id = id ∧
      b ∈ Spec.keptLitBatches st.view
        (if st.view.mode_ = RenderMode.RENDER_FORWARD then st.lightQueueCount else 0) ∧
      Spec.isLitBaseBatch d i b) ∧
  (st.view.mode_ = RenderMode.RENDER_FORWARD →
    (∀ p ∈ st.lightQueueIndex, p.2 < st.lightQueueCount) ∧
    (∀ id, fresh id → ∀ l ∈ st.world.lights id, ∃ p ∈ st.lightQueueIndex, p.1 = l.id)) ∧
  st.world.renderer.limitLights = limit

/-- A drawable, given by its address, that starts a pass over the batches afresh in world
`w`: none of its base pass flags is set and its light list is empty. -/
def Spec.freshIn (w : World) (id : Nat) : Prop :=
  (∀ i, w.basePassFlags id i = false) ∧ w.lights id = []

/-! ## Theorems -/

theorem GetTechnique_loop_none (g : Graphics) (v : View) (lod : Rat) (l : List TechniqueEntry) :
    View.GetTechnique.loop g v lod l = none ↔ ∀ e ∈ l, ¬ Spec.qualifies g v lod e := by
  induction l with
  | nil => simp [View.GetTechnique.loop]
  | cons e rest ih =>
    unfold View.GetTechnique.loop
    cases ht : e.technique_ with
    | none =>
      simp only [List.mem_cons, forall_eq_or_imp, ih]
      constructor
      · intro h
        exact ⟨by simp [Spec.qualifies, ht], h⟩
      · exact fun h => h.2
    | some t =>
      simp only [List.mem_cons, forall_eq_or_imp]
      by_cases hc : ((t.isSM3 && !g.sm3Support) || decide (v.materialQuality_ < e.qualityLevel_)) = true
      · simp only [if_pos hc, ih]
        constructor
        · intro h
          refine ⟨?_, h⟩
          rintro ⟨⟨t', ht', hsm⟩, hq, _⟩
          rw [ht] at ht'
          cases ht'
          simp only [Bool.or_eq_true, Bool.and_eq_true, Bool.not_eq_true', decide_eq_true_eq] at hc
          rcases hc with hc | hc
          · exact hsm hc
          · omega
        · exact fun h => h.2
      · simp only [if_neg hc]
        simp only [Bool.or_eq_true, Bool.and_eq_true, Bool.not_eq_true', decide_eq_true_eq,
          not_or, not_lt] at hc
        by_cases hl : lod ≥ e.lodDistance_
        · simp only [if_pos hl]
          constructor
          · intro h; cases h
          · intro h
            exact absurd ⟨⟨t, ht, hc.1⟩, hc.2, hl⟩ h.1
        · simp only [if_neg hl, ih]
          constructor
          · intro h
            exact ⟨fun hq => hl hq.2.2, h⟩
          · exact fun h => h.2

theorem GetTechnique_loop_some (g : Graphics) (v : View) (lod : Rat) (l : List TechniqueEntry)
    (t : Technique) (h : View.GetTechnique.loop g v lod l = some t) :
    ∃ (i : Nat) (hi : i < l.length), Spec.qualifies g v lod (l.get ⟨i, hi⟩) ∧
      (∀ (j : Nat) (hj : j < l.length), j < i → ¬ Spec.qualifies g v lod (l.get ⟨j, hj⟩)) ∧
      (l.get ⟨i, hi⟩).technique_ = some t := by
  induction l with
  | nil => simp [View.GetTechnique.loop] at h
  | cons e rest ih =>
    have hskip : View.GetTechnique.loop g v lod rest = some t → ¬ Spec.qualifies g v lod e →
        ∃ (i : Nat) (hi : i < (e :: rest).length), Spec.qualifies g v lod ((e :: rest).get ⟨i, hi⟩) ∧
        (∀ (j : Nat) (hj : j < (e :: rest).length), j < i →
          ¬ Spec.qualifies g v lod ((e :: rest).get ⟨j, hj⟩)) ∧
        ((e :: rest).get ⟨i, hi⟩).technique_ = some t := by
      intro hr hnq
      obtain ⟨i, hi, hq, hmin, ht⟩ := ih hr
      refine ⟨i + 1, by simpa using hi, by simpa using hq, ?_, by simpa using ht⟩
      intro j hj hji
      cases j with
      | zero => simpa using hnq
      | succ k =>
        have := hmin k (by simpa using hj) (by omega)
        simpa using this
    unfold View.GetTechnique.loop at h
    cases ht : e.technique_ with
    | none =>
      rw [ht] at h
      exact hskip h (by simp [Spec.qualifies, ht])
    | some t0 =>
      rw [ht] at h
      simp only at h
      by_cases hc : ((t0.isSM3 && !g.sm3Support) || decide (v.materialQuality_ < e.qualityLevel_)) = true
      · simp only [if_pos hc] at h
        refine hskip h ?_
        rintro ⟨⟨t', ht', hsm⟩, hq, _⟩
        rw [ht] at ht'
        cases ht'
        simp only [Bool.or_eq_true, Bool.and_eq_true, Bool.not_eq_true', decide_eq_true_eq] at hc
        rcases hc with hc | hc
        · exact hsm hc
        · omega
      · simp only [if_neg hc] at h
        simp only [Bool.or_eq_true, Bool.and_eq_true, Bool.not_eq_true', decide_eq_true_eq,
          not_or, not_lt] at hc
        by_cases hl : lod ≥ e.lodDistance_
        · simp only [if_pos hl] at h
          cases h
          refine ⟨0, by simp, ?_, ?_, by simpa using ht⟩
          · exact ⟨⟨_, ht, hc.1⟩, hc.2, hl⟩
          · intro j hj hj0
            omega
        · simp only [if_neg hl] at h
          exact hskip h (fun hq => hl hq.2.2)


theorem GetTechnique_resolved' (g : Graphics) (r : Renderer) (v : View) (drawable : Drawable)
    (material : Option Material) (m : Material)
    (hm : (match material with
      | none => r.defaultMaterial
      | some x => some x) = some m)
    (hne : m.techniques ≠ []) :
    (View.GetTechnique g r v drawable material).1 =
      match View.GetTechnique.loop g v drawable.lodDistance m.techniques with
      | some technique => some technique
      | none => (m.techniques.getLast?).bind (fun e => e.technique_) := by
  unfold View.GetTechnique
  simp only [hm]
  have hemp : m.techniques.isEmpty = false := by
    cases hmt : m.techniques with
    | nil => exact absurd hmt hne
    | cons a l => rfl
  simp only [hemp, Bool.false_eq_true, if_false]
  cases hl : View.GetTechnique.loop g v drawable.lodDistance m.techniques with
  | some t => rfl
  | none => rfl

theorem GetTechnique_resolved (g : Graphics) (r : Renderer) (v : View) (drawable : Drawable)
    (material : Option Material) (m : Material)
    (hm : (match material with
      | none => r.defaultMaterial
      | some x => some x) = some m)
    (hne : m.techniques ≠ []) :
    (View.GetTechnique g r v drawable material).1 =
      match View.GetTechnique.loop g v drawable.lodDistance m.techniques with
      | some technique => some technique
      | none => (m.techniques.getLast hne).technique_ := by
  rw [GetTechnique_resolved' g r v drawable material m hm hne]
  cases hl : View.GetTechnique.loop g v drawable.lodDistance m.techniques with
  | some t => rfl
  | none => simp [List.getLast?_eq_getLast _ hne]

theorem GetTechnique_loop_example (g : Graphics) (v : View) (tHigh tLow : Option Technique)
    (qHigh qLow : Int) :
    (match View.GetTechnique.loop g v 50 [⟨tHigh, qHigh, 100⟩, ⟨tLow, qLow, 0⟩] with
      | some technique => some technique
      | none => tLow) = tLow := by
  have h100 : ¬ ((50 : Rat) ≥ 100) := by norm_num
  have h0 : (50 : Rat) ≥ 0 := by norm_num
  have hsecond : (match View.GetTechnique.loop g v 50 [⟨tLow, qLow, 0⟩] with
      | some technique => some technique
      | none => tLow) = tLow := by
    cases tLow with
    | none => simp [View.GetTechnique.loop]
    | some t =>
      simp only [View.GetTechnique.loop]
      split_ifs <;> rfl
  cases tHigh with
  | none => simpa [View.GetTechnique.loop] using hsecond
  | some t =>
    rw [View.GetTechnique.loop]
    simp only [if_neg h100, ite_self]
    exact hsecond

/-- C1: for a material (given, or the default material standing in for a null one) whose
technique list is non-empty, `GetTechnique` returns the technique of the first entry, in list
order, that has a technique, does not need SM3 while SM3 is unsupported, has a quality level
not above the material quality of the view and an LOD distance threshold not above the LOD
distance of the drawable; when no entry qualifies it returns the technique of the last entry.
For the list [(LOD distance 100, high), (LOD distance 0, low)] and LOD distance 50 the result
is the technique of the low entry, whatever the quality levels are. -/
theorem C1_GetTechnique_first_match (g : Graphics) (r : Renderer) (v : View)
    (drawable : Drawable) (material : Option Material) (m : Material)
    (hm : (match material with
      | none => r.defaultMaterial
      | some x => some x) = some m)
    (hne : m.techniques ≠ []) :
    ((∃ (i : Nat) (hi : i < m.techniques.length),
        Spec.qualifies g v drawable.lodDistance (m.techniques.get ⟨i, hi⟩) ∧
        (∀ (j : Nat) (hj : j < m.techniques.length), j < i →
          ¬ Spec.qualifies g v drawable.lodDistance (m.techniques.get ⟨j, hj⟩)) ∧
        (View.GetTechnique g r v drawable material).1 = (m.techniques.get ⟨i, hi⟩).technique_) ∨
      ((∀ e ∈ m.techniques, ¬ Spec.qualifies g v drawable.lodDistance e) ∧
        (View.GetTechnique g r v drawable material).1 = (m.techniques.getLast hne).technique_)) ∧
    (∀ (tHigh tLow : Option Technique) (qHigh qLow : Int),
      m.techniques = [⟨tHigh, qHigh, 100⟩, ⟨tLow, qLow, 0⟩] → drawable.lodDistance = 50 →
      (View.GetTechnique g r v drawable material).1 = tLow) := by
  have hres := GetTechnique_resolved g r v drawable material m hm hne
  have hmain : (∃ (i : Nat) (hi : i < m.techniques.length),
        Spec.qualifies g v drawable.lodDistance (m.techniques.get ⟨i, hi⟩) ∧
        (∀ (j : Nat) (hj : j < m.techniques.length), j < i →
          ¬ Spec.qualifies g v drawable.lodDistance (m.techniques.get ⟨j, hj⟩)) ∧
        (View.GetTechnique g r v drawable material).1 = (m.techniques.get ⟨i, hi⟩).technique_) ∨
      ((∀ e ∈ m.techniques, ¬ Spec.qualifies g v drawable.lodDistance e) ∧
        (View.GetTechnique g r v drawable material).1 =
          (m.techniques.getLast hne).technique_) := by
    cases hl : View.GetTechnique.loop g v drawable.lodDistance m.techniques with
    | some t =>
      left
      obtain ⟨i, hi, hq, hmin, ht⟩ := GetTechnique_loop_some g v _ _ t hl
      refine ⟨i, hi, hq, hmin, ?_⟩
      rw [hres, hl, ht]
    | none =>
      right
      refine ⟨(GetTechnique_loop_none g v _ _).1 hl, ?_⟩
      rw [hres, hl]
  refine ⟨hmain, ?_⟩
  intro tHigh tLow qHigh qLow hlist hlod
  rw [GetTechnique_resolved' g r v drawable material m hm hne, hlist, hlod]
  exact GetTechnique_loop_example g v tHigh tLow qHigh qLow

/-- Witness for C1: the example material resolved for a drawable at LOD distance 50 with
material quality 2 yields the low technique. -/
theorem C1_GetTechnique_first_match_witness :
    (View.GetTechnique Example.graphics Example.renderer { View.init with materialQuality_ := 2 }
      Example.drawable (some Example.material)).1 = some Example.techniqueLow :=
  (C1_GetTechnique_first_match Example.graphics Example.renderer
    { View.init with materialQuality_ := 2 } Example.drawable (some Example.material)
    Example.material rfl (by simp [Example.material])).2 _ _ _ _ rfl rfl

/-- C3: `Define` returns false exactly when the viewport has no scene or no camera, the scene
is loading asynchronously, the scene has no octree, or the render mode is not forward and a
non-null render target is wider or taller than the back buffer whose size the G-buffer
shares; in every other case it returns true. -/
theorem C3_Define_false_iff (useOpenGL : Bool) (g : Graphics) (r : Renderer) (v : View)
    (renderTarget : Option RenderSurface) (viewport : Viewport) :
    ((View.Define useOpenGL g r v renderTarget viewport).ok = false ↔
      (viewport.scene_ = none ∨ viewport.camera_ = none ∨
        (∃ s, viewport.scene_ = some s ∧ s.asyncLoading = true) ∨
        (∃ s, viewport.scene_ = some s ∧ s.octree = none) ∨
        (g.renderMode ≠ RenderMode.RENDER_FORWARD ∧
          ∃ rt, renderTarget = some rt ∧ (rt.width > g.width ∨ rt.height > g.height)))) ∧
    ((View.Define useOpenGL g r v renderTarget viewport).ok = true ↔
      ¬ (viewport.scene_ = none ∨ viewport.camera_ = none ∨
        (∃ s, viewport.scene_ = some s ∧ s.asyncLoading = true) ∨
        (∃ s, viewport.scene_ = some s ∧ s.octree = none) ∨
        (g.renderMode ≠ RenderMode.RENDER_FORWARD ∧
          ∃ rt, renderTarget = some rt ∧ (rt.width > g.width ∨ rt.height > g.height)))) := by
  have key : (View.Define useOpenGL g r v renderTarget viewport).ok = false ↔
      (viewport.scene_ = none ∨ viewport.camera_ = none ∨
        (∃ s, viewport.scene_ = some s ∧ s.asyncLoading = true) ∨
        (∃ s, viewport.scene_ = some s ∧ s.octree = none) ∨
        (g.renderMode ≠ RenderMode.RENDER_FORWARD ∧
          ∃ rt, renderTarget = some rt ∧ (rt.width > g.width ∨ rt.height > g.height))) := by
    unfold View.Define
    cases hs : viewport.scene_ with
    | none => simp
    | some scene =>
      cases hc : viewport.camera_ with
      | none => simp
      | some camera =>
        simp only
        cases ha : scene.asyncLoading with
        | true => simp [ha]
        | false =>
          cases ho : scene.octree with
          | none => simp [ho]
          | some octree =>
            cases hrt : renderTarget with
            | none => simp [ha, ho]
            | some rt =>
              by_cases hov : g.renderMode ≠ RenderMode.RENDER_FORWARD ∧
                  (rt.width > g.width ∨ rt.height > g.height)
              · simp only [if_pos hov]
                by_cases hmem : rt.id ∈ v.gBufferErrorDisplayed_
                · simp [hmem, hov.1, hov.2]
                · simp [hmem, hov.1, hov.2]
              · simp only [if_neg hov]
                constructor
                · intro h
                  cases h
                · intro h
                  rcases h with h | h | ⟨s, hs', h⟩ | ⟨s, hs', h⟩ | ⟨h1, rt', hrt', h2⟩
                  · cases h
                  · cases h
                  · cases hs'
                    rw [ha] at h
                    cases h
                  · cases hs'
                    rw [ho] at h
                    cases h
                  · cases hrt'
                    exact absurd ⟨h1, h2⟩ hov
  refine ⟨key, ?_⟩
  rw [← key]
  cases (View.Define useOpenGL g r v renderTarget viewport).ok <;> simp

theorem Clamp_bounds (value lo hi : Int) (h : lo ≤ hi) :
    lo ≤ Clamp value lo hi ∧ Clamp value lo hi ≤ hi := by
  unfold Clamp
  split_ifs <;> omega

theorem Clamp_inside (value lo hi : Int) (h1 : lo ≤ value) (h2 : value ≤ hi) :
    Clamp value lo hi = value := by
  unfold Clamp
  split_ifs <;> omega

theorem Define_ok_screenRect (useOpenGL : Bool) (g : Graphics) (r : Renderer) (v : View)
    (renderTarget : Option RenderSurface) (viewport : Viewport)
    (hok : (View.Define useOpenGL g r v renderTarget viewport).ok = true) :
    (View.Define useOpenGL g r v renderTarget viewport).view.screenRect_ =
      (if viewport.rect_ ≠ IntRect.ZERO then
        { left_ := Clamp viewport.rect_.left_ 0 (targetWidth g renderTarget - 1),
          top_ := Clamp viewport.rect_.top_ 0 (targetHeight g renderTarget - 1),
          right_ := Clamp viewport.rect_.right_
            (Clamp viewport.rect_.left_ 0 (targetWidth g renderTarget - 1) + 1)
            (targetWidth g renderTarget),
          bottom_ := Clamp viewport.rect_.bottom_
            (Clamp viewport.rect_.top_ 0 (targetHeight g renderTarget - 1) + 1)
            (targetHeight g renderTarget) }
      else { left_ := 0, top_ := 0, right_ := targetWidth g renderTarget,
             bottom_ := targetHeight g renderTarget }) ∧
    (View.Define useOpenGL g r v renderTarget viewport).view.width_ =
      (View.Define useOpenGL g r v renderTarget viewport).view.screenRect_.right_ -
        (View.Define useOpenGL g r v renderTarget viewport).view.screenRect_.left_ ∧
    (View.Define useOpenGL g r v renderTarget viewport).view.height_ =
      (View.Define useOpenGL g r v renderTarget viewport).view.screenRect_.bottom_ -
        (View.Define useOpenGL g r v renderTarget viewport).view.screenRect_.top_ := by
  unfold View.Define at hok ⊢
  cases hs : viewport.scene_ with
  | none => simp [hs] at hok
  | some scene =>
    cases hc : viewport.camera_ with
    | none => simp [hs, hc] at hok
    | some camera =>
      simp only [hs, hc] at hok ⊢
      cases ha : scene.asyncLoading with
      | true => simp [ha] at hok
      | false =>
        simp only [ha, Bool.false_eq_true, if_false] at hok ⊢
        cases ho : scene.octree with
        | none => simp [ho] at hok
        | some octree =>
          simp only [ho] at hok ⊢
          cases hrt : renderTarget with
          | none =>
            simp [targetWidth, targetHeight]
          | some rt =>
            simp only [hrt] at hok ⊢
            by_cases hov : g.renderMode ≠ RenderMode.RENDER_FORWARD ∧
                (rt.width > g.width ∨ rt.height > g.height)
            · simp only [if_pos hov] at hok
              by_cases hmem : rt.id ∈ v.gBufferErrorDisplayed_
              · simp [hmem] at hok
              · simp [hmem] at hok
            · simp [if_neg hov, targetWidth, targetHeight]

/-- C5: after a successful `Define` on a target of width W >= 1 and height H >= 1 (the
render target, or the back buffer for a null render target): with a non-zero viewport
rectangle the captured screen rectangle satisfies 0 <= left < right <= W and
0 <= top < bottom <= H, the view width and height are right - left >= 1 and
bottom - top >= 1, and the screen rectangle equals the viewport rectangle whenever that
rectangle lies inside the target with positive extent; with the zero rectangle the screen
rectangle is (0, 0, W, H). -/
theorem C5_Define_screenRect (useOpenGL : Bool) (g : Graphics) (r : Renderer) (v : View)
    (renderTarget : Option RenderSurface) (viewport : Viewport)
    (hok : (View.Define useOpenGL g r v renderTarget viewport).ok = true)
    (hW : 1 ≤ targetWidth g renderTarget) (hH : 1 ≤ targetHeight g renderTarget) :
    (viewport.rect_ ≠ IntRect.ZERO →
      (0 ≤ (View.Define useOpenGL g r v renderTarget viewport).view.screenRect_.left_ ∧
        (View.Define useOpenGL g r v renderTarget viewport).view.screenRect_.left_ <
          (View.Define useOpenGL g r v renderTarget viewport).view.screenRect_.right_ ∧
        (View.Define useOpenGL g r v renderTarget viewport).view.screenRect_.right_ ≤
          targetWidth g renderTarget ∧
        0 ≤ (View.Define useOpenGL g r v renderTarget viewport).view.screenRect_.top_ ∧
        (View.Define useOpenGL g r v renderTarget viewport).view.screenRect_.top_ <
          (View.Define useOpenGL g r v renderTarget viewport).view.screenRect_.bottom_ ∧
        (View.Define useOpenGL g r v renderTarget viewport).view.screenRect_.bottom_ ≤
          targetHeight g renderTarget) ∧
      (0 ≤ viewport.rect_.left_ ∧ viewport.rect_.left_ < viewport.rect_.right_ ∧
        viewport.rect_.right_ ≤ targetWidth g renderTarget ∧
        0 ≤ viewport.rect_.top_ ∧ viewport.rect_.top_ < viewport.rect_.bottom_ ∧
        viewport.rect_.bottom_ ≤ targetHeight g renderTarget →
        (View.Define useOpenGL g r v renderTarget viewport).view.screenRect_ = viewport.rect_)) ∧
    (viewport.rect_ = IntRect.ZERO →
      (View.Define useOpenGL g r v renderTarget viewport).view.screenRect_ =
        { left_ := 0, top_ := 0, right_ := targetWidth g renderTarget,
          bottom_ := targetHeight g renderTarget }) ∧
    (View.Define useOpenGL g r v renderTarget viewport).view.width_ =
      (View.Define useOpenGL g r v renderTarget viewport).view.screenRect_.right_ -
        (View.Define useOpenGL g r v renderTarget viewport).view.screenRect_.left_ ∧
    (View.Define useOpenGL g r v renderTarget viewport).view.height_ =
      (View.Define useOpenGL g r v renderTarget viewport).view.screenRect_.bottom_ -
        (View.Define useOpenGL g r v renderTarget viewport).view.screenRect_.top_ ∧
    1 ≤ (View.Define useOpenGL g r v renderTarget viewport).view.width_ ∧
    1 ≤ (View.Define useOpenGL g r v renderTarget viewport).view.height_ := by
  obtain ⟨hrect, hw, hh⟩ := Define_ok_screenRect useOpenGL g r v renderTarget viewport hok
  have hl := Clamp_bounds viewport.rect_.left_ 0 (targetWidth g renderTarget - 1) (by omega)
  have ht := Clamp_bounds viewport.rect_.top_ 0 (targetHeight g renderTarget - 1) (by omega)
  have hr := Clamp_bounds viewport.rect_.right_
    (Clamp viewport.rect_.left_ 0 (targetWidth g renderTarget - 1) + 1)
    (targetWidth g renderTarget) (by omega)
  have hb := Clamp_bounds viewport.rect_.bottom_
    (Clamp viewport.rect_.top_ 0 (targetHeight g renderTarget - 1) + 1)
    (targetHeight g renderTarget) (by omega)
  rw [hw, hh, hrect]
  by_cases hz : viewport.rect_ = IntRect.ZERO
  · rw [if_neg (not_not.mpr hz)]
    refine ⟨fun h => absurd hz h, fun _ => rfl, rfl, rfl, ?_, ?_⟩
    · show 1 ≤ targetWidth g renderTarget - 0
      omega
    · show 1 ≤ targetHeight g renderTarget - 0
      omega
  · rw [if_pos hz]
    refine ⟨fun _ => ⟨⟨hl.1, by dsimp only; omega, hr.2, ht.1, by dsimp only; omega, hb.2⟩, ?_⟩,
      fun h => absurd h hz,
      rfl, rfl, ?_, ?_⟩
    · rintro ⟨h1, h2, h3, h4, h5, h6⟩
      have e1 := Clamp_inside viewport.rect_.left_ 0 (targetWidth g renderTarget - 1) h1
        (by omega)
      have e2 := Clamp_inside viewport.rect_.top_ 0 (targetHeight g renderTarget - 1) h4
        (by omega)
      rw [e1, e2]
      rw [Clamp_inside viewport.rect_.right_ _ _ (by omega) h3,
        Clamp_inside viewport.rect_.bottom_ _ _ (by omega) h6]
    · show 1 ≤ Clamp viewport.rect_.right_ _ _ - Clamp viewport.rect_.left_ _ _
      omega
    · show 1 ≤ Clamp viewport.rect_.bottom_ _ _ - Clamp viewport.rect_.top_ _ _
      omega

/-- Witness for C5: the rectangle (10, 10, 100, 100) on the 800 x 600 back buffer is
captured unchanged. -/
theorem C5_Define_screenRect_witness :
    (View.Define false Example.graphics Example.renderer View.init none
      Example.viewportRect).view.screenRect_ = Example.viewportRect.rect_ :=
  ((C5_Define_screenRect false Example.graphics Example.renderer View.init none
    Example.viewportRect rfl (by decide) (by decide)).1 (by decide)).2 (by decide)

theorem Define_oversized (useOpenGL : Bool) (v : View) (c : DefineCall) (target : Nat)
    (h : Spec.oversizedCall c target) :
    (View.Define useOpenGL c.graphics c.renderer v c.renderTarget c.viewport).ok = false ∧
    (View.Define useOpenGL c.graphics c.renderer v c.renderTarget c.viewport).logged =
      (if target ∈ v.gBufferErrorDisplayed_ then [] else [gBufferErrorText]) ∧
    (View.Define useOpenGL c.graphics c.renderer v
      c.renderTarget c.viewport).view.gBufferErrorDisplayed_ =
      (if target ∈ v.gBufferErrorDisplayed_ then v.gBufferErrorDisplayed_
        else target :: v.gBufferErrorDisplayed_) := by
  obtain ⟨⟨scene, octree, hs, ha, ho⟩, ⟨camera, hc⟩, hmode, rt, hrt, hid, hbig⟩ := h
  unfold View.Define
  simp only [hs, hc, ha, ho, hrt, Bool.false_eq_true, if_false]
  have hov : c.graphics.renderMode ≠ RenderMode.RENDER_FORWARD ∧
      (rt.width > c.graphics.width ∨ rt.height > c.graphics.height) := ⟨hmode, hbig⟩
  simp only [if_pos hov, hid]
  by_cases hmem : target ∈ v.gBufferErrorDisplayed_
  · simp only [if_pos hmem]
    exact ⟨trivial, trivial, trivial⟩
  · simp only [if_neg hmem]
    exact ⟨trivial, trivial, trivial⟩

theorem Define_not_oversized (useOpenGL : Bool) (v : View) (c : DefineCall)
    (h : ∀ target, ¬ Spec.oversizedCall c target) :
    (View.Define useOpenGL c.graphics c.renderer v c.renderTarget c.viewport).logged = [] ∧
    (View.Define useOpenGL c.graphics c.renderer v
      c.renderTarget c.viewport).view.gBufferErrorDisplayed_ = v.gBufferErrorDisplayed_ := by
  unfold View.Define
  cases hs : c.viewport.scene_ with
  | none => simp
  | some scene =>
    cases hc : c.viewport.camera_ with
    | none => simp
    | some camera =>
      simp only
      cases ha : scene.asyncLoading with
      | true => simp
      | false =>
        simp only [Bool.false_eq_true, if_false]
        cases ho : scene.octree with
        | none => simp
        | some octree =>
          cases hrt : c.renderTarget with
          | none => simp
          | some rt =>
            simp only
            by_cases hov : c.graphics.renderMode ≠ RenderMode.RENDER_FORWARD ∧
                (rt.width > c.graphics.width ∨ rt.height > c.graphics.height)
            · exact absurd ⟨⟨scene, octree, hs, ha, ho⟩, ⟨camera, hc⟩, hov.1, rt, hrt, rfl, hov.2⟩
                (h rt.id)
            · simp only [if_neg hov]
              exact ⟨trivial, trivial⟩

theorem Define_displayed_mem (useOpenGL : Bool) (v : View) (c : DefineCall) (target : Nat) :
    target ∈ (View.Define useOpenGL c.graphics c.renderer v
      c.renderTarget c.viewport).view.gBufferErrorDisplayed_ ↔
    (target ∈ v.gBufferErrorDisplayed_ ∨ Spec.oversizedCall c target) := by
  by_cases hex : ∃ t, Spec.oversizedCall c t
  · obtain ⟨t, ht⟩ := hex
    rw [(Define_oversized useOpenGL v c t ht).2.2]
    have huniq : Spec.oversizedCall c target → target = t := by
      intro h1
      obtain ⟨_, _, _, rt, hrt, hid, _⟩ := h1
      obtain ⟨_, _, _, rt', hrt', hid', _⟩ := ht
      rw [hrt] at hrt'
      cases hrt'
      rw [← hid, hid']
    by_cases hmem : t ∈ v.gBufferErrorDisplayed_
    · rw [if_pos hmem]
      constructor
      · exact fun h => Or.inl h
      · rintro (h | h)
        · exact h
        · rw [huniq h]; exact hmem
    · rw [if_neg hmem, List.mem_cons]
      constructor
      · rintro (h | h)
        · right; rw [h]; exact ht
        · left; exact h
      · rintro (h | h)
        · right; exact h
        · left; exact huniq h
  · have hno : ∀ t, ¬ Spec.oversizedCall c t := fun t ht => hex ⟨t, ht⟩
    rw [(Define_not_oversized useOpenGL v c hno).2]
    constructor
    · exact fun h => Or.inl h
    · rintro (h | h)
      · exact h
      · exact absurd h (hno target)

theorem afterDefines_displayed_mem (useOpenGL : Bool) (pre : List DefineCall) (v : View)
    (target : Nat) :
    target ∈ (View.afterDefines useOpenGL v pre).gBufferErrorDisplayed_ ↔
    (target ∈ v.gBufferErrorDisplayed_ ∨ ∃ c ∈ pre, Spec.oversizedCall c target) := by
  induction pre generalizing v with
  | nil => simp [View.afterDefines]
  | cons c rest ih =>
    have hstep : View.afterDefines useOpenGL v (c :: rest) =
        View.afterDefines useOpenGL
          (View.Define useOpenGL c.graphics c.renderer v c.renderTarget c.viewport).view rest := rfl
    rw [hstep, ih, Define_displayed_mem]
    simp only [List.mem_cons, exists_eq_or_imp]
    tauto

/-- C4: take any sequence `pre` of `Define` calls made on a view `v`, followed by a call `c`
that reaches the G-buffer size check with an oversized render target at address `target`
(valid scene, octree and camera, a render mode other than forward, a target wider or taller
than the back buffer). The call `c` returns false. It logs the error exactly when the target
was not yet recorded in `v` and no earlier call of the sequence was such a call for the same
target; otherwise it logs nothing. A call that is not such a call for any target logs
nothing, so over the whole sequence the error is logged once per oversized target. -/
theorem C4_Define_logs_once (useOpenGL : Bool) (v : View) (pre : List DefineCall)
    (c : DefineCall) :
    (∀ target, Spec.oversizedCall c target →
      (View.Define useOpenGL c.graphics c.renderer (View.afterDefines useOpenGL v pre)
        c.renderTarget c.viewport).ok = false ∧
      ((target ∉ v.gBufferErrorDisplayed_ ∧ ∀ c' ∈ pre, ¬ Spec.oversizedCall c' target) →
        (View.Define useOpenGL c.graphics c.renderer (View.afterDefines useOpenGL v pre)
          c.renderTarget c.viewport).logged = [gBufferErrorText]) ∧
      (¬ (target ∉ v.gBufferErrorDisplayed_ ∧ ∀ c' ∈ pre, ¬ Spec.oversizedCall c' target) →
        (View.Define useOpenGL c.graphics c.renderer (View.afterDefines useOpenGL v pre)
          c.renderTarget c.viewport).logged = [])) ∧
    ((∀ target, ¬ Spec.oversizedCall c target) →
      (View.Define useOpenGL c.graphics c.renderer (View.afterDefines useOpenGL v pre)
        c.renderTarget c.viewport).logged = []) := by
  refine ⟨?_, fun h => (Define_not_oversized useOpenGL _ c h).1⟩
  intro target h
  obtain ⟨hok, hlog, _⟩ := Define_oversized useOpenGL (View.afterDefines useOpenGL v pre) c target h
  refine ⟨hok, ?_, ?_⟩
  · rintro ⟨h1, h2⟩
    rw [hlog, if_neg]
    rw [afterDefines_displayed_mem]
    rintro (h3 | ⟨c', hc', h3⟩)
    · exact h1 h3
    · exact h2 c' hc' h3
  · intro hn
    rw [hlog, if_pos]
    rw [afterDefines_displayed_mem]
    by_contra hcon
    apply hn
    refine ⟨fun h3 => hcon (Or.inl h3), fun c' hc' h3 => hcon (Or.inr ⟨c', hc', h3⟩)⟩

theorem Example.oversizedCall_spec : Spec.oversizedCall Example.oversizedCall 7 :=
  ⟨⟨_, _, rfl, rfl, rfl⟩, ⟨_, rfl⟩, by decide, _, rfl, rfl, Or.inl (by decide)⟩

/-- Witness for C4: on a fresh view in deferred mode the first call with the 1024 x 1024
target logs the error, and the same call repeated after it logs nothing. -/
theorem C4_Define_logs_once_witness :
    (View.Define false Example.oversizedCall.graphics Example.oversizedCall.renderer
      (View.afterDefines false View.init []) Example.oversizedCall.renderTarget
      Example.oversizedCall.viewport).logged = [gBufferErrorText] ∧
    (View.Define false Example.oversizedCall.graphics Example.oversizedCall.renderer
      (View.afterDefines false View.init [Example.oversizedCall])
      Example.oversizedCall.renderTarget Example.oversizedCall.viewport).logged = [] :=
  ⟨((C4_Define_logs_once false View.init [] Example.oversizedCall).1 7
      Example.oversizedCall_spec).2.1 ⟨by simp [View.init], by simp⟩,
   ((C4_Define_logs_once false View.init [Example.oversizedCall] Example.oversizedCall).1 7
      Example.oversizedCall_spec).2.2
      (fun h => h.2 _ (List.mem_singleton.2 rfl) Example.oversizedCall_spec)⟩

/-- C10: `ProcessLight` treats a light as shadowed exactly when the view draws shadows, the
light casts shadows, its shadow intensity is below 1, and it is not the case that its shadow
distance is positive and exceeded by the distance of the light. A light that is not treated
as shadowed is not split: `ProcessLight` returns at most one split for it. -/
theorem C10_ProcessLight_isShadowed (camera : Camera) (octree : Octree) (v : View) (w : World)
    (light : Light) :
    (View.ProcessLight.isShadowed v light = true ↔
      (v.drawShadows_ = true ∧ light.castShadows = true ∧ light.shadowIntensity < 1 ∧
        ¬ (light.shadowDistance > 0 ∧ light.distance > light.shadowDistance))) ∧
    (View.ProcessLight.isShadowed v light = false →
      (View.ProcessLight camera octree v w light).1 ≤ 1) := by
  constructor
  · unfold View.ProcessLight.isShadowed
    by_cases h1 : v.drawShadows_ = true <;> by_cases h2 : light.castShadows = true <;>
      by_cases h3 : light.shadowIntensity < 1 <;> by_cases h4 : light.shadowDistance > 0 <;>
      by_cases h5 : light.distance > light.shadowDistance <;> simp [h1, h2, h3, h4, h5]
  · intro h
    unfold View.ProcessLight View.ProcessLight.finish View.ProcessLight.setup
    simp only [h, Bool.false_eq_true, if_false]
    split_ifs <;> simp

/-- Witness for C10: a light that casts no shadows is returned as at most one split. -/
theorem C10_ProcessLight_isShadowed_witness :
    (View.ProcessLight Example.camera (Example.octree [] []) View.init Example.world
      Example.drawable).1 ≤ 1 :=
  (C10_ProcessLight_isShadowed Example.camera (Example.octree [] []) View.init Example.world
    Example.drawable).2 rfl

theorem GetDrawables_zone (camera : Camera) (octree : Octree) (v : View) (w : World) :
    (View.GetDrawables camera octree v w).1.zone_ =
      ((octree.pointQuery camera).foldl View.GetDrawables.zoneStep (v.zone_, M_MIN_INT)).1 := rfl

/-- C8 at the failing input: the point query returns one zone that contains the camera and
has priority `M_MIN_INT`, the least `int`. `GetDrawables` leaves the default zone active
although a returned zone contains the camera position: the test
`zone->GetPriority() > highestZonePriority` against the initial value `M_MIN_INT` is false
for it. -/
theorem C8_GetDrawables_lowest_priority_zone :
    Example.lowestZone.containsCamera = true ∧
    (View.GetDrawables Example.camera (Example.octree [Example.lowestZone] [])
      Example.definedView Example.world).1.zone_ = some Example.defaultZone := by
  refine ⟨rfl, ?_⟩
  rw [GetDrawables_zone]
  rfl

theorem Update_invalid_projection (g : Graphics) (v : View) (w : World) (frame : FrameInfo)
    (camera : Camera) (octree : Octree) (hc : v.camera_ = some camera)
    (ho : v.octree_ = some octree) (hp : camera.projectionValid = false) :
    View.Update g v w frame =
      (({ v with
          frame_ :=
            { camera_ := some camera.id, timeStep_ := frame.timeStep_,
              frameNumber_ := frame.frameNumber_, viewSize_ := (v.width_, v.height_) } } :
          View).clearFrame, w) := by
  unfold View.Update View.Update.body
  simp only [hc, ho, hp, Bool.not_false, if_true]

/-- C6: when the camera and the octree of the view are set and the projection of the camera
is invalid, `Update` returns with every per-frame collection empty: geometries, geometry
depth bounds, lights, occluders, shadow occluders, the G-buffer, base, extra, transparent and
no-shadow light queues, the light queues and the light scissor cache. Neither `GetDrawables`
nor `GetBatches` has run: the result is the cleared view with the new frame information,
whatever the octree would answer, and the world (drawable marks, renderer counters) and the
camera are unchanged. -/
theorem C6_Update_invalid_projection (g : Graphics) (v : View) (w : World) (frame : FrameInfo)
    (camera : Camera) (octree : Octree) (hc : v.camera_ = some camera)
    (ho : v.octree_ = some octree) (hp : camera.projectionValid = false) :
    (View.Update g v w frame).1.geometries_ = [] ∧
    (View.Update g v w frame).1.geometryDepthBounds_ = [] ∧
    (View.Update g v w frame).1.lights_ = [] ∧
    (View.Update g v w frame).1.occluders_ = [] ∧
    (View.Update g v w frame).1.shadowOccluders_ = [] ∧
    (View.Update g v w frame).1.gBufferQueue_ = BatchQueue.Clear ∧
    (View.Update g v w frame).1.baseQueue_ = BatchQueue.Clear ∧
    (View.Update g v w frame).1.extraQueue_ = BatchQueue.Clear ∧
    (View.Update g v w frame).1.transparentQueue_ = BatchQueue.Clear ∧
    (View.Update g v w frame).1.noShadowLightQueue_ = BatchQueue.Clear ∧
    (View.Update g v w frame).1.lightQueues_ = [] ∧
    (View.Update g v w frame).1.lightScissorCache_ = [] ∧
    View.Update g v w frame =
      (({ v with
          frame_ :=
            { camera_ := some camera.id, timeStep_ := frame.timeStep_,
              frameNumber_ := frame.frameNumber_, viewSize_ := (v.width_, v.height_) } } :
          View).clearFrame, w) ∧
    (View.Update g v w frame).1.camera_ = some camera ∧
    (View.Update g v w frame).1.tempDrawables_ = v.tempDrawables_ ∧
    (∀ octree', View.Update g { v with octree_ := some octree' } w frame =
      ({ (View.Update g v w frame).1 with octree_ := some octree' }, w)) := by
  have h := Update_invalid_projection g v w frame camera octree hc ho hp
  refine ⟨?_, ?_, ?_, ?_, ?_, ?_, ?_, ?_, ?_, ?_, ?_, ?_, h, ?_, ?_, ?_⟩
  all_goals try (rw [h]; rfl)
  · rw [h]; exact hc
  · intro octree'
    rw [h, Update_invalid_projection g { v with octree_ := some octree' } w frame camera octree'
      hc rfl hp]
    rfl

/-- Witness for C6: the defined example view with a camera whose projection is invalid. -/
theorem C6_Update_invalid_projection_witness :
    (View.Update Example.graphics { Example.definedView with camera_ := some Example.invalidCamera }
      Example.world Example.frame).1.geometries_ = [] :=
  (C6_Update_invalid_projection Example.graphics
    { Example.definedView with camera_ := some Example.invalidCamera } Example.world
    Example.frame Example.invalidCamera (Example.octree [] [Example.nearDrawable]) rfl rfl rfl).1

theorem Update_null (g : Graphics) (v : View) (w : World) (frame : FrameInfo)
    (h : v.camera_ = none ∨ v.octree_ = none) : View.Update g v w frame = (v, w) := by
  unfold View.Update
  cases hc : v.camera_ with
  | none => rfl
  | some c =>
    rcases h with h | h
    · rw [hc] at h; cases h
    · simp only [h]

theorem Update_set (g : Graphics) (v : View) (w : World) (frame : FrameInfo) (camera : Camera)
    (octree : Octree) (hc : v.camera_ = some camera) (ho : v.octree_ = some octree) :
    View.Update g v w frame = View.Update.body g camera octree v w frame := by
  unfold View.Update
  simp only [hc, ho]

theorem Render_null (v : View) :
    (View.Render v).camera_ = none ∨ (View.Render v).octree_ = none := by
  unfold View.Render
  cases ho : v.octree_ with
  | none => right; exact ho
  | some o =>
    cases hc : v.camera_ with
    | none => left; exact hc
    | some c => left; rfl

theorem Render_geometries (v : View) : (View.Render v).geometries_ = v.geometries_ := by
  unfold View.Render
  cases ho : v.octree_ with
  | none => rfl
  | some o =>
    cases hc : v.camera_ with
    | none => rfl
    | some c => rfl

theorem Update_body_clearFrame (g : Graphics) (camera : Camera) (octree : Octree) (v : View)
    (w : World) (frame : FrameInfo) :
    View.Update.body g camera octree v.clearFrame w frame =
      View.Update.body g camera octree v w frame := rfl

theorem Example.renderedView_geometries :
    Example.renderedView.geometries_ = [Example.nearDrawable] := by
  unfold Example.renderedView
  rw [Render_geometries]
  rfl

/-- Counterexample to C7 as stated: a view is defined, updated and rendered; the next
`Define` fails because the scene is loading; the `Update` that follows returns at once,
because `Render` has forgotten the camera, and the geometry collected by the earlier
`Update` is still in `geometries_`. -/
theorem C7_counterexample :
    (View.Define false Example.graphics Example.renderer Example.renderedView none
      Example.loadingViewport).ok = false ∧
    (View.Update Example.graphics
      (View.Define false Example.graphics Example.renderer Example.renderedView none
        Example.loadingViewport).view
      Example.world { Example.frame with frameNumber_ := 2 }).1.geometries_ =
      [Example.nearDrawable] := by
  have hdef : View.Define false Example.graphics Example.renderer Example.renderedView none
      Example.loadingViewport = { ok := false, view := Example.renderedView, logged := [] } := rfl
  rw [hdef]
  refine ⟨rfl, ?_⟩
  show (View.Update Example.graphics Example.renderedView Example.world
    { Example.frame with frameNumber_ := 2 }).1.geometries_ = [Example.nearDrawable]
  rw [Update_null Example.graphics Example.renderedView Example.world
    { Example.frame with frameNumber_ := 2 } (Render_null _)]
  exact Example.renderedView_geometries

theorem Update_congr (g : Graphics) (v v' : View) (w : World) (frame : FrameInfo)
    (camera : Camera) (octree : Octree) (hc : v.camera_ = some camera)
    (ho : v.octree_ = some octree) (hc' : v'.camera_ = some camera)
    (ho' : v'.octree_ = some octree)
    (hbody : View.Update.body g camera octree v w frame =
      View.Update.body g camera octree v' w frame) :
    View.Update g v w frame = View.Update g v' w frame := by
  rw [Update_set g v w frame camera octree hc ho, Update_set g v' w frame camera octree hc' ho',
    hbody]

/-- C7 as amended: when the camera and the octree of the view are set, `Update` starts by
clearing the twelve per-frame collections (light scissor cache, geometries, geometry depth
bounds, lights, occluders, shadow occluders, the G-buffer, base, extra, transparent and
no-shadow light queues and the light queues), so nothing an earlier `Update` collected remains
when it returns: whatever these collections hold before the call, the view and the world
after the call are those obtained from the view in which all twelve are empty. When the
camera or the octree is null, as before the first successful `Define` and after `Render`,
`Update` returns at once and changes nothing. -/
theorem C7_Update_clears_when_defined (g : Graphics) (v : View) (w : World)
    (frame : FrameInfo) (lightScissorCache : List Nat) (geometries : List Drawable)
    (geometryDepthBounds : List GeometryDepthBounds) (lights : List Light)
    (occluders shadowOccluders : List Drawable)
    (gBufferQueue baseQueue extraQueue transparentQueue noShadowLightQueue : BatchQueue)
    (lightQueues : List LightBatchQueue) :
    (∀ camera octree, v.camera_ = some camera → v.octree_ = some octree →
      View.Update g
        { v with
          lightScissorCache_ := lightScissorCache, geometries_ := geometries,
          geometryDepthBounds_ := geometryDepthBounds, lights_ := lights,
          occluders_ := occluders, shadowOccluders_ := shadowOccluders,
          gBufferQueue_ := gBufferQueue, baseQueue_ := baseQueue, extraQueue_ := extraQueue,
          transparentQueue_ := transparentQueue, noShadowLightQueue_ := noShadowLightQueue,
          lightQueues_ := lightQueues } w frame =
      View.Update g
        { v with
          lightScissorCache_ := [], geometries_ := [], geometryDepthBounds_ := [],
          lights_ := [], occluders_ := [], shadowOccluders_ := [],
          gBufferQueue_ := BatchQueue.Clear, baseQueue_ := BatchQueue.Clear,
          extraQueue_ := BatchQueue.Clear, transparentQueue_ := BatchQueue.Clear,
          noShadowLightQueue_ := BatchQueue.Clear, lightQueues_ := [] } w frame ∧
      View.Update g v w frame =
      View.Update g
        { v with
          lightScissorCache_ := [], geometries_ := [], geometryDepthBounds_ := [],
          lights_ := [], occluders_ := [], shadowOccluders_ := [],
          gBufferQueue_ := BatchQueue.Clear, baseQueue_ := BatchQueue.Clear,
          extraQueue_ := BatchQueue.Clear, transparentQueue_ := BatchQueue.Clear,
          noShadowLightQueue_ := BatchQueue.Clear, lightQueues_ := [] } w frame) ∧
    ((v.camera_ = none ∨ v.octree_ = none) → View.Update g v w frame = (v, w)) := by
  refine ⟨?_, Update_null g v w frame⟩
  intro camera octree hc ho
  exact ⟨Update_congr g _ _ w frame camera octree hc ho hc ho rfl,
    Update_congr g _ _ w frame camera octree hc ho hc ho rfl⟩

/-- Witness for C7: the defined example view with a stale geometry in `geometries_` is
updated to the same view and world as the defined example view with empty collections. -/
theorem C7_Update_clears_when_defined_witness :
    (Example.definedView.camera_ = some Example.camera ∧
      Example.definedView.octree_ = some (Example.octree [] [Example.nearDrawable])) ∧
    View.Update Example.graphics
      { Example.definedView with
        lightScissorCache_ := [], geometries_ := [Example.drawable], geometryDepthBounds_ := [],
        lights_ := [], occluders_ := [], shadowOccluders_ := [],
        gBufferQueue_ := BatchQueue.Clear, baseQueue_ := BatchQueue.Clear,
        extraQueue_ := BatchQueue.Clear, transparentQueue_ := BatchQueue.Clear,
        noShadowLightQueue_ := BatchQueue.Clear, lightQueues_ := [] } Example.world
      Example.frame =
    View.Update Example.graphics
      { Example.definedView with
        lightScissorCache_ := [], geometries_ := [], geometryDepthBounds_ := [],
        lights_ := [], occluders_ := [], shadowOccluders_ := [],
        gBufferQueue_ := BatchQueue.Clear, baseQueue_ := BatchQueue.Clear,
        extraQueue_ := BatchQueue.Clear, transparentQueue_ := BatchQueue.Clear,
        noShadowLightQueue_ := BatchQueue.Clear, lightQueues_ := [] } Example.world
      Example.frame :=
  ⟨⟨rfl, rfl⟩,
    ((C7_Update_clears_when_defined Example.graphics Example.definedView Example.world
      Example.frame [] [Example.drawable] [] [] [] [] BatchQueue.Clear BatchQueue.Clear
      BatchQueue.Clear BatchQueue.Clear BatchQueue.Clear []).1 Example.camera
      (Example.octree [] [Example.nearDrawable]) rfl rfl).1⟩

theorem SplitLight_point (camera : Camera) (v : View) (w : World) (light : Light)
    (h : light.lightType = LightType.LIGHT_POINT) :
    View.SplitLight camera v w light =
      (MAX_CUBEMAP_FACES,
        (View.SplitLight.pointLoop light ((List.range MAX_CUBEMAP_FACES).zip directions) v w).1,
        (View.SplitLight.pointLoop light ((List.range MAX_CUBEMAP_FACES).zip directions) v w).2) := by
  unfold View.SplitLight
  simp [h]

theorem range_zip_directions :
    (List.range MAX_CUBEMAP_FACES).zip directions =
      [(0, (1, 0, 0)), (1, (-1, 0, 0)), (2, (0, 1, 0)), (3, (0, -1, 0)), (4, (0, 0, 1)),
        (5, (0, 0, -1))] := by
  decide

/-- C15: for every point light, `SplitLight` returns exactly 6 splits (the splits of a
shadowed point light). Each split is a copy of the light with light type `LIGHT_SPLITPOINT`,
FOV 90 and aspect ratio 1, and split `i` faces `directions[i]`, whatever the direction of the
light itself is. The six directions are the pairwise distinct unit axes +X, -X, +Y, -Y, +Z,
-Z. -/
theorem C15_SplitLight_point (camera : Camera) (v : View) (w : World) (light : Light)
    (h : light.lightType = LightType.LIGHT_POINT) :
    (View.SplitLight camera v w light).1 = 6 ∧
    (∀ i, i < 6 → ∃ s, (View.SplitLight camera v w light).2.1.splitLights_ i = some s ∧
      s.lightType = LightType.LIGHT_SPLITPOINT ∧ s.fov = 90 ∧ s.aspectRatio = 1 ∧
      s.direction = directions.get? i ∧ s.originalLight = some light.id) ∧
    directions = [(1, 0, 0), (-1, 0, 0), (0, 1, 0), (0, -1, 0), (0, 0, 1), (0, 0, -1)] ∧
    directions.Nodup := by
  rw [SplitLight_point camera v w light h, range_zip_directions]
  refine ⟨rfl, ?_, rfl, by decide⟩
  intro i hi
  simp only [View.SplitLight.pointLoop, List.foldl_cons, List.foldl_nil, View.setSplitLight,
    Renderer.CreateSplitLight]
  interval_cases i <;> simp [Function.update, directions]

/-- Witness for C15: the example point light. -/
theorem C15_SplitLight_point_witness :
    (View.SplitLight Example.camera View.init Example.world Example.pointLight).1 = 6 :=
  (C15_SplitLight_point Example.camera View.init Example.world Example.pointLight rfl).1

theorem SplitLight_loop_done (camera : Camera) (light : Light) (splits : Nat)
    (farClip nearClip : Rat) (createExtraSplit : Bool) (i : Nat) (v : View) (w : World)
    (h : ¬ i < splits) :
    View.SplitLight.loop camera light splits farClip nearClip createExtraSplit i v w =
      (i, v, w) := by
  rw [View.SplitLight.loop]
  simp only [h, if_false]

theorem SplitLight_no_cascade (camera : Camera) (v : View) (w : World) (light : Light)
    (hdir : light.lightType = LightType.LIGHT_DIRECTIONAL)
    (hsplits : light.shadowCascade.splits_ = 0)
    (hrange : light.shadowCascade.shadowRange_ < camera.farClip) :
    View.SplitLight camera v w light = (1, v, w) := by
  unfold View.SplitLight
  have hmin : min light.shadowCascade.shadowRange_ camera.farClip < camera.farClip := by
    rw [min_eq_left (le_of_lt hrange)]
    exact hrange
  simp only [hdir, if_true, hsplits, MAX_LIGHT_SPLITS]
  rw [SplitLight_loop_done _ _ _ _ _ _ _ _ _ (by simp)]
  simp [hmin]

/-- C14 at the failing input: a directional light with a cascade count of 0 and a shadow
range (100) below the far clip distance of the camera (1000). `SplitLight` returns 1, the
count the claim gives for "no shadow-casting split plus one extra split", but it has created
no split light and assigned no entry of `splitLights_`: the extra split is only created
inside the cascade loop, in its last iteration, and the loop body never runs. -/
theorem C14_SplitLight_no_cascade_no_extra_split :
    Example.noCascadeLight.shadowCascade.shadowRange_ < Example.camera.farClip ∧
    (View.SplitLight Example.camera View.init Example.world Example.noCascadeLight).1 = 1 ∧
    (View.SplitLight Example.camera View.init Example.world
      Example.noCascadeLight).2.1.splitLights_ 0 = none ∧
    (View.SplitLight Example.camera View.init Example.world
      Example.noCascadeLight).2.2.renderer.numSplitLights = Example.world.renderer.numSplitLights := by
  have hr : Example.noCascadeLight.shadowCascade.shadowRange_ < Example.camera.farClip := by
    decide
  rw [SplitLight_no_cascade Example.camera View.init Example.world Example.noCascadeLight rfl rfl hr]
  exact ⟨hr, rfl, rfl, rfl⟩

theorem setSplitLight_get (v : View) (i j : Nat) (s : Light) :
    (v.setSplitLight i s).splitLights_ j = if j = i then some s else v.splitLights_ j := by
  unfold View.setSplitLight
  by_cases h : j = i
  · subst h
    simp
  · simp [Function.update, h]

theorem SplitLight_loop_step (camera : Camera) (light : Light) (splits : Nat)
    (farClip nearClip : Rat) (createExtraSplit : Bool) (i : Nat) (v : View) (w : World)
    (hi : i < splits)
    (hnb : ¬ (Float32.sub (Spec.boundary w.renderer.powf light splits farClip nearClip i)
      (Spec.fadeRange w.renderer.powf light splits farClip nearClip i) > camera.farClip)) :
    View.SplitLight.loop camera light splits farClip nearClip createExtraSplit i v w =
      if createExtraSplit && decide (i = splits - 1) then
        View.SplitLight.loop camera light splits farClip nearClip createExtraSplit (i + 1)
          ((v.setSplitLight i
            (View.SplitLight.cascadeSplit camera (w.renderer.CreateSplitLight light).1 splits i
              createExtraSplit (Spec.boundary w.renderer.powf light splits farClip nearClip i)
              (Spec.fadeRange w.renderer.powf light splits farClip nearClip i)
              (Spec.boundary w.renderer.powf light splits farClip nearClip (i + 1))
              (Spec.fadeRange w.renderer.powf light splits farClip nearClip (i + 1)))).setSplitLight (i + 1)
            (View.SplitLight.extraSplit
              ((w.renderer.CreateSplitLight light).2.CreateSplitLight light).1
              (Spec.boundary w.renderer.powf light splits farClip nearClip (i + 1))
              (Spec.fadeRange w.renderer.powf light splits farClip nearClip (i + 1))))
          { w with renderer := ((w.renderer.CreateSplitLight light).2.CreateSplitLight light).2 }
      else
        View.SplitLight.loop camera light splits farClip nearClip createExtraSplit (i + 1)
          (v.setSplitLight i
            (View.SplitLight.cascadeSplit camera (w.renderer.CreateSplitLight light).1 splits i
              createExtraSplit (Spec.boundary w.renderer.powf light splits farClip nearClip i)
              (Spec.fadeRange w.renderer.powf light splits farClip nearClip i)
              (Spec.boundary w.renderer.powf light splits farClip nearClip (i + 1))
              (Spec.fadeRange w.renderer.powf light splits farClip nearClip (i + 1))))
          { w with renderer := (w.renderer.CreateSplitLight light).2 } := by
  rw [View.SplitLight.loop]
  simp only [hi, if_true]
  unfold Spec.fadeRange Spec.boundary Spec.iPerM Spec.fadeFactor at hnb
  rw [if_neg hnb]
  rfl

theorem cascadeSplit_spec (P : Rat → Rat → Rat) (camera : Camera) (light : Light) (r : Renderer)
    (splits : Nat) (farClip nearClip : Rat) (createExtraSplit : Bool) (i : Nat) :
    Spec.isCascadeSplit P camera light splits farClip nearClip createExtraSplit i
      (View.SplitLight.cascadeSplit camera (r.CreateSplitLight light).1 splits i createExtraSplit
        (Spec.boundary P light splits farClip nearClip i)
        (Spec.fadeRange P light splits farClip nearClip i)
        (Spec.boundary P light splits farClip nearClip (i + 1))
        (Spec.fadeRange P light splits farClip nearClip (i + 1))) := by
  unfold Spec.isCascadeSplit View.SplitLight.cascadeSplit Renderer.CreateSplitLight
  refine ⟨rfl, rfl, rfl, ?_, rfl, rfl, rfl⟩
  simp only [Bool.or_eq_true, decide_eq_true_eq]

theorem SplitLight_loop_spec (P : Rat → Rat → Rat) (camera : Camera) (light : Light)
    (splits : Nat) (farClip nearClip : Rat) (createExtraSplit : Bool)
    (hnb : ∀ i, i < splits →
      ¬ (Float32.sub (Spec.boundary P light splits farClip nearClip i)
        (Spec.fadeRange P light splits farClip nearClip i) > camera.farClip)) :
    ∀ (k i : Nat) (v : View) (w : World), splits - i = k → i ≤ splits → w.renderer.powf = P →
      (View.SplitLight.loop camera light splits farClip nearClip createExtraSplit i v w).1 =
        splits ∧
      (View.SplitLight.loop camera light splits farClip nearClip createExtraSplit i v
        w).2.2.renderer.powf = P ∧
      (∀ j, j < i →
        (View.SplitLight.loop camera light splits farClip nearClip createExtraSplit i v
          w).2.1.splitLights_ j = v.splitLights_ j) ∧
      (∀ j, i ≤ j → j < splits → ∃ s,
        (View.SplitLight.loop camera light splits farClip nearClip createExtraSplit i v
          w).2.1.splitLights_ j = some s ∧
        Spec.isCascadeSplit P camera light splits farClip nearClip createExtraSplit j s) ∧
      (i < splits → createExtraSplit = true → ∃ s,
        (View.SplitLight.loop camera light splits farClip nearClip createExtraSplit i v
          w).2.1.splitLights_ splits = some s ∧
        s.nearSplit = Spec.boundary P light splits farClip nearClip splits ∧
        s.nearFadeRange =
          Spec.fadeRange P light splits farClip nearClip splits ∧
        s.castShadows = false ∧ s.lightType = light.lightType ∧
        s.originalLight = some light.id) ∧
      (createExtraSplit = false →
        (View.SplitLight.loop camera light splits farClip nearClip createExtraSplit i v
          w).2.1.splitLights_ splits = v.splitLights_ splits) := by
  intro k
  induction k with
  | zero =>
    intro i v w hk hi hP
    have hnot : ¬ i < splits := by omega
    rw [SplitLight_loop_done _ _ _ _ _ _ _ _ _ hnot]
    refine ⟨by omega, hP, fun _ _ => rfl, ?_, fun h => absurd h hnot, fun _ => rfl⟩
    intro j h1 h2
    omega
  | succ k ih =>
    intro i v w hk hi hP
    have hlt : i < splits := by omega
    have hnbi := hnb i hlt
    rw [← hP] at hnbi
    rw [SplitLight_loop_step _ _ _ _ _ _ _ _ _ hlt hnbi]
    rw [hP]
    by_cases hcase : (createExtraSplit && decide (i = splits - 1)) = true
    · rw [if_pos hcase]
      simp only [Bool.and_eq_true, decide_eq_true_eq] at hcase
      obtain ⟨hex, hlast⟩ := hcase
      have hnext : ¬ (i + 1 < splits) := by omega
      have hsp : i + 1 = splits := by omega
      rw [SplitLight_loop_done _ _ _ _ _ _ _ _ _ hnext]
      refine ⟨hsp, hP, ?_, ?_, ?_, ?_⟩
      · intro j hj
        rw [setSplitLight_get, setSplitLight_get, if_neg (by omega), if_neg (by omega)]
      · intro j h1 h2
        have hji : j = i := by omega
        subst hji
        refine ⟨_, ?_, cascadeSplit_spec P camera light w.renderer splits farClip nearClip
          createExtraSplit j⟩
        rw [setSplitLight_get, setSplitLight_get, if_neg (by omega), if_pos rfl]
      · intro _ _
        refine ⟨View.SplitLight.extraSplit
          ((w.renderer.CreateSplitLight light).2.CreateSplitLight light).1
          (Spec.boundary P light splits farClip nearClip (i + 1))
          (Spec.fadeRange P light splits farClip nearClip (i + 1)), ?_, ?_⟩
        · rw [setSplitLight_get, if_pos hsp.symm]
        · rw [hsp]
          exact ⟨rfl, rfl, rfl, rfl, rfl⟩
      · intro hfalse
        rw [hex] at hfalse
        cases hfalse
    · rw [if_neg hcase]
      have hP' : ({ w with renderer := (w.renderer.CreateSplitLight light).2 } :
          World).renderer.powf = P := hP
      obtain ⟨h1, h2, h3, h4, h5, h6⟩ := ih (i + 1)
        (v.setSplitLight i
          (View.SplitLight.cascadeSplit camera (w.renderer.CreateSplitLight light).1 splits i
            createExtraSplit (Spec.boundary P light splits farClip nearClip i)
            (Spec.fadeRange P light splits farClip nearClip i)
            (Spec.boundary P light splits farClip nearClip (i + 1))
            (Spec.fadeRange P light splits farClip nearClip (i + 1))))
        { w with renderer := (w.renderer.CreateSplitLight light).2 } (by omega) (by omega) hP'
      refine ⟨h1, h2, ?_, ?_, ?_, ?_⟩
      · intro j hj
        rw [h3 j (by omega), setSplitLight_get, if_neg (by omega)]
      · intro j hj1 hj2
        by_cases hji : j = i
        · subst hji
          refine ⟨_, ?_, cascadeSplit_spec P camera light w.renderer splits farClip nearClip
            createExtraSplit j⟩
          rw [h3 j (by omega), setSplitLight_get, if_pos rfl]
        · exact h4 j (by omega) hj2
      · intro _ hex
        have hne : i ≠ splits - 1 := by
          intro heq
          apply hcase
          simp [hex, heq]
        exact h5 (by omega) hex
      · intro hfalse
        rw [h6 hfalse, setSplitLight_get, if_neg (by omega)]

/-! ### Rounding error of the single precision operations -/

theorem roundHalfEven_err (y : Rat) : |((roundHalfEven y : Int) : Rat) - y| ≤ 1 / 2 := by
  have h1 : ((⌊y⌋ : Int) : Rat) ≤ y := Int.floor_le y
  have h2 : y < ((⌊y⌋ : Int) : Rat) + 1 := Int.lt_floor_add_one y
  unfold roundHalfEven
  rw [abs_le]
  split_ifs with ha hb hc
  · constructor <;> linarith
  · push_cast
    constructor <;> linarith
  · have : y - ((⌊y⌋ : Int) : Rat) = 1 / 2 := le_antisymm (not_lt.mp hb) (not_lt.mp ha)
    constructor <;> linarith
  · have : y - ((⌊y⌋ : Int) : Rat) = 1 / 2 := le_antisymm (not_lt.mp hb) (not_lt.mp ha)
    push_cast
    constructor <;> linarith

theorem Float32.log2Fuel_spec : ∀ (fuel n : Nat), n ≤ fuel → n ≠ 0 →
    2 ^ Float32.log2Fuel fuel n ≤ n ∧ n < 2 ^ (Float32.log2Fuel fuel n + 1) := by
  intro fuel
  induction fuel with
  | zero =>
    intro n h1 h2
    omega
  | succ fuel ih =>
    intro n h1 h2
    unfold Float32.log2Fuel
    by_cases hlt : n < 2
    · rw [if_pos hlt]
      have : n = 1 := by omega
      subst this
      norm_num
    · rw [if_neg hlt]
      obtain ⟨i1, i2⟩ := ih (n / 2) (by omega) (by omega)
      rw [pow_succ] at i2 ⊢
      rw [pow_succ]
      constructor
      · omega
      · omega

theorem Float32.log2_spec (n : Nat) (hn : n ≠ 0) :
    2 ^ Float32.log2 n ≤ n ∧ n < 2 ^ (Float32.log2 n + 1) :=
  Float32.log2Fuel_spec n n (Nat.le_refl n) hn

theorem scaled_ge (a : Rat) (ha : 0 < a) :
    (8388608 : Rat) ≤
      a / (2 : Rat) ^
        ((Float32.log2 a.num.natAbs : Int) - (Float32.log2 a.den : Int) - 24) := by
  have hn0 : a.num.natAbs ≠ 0 := by
    intro h
    have : a.num = 0 := Int.natAbs_eq_zero.mp h
    have : a = 0 := Rat.num_eq_zero.mp this
    exact absurd this (ne_of_gt ha)
  have hd0 : a.den ≠ 0 := a.den_nz
  have h1 : 2 ^ Float32.log2 a.num.natAbs ≤ a.num.natAbs := (Float32.log2_spec _ hn0).1
  have h2 : a.den < 2 ^ (Float32.log2 a.den + 1) := (Float32.log2_spec _ hd0).2
  have hnum : (a.num : Rat) = (a.num.natAbs : Rat) := by
    have hpos : 0 < a.num := Rat.num_pos.mpr ha
    have h : ((a.num.natAbs : Int)) = a.num := Int.natAbs_of_nonneg (le_of_lt hpos)
    have h' : (((a.num.natAbs : Int)) : Rat) = (a.num : Rat) := congrArg _ h
    rw [← h']
    exact Int.cast_natCast _
  have h1' : ((2 : Rat) ^ Float32.log2 a.num.natAbs) ≤ (a.num.natAbs : Rat) := by
    exact_mod_cast h1
  have h2' : (a.den : Rat) < (2 : Rat) ^ (Float32.log2 a.den + 1) := by exact_mod_cast h2
  have hq : (2 : Rat) ^
      ((Float32.log2 a.num.natAbs : Int) - (Float32.log2 a.den : Int) - 24) =
      (2 : Rat) ^ Float32.log2 a.num.natAbs /
        ((2 : Rat) ^ (Float32.log2 a.den + 1) * 8388608) := by
    rw [zpow_sub₀ (by norm_num), zpow_sub₀ (by norm_num), zpow_natCast, zpow_natCast]
    rw [pow_succ]
    norm_num
    field_simp
    ring
  rw [hq]
  have hp1 : (0 : Rat) < (2 : Rat) ^ Float32.log2 a.num.natAbs := by positivity
  have hp2 : (0 : Rat) < (2 : Rat) ^ (Float32.log2 a.den + 1) := by positivity
  rw [le_div_iff₀ (by positivity)]
  rw [mul_div_assoc']
  rw [div_le_iff₀ (by positivity)]
  have hle : (2 : Rat) ^ Float32.log2 a.num.natAbs ≤
      a * (2 : Rat) ^ (Float32.log2 a.den + 1) := by
    have : (a.num.natAbs : Rat) = a * (a.den : Rat) := by
      rw [← hnum]
      exact (Rat.mul_den_eq_num a).symm
    calc (2 : Rat) ^ Float32.log2 a.num.natAbs ≤ (a.num.natAbs : Rat) := h1'
      _ = a * (a.den : Rat) := this
      _ ≤ a * (2 : Rat) ^ (Float32.log2 a.den + 1) := by
        apply mul_le_mul_of_nonneg_left (le_of_lt h2') (le_of_lt ha)
  nlinarith

theorem Float32.round_abs_err (a : Rat) (q : Int)
    (hm : (8388608 : Rat) ≤ a / (2 : Rat) ^ q) :
    |(if a / (2 : Rat) ^ q < 16777216 then
        ((roundHalfEven (a / (2 : Rat) ^ q) : Int) : Rat) * (2 : Rat) ^ q
      else ((roundHalfEven (a / (2 : Rat) ^ q / 2) : Int) : Rat) * (2 : Rat) ^ (q + 1)) - a| ≤
      a / 16777216 := by
  have hP : (0 : Rat) < (2 : Rat) ^ q := by positivity
  generalize hmdef : a / (2 : Rat) ^ q = m at hm
  have ham : a = m * (2 : Rat) ^ q := by
    rw [← hmdef]
    field_simp
  have hq1 : (2 : Rat) ^ (q + 1) = (2 : Rat) ^ q * 2 := by
    rw [zpow_add₀ (by norm_num), zpow_one]
  rw [hq1]
  generalize (2 : Rat) ^ q = P at hP ham
  by_cases hlt : m < 16777216
  · rw [if_pos hlt]
    have he := roundHalfEven_err m
    rw [ham]
    have : ((roundHalfEven m : Int) : Rat) * P - m * P = (((roundHalfEven m : Int) : Rat) - m) * P := by
      ring
    rw [this, abs_mul, abs_of_pos hP]
    have h1 : |((roundHalfEven m : Int) : Rat) - m| * P ≤ 1 / 2 * P :=
      mul_le_mul_of_nonneg_right he (le_of_lt hP)
    have h2 : (8388608 : Rat) * P ≤ m * P := mul_le_mul_of_nonneg_right hm (le_of_lt hP)
    linarith
  · rw [if_neg hlt]
    have he := roundHalfEven_err (m / 2)
    rw [ham]
    have : ((roundHalfEven (m / 2) : Int) : Rat) * (P * 2) - m * P =
        (((roundHalfEven (m / 2) : Int) : Rat) - m / 2) * (2 * P) := by
      ring
    rw [this, abs_mul, abs_of_pos (by linarith : (0 : Rat) < 2 * P)]
    have h1 : |((roundHalfEven (m / 2) : Int) : Rat) - m / 2| * (2 * P) ≤ 1 / 2 * (2 * P) :=
      mul_le_mul_of_nonneg_right he (by linarith)
    have h2 : (16777216 : Rat) * P ≤ m * P :=
      mul_le_mul_of_nonneg_right (not_lt.mp hlt) (le_of_lt hP)
    linarith

theorem Float32.round_err (x : Rat) : |Float32.round x - x| ≤ |x| / 16777216 := by
  unfold Float32.round
  by_cases h0 : x = 0
  · rw [if_pos h0, h0]
    norm_num
  · rw [if_neg h0]
    dsimp only
    have ha : 0 < |x| := abs_pos.mpr h0
    have hb := Float32.round_abs_err |x| _ (scaled_ge |x| ha)
    by_cases hneg : x < 0
    · rw [if_pos hneg]
      have hr : ∀ r : Rat, abs (-r - x) = abs (r - abs x) := by
        intro r
        rw [abs_of_neg hneg, ← abs_neg]
        congr 1
        ring
      rw [hr]
      exact hb
    · rw [if_neg hneg]
      have hx : |x| = x := abs_of_nonneg (not_lt.mp hneg)
      rw [hx] at hb ⊢
      exact hb

theorem Float32.round_le (x : Rat) (hx : 0 ≤ x) :
    Float32.round x ≤ x * (16777217 / 16777216) := by
  have h := Float32.round_err x
  rw [abs_le, abs_of_nonneg hx] at h
  linarith [h.2]

theorem Float32.le_round (x : Rat) (hx : 0 ≤ x) :
    x * (16777215 / 16777216) ≤ Float32.round x := by
  have h := Float32.round_err x
  rw [abs_le, abs_of_nonneg hx] at h
  linarith [h.1]

theorem Float32.round_nonneg (x : Rat) (hx : 0 ≤ x) : 0 ≤ Float32.round x := by
  have h := Float32.le_round x hx
  have : 0 ≤ x * (16777215 / 16777216) := by positivity
  linarith



theorem Float32.round_nonpos (x : Rat) (hx : x ≤ 0) : Float32.round x ≤ 0 := by
  have h := Float32.round_err x
  rw [abs_le, abs_of_nonpos hx] at h
  linarith [h.2]

theorem within_refl (x : Rat) : Spec.within 0 x x := by
  unfold Spec.within
  simp

theorem within_nonneg (k : Nat) (x y : Rat) (hy : 0 ≤ y) (h : Spec.within k x y) : 0 ≤ x := by
  have : 0 ≤ y * (16777215 / 16777216 : Rat) ^ k := by positivity
  exact le_trans this h.1

theorem within_round (k : Nat) (x y : Rat) (hy : 0 ≤ y) (h : Spec.within k x y) :
    Spec.within (k + 1) (Float32.round x) y := by
  have hx := within_nonneg k x y hy h
  have h1 := Float32.le_round x hx
  have h2 := Float32.round_le x hx
  unfold Spec.within at h ⊢
  rw [pow_succ, pow_succ]
  constructor
  · have : y * (16777215 / 16777216 : Rat) ^ k * (16777215 / 16777216) ≤
        x * (16777215 / 16777216) := mul_le_mul_of_nonneg_right h.1 (by norm_num)
    linarith
  · have : x * (16777217 / 16777216 : Rat) ≤
        y * (16777217 / 16777216 : Rat) ^ k * (16777217 / 16777216) :=
      mul_le_mul_of_nonneg_right h.2 (by norm_num)
    linarith

theorem within_mul (j k : Nat) (x1 y1 x2 y2 : Rat) (hy1 : 0 ≤ y1) (hy2 : 0 ≤ y2)
    (h1 : Spec.within j x1 y1) (h2 : Spec.within k x2 y2) :
    Spec.within (j + k) (x1 * x2) (y1 * y2) := by
  have hx1 := within_nonneg j x1 y1 hy1 h1
  have hx2 := within_nonneg k x2 y2 hy2 h2
  unfold Spec.within at h1 h2 ⊢
  rw [pow_add, pow_add]
  constructor
  · have : y1 * (16777215 / 16777216 : Rat) ^ j * (y2 * (16777215 / 16777216 : Rat) ^ k) ≤
        x1 * x2 := mul_le_mul h1.1 h2.1 (by positivity) hx1
    linarith
  · have : x1 * x2 ≤
        y1 * (16777217 / 16777216 : Rat) ^ j * (y2 * (16777217 / 16777216 : Rat) ^ k) :=
      mul_le_mul h1.2 h2.2 hx2 (by positivity)
    linarith

theorem within_add (k : Nat) (x1 y1 x2 y2 : Rat)
    (h1 : Spec.within k x1 y1) (h2 : Spec.within k x2 y2) :
    Spec.within k (x1 + x2) (y1 + y2) := by
  unfold Spec.within at h1 h2 ⊢
  constructor
  · linarith [h1.1, h2.1]
  · linarith [h1.2, h2.2]

theorem within_mono (j k : Nat) (x y : Rat) (hy : 0 ≤ y) (hjk : j ≤ k)
    (h : Spec.within j x y) : Spec.within k x y := by
  unfold Spec.within at h ⊢
  have hl : (16777215 / 16777216 : Rat) ^ k ≤ (16777215 / 16777216 : Rat) ^ j :=
    pow_le_pow_of_le_one (by norm_num) (by norm_num) hjk
  have hu : (16777217 / 16777216 : Rat) ^ j ≤ (16777217 / 16777216 : Rat) ^ k :=
    pow_le_pow_right₀ (by norm_num) hjk
  constructor
  · exact le_trans (mul_le_mul_of_nonneg_left hl hy) h.1
  · exact le_trans h.2 (mul_le_mul_of_nonneg_left hu hy)

theorem atMost_nonneg (k : Nat) (x y : Rat) (h : Spec.atMost k x y) : 0 ≤ y := by
  have h1 : 0 ≤ y * (16777217 / 16777216 : Rat) ^ k := le_trans h.1 h.2
  have hp : (0 : Rat) < (16777217 / 16777216 : Rat) ^ k := by positivity
  by_contra hneg
  have : y * (16777217 / 16777216 : Rat) ^ k < 0 :=
    mul_neg_of_neg_of_pos (not_le.mp hneg) hp
  linarith

theorem atMost_exact (x : Rat) (hx : 0 ≤ x) : Spec.atMost 0 x x := by
  unfold Spec.atMost
  simp [hx]

theorem atMost_round (k : Nat) (x y : Rat) (h : Spec.atMost k x y) :
    Spec.atMost (k + 1) (Float32.round x) y := by
  have h2 := Float32.round_le x h.1
  unfold Spec.atMost at h ⊢
  rw [pow_succ]
  refine ⟨Float32.round_nonneg x h.1, ?_⟩
  have : x * (16777217 / 16777216 : Rat) ≤
      y * (16777217 / 16777216 : Rat) ^ k * (16777217 / 16777216) :=
    mul_le_mul_of_nonneg_right h.2 (by norm_num)
  linarith

theorem atMost_mul (j k : Nat) (x1 y1 x2 y2 : Rat)
    (h1 : Spec.atMost j x1 y1) (h2 : Spec.atMost k x2 y2) :
    Spec.atMost (j + k) (x1 * x2) (y1 * y2) := by
  have hy1 := atMost_nonneg j x1 y1 h1
  unfold Spec.atMost at h1 h2 ⊢
  rw [pow_add]
  refine ⟨mul_nonneg h1.1 h2.1, ?_⟩
  have : x1 * x2 ≤
      y1 * (16777217 / 16777216 : Rat) ^ j * (y2 * (16777217 / 16777216 : Rat) ^ k) :=
    mul_le_mul h1.2 h2.2 h2.1 (by positivity)
  linarith

theorem atMost_add (k : Nat) (x1 y1 x2 y2 : Rat)
    (h1 : Spec.atMost k x1 y1) (h2 : Spec.atMost k x2 y2) :
    Spec.atMost k (x1 + x2) (y1 + y2) := by
  unfold Spec.atMost at h1 h2 ⊢
  exact ⟨add_nonneg h1.1 h2.1, by linarith [h1.2, h2.2]⟩

theorem atMost_mono (j k : Nat) (x y : Rat) (hjk : j ≤ k)
    (h : Spec.atMost j x y) : Spec.atMost k x y := by
  have hy := atMost_nonneg j x y h
  unfold Spec.atMost at h ⊢
  have hu : (16777217 / 16777216 : Rat) ^ j ≤ (16777217 / 16777216 : Rat) ^ k :=
    pow_le_pow_right₀ (by norm_num) hjk
  exact ⟨h.1, le_trans h.2 (mul_le_mul_of_nonneg_left hu hy)⟩

theorem atMost_of_le (k : Nat) (x x' y : Rat) (h0 : 0 ≤ x') (hle : x' ≤ x)
    (h : Spec.atMost k x y) : Spec.atMost k x' y :=
  ⟨h0, le_trans hle h.2⟩

theorem atMost_of_within (k : Nat) (x y : Rat) (hy : 0 ≤ y) (h : Spec.within k x y) :
    Spec.atMost k x y :=
  ⟨within_nonneg k x y hy h, h.2⟩



theorem div_within (farClip nearClip : Rat) (hn : 0 < nearClip) (hnf : nearClip ≤ farClip) :
    Spec.within 1 (Float32.div farClip nearClip) (farClip / nearClip) ∧
      0 < Float32.div farClip nearClip ∧ 1 ≤ farClip / nearClip := by
  have hx : 1 ≤ farClip / nearClip := by
    rw [le_div_iff₀ hn]
    linarith
  have hw : Spec.within 1 (Float32.div farClip nearClip) (farClip / nearClip) :=
    within_round 0 _ _ (by linarith) (within_refl _)
  refine ⟨hw, ?_, hx⟩
  have := hw.1
  have h2 : (0 : Rat) < farClip / nearClip * (16777215 / 16777216) ^ 1 := by
    have : (0 : Rat) < farClip / nearClip := by linarith
    positivity
  linarith

theorem splitDistance_atMost (P : Rat → Rat → Rat) (cascade : CascadeParameters)
    (farClip nearClip t : Rat)
    (hPb : Spec.powfBounded P)
    (hl0 : 0 ≤ cascade.lambda_) (hl1 : cascade.lambda_ ≤ 1)
    (hn : 0 < nearClip) (hnf : nearClip ≤ farClip) (ht0 : 0 ≤ t) (ht1 : t ≤ 1) :
    Spec.atMost 6 (View.SplitLight.splitDistance P cascade farClip nearClip t) farClip := by
  obtain ⟨hX, hXpos, hx1⟩ := div_within farClip nearClip hn hnf
  obtain ⟨hp1, hp2⟩ := hPb (Float32.div farClip nearClip) t hXpos ht0 ht1
  have hppos : 0 ≤ P (Float32.div farClip nearClip) t :=
    le_trans (le_min (by norm_num) (le_of_lt hXpos)) hp1
  have hp : Spec.atMost 1 (P (Float32.div farClip nearClip) t) (farClip / nearClip) := by
    refine ⟨hppos, le_trans hp2 (max_le ?_ hX.2)⟩
    have : farClip / nearClip ≤ farClip / nearClip * (16777217 / 16777216) ^ 1 := by
      have h0 : (0 : Rat) ≤ farClip / nearClip := by linarith
      nlinarith
    linarith
  have hnp : Spec.atMost 1 (nearClip * P (Float32.div farClip nearClip) t) farClip := by
    have h := atMost_mul 0 1 _ _ _ _ (atMost_exact nearClip (le_of_lt hn)) hp
    have he : nearClip * (farClip / nearClip) = farClip := by
      field_simp
    rw [he] at h
    exact h
  have hlog : Spec.atMost 2
      (Float32.mul nearClip (P (Float32.div farClip nearClip) t)) farClip :=
    atMost_round 1 _ _ hnp
  have hd : Spec.atMost 1 (Float32.sub farClip nearClip) (farClip - nearClip) :=
    atMost_round 0 _ _ (atMost_exact _ (by linarith))
  have hdt : Spec.atMost 1 (Float32.sub farClip nearClip * t) (farClip - nearClip) :=
    atMost_of_le 1 _ _ _ (mul_nonneg hd.1 ht0)
      (by have := hd.1; nlinarith) hd
  have hdm : Spec.atMost 2 (Float32.mul (Float32.sub farClip nearClip) t)
      (farClip - nearClip) := atMost_round 1 _ _ hdt
  have hsum : Spec.atMost 2
      (nearClip + Float32.mul (Float32.sub farClip nearClip) t) farClip := by
    have h := atMost_add 2 _ _ _ _
      (atMost_mono 0 2 _ _ (by norm_num) (atMost_exact nearClip (le_of_lt hn))) hdm
    have he : nearClip + (farClip - nearClip) = farClip := by ring
    rw [he] at h
    exact h
  have huni : Spec.atMost 3
      (Float32.add nearClip (Float32.mul (Float32.sub farClip nearClip) t)) farClip :=
    atMost_round 2 _ _ hsum
  have hc : Spec.atMost 1 (Float32.sub 1 cascade.lambda_) (1 - cascade.lambda_) :=
    atMost_round 0 _ _ (atMost_exact _ (by linarith))
  have ht1' : Spec.atMost 3
      (Float32.mul (Float32.mul nearClip (P (Float32.div farClip nearClip) t))
        cascade.lambda_) (farClip * cascade.lambda_) :=
    atMost_round 2 _ _ (atMost_mul 2 0 _ _ _ _ hlog (atMost_exact _ hl0))
  have ht2' : Spec.atMost 5
      (Float32.mul (Float32.add nearClip (Float32.mul (Float32.sub farClip nearClip) t))
        (Float32.sub 1 cascade.lambda_)) (farClip * (1 - cascade.lambda_)) :=
    atMost_round 4 _ _ (atMost_mul 3 1 _ _ _ _ huni hc)
  have hs := atMost_add 5 _ _ _ _ (atMost_mono 3 5 _ _ (by norm_num) ht1') ht2'
  have he : farClip * cascade.lambda_ + farClip * (1 - cascade.lambda_) = farClip := by ring
  rw [he] at hs
  exact atMost_round 5 _ _ hs

theorem splitDistance_last_within (P : Rat → Rat → Rat) (cascade : CascadeParameters)
    (farClip nearClip : Rat) (hP1 : ∀ x, P x 1 = x)
    (hl0 : 0 ≤ cascade.lambda_) (hl1 : cascade.lambda_ ≤ 1)
    (hn : 0 < nearClip) (hnf : nearClip ≤ farClip) :
    Spec.within 6 (View.SplitLight.splitDistance P cascade farClip nearClip 1) farClip := by
  obtain ⟨hX, hXpos, hx1⟩ := div_within farClip nearClip hn hnf
  have hf0 : 0 ≤ farClip := by linarith
  have hq0 : 0 ≤ farClip / nearClip := by linarith
  unfold View.SplitLight.splitDistance
  dsimp only
  rw [hP1]
  have hnp : Spec.within 1 (nearClip * Float32.div farClip nearClip) farClip := by
    have h := within_mul 0 1 _ _ _ _ (le_of_lt hn) hq0 (within_refl nearClip) hX
    have he : nearClip * (farClip / nearClip) = farClip := by
      field_simp
    rw [he] at h
    exact h
  have hlog : Spec.within 2 (Float32.mul nearClip (Float32.div farClip nearClip)) farClip :=
    within_round 1 _ _ hf0 hnp
  have hd : Spec.within 1 (Float32.sub farClip nearClip) (farClip - nearClip) :=
    within_round 0 _ _ (by linarith) (within_refl _)
  have hdm : Spec.within 2 (Float32.mul (Float32.sub farClip nearClip) 1)
      (farClip - nearClip) := by
    unfold Float32.mul
    rw [mul_one]
    exact within_round 1 _ _ (by linarith) hd
  have hsum : Spec.within 2
      (nearClip + Float32.mul (Float32.sub farClip nearClip) 1) farClip := by
    have h := within_add 2 _ _ _ _
      (within_mono 0 2 _ _ (le_of_lt hn) (by norm_num) (within_refl nearClip)) hdm
    have he : nearClip + (farClip - nearClip) = farClip := by ring
    rw [he] at h
    exact h
  have huni : Spec.within 3
      (Float32.add nearClip (Float32.mul (Float32.sub farClip nearClip) 1)) farClip :=
    within_round 2 _ _ hf0 hsum
  have hc : Spec.within 1 (Float32.sub 1 cascade.lambda_) (1 - cascade.lambda_) :=
    within_round 0 _ _ (by linarith) (within_refl _)
  have ht1' : Spec.within 3
      (Float32.mul (Float32.mul nearClip (Float32.div farClip nearClip))
        cascade.lambda_) (farClip * cascade.lambda_) :=
    within_round 2 _ _ (mul_nonneg hf0 hl0)
      (within_mul 2 0 _ _ _ _ hf0 hl0 hlog (within_refl _))
  have ht2' : Spec.within 5
      (Float32.mul (Float32.add nearClip (Float32.mul (Float32.sub farClip nearClip) 1))
        (Float32.sub 1 cascade.lambda_)) (farClip * (1 - cascade.lambda_)) :=
    within_round 4 _ _ (mul_nonneg hf0 (by linarith))
      (within_mul 3 1 _ _ _ _ hf0 (by linarith) huni hc)
  have hs := within_add 5 _ _ _ _
    (within_mono 3 5 _ _ (mul_nonneg hf0 hl0) (by norm_num) ht1') ht2'
  have he : farClip * cascade.lambda_ + farClip * (1 - cascade.lambda_) = farClip := by ring
  rw [he] at hs
  exact within_round 5 _ _ hf0 hs

theorem within_six_abs (x y : Rat) (hy : 0 ≤ y) (h : Spec.within 6 x y) :
    |x - y| ≤ y / 2097152 := by
  unfold Spec.within at h
  rw [abs_le]
  have h1 : y * (1 - 1 / 2097152) ≤ y * (16777215 / 16777216 : Rat) ^ 6 :=
    mul_le_mul_of_nonneg_left (by norm_num) hy
  have h2 : y * (16777217 / 16777216 : Rat) ^ 6 ≤ y * (1 + 1 / 2097152) :=
    mul_le_mul_of_nonneg_left (by norm_num) hy
  constructor
  · linarith [h.1]
  · linarith [h.2]

theorem round_thousandth : Float32.round (1 / 1000) = 8589935 / 8589934592 := by decide!

theorem no_break_of_atMost (n ff farClip cameraFar : Rat) (hn : Spec.atMost 6 n farClip)
    (hff : Float32.round (1 / 1000) ≤ ff) (hfar : 0 < farClip) (hcam : farClip ≤ cameraFar) :
    ¬ (Float32.sub n (Float32.mul n ff) > cameraFar) := by
  rw [round_thousandth] at hff
  have hn0 := hn.1
  have hn2 : n ≤ farClip * (16777217 / 16777216 : Rat) ^ 6 := hn.2
  have hprod : n * (8589935 / 8589934592) ≤ n * ff := mul_le_mul_of_nonneg_left hff hn0
  have hfr : n * ff * (16777215 / 16777216) ≤ Float32.mul n ff :=
    Float32.le_round _ (by nlinarith)
  intro hgt
  by_cases hneg : n - Float32.mul n ff ≤ 0
  · have := Float32.round_nonpos _ hneg
    unfold Float32.sub at hgt
    linarith
  · have hpos : 0 ≤ n - Float32.mul n ff := le_of_lt (not_le.mp hneg)
    have h1 := Float32.round_le _ hpos
    unfold Float32.sub at hgt
    have h2 : n - Float32.mul n ff ≤ n * (1 - 8589935 / 8589934592 * (16777215 / 16777216)) := by
      nlinarith
    have h3 : n * (1 - 8589935 / 8589934592 * (16777215 / 16777216 : Rat)) ≤
        farClip * (16777217 / 16777216 : Rat) ^ 6 *
          (1 - 8589935 / 8589934592 * (16777215 / 16777216)) :=
      mul_le_mul_of_nonneg_right hn2 (by norm_num)
    have h4 : farClip * ((16777217 / 16777216 : Rat) ^ 6 *
          (1 - 8589935 / 8589934592 * (16777215 / 16777216)) * (16777217 / 16777216)) ≤
        farClip * 1 := mul_le_mul_of_nonneg_left (by norm_num) (le_of_lt hfar)
    have h5 : (n - Float32.mul n ff) * (16777217 / 16777216) ≤
        farClip * (16777217 / 16777216 : Rat) ^ 6 *
          (1 - 8589935 / 8589934592 * (16777215 / 16777216)) * (16777217 / 16777216) :=
      mul_le_mul_of_nonneg_right (le_trans h2 h3) (by norm_num)
    linarith



theorem iPerM_range : ∀ s < 6, ∀ k < 7, k ≤ s → 0 ≤ Spec.iPerM k s ∧ Spec.iPerM k s ≤ 1 := by
  decide!

theorem iPerM_last : ∀ s < 6, 1 ≤ s → Spec.iPerM s s = 1 := by decide!

theorem iPerM_four : ∀ k < 5, Spec.iPerM k 4 = (k : Rat) / 4 := by decide!

theorem sub_one_half : Float32.sub 1 (1 / 2) = 1 / 2 := by decide!

theorem splitDistance_half_within (P : Rat → Rat → Rat) (cascade : CascadeParameters)
    (farClip nearClip t : Rat) (hlam : cascade.lambda_ = 1 / 2)
    (hn : 0 < nearClip) (hnf : nearClip ≤ farClip) (ht0 : 0 ≤ t)
    (hp : 0 ≤ P (Float32.div farClip nearClip) t) :
    Spec.within 5 (View.SplitLight.splitDistance P cascade farClip nearClip t)
      (nearClip * P (Float32.div farClip nearClip) t * (1 / 2) +
        (nearClip + (farClip - nearClip) * t) * (1 / 2)) := by
  unfold View.SplitLight.splitDistance
  dsimp only
  rw [hlam, sub_one_half]
  have hnp0 : 0 ≤ nearClip * P (Float32.div farClip nearClip) t :=
    mul_nonneg (le_of_lt hn) hp
  have hd0 : 0 ≤ farClip - nearClip := by linarith
  have hlog : Spec.within 1 (Float32.mul nearClip (P (Float32.div farClip nearClip) t))
      (nearClip * P (Float32.div farClip nearClip) t) :=
    within_round 0 _ _ hnp0 (within_refl _)
  have ht1' : Spec.within 2
      (Float32.mul (Float32.mul nearClip (P (Float32.div farClip nearClip) t)) (1 / 2))
      (nearClip * P (Float32.div farClip nearClip) t * (1 / 2)) :=
    within_round 1 _ _ (by positivity)
      (within_mul 1 0 _ _ _ _ hnp0 (by norm_num) hlog (within_refl _))
  have hd : Spec.within 1 (Float32.sub farClip nearClip) (farClip - nearClip) :=
    within_round 0 _ _ hd0 (within_refl _)
  have hdm : Spec.within 2 (Float32.mul (Float32.sub farClip nearClip) t)
      ((farClip - nearClip) * t) :=
    within_round 1 _ _ (mul_nonneg hd0 ht0)
      (within_mul 1 0 _ _ _ _ hd0 ht0 hd (within_refl _))
  have hsum : Spec.within 2
      (nearClip + Float32.mul (Float32.sub farClip nearClip) t)
      (nearClip + (farClip - nearClip) * t) :=
    within_add 2 _ _ _ _
      (within_mono 0 2 _ _ (le_of_lt hn) (by norm_num) (within_refl nearClip)) hdm
  have hu0 : 0 ≤ nearClip + (farClip - nearClip) * t :=
    add_nonneg (le_of_lt hn) (mul_nonneg hd0 ht0)
  have huni : Spec.within 3
      (Float32.add nearClip (Float32.mul (Float32.sub farClip nearClip) t))
      (nearClip + (farClip - nearClip) * t) :=
    within_round 2 _ _ hu0 hsum
  have ht2' : Spec.within 4
      (Float32.mul (Float32.add nearClip (Float32.mul (Float32.sub farClip nearClip) t))
        (1 / 2)) ((nearClip + (farClip - nearClip) * t) * (1 / 2)) :=
    within_round 3 _ _ (by positivity)
      (within_mul 3 0 _ _ _ _ hu0 (by norm_num) huni (within_refl _))
  have hs := within_add 4 _ _ _ _
    (within_mono 2 4 _ _ (by positivity) (by norm_num) ht1') ht2'
  exact within_round 4 _ _ (by positivity) hs

theorem splitDistance_strict (P : Rat → Rat → Rat) (cascade : CascadeParameters)
    (nearClip t1 t2 : Rat) (hlam : cascade.lambda_ = 1 / 2)
    (hPb : Spec.powfBounded P)
    (hPm : Spec.powfMonotone P)
    (hn : 0 < nearClip) (hnf : nearClip ≤ 99999 / 100)
    (ht0 : 0 ≤ t1) (ht12 : t2 = t1 + 1 / 4) (ht1 : t2 ≤ 1) :
    View.SplitLight.splitDistance P cascade 1000 nearClip t1 <
      View.SplitLight.splitDistance P cascade 1000 nearClip t2 ∧
    (t1 = 0 → nearClip < View.SplitLight.splitDistance P cascade 1000 nearClip t2) := by
  have hnf' : nearClip ≤ 1000 := by linarith
  obtain ⟨hX, hXpos, hx1⟩ := div_within 1000 nearClip hn hnf'
  have hX1 : 1 ≤ Float32.div 1000 nearClip := by
    have h1 := hX.1
    have h2 : (99999 / 100 : Rat) * (1000 / nearClip) ≥ 1000 := by
      rw [ge_iff_le, mul_div_assoc', le_div_iff₀ hn]
      linarith
    norm_num at h1
    linarith
  have ht2pos : 0 ≤ t2 := by linarith
  have ht1le : t1 ≤ 1 := by linarith
  obtain ⟨ha1, ha2⟩ := hPb (Float32.div 1000 nearClip) t1 hXpos ht0 ht1le
  obtain ⟨hb1, hb2⟩ := hPb (Float32.div 1000 nearClip) t2 hXpos ht2pos ht1
  rw [min_eq_left hX1] at ha1 hb1
  rw [max_eq_right hX1] at ha2 hb2
  have hmono := hPm (Float32.div 1000 nearClip) t1 t2 hX1 ht0 (by linarith) ht1
  have hw1 := splitDistance_half_within P cascade 1000 nearClip t1 hlam hn hnf' ht0
    (by linarith)
  have hw2 := splitDistance_half_within P cascade 1000 nearClip t2 hlam hn hnf' ht2pos
    (by linarith)
  generalize View.SplitLight.splitDistance P cascade 1000 nearClip t1 = b1 at hw1 ⊢
  generalize View.SplitLight.splitDistance P cascade 1000 nearClip t2 = b2 at hw2 ⊢
  generalize P (Float32.div 1000 nearClip) t1 = p1 at *
  generalize P (Float32.div 1000 nearClip) t2 = p2 at *
  have hnX : nearClip * Float32.div 1000 nearClip ≤ 1000 * (16777217 / 16777216) := by
    have h := mul_le_mul_of_nonneg_left hX.2 (le_of_lt hn)
    have he : nearClip * (1000 / nearClip * (16777217 / 16777216) ^ 1) =
        1000 * (16777217 / 16777216) := by
      field_simp
      ring
    rw [he] at h
    exact h
  have hnp1 : nearClip ≤ nearClip * p1 := by nlinarith
  have hnp12 : nearClip * p1 ≤ nearClip * p2 := mul_le_mul_of_nonneg_left hmono (le_of_lt hn)
  have hnp2 : nearClip * p2 ≤ nearClip * Float32.div 1000 nearClip :=
    mul_le_mul_of_nonneg_left hb2 (le_of_lt hn)
  generalize nearClip * p1 = np1 at *
  generalize nearClip * p2 = np2 at *
  generalize nearClip * Float32.div 1000 nearClip = nX at *
  subst ht12
  unfold Spec.within at hw1 hw2
  have hu := hw1.2
  have hl := hw2.1
  norm_num at hu hl
  constructor
  · nlinarith
  · intro h0
    subst h0
    nlinarith

theorem SplitLight_directional (camera : Camera) (v : View) (w : World) (light : Light)
    (hdir : light.lightType = LightType.LIGHT_DIRECTIONAL) :
    View.SplitLight camera v w light =
      if Spec.shadowFar camera light < camera.farClip then
        ((View.SplitLight.loop camera light (Spec.cascadeCount light) (Spec.shadowFar camera light)
            (Spec.shadowNear camera) true 0 v w).1 + 1,
          (View.SplitLight.loop camera light (Spec.cascadeCount light)
            (Spec.shadowFar camera light) (Spec.shadowNear camera) true 0 v w).2.1,
          (View.SplitLight.loop camera light (Spec.cascadeCount light)
            (Spec.shadowFar camera light) (Spec.shadowNear camera) true 0 v w).2.2)
      else
        View.SplitLight.loop camera light (Spec.cascadeCount light) (Spec.shadowFar camera light)
          (Spec.shadowNear camera) false 0 v w := by
  unfold View.SplitLight
  have hc : (if light.shadowCascade.splits_ > MAX_LIGHT_SPLITS - 1 then MAX_LIGHT_SPLITS - 1
      else light.shadowCascade.splits_) = Spec.cascadeCount light := by
    unfold Spec.cascadeCount
    split_ifs with h
    · exact (min_eq_right (le_of_lt h)).symm
    · exact (min_eq_left (not_lt.mp h)).symm
  simp only [hdir, if_true, hc]
  unfold Spec.shadowFar Spec.shadowNear
  by_cases hlt : min light.shadowCascade.shadowRange_ camera.farClip < camera.farClip
  · simp only [hlt, decide_True, if_true]
  · simp only [hlt, decide_False, if_false, Bool.false_eq_true]

theorem SplitLight_directional_spec (camera : Camera) (v : View) (w : World) (light : Light)
    (hdir : light.lightType = LightType.LIGHT_DIRECTIONAL)
    (hnb : ∀ i, i < Spec.cascadeCount light →
      ¬ (Float32.sub
          (Spec.boundary w.renderer.powf light (Spec.cascadeCount light)
            (Spec.shadowFar camera light) (Spec.shadowNear camera) i)
          (Spec.fadeRange w.renderer.powf light (Spec.cascadeCount light)
            (Spec.shadowFar camera light) (Spec.shadowNear camera) i) > camera.farClip)) :
    (View.SplitLight camera v w light).1 =
      Spec.cascadeCount light + (if Spec.shadowFar camera light < camera.farClip then 1 else 0) ∧
    (∀ j, j < Spec.cascadeCount light → ∃ s,
      (View.SplitLight camera v w light).2.1.splitLights_ j = some s ∧
      Spec.isCascadeSplit w.renderer.powf camera light (Spec.cascadeCount light)
        (Spec.shadowFar camera light) (Spec.shadowNear camera)
        (decide (Spec.shadowFar camera light < camera.farClip)) j s) ∧
    (0 < Spec.cascadeCount light → Spec.shadowFar camera light < camera.farClip → ∃ s,
      (View.SplitLight camera v w light).2.1.splitLights_ (Spec.cascadeCount light) = some s ∧
      s.nearSplit = Spec.boundary w.renderer.powf light (Spec.cascadeCount light)
        (Spec.shadowFar camera light) (Spec.shadowNear camera) (Spec.cascadeCount light) ∧
      s.nearFadeRange = Spec.fadeRange w.renderer.powf light (Spec.cascadeCount light)
        (Spec.shadowFar camera light) (Spec.shadowNear camera) (Spec.cascadeCount light) ∧
      s.castShadows = false ∧ s.lightType = light.lightType ∧
      s.originalLight = some light.id) := by
  rw [SplitLight_directional camera v w light hdir]
  by_cases hlt : Spec.shadowFar camera light < camera.farClip
  · obtain ⟨h1, _, _, h4, h5, _⟩ := SplitLight_loop_spec w.renderer.powf camera light
      (Spec.cascadeCount light) (Spec.shadowFar camera light) (Spec.shadowNear camera) true hnb
      (Spec.cascadeCount light - 0) 0 v w rfl (Nat.zero_le _) rfl
    simp only [hlt, if_true, decide_True]
    refine ⟨by rw [h1], fun j hj => h4 j (Nat.zero_le _) hj, fun hpos _ => h5 hpos rfl⟩
  · obtain ⟨h1, _, _, h4, _, _⟩ := SplitLight_loop_spec w.renderer.powf camera light
      (Spec.cascadeCount light) (Spec.shadowFar camera light) (Spec.shadowNear camera) false hnb
      (Spec.cascadeCount light - 0) 0 v w rfl (Nat.zero_le _) rfl
    simp only [hlt, if_false, decide_False]
    refine ⟨by rw [h1]; rfl, fun j hj => h4 j (Nat.zero_le _) hj, fun _ h => h.elim⟩

theorem M_MIN_NEARCLIP_eq : M_MIN_NEARCLIP = 5368709 / 536870912 := by decide!

theorem shadowNear_pos (camera : Camera) : 0 < Spec.shadowNear camera := by
  unfold Spec.shadowNear
  rw [M_MIN_NEARCLIP_eq]
  exact lt_of_lt_of_le (by norm_num) (le_max_right _ _)

theorem cascadeCount_lt (light : Light) : Spec.cascadeCount light < 6 := by
  unfold Spec.cascadeCount MAX_LIGHT_SPLITS
  exact lt_of_le_of_lt (min_le_right _ _) (by decide)

theorem boundary_atMost (P : Rat → Rat → Rat) (camera : Camera) (light : Light) (k : Nat)
    (hin : Spec.cascadeInputs camera light) (hPb : Spec.powfBounded P)
    (hk : k ≤ Spec.cascadeCount light) :
    Spec.atMost 6
      (Spec.boundary P light (Spec.cascadeCount light) (Spec.shadowFar camera light)
        (Spec.shadowNear camera) k) (Spec.shadowFar camera light) := by
  obtain ⟨hl0, hl1, hnf, _, _, _⟩ := hin
  have hc := cascadeCount_lt light
  obtain ⟨ht0, ht1⟩ := iPerM_range (Spec.cascadeCount light) hc k (by omega) hk
  exact splitDistance_atMost P light.shadowCascade _ _ _ hPb hl0 hl1 (shadowNear_pos camera)
    hnf ht0 ht1

theorem no_break (P : Rat → Rat → Rat) (camera : Camera) (light : Light)
    (hin : Spec.cascadeInputs camera light) (hPb : Spec.powfBounded P) :
    ∀ i, i < Spec.cascadeCount light →
      ¬ (Float32.sub
          (Spec.boundary P light (Spec.cascadeCount light) (Spec.shadowFar camera light)
            (Spec.shadowNear camera) i)
          (Spec.fadeRange P light (Spec.cascadeCount light) (Spec.shadowFar camera light)
            (Spec.shadowNear camera) i) > camera.farClip) := by
  intro i hi
  have hb := boundary_atMost P camera light i hin hPb (le_of_lt hi)
  obtain ⟨_, _, hnf, _, _, _⟩ := hin
  have hfar : 0 < Spec.shadowFar camera light := lt_of_lt_of_le (shadowNear_pos camera) hnf
  have hcam : Spec.shadowFar camera light ≤ camera.farClip := min_le_right _ _
  unfold Spec.fadeRange
  exact no_break_of_atMost _ (Spec.fadeFactor light) _ _ hb (le_max_right _ _) hfar hcam

theorem boundary_last (P : Rat → Rat → Rat) (camera : Camera) (light : Light)
    (hin : Spec.cascadeInputs camera light) (hP1 : ∀ x, P x 1 = x)
    (hk : 1 ≤ Spec.cascadeCount light) :
    |Spec.boundary P light (Spec.cascadeCount light) (Spec.shadowFar camera light)
        (Spec.shadowNear camera) (Spec.cascadeCount light) - Spec.shadowFar camera light| ≤
      Spec.shadowFar camera light / 2097152 := by
  obtain ⟨hl0, hl1, hnf, _, _, _⟩ := hin
  have hn := shadowNear_pos camera
  unfold Spec.boundary
  rw [iPerM_last (Spec.cascadeCount light) (cascadeCount_lt light) hk]
  exact within_six_abs _ _ (by linarith)
    (splitDistance_last_within P light.shadowCascade _ _ hP1 hl0 hl1 hn hnf)

theorem Example.rangeLight_count : Spec.cascadeCount Example.rangeLight = 1 := by decide

theorem Example.rangeLight_no_break : ∀ i, i < Spec.cascadeCount Example.rangeLight →
    ¬ (Float32.sub
        (Spec.boundary Example.floatWorld.renderer.powf Example.rangeLight
          (Spec.cascadeCount Example.rangeLight)
          (Spec.shadowFar Example.rangeCamera Example.rangeLight)
          (Spec.shadowNear Example.rangeCamera) i)
        (Spec.fadeRange Example.floatWorld.renderer.powf Example.rangeLight
          (Spec.cascadeCount Example.rangeLight)
          (Spec.shadowFar Example.rangeCamera Example.rangeLight)
          (Spec.shadowNear Example.rangeCamera) i) > Example.rangeCamera.farClip) := by
  rw [Example.rangeLight_count]
  intro i hi
  have hi0 : i = 0 := by omega
  subst hi0
  decide!

theorem Example.rangeLight_boundary :
    Spec.boundary Example.floatWorld.renderer.powf Example.rangeLight 1
      (Spec.shadowFar Example.rangeCamera Example.rangeLight)
      (Spec.shadowNear Example.rangeCamera) 1 = 15728639 / 524288 := by decide!

/-- Counterexample to C12 as stated: a directional light with 1 cascade, lambda `0.7f` and
a shadow range of 30, seen by a camera with the near clip distance `0.3f` and the far clip
distance 100. The hypotheses of the claim hold, but the far split of the only shadow-casting
split is 30 - 2^-19 (29.999998), not min(shadowRange, far clip) = 30: at `iPerM = 1` the
`float` expressions `nearClip * powf(farClip / nearClip, 1)` and
`nearClip + (farClip - nearClip) * 1` and their weighted sum are rounded. -/
theorem C12_counterexample :
    Example.rangeLight.lightType = LightType.LIGHT_DIRECTIONAL ∧
    1 ≤ Example.rangeLight.shadowCascade.splits_ ∧
    0 ≤ Example.rangeLight.shadowCascade.lambda_ ∧
    Example.rangeLight.shadowCascade.lambda_ ≤ 1 ∧
    0 < Example.rangeCamera.nearClip ∧
    Example.rangeCamera.nearClip ≤
      min Example.rangeLight.shadowCascade.shadowRange_ Example.rangeCamera.farClip ∧
    min Example.rangeLight.shadowCascade.shadowRange_ Example.rangeCamera.farClip = 30 ∧
    Spec.cascadeCount Example.rangeLight = 1 ∧
    ∃ s, (View.SplitLight Example.rangeCamera View.init Example.floatWorld
        Example.rangeLight).2.1.splitLights_ 0 = some s ∧
      s.castShadows = true ∧ s.farSplit = 15728639 / 524288 ∧
      s.farSplit ≠ min Example.rangeLight.shadowCascade.shadowRange_
        Example.rangeCamera.farClip := by
  obtain ⟨_, hs, _⟩ := SplitLight_directional_spec Example.rangeCamera View.init
    Example.floatWorld Example.rangeLight rfl Example.rangeLight_no_break
  obtain ⟨s, h1, h2⟩ := hs 0 (by rw [Example.rangeLight_count]; decide)
  have hfar : s.farSplit = 15728639 / 524288 := by
    rw [h2.2.1, Example.rangeLight_count]
    exact Example.rangeLight_boundary
  refine ⟨rfl, by decide, by decide!, by decide!, by decide!, by decide!, by decide!,
    Example.rangeLight_count, s, h1, ?_, hfar, ?_⟩
  · rw [h2.2.2.2.2.1]
    rfl
  · rw [hfar]
    decide!

/-- C12 as amended: take a directional light with at least one cascade and lambda in
[0, 1], and let the shadow range start `nearClip` of `SplitLight` (the near clip distance of
the camera clamped to `M_MIN_NEARCLIP`) be at most min(shadowRange, camera far clip), with
magnitudes for which the `float` operations neither overflow nor underflow, and a `powf`
with `powf x 1 = x` whose result lies between 1 and the base. The shadow-casting splits made
by `SplitLight` cover the interval from the near clip distance of the camera on without a
gap: split 0 starts at the true near clip distance of the camera, also when that is below
the clamped value, each split ends exactly where the next one starts, and the last of the
min(cascade count, MAX_LIGHT_SPLITS - 1) splits ends at min(shadowRange, camera far clip) up
to the rounding of six `float` operations: the difference is at most 2^-21 times that
distance. Every one of these splits casts shadows as the light does. -/
theorem C12_SplitLight_cascades_tile (camera : Camera) (v : View) (w : World) (light : Light)
    (hdir : light.lightType = LightType.LIGHT_DIRECTIONAL)
    (hcount : 1 ≤ light.shadowCascade.splits_)
    (hin : Spec.cascadeInputs camera light)
    (hP1 : ∀ x, w.renderer.powf x 1 = x)
    (hPb : Spec.powfBounded w.renderer.powf) :
    (∃ s, (View.SplitLight camera v w light).2.1.splitLights_ 0 = some s ∧
      s.nearSplit = camera.nearClip) ∧
    (∀ i, i + 1 < Spec.cascadeCount light → ∃ s s',
      (View.SplitLight camera v w light).2.1.splitLights_ i = some s ∧
      (View.SplitLight camera v w light).2.1.splitLights_ (i + 1) = some s' ∧
      s.farSplit = s'.nearSplit) ∧
    (∃ s, (View.SplitLight camera v w light).2.1.splitLights_ (Spec.cascadeCount light - 1) =
        some s ∧
      |s.farSplit - min light.shadowCascade.shadowRange_ camera.farClip| ≤
        min light.shadowCascade.shadowRange_ camera.farClip / 2097152) ∧
    (∀ i, i < Spec.cascadeCount light → ∃ s,
      (View.SplitLight camera v w light).2.1.splitLights_ i = some s ∧
      s.castShadows = light.castShadows ∧ s.originalLight = some light.id) ∧
    (View.SplitLight camera v w light).1 =
      Spec.cascadeCount light + (if Spec.shadowFar camera light < camera.farClip then 1 else 0) ∧
    1 ≤ Spec.cascadeCount light := by
  have hk : 1 ≤ Spec.cascadeCount light := by
    unfold Spec.cascadeCount MAX_LIGHT_SPLITS
    exact le_min hcount (by decide)
  obtain ⟨hc, hs, _⟩ := SplitLight_directional_spec camera v w light hdir
    (no_break w.renderer.powf camera light hin hPb)
  refine ⟨?_, ?_, ?_, ?_, hc, hk⟩
  · obtain ⟨s, h1, h2⟩ := hs 0 (by omega)
    refine ⟨s, h1, ?_⟩
    rw [h2.1]
    simp
  · intro i hi
    obtain ⟨s, h1, h2⟩ := hs i (by omega)
    obtain ⟨s', h1', h2'⟩ := hs (i + 1) hi
    refine ⟨s, s', h1, h1', ?_⟩
    rw [h2.2.1, h2'.1]
    simp
  · obtain ⟨s, h1, h2⟩ := hs (Spec.cascadeCount light - 1) (by omega)
    refine ⟨s, h1, ?_⟩
    rw [h2.2.1]
    have : Spec.cascadeCount light - 1 + 1 = Spec.cascadeCount light := by omega
    rw [this]
    exact boundary_last w.renderer.powf camera light hin hP1 hk
  · intro i hi
    obtain ⟨s, h1, h2⟩ := hs i hi
    exact ⟨s, h1, h2.2.2.2.2.1, h2.2.2.2.2.2.2⟩

theorem Example.powf_one : ∀ x, Example.world.renderer.powf x 1 = x := by
  intro x
  show 1 + (x - 1) * 1 = x
  ring

theorem Example.powf_bounded : Spec.powfBounded Example.world.renderer.powf := by
  intro x t _ ht0 ht1
  show min 1 x ≤ 1 + (x - 1) * t ∧ 1 + (x - 1) * t ≤ max 1 x
  by_cases hx : 1 ≤ x
  · rw [min_eq_left hx, max_eq_right hx]
    constructor
    · nlinarith
    · nlinarith
  · have hx' : x ≤ 1 := le_of_lt (not_le.mp hx)
    rw [min_eq_right hx', max_eq_left hx']
    constructor
    · nlinarith
    · nlinarith

theorem Example.powf_monotone : Spec.powfMonotone Example.world.renderer.powf := by
  intro x t1 t2 hx _ h12 _
  show 1 + (x - 1) * t1 ≤ 1 + (x - 1) * t2
  nlinarith

theorem Example.cascade_inputs : Spec.cascadeInputs Example.camera Example.cascadeLight := by
  unfold Spec.cascadeInputs Spec.shadowNear Spec.shadowFar
  rw [M_MIN_NEARCLIP_eq]
  norm_num [Example.camera, Example.cascadeLight]

/-- Witness for C12: the example camera (near clip 1, far clip 1000) and the directional
light with 4 cascades and a shadow range of 2000; split 0 starts at the near clip distance 1
of the camera, and split 3 ends within 1000 * 2^-21 of the far clip distance 1000. -/
theorem C12_SplitLight_cascades_tile_witness :
    (∃ s, (View.SplitLight Example.camera View.init Example.world
      Example.cascadeLight).2.1.splitLights_ 0 = some s ∧
      s.nearSplit = Example.camera.nearClip) ∧
    (∃ s, (View.SplitLight Example.camera View.init Example.world
      Example.cascadeLight).2.1.splitLights_ (Spec.cascadeCount Example.cascadeLight - 1) =
        some s ∧
      |s.farSplit - min Example.cascadeLight.shadowCascade.shadowRange_
          Example.camera.farClip| ≤
        min Example.cascadeLight.shadowCascade.shadowRange_ Example.camera.farClip / 2097152) :=
  ⟨(C12_SplitLight_cascades_tile Example.camera View.init Example.world Example.cascadeLight
      rfl (by decide) Example.cascade_inputs Example.powf_one Example.powf_bounded).1,
    (C12_SplitLight_cascades_tile Example.camera View.init Example.world Example.cascadeLight
      rfl (by decide) Example.cascade_inputs Example.powf_one Example.powf_bounded).2.2.1⟩

theorem Example.thin_count : Spec.cascadeCount Example.cascadeLight = 4 := by decide

theorem Example.thin_no_break : ∀ i, i < Spec.cascadeCount Example.cascadeLight →
    ¬ (Float32.sub
        (Spec.boundary Example.floatWorld.renderer.powf Example.cascadeLight
          (Spec.cascadeCount Example.cascadeLight)
          (Spec.shadowFar Example.thinCamera Example.cascadeLight)
          (Spec.shadowNear Example.thinCamera) i)
        (Spec.fadeRange Example.floatWorld.renderer.powf Example.cascadeLight
          (Spec.cascadeCount Example.cascadeLight)
          (Spec.shadowFar Example.thinCamera Example.cascadeLight)
          (Spec.shadowNear Example.thinCamera) i) > Example.thinCamera.farClip) := by
  rw [Example.thin_count]
  have h : ∀ i < 4,
      ¬ (Float32.sub
        (Spec.boundary Example.floatWorld.renderer.powf Example.cascadeLight 4
          (Spec.shadowFar Example.thinCamera Example.cascadeLight)
          (Spec.shadowNear Example.thinCamera) i)
        (Spec.fadeRange Example.floatWorld.renderer.powf Example.cascadeLight 4
          (Spec.shadowFar Example.thinCamera Example.cascadeLight)
          (Spec.shadowNear Example.thinCamera) i) > Example.thinCamera.farClip) := by
    decide!
  exact h

theorem Example.thin_boundary :
    Spec.boundary Example.floatWorld.renderer.powf Example.cascadeLight 4
      (Spec.shadowFar Example.thinCamera Example.cascadeLight)
      (Spec.shadowNear Example.thinCamera) 1 = 16383999 / 16384 := by decide!

/-- Counterexample to C13 as stated: the directional light with 4 cascades, lambda 0.5 and a
shadow range of 2000, seen by a camera with the far clip distance 1000 whose near clip
distance is the `float` next below 1000. The hypotheses of the claim hold and `SplitLight`
returns 4 splits, but the boundaries are not strictly increasing: split 0 starts and ends at
the near clip distance, because the quarter of the distance between the clip planes is lost
when it is added to the near clip distance in `float`. -/
theorem C13_counterexample :
    Example.thinCamera.farClip = 1000 ∧
    Example.cascadeLight.shadowCascade.splits_ = 4 ∧
    Example.cascadeLight.shadowCascade.lambda_ = 1 / 2 ∧
    Example.thinCamera.farClip ≤ Example.cascadeLight.shadowCascade.shadowRange_ ∧
    0 < Example.thinCamera.nearClip ∧
    Example.thinCamera.nearClip <
      min Example.cascadeLight.shadowCascade.shadowRange_ Example.thinCamera.farClip ∧
    (View.SplitLight Example.thinCamera View.init Example.floatWorld
      Example.cascadeLight).1 = 4 ∧
    ∃ s, (View.SplitLight Example.thinCamera View.init Example.floatWorld
        Example.cascadeLight).2.1.splitLights_ 0 = some s ∧
      s.nearSplit = 16383999 / 16384 ∧ s.farSplit = 16383999 / 16384 ∧
      ¬ (s.nearSplit < s.farSplit) := by
  obtain ⟨hc, hs, _⟩ := SplitLight_directional_spec Example.thinCamera View.init
    Example.floatWorld Example.cascadeLight rfl Example.thin_no_break
  obtain ⟨s, h1, h2⟩ := hs 0 (by rw [Example.thin_count]; decide)
  have hnear : s.nearSplit = 16383999 / 16384 := by
    rw [h2.1]
    rfl
  have hfar : s.farSplit = 16383999 / 16384 := by
    rw [h2.2.1, Example.thin_count]
    exact Example.thin_boundary
  refine ⟨rfl, rfl, rfl, by decide!, by decide!, by decide!, ?_, s, h1, hnear, hfar, ?_⟩
  · rw [hc, Example.thin_count]
    decide!
  · rw [hnear, hfar]
    exact lt_irrefl _

theorem boundary_strict (P : Rat → Rat → Rat) (camera : Camera) (light : Light) (i : Nat)
    (hlam : light.shadowCascade.lambda_ = 1 / 2) (hPb : Spec.powfBounded P)
    (hPm : Spec.powfMonotone P) (hnear : Spec.shadowNear camera ≤ 99999 / 100) (hi : i < 4) :
    Spec.boundary P light 4 1000 (Spec.shadowNear camera) i <
      Spec.boundary P light 4 1000 (Spec.shadowNear camera) (i + 1) ∧
    (i = 0 → Spec.shadowNear camera <
      Spec.boundary P light 4 1000 (Spec.shadowNear camera) (i + 1)) := by
  unfold Spec.boundary
  rw [iPerM_four i (by omega), iPerM_four (i + 1) (by omega)]
  have hi' : (i : Rat) ≤ 3 := by exact_mod_cast Nat.lt_succ_iff.mp hi
  have hs := splitDistance_strict P light.shadowCascade (Spec.shadowNear camera)
    ((i : Rat) / 4) (((i + 1 : Nat) : Rat) / 4) hlam hPb hPm (shadowNear_pos camera) hnear
    (by positivity) (by push_cast; ring) (by push_cast; linarith)
  refine ⟨hs.1, fun h0 => hs.2 ?_⟩
  rw [h0]
  norm_num

/-- C13 as amended: take a directional light and lambda in [0, 1], and let the shadow range
start `nearClip` of `SplitLight` be at most the shadow far limit `farClip`, with magnitudes
for which the `float` operations neither overflow nor underflow, and a `powf` whose result
lies between 1 and the base. Then the early-exit test never fires and exactly min(cascade
count, MAX_LIGHT_SPLITS - 1) shadow-casting splits are produced. For a camera far clip of
1000, a cascade count of 4, lambda 0.5 and a shadow range not below the far clip,
`SplitLight` returns exactly 4 splits, each of which ends exactly where the next one starts;
and when the shadow range start is at most 999.99 and `powf` does not decrease with the
exponent, the boundaries are strictly increasing: each split starts before it ends. For a
near clip distance within rounding of the far clip they are not. -/
theorem C13_SplitLight_cascade_count (camera : Camera) (v : View) (w : World) (light : Light)
    (hdir : light.lightType = LightType.LIGHT_DIRECTIONAL)
    (hin : Spec.cascadeInputs camera light)
    (hPb : Spec.powfBounded w.renderer.powf) :
    ((∀ i, i < Spec.cascadeCount light →
        ¬ (Float32.sub
            (Spec.boundary w.renderer.powf light (Spec.cascadeCount light)
              (Spec.shadowFar camera light) (Spec.shadowNear camera) i)
            (Spec.fadeRange w.renderer.powf light (Spec.cascadeCount light)
              (Spec.shadowFar camera light) (Spec.shadowNear camera) i) > camera.farClip)) ∧
      (View.SplitLight camera v w light).1 =
        min light.shadowCascade.splits_ (MAX_LIGHT_SPLITS - 1) +
          (if Spec.shadowFar camera light < camera.farClip then 1 else 0) ∧
      (∀ i, i < min light.shadowCascade.splits_ (MAX_LIGHT_SPLITS - 1) → ∃ s,
        (View.SplitLight camera v w light).2.1.splitLights_ i = some s ∧
        s.castShadows = light.castShadows ∧ s.originalLight = some light.id)) ∧
    (camera.farClip = 1000 → light.shadowCascade.splits_ = 4 →
      light.shadowCascade.lambda_ = 1 / 2 → camera.farClip ≤ light.shadowCascade.shadowRange_ →
      (View.SplitLight camera v w light).1 = 4 ∧
      (∀ i, i < 4 → ∃ s, (View.SplitLight camera v w light).2.1.splitLights_ i = some s ∧
        (i + 1 < 4 → ∃ s', (View.SplitLight camera v w light).2.1.splitLights_ (i + 1) = some s' ∧
          s.farSplit = s'.nearSplit) ∧
        (Spec.shadowNear camera ≤ 99999 / 100 → Spec.powfMonotone w.renderer.powf →
          s.nearSplit < s.farSplit))) := by
  obtain ⟨hc, hs, _⟩ := SplitLight_directional_spec camera v w light hdir
    (no_break w.renderer.powf camera light hin hPb)
  refine ⟨⟨no_break w.renderer.powf camera light hin hPb, hc, ?_⟩, ?_⟩
  · intro i hi
    obtain ⟨s, h1, h2⟩ := hs i hi
    exact ⟨s, h1, h2.2.2.2.2.1, h2.2.2.2.2.2.2⟩
  · intro hfar hsplits hlam hrange
    have hk : Spec.cascadeCount light = 4 := by
      unfold Spec.cascadeCount MAX_LIGHT_SPLITS
      rw [hsplits]
      rfl
    have hsf : Spec.shadowFar camera light = 1000 := by
      unfold Spec.shadowFar
      rw [min_eq_right hrange, hfar]
    have hnolt : ¬ Spec.shadowFar camera light < camera.farClip := by
      rw [hsf, hfar]
      exact lt_irrefl _
    rw [hk, hsf] at hs
    rw [hk] at hc
    refine ⟨by rw [hc, if_neg hnolt], ?_⟩
    intro i hi
    obtain ⟨s, h1, h2⟩ := hs i hi
    refine ⟨s, h1, ?_, ?_⟩
    · intro hi1
      obtain ⟨s', h1', h2'⟩ := hs (i + 1) hi1
      refine ⟨s', h1', ?_⟩
      rw [h2.2.1, h2'.1]
      simp
    · intro hnear hPm
      obtain ⟨hst, hst0⟩ := boundary_strict w.renderer.powf camera light i hlam hPb hPm hnear hi
      rw [h2.1, h2.2.1]
      by_cases hi0 : i = 0
      · subst hi0
        simp only [ne_eq, not_true_eq_false, if_false]
        have hcam : camera.nearClip ≤ Spec.shadowNear camera := le_max_left _ _
        exact lt_of_le_of_lt hcam (hst0 rfl)
      · simp only [ne_eq, hi0, not_false_eq_true, if_true]
        exact hst

theorem Example.cascade_near : Spec.shadowNear Example.camera ≤ 99999 / 100 := by
  unfold Spec.shadowNear
  rw [M_MIN_NEARCLIP_eq]
  norm_num [Example.camera]

/-- Witness for C13: the example camera (near clip 1, far clip 1000) and the directional
light with 4 cascades, lambda 0.5 and shadow range 2000 yield exactly 4 splits, and split 0
starts before it ends. -/
theorem C13_SplitLight_cascade_count_witness :
    (View.SplitLight Example.camera View.init Example.world Example.cascadeLight).1 = 4 ∧
    ∃ s, (View.SplitLight Example.camera View.init Example.world
      Example.cascadeLight).2.1.splitLights_ 0 = some s ∧ s.nearSplit < s.farSplit :=
  have h := (C13_SplitLight_cascade_count Example.camera View.init Example.world
    Example.cascadeLight rfl Example.cascade_inputs Example.powf_bounded).2 rfl rfl rfl
    (by norm_num [Example.cascadeLight, Example.camera])
  ⟨h.1, (h.2 0 (by decide)).elim
    (fun s hs => ⟨s, hs.1, hs.2.2 Example.cascade_near Example.powf_monotone⟩)⟩

theorem addLit_spec (mergeBoxes getLit inView : Bool) (st : LightQueryState) (d : Drawable) :
    (View.ProcessLightQuery.addLit mergeBoxes getLit inView st d).shadowCasters =
      st.shadowCasters ∧
    ((View.ProcessLightQuery.addLit mergeBoxes getLit inView st d).litGeometries =
        st.litGeometries ∨
      (getLit = true ∧
        (View.ProcessLightQuery.addLit mergeBoxes getLit inView st d).litGeometries =
          st.litGeometries ++ [d])) := by
  unfold View.ProcessLightQuery.addLit
  by_cases h : (getLit && inView) = true
  · rw [if_pos h]
    simp only [Bool.and_eq_true] at h
    exact ⟨rfl, Or.inr ⟨h.1, rfl⟩⟩
  · rw [if_neg h]
    exact ⟨rfl, Or.inl rfl⟩

theorem addCaster_spec (frame : FrameInfo) (light : Light) (mergeBoxes getCasters inView : Bool)
    (st : LightQueryState) (d : Drawable) :
    (View.ProcessLightQuery.addCaster frame light mergeBoxes getCasters inView st d).litGeometries =
      st.litGeometries ∧
    ((View.ProcessLightQuery.addCaster frame light mergeBoxes getCasters inView st d).shadowCasters =
        st.shadowCasters ∨
      (getCasters = true ∧ light.shadowCamera ≠ none ∧
        (View.ProcessLightQuery.addCaster frame light mergeBoxes getCasters inView st
          d).shadowCasters = st.shadowCasters ++ [d])) := by
  unfold View.ProcessLightQuery.addCaster
  by_cases h : (getCasters && d.castShadows) = true
  · rw [if_pos h]
    simp only [Bool.and_eq_true] at h
    by_cases h2 : (decide (d.shadowDistance > 0) && decide (d.distance > d.shadowDistance)) = true
    · rw [if_pos h2]
      exact ⟨rfl, Or.inl rfl⟩
    · rw [if_neg h2]
      cases hcam : light.shadowCamera with
      | none => exact ⟨rfl, Or.inl rfl⟩
      | some cam =>
        simp only
        by_cases h3 : View.IsShadowCasterVisible st.world frame d light cam = true
        · rw [if_pos h3]
          exact ⟨rfl, Or.inr ⟨h.1, by simp, rfl⟩⟩
        · rw [if_neg h3]
          exact ⟨rfl, Or.inl rfl⟩
  · rw [if_neg h]
    exact ⟨rfl, Or.inl rfl⟩

theorem ProcessLightQuery_step_spec (frame : FrameInfo) (light : Light)
    (mergeBoxes getLit getCasters : Bool) (st : LightQueryState) (d : Drawable) :
    ((View.ProcessLightQuery.step frame light mergeBoxes getLit getCasters st d).litGeometries =
        st.litGeometries ∨
      (getLit = true ∧ d.beyondDrawDistance = false ∧
        (View.ProcessLightQuery.step frame light mergeBoxes getLit getCasters st d).litGeometries =
          st.litGeometries ++ [d])) ∧
    ((View.ProcessLightQuery.step frame light mergeBoxes getLit getCasters st d).shadowCasters =
        st.shadowCasters ∨
      (getCasters = true ∧ d.beyondDrawDistance = false ∧ light.shadowCamera ≠ none ∧
        (View.ProcessLightQuery.step frame light mergeBoxes getLit getCasters st d).shadowCasters =
          st.shadowCasters ++ [d])) := by
  unfold View.ProcessLightQuery.step
  by_cases hb : d.beyondDrawDistance = true
  · rw [if_pos hb]
    exact ⟨Or.inl rfl, Or.inl rfl⟩
  · have hb' : d.beyondDrawDistance = false := by simpa using hb
    rw [if_neg hb]
    by_cases hm : d.lightMask &&& light.lightMask = 0
    · rw [if_pos hm]
      exact ⟨Or.inl rfl, Or.inl rfl⟩
    · rw [if_neg hm]
      obtain ⟨hl1, hl2⟩ := addLit_spec mergeBoxes getLit (st.world.IsInView frame d) st d
      obtain ⟨hc1, hc2⟩ := addCaster_spec frame light mergeBoxes getCasters
        (st.world.IsInView frame d)
        (View.ProcessLightQuery.addLit mergeBoxes getLit (st.world.IsInView frame d) st d) d
      constructor
      · simp only [hc1]
        rcases hl2 with h | ⟨h1, h2⟩
        · exact Or.inl h
        · exact Or.inr ⟨h1, hb', h2⟩
      · rcases hc2 with h | ⟨h1, h2, h3⟩
        · left
          simp only [h, hl1]
        · right
          refine ⟨h1, hb', h2, ?_⟩
          simp only [h3, hl1]

theorem ProcessLightQuery_fold_spec (frame : FrameInfo) (light : Light)
    (mergeBoxes getLit getCasters : Bool) (result : List Drawable) :
    ∀ st : LightQueryState,
      (∀ d ∈ (result.foldl (View.ProcessLightQuery.step frame light mergeBoxes getLit getCasters)
          st).litGeometries,
        d ∈ st.litGeometries ∨ (getLit = true ∧ d.beyondDrawDistance = false ∧ d ∈ result)) ∧
      (∀ d ∈ (result.foldl (View.ProcessLightQuery.step frame light mergeBoxes getLit getCasters)
          st).shadowCasters,
        d ∈ st.shadowCasters ∨ (getCasters = true ∧ d.beyondDrawDistance = false ∧ d ∈ result)) ∧
      ((result.foldl (View.ProcessLightQuery.step frame light mergeBoxes getLit getCasters)
          st).shadowCasters = st.shadowCasters ∨
        (getCasters = true ∧ light.shadowCamera ≠ none)) ∧
      ((result.foldl (View.ProcessLightQuery.step frame light mergeBoxes getLit getCasters)
          st).litGeometries = st.litGeometries ∨ getLit = true) := by
  induction result with
  | nil =>
    intro st
    exact ⟨fun d h => Or.inl h, fun d h => Or.inl h, Or.inl rfl, Or.inl rfl⟩
  | cons x rest ih =>
    intro st
    rw [List.foldl_cons]
    obtain ⟨h1, h2, h3, h4⟩ := ih (View.ProcessLightQuery.step frame light mergeBoxes getLit
      getCasters st x)
    obtain ⟨s1, s2⟩ := ProcessLightQuery_step_spec frame light mergeBoxes getLit getCasters st x
    refine ⟨?_, ?_, ?_, ?_⟩
    · intro d hd
      rcases h1 d hd with h | ⟨ha, hb, hc⟩
      · rcases s1 with e | ⟨e1, e2, e3⟩
        · rw [e] at h
          exact Or.inl h
        · rw [e3, List.mem_append, List.mem_singleton] at h
          rcases h with h | h
          · exact Or.inl h
          · subst h
            exact Or.inr ⟨e1, e2, List.mem_cons_self _ _⟩
      · exact Or.inr ⟨ha, hb, List.mem_cons_of_mem _ hc⟩
    · intro d hd
      rcases h2 d hd with h | ⟨ha, hb, hc⟩
      · rcases s2 with e | ⟨e1, e2, _, e3⟩
        · rw [e] at h
          exact Or.inl h
        · rw [e3, List.mem_append, List.mem_singleton] at h
          rcases h with h | h
          · exact Or.inl h
          · subst h
            exact Or.inr ⟨e1, e2, List.mem_cons_self _ _⟩
      · exact Or.inr ⟨ha, hb, List.mem_cons_of_mem _ hc⟩
    · rcases h3 with h | h
      · rcases s2 with e | ⟨e1, _, e2, _⟩
        · left
          rw [h, e]
        · exact Or.inr ⟨e1, e2⟩
      · exact Or.inr h
    · rcases h4 with h | h
      · rcases s1 with e | ⟨e1, _, _⟩
        · left
          rw [h, e]
        · exact Or.inr e1
      · exact Or.inr h

theorem ProcessLightQuery_spec (camera : Camera) (v : View) (w : World) (i : Nat)
    (result : List Drawable) (gb sb getLit getCasters : Bool) :
    (View.ProcessLightQuery camera v w i result gb sb getLit getCasters).1.withoutScratch =
      v.withoutScratch ∧
    (View.ProcessLightQuery camera v w i result gb sb getLit getCasters).1.splitLights_ =
      v.splitLights_ ∧
    (View.ProcessLightQuery camera v w i result gb sb getLit getCasters).1.tempDrawables_ =
      v.tempDrawables_ ∧
    (∀ j, j ≠ i →
      (View.ProcessLightQuery camera v w i result gb sb getLit getCasters).1.litGeometries_ j =
        v.litGeometries_ j ∧
      (View.ProcessLightQuery camera v w i result gb sb getLit getCasters).1.shadowCasters_ j =
        v.shadowCasters_ j) ∧
    (∀ d ∈ (View.ProcessLightQuery camera v w i result gb sb getLit getCasters).1.litGeometries_ i,
      d ∈ v.litGeometries_ i ∨ (getLit = true ∧ d.beyondDrawDistance = false ∧ d ∈ result)) ∧
    (∀ d ∈ (View.ProcessLightQuery camera v w i result gb sb getLit getCasters).1.shadowCasters_ i,
      d ∈ v.shadowCasters_ i ∨
        (getCasters = true ∧ d.beyondDrawDistance = false ∧ d ∈ result)) ∧
    ((View.ProcessLightQuery camera v w i result gb sb getLit getCasters).1.shadowCasters_ i =
        v.shadowCasters_ i ∨
      (getCasters = true ∧ ∃ l, v.splitLights_ i = some l ∧ l.shadowCamera ≠ none)) ∧
    ((View.ProcessLightQuery camera v w i result gb sb getLit getCasters).1.litGeometries_ i =
        v.litGeometries_ i ∨ getLit = true) := by
  unfold View.ProcessLightQuery
  cases hl : v.splitLights_ i with
  | none =>
    dsimp only
    exact ⟨rfl, rfl, rfl, fun j _ => ⟨rfl, rfl⟩, fun d h => Or.inl h, fun d h => Or.inl h,
      Or.inl rfl, Or.inl rfl⟩
  | some light =>
    dsimp only
    refine ⟨rfl, rfl, rfl, ?_, ?_, ?_, ?_, ?_⟩
    · intro j hj
      simp [Function.update, hj]
    · intro d hd
      simp only [Function.update_same] at hd
      exact (ProcessLightQuery_fold_spec _ _ _ _ _ _ _).1 d hd
    · intro d hd
      simp only [Function.update_same] at hd
      rcases (ProcessLightQuery_fold_spec _ _ _ _ _ _ _).2.1 d hd with h | ⟨h1, h2, h3⟩
      · exact Or.inl h
      · right
        refine ⟨?_, h2, h3⟩
        cases hcam : light.shadowCamera with
        | none => simp [hcam] at h1
        | some cam =>
          simp only [hcam] at h1
          by_cases hdeg : w.renderer.degenerateSplitFrustum camera light = true
          · simp [hdeg] at h1
          · simpa [hdeg] using h1
    · simp only [Function.update_same]
      rcases (ProcessLightQuery_fold_spec v.frame_ light
        (match light.shadowCamera with
          | some _ => decide (light.lightType ≠ LightType.LIGHT_SPLITPOINT) && light.shadowFocus
          | none => false) getLit
        (match light.shadowCamera with
          | some _ => if w.renderer.degenerateSplitFrustum camera light then false else getCasters
          | none => false) result
        { world := w, litGeometries := v.litGeometries_ i, shadowCasters := v.shadowCasters_ i,
          geometryBoxDefined := gb, shadowCasterBoxDefined := sb }).2.2.1 with h | ⟨h1, h2⟩
      · exact Or.inl h
      · right
        refine ⟨?_, light, rfl, h2⟩
        cases hcam : light.shadowCamera with
        | none => simp [hcam] at h1
        | some cam =>
          simp only [hcam] at h1
          by_cases hdeg : w.renderer.degenerateSplitFrustum camera light = true
          · simp [hdeg] at h1
          · simpa [hdeg] using h1
    · simp only [Function.update_same]
      exact (ProcessLightQuery_fold_spec _ _ _ _ _ _ _).2.2.2

theorem chooseShadowMap_spec (camera : Camera) (r : Renderer) (isShadowed : Bool)
    (split : Light) :
    ((View.ProcessLight.chooseShadowMap camera r isShadowed split).1.shadowCamera ≠ none →
      (View.ProcessLight.chooseShadowMap camera r isShadowed split).1.shadowMap ≠ none) ∧
    ((View.ProcessLight.chooseShadowMap camera r isShadowed split).2.1 = true →
      (View.ProcessLight.chooseShadowMap camera r isShadowed split).1.shadowCamera ≠ none) ∧
    ((View.ProcessLight.chooseShadowMap camera r isShadowed split).1.shadowCamera ≠ none →
      (View.ProcessLight.chooseShadowMap camera r isShadowed split).2.1 = true) ∧
    (isShadowed = true → split.castShadows = true →
      (r.CreateShadowCamera.2.GetShadowMap split.shadowResolution).1 = none →
      (View.ProcessLight.chooseShadowMap camera r isShadowed split).1.shadowCamera = none ∧
      (View.ProcessLight.chooseShadowMap camera r isShadowed split).1.shadowMap = none ∧
      (View.ProcessLight.chooseShadowMap camera r isShadowed split).2.1 = false) ∧
    (View.ProcessLight.chooseShadowMap camera r isShadowed split).1.lightType =
      split.lightType := by
  unfold View.ProcessLight.chooseShadowMap
  by_cases h : (isShadowed && split.castShadows) = true
  · rw [if_pos h]
    dsimp only
    cases hm : (r.CreateShadowCamera.2.GetShadowMap split.shadowResolution).1 with
    | none =>
      simp
    | some m =>
      simp
  · rw [if_neg h]
    refine ⟨fun hc => (hc rfl).elim, fun hc => by simp at hc, fun hc => (hc rfl).elim, ?_, rfl⟩
    intro h1 h2
    simp [h1, h2] at h

theorem finishSplit_spec (camera : Camera) (v : View) (w : World) (i : Nat) (gb sb : Bool)
    (st : ProcessLightState) :
    (View.ProcessLight.finishSplit camera v w i gb sb st).view.withoutScratch =
      v.withoutScratch ∧
    (View.ProcessLight.finishSplit camera v w i gb sb st).view.litGeometries_ =
      v.litGeometries_ ∧
    (View.ProcessLight.finishSplit camera v w i gb sb st).view.shadowCasters_ =
      v.shadowCasters_ ∧
    (View.ProcessLight.finishSplit camera v w i gb sb st).world = w ∧
    (View.ProcessLight.finishSplit camera v w i gb sb st).numLitGeometries =
      st.numLitGeometries + (v.litGeometries_ i).length ∧
    (View.ProcessLight.finishSplit camera v w i gb sb st).numShadowCasters =
      st.numShadowCasters + (v.shadowCasters_ i).length ∧
    (∀ j, j ≠ i → (View.ProcessLight.finishSplit camera v w i gb sb st).view.splitLights_ j =
      v.splitLights_ j) ∧
    (v.splitLights_ i = none →
      (View.ProcessLight.finishSplit camera v w i gb sb st).view.splitLights_ i = none) ∧
    (∀ split, v.splitLights_ i = some split →
      ∃ s, (View.ProcessLight.finishSplit camera v w i gb sb st).view.splitLights_ i = some s ∧
        (v.shadowCasters_ i = [] → s.shadowMap = none ∧ s.shadowCamera = split.shadowCamera) ∧
        (v.shadowCasters_ i ≠ [] → s.shadowMap = split.shadowMap ∧
          (s.shadowCamera = none ↔ split.shadowCamera = none))) := by
  have hfield : ∀ (P : View → Prop), P v →
      (∀ s, P (v.setSplitLight i s)) →
      P (View.ProcessLight.finishSplit camera v w i gb sb st).view := by
    intro P h1 h2
    unfold View.ProcessLight.finishSplit
    cases v.splitLights_ i with
    | none => exact h1
    | some split =>
      dsimp only
      split_ifs
      · exact h2 _
      · exact h2 _
  refine ⟨hfield (fun x => x.withoutScratch = v.withoutScratch) rfl (fun _ => rfl),
    hfield (fun x => x.litGeometries_ = v.litGeometries_) rfl (fun _ => rfl),
    hfield (fun x => x.shadowCasters_ = v.shadowCasters_) rfl (fun _ => rfl), rfl, ?_, ?_,
    ?_, ?_, ?_⟩
  · show st.numLitGeometries +
      ((View.ProcessLight.finishSplit camera v w i gb sb st).view.litGeometries_ i).length = _
    rw [hfield (fun x => x.litGeometries_ = v.litGeometries_) rfl (fun _ => rfl)]
  · show st.numShadowCasters +
      ((View.ProcessLight.finishSplit camera v w i gb sb st).view.shadowCasters_ i).length = _
    rw [hfield (fun x => x.shadowCasters_ = v.shadowCasters_) rfl (fun _ => rfl)]
  · intro j hj
    refine hfield (fun x => x.splitLights_ j = v.splitLights_ j) rfl (fun s => ?_)
    show (v.setSplitLight i s).splitLights_ j = v.splitLights_ j
    rw [setSplitLight_get, if_neg hj]
  · intro hs
    unfold View.ProcessLight.finishSplit
    rw [hs]
    exact hs
  · intro split hs
    unfold View.ProcessLight.finishSplit
    rw [hs]
    dsimp only
    by_cases hc : (v.shadowCasters_ i).length = 0
    · rw [if_pos hc]
      refine ⟨_, (setSplitLight_get _ _ _ _).trans (if_pos rfl), fun _ => ⟨rfl, rfl⟩, ?_⟩
      intro hne
      exact (hne (List.length_eq_zero.mp hc)).elim
    · rw [if_neg hc]
      refine ⟨_, (setSplitLight_get _ _ _ _).trans (if_pos rfl), ?_, fun _ => ⟨rfl, ?_⟩⟩
      · intro he
        rw [he] at hc
        exact (hc rfl).elim
      · cases split.shadowCamera <;> simp

theorem directionalLit_mem (v : View) (split : Light) (optimize : Bool) (nearSplit farSplit : Rat)
    (d : Drawable) (h : d ∈ View.ProcessLight.directionalLit v split optimize nearSplit farSplit) :
    d ∈ v.geometries_ := by
  unfold View.ProcessLight.directionalLit at h
  split_ifs at h
  · rw [List.mem_map] at h
    obtain ⟨p, hp, rfl⟩ := h
    exact (List.of_mem_zip (List.mem_of_mem_filter hp)).1
  · exact List.mem_of_mem_filter h

theorem splitStep_none (camera : Camera) (octree : Octree) (isShadowed useOcclusion : Bool)
    (st : ProcessLightState) (i : Nat) (h0 : st.view.splitLights_ i = none) :
    View.ProcessLight.splitStep camera octree isShadowed useOcclusion st i = st := by
  unfold View.ProcessLight.splitStep
  rw [h0]

theorem splitStep_cases (camera : Camera) (octree : Octree) (isShadowed useOcclusion : Bool)
    (st : ProcessLightState) (i : Nat) (split0 : Light)
    (h0 : st.view.splitLights_ i = some split0) :
    (View.ProcessLight.splitStep camera octree isShadowed useOcclusion st i =
        { st with
          view := (st.view.setSplitLight i
            (View.ProcessLight.chooseShadowMap camera st.world.renderer isShadowed split0).1
            ).setSplitLight i
              { (View.ProcessLight.chooseShadowMap camera st.world.renderer isShadowed split0).1
                with shadowMap := none },
          world := { st.world with
            renderer :=
              (View.ProcessLight.chooseShadowMap camera st.world.renderer isShadowed
                split0).2.2 } } ∧
      split0.lightType = LightType.LIGHT_DIRECTIONAL) ∨
    (∃ V W gb sb,
      View.ProcessLight.splitStep camera octree isShadowed useOcclusion st i =
        View.ProcessLight.finishSplit camera V W i gb sb st ∧
      V.splitLights_ = (st.view.setSplitLight i
        (View.ProcessLight.chooseShadowMap camera st.world.renderer isShadowed
          split0).1).splitLights_ ∧
      V.withoutScratch = st.view.withoutScratch ∧
      (∀ j, j ≠ i → V.litGeometries_ j = st.view.litGeometries_ j ∧
        V.shadowCasters_ j = st.view.shadowCasters_ j) ∧
      (∀ d ∈ V.litGeometries_ i, d ∈ st.view.litGeometries_ i ∨ d ∈ st.view.geometries_ ∨
        d.beyondDrawDistance = false) ∧
      (∀ d ∈ V.shadowCasters_ i, d ∈ st.view.shadowCasters_ i ∨ d.beyondDrawDistance = false) ∧
      (V.shadowCasters_ i = st.view.shadowCasters_ i ∨
        (View.ProcessLight.chooseShadowMap camera st.world.renderer isShadowed
          split0).1.shadowCamera ≠ none)) := by
  have hquery : ∀ (temp : List Drawable) (gb sb getLit getCasters : Bool) (v1 : View) (w : World),
      v1.splitLights_ = (st.view.setSplitLight i
        (View.ProcessLight.chooseShadowMap camera st.world.renderer isShadowed
          split0).1).splitLights_ →
      v1.withoutScratch = st.view.withoutScratch →
      (∀ j, j ≠ i → v1.litGeometries_ j = st.view.litGeometries_ j ∧
        v1.shadowCasters_ j = st.view.shadowCasters_ j) →
      (∀ d ∈ v1.litGeometries_ i, d ∈ st.view.litGeometries_ i ∨ d ∈ st.view.geometries_) →
      v1.shadowCasters_ i = st.view.shadowCasters_ i →
      ∃ V W gb' sb',
        View.ProcessLight.finishSplit camera
          (View.ProcessLightQuery camera v1 w i temp gb sb getLit getCasters).1
          (View.ProcessLightQuery camera v1 w i temp gb sb getLit getCasters).2.1 i
          (View.ProcessLightQuery camera v1 w i temp gb sb getLit getCasters).2.2.1
          (View.ProcessLightQuery camera v1 w i temp gb sb getLit getCasters).2.2.2 st =
          View.ProcessLight.finishSplit camera V W i gb' sb' st ∧
        V.splitLights_ = (st.view.setSplitLight i
          (View.ProcessLight.chooseShadowMap camera st.world.renderer isShadowed
            split0).1).splitLights_ ∧
        V.withoutScratch = st.view.withoutScratch ∧
        (∀ j, j ≠ i → V.litGeometries_ j = st.view.litGeometries_ j ∧
          V.shadowCasters_ j = st.view.shadowCasters_ j) ∧
        (∀ d ∈ V.litGeometries_ i, d ∈ st.view.litGeometries_ i ∨ d ∈ st.view.geometries_ ∨
          d.beyondDrawDistance = false) ∧
        (∀ d ∈ V.shadowCasters_ i, d ∈ st.view.shadowCasters_ i ∨
          d.beyondDrawDistance = false) ∧
        (V.shadowCasters_ i = st.view.shadowCasters_ i ∨
          (View.ProcessLight.chooseShadowMap camera st.world.renderer isShadowed
            split0).1.shadowCamera ≠ none) := by
    intro temp gb sb getLit getCasters v1 w hs hw hj hlit hcast
    obtain ⟨q1, q2, _, q4, q5, q6, q7, _⟩ :=
      ProcessLightQuery_spec camera v1 w i temp gb sb getLit getCasters
    refine ⟨_, _, _, _, rfl, q2.trans hs, q1.trans hw, ?_, ?_, ?_, ?_⟩
    · intro j hji
      exact ⟨((q4 j hji).1).trans (hj j hji).1, ((q4 j hji).2).trans (hj j hji).2⟩
    · intro d hd
      rcases q5 d hd with h | ⟨_, h, _⟩
      · rcases hlit d h with h | h
        · exact Or.inl h
        · exact Or.inr (Or.inl h)
      · exact Or.inr (Or.inr h)
    · intro d hd
      rcases q6 d hd with h | ⟨_, h, _⟩
      · rw [hcast] at h
        exact Or.inl h
      · exact Or.inr h
    · rcases q7 with h | ⟨_, l, hl, hc⟩
      · exact Or.inl (h.trans hcast)
      · right
        rw [hs, setSplitLight_get, if_pos rfl] at hl
        cases hl
        exact hc
  unfold View.ProcessLight.splitStep
  rw [h0]
  dsimp only
  cases hT : split0.lightType with
  | LIGHT_DIRECTIONAL =>
    dsimp only
    split_ifs with hrej hshadow
    · exact Or.inl ⟨rfl, rfl⟩
    · right
      refine hquery _ _ _ _ _ _ _ rfl rfl ?_ ?_ ?_
      · intro j hji
        exact ⟨by simp [Function.update, hji, View.setSplitLight], rfl⟩
      · intro d hd
        simp only [Function.update_same, List.mem_append, View.setSplitLight] at hd
        rcases hd with h | h
        · exact Or.inl h
        · exact Or.inr (directionalLit_mem _ _ _ _ _ _ h)
      · rfl
    · right
      refine ⟨_, _, _, _, rfl, rfl, rfl, ?_, ?_, ?_, Or.inl rfl⟩
      · intro j hji
        exact ⟨by simp [Function.update, hji, View.setSplitLight], rfl⟩
      · intro d hd
        simp only [Function.update_same, List.mem_append, View.setSplitLight] at hd
        rcases hd with h | h
        · exact Or.inl h
        · exact Or.inr (Or.inl (directionalLit_mem _ _ _ _ _ _ h))
      · intro d hd
        exact Or.inl hd
  | LIGHT_POINT =>
    right
    exact hquery _ _ _ _ _ _ _ rfl rfl (fun j _ => ⟨rfl, rfl⟩) (fun d h => Or.inl h) rfl
  | LIGHT_SPOT =>
    right
    exact hquery _ _ _ _ _ _ _ rfl rfl (fun j _ => ⟨rfl, rfl⟩) (fun d h => Or.inl h) rfl
  | LIGHT_SPLITPOINT =>
    right
    exact hquery _ _ _ _ _ _ _ rfl rfl (fun j _ => ⟨rfl, rfl⟩) (fun d h => Or.inl h) rfl

theorem splitStep_spec (camera : Camera) (octree : Octree) (isShadowed useOcclusion : Bool)
    (st : ProcessLightState) (i : Nat) :
    (View.ProcessLight.splitStep camera octree isShadowed useOcclusion st i).view.withoutScratch =
      st.view.withoutScratch ∧
    (∀ j, j ≠ i →
      (View.ProcessLight.splitStep camera octree isShadowed useOcclusion st i).view.splitLights_ j =
        st.view.splitLights_ j ∧
      (View.ProcessLight.splitStep camera octree isShadowed useOcclusion st
        i).view.litGeometries_ j = st.view.litGeometries_ j ∧
      (View.ProcessLight.splitStep camera octree isShadowed useOcclusion st
        i).view.shadowCasters_ j = st.view.shadowCasters_ j) ∧
    ((View.ProcessLight.splitStep camera octree isShadowed useOcclusion st i).view.splitLights_ i =
        none ↔ st.view.splitLights_ i = none) ∧
    (st.view.shadowCasters_ i = [] → ∀ s,
      (View.ProcessLight.splitStep camera octree isShadowed useOcclusion st i).view.splitLights_ i =
        some s →
      ((View.ProcessLight.splitStep camera octree isShadowed useOcclusion st
          i).view.shadowCasters_ i = [] → s.shadowMap = none) ∧
      ((View.ProcessLight.splitStep camera octree isShadowed useOcclusion st
          i).view.shadowCasters_ i ≠ [] → s.shadowMap ≠ none ∧ s.shadowCamera ≠ none)) ∧
    (∀ d ∈ (View.ProcessLight.splitStep camera octree isShadowed useOcclusion st
        i).view.litGeometries_ i,
      d ∈ st.view.litGeometries_ i ∨ d ∈ st.view.geometries_ ∨ d.beyondDrawDistance = false) ∧
    (∀ d ∈ (View.ProcessLight.splitStep camera octree isShadowed useOcclusion st
        i).view.shadowCasters_ i,
      d ∈ st.view.shadowCasters_ i ∨ d.beyondDrawDistance = false) ∧
    (∀ split0, st.view.splitLights_ i = some split0 → st.view.shadowCasters_ i = [] →
      isShadowed = true → split0.castShadows = true →
      (st.world.renderer.CreateShadowCamera.2.GetShadowMap split0.shadowResolution).1 = none →
      ∃ s, (View.ProcessLight.splitStep camera octree isShadowed useOcclusion st
          i).view.splitLights_ i = some s ∧
        s.shadowCamera = none ∧ s.shadowMap = none ∧
        (View.ProcessLight.splitStep camera octree isShadowed useOcclusion st
          i).view.shadowCasters_ i = []) ∧
    (st.view.litGeometries_ i = [] →
      (View.ProcessLight.splitStep camera octree isShadowed useOcclusion st i).numLitGeometries =
        st.numLitGeometries +
          ((View.ProcessLight.splitStep camera octree isShadowed useOcclusion st
            i).view.litGeometries_ i).length) ∧
    (st.view.shadowCasters_ i = [] →
      (View.ProcessLight.splitStep camera octree isShadowed useOcclusion st i).numShadowCasters =
        st.numShadowCasters +
          ((View.ProcessLight.splitStep camera octree isShadowed useOcclusion st
            i).view.shadowCasters_ i).length) := by
  cases h0 : st.view.splitLights_ i with
  | none =>
    rw [splitStep_none camera octree isShadowed useOcclusion st i h0]
    refine ⟨rfl, fun j _ => ⟨rfl, rfl, rfl⟩, ?_, ?_, fun d h => Or.inl h, fun d h => Or.inl h,
      ?_, ?_, ?_⟩
    · rw [h0]
    · intro _ s hs
      rw [h0] at hs
      cases hs
    · intro split0 h
      cases h
    · intro h
      rw [h]
      rfl
    · intro h
      rw [h]
      rfl
  | some split0 =>
    obtain ⟨c1, c2, c3, c4, c5⟩ :=
      chooseShadowMap_spec camera st.world.renderer isShadowed split0
    rcases splitStep_cases camera octree isShadowed useOcclusion st i split0 h0 with
      ⟨he, _⟩ | ⟨V, W, gb, sb, he, hs, hw, hj, hlit, hcast, hcam⟩
    · rw [he]
      refine ⟨rfl, ?_, ?_, ?_, fun d h => Or.inl h, fun d h => Or.inl h, ?_, ?_, ?_⟩
      · intro j hji
        refine ⟨?_, rfl, rfl⟩
        show ((st.view.setSplitLight i _).setSplitLight i _).splitLights_ j = _
        rw [setSplitLight_get, if_neg hji, setSplitLight_get, if_neg hji]
      · show ((st.view.setSplitLight i _).setSplitLight i _).splitLights_ i = none ↔ _
        rw [setSplitLight_get, if_pos rfl]
        simp
      · intro hc s hs
        have hs' : ((st.view.setSplitLight i
            (View.ProcessLight.chooseShadowMap camera st.world.renderer isShadowed
              split0).1).setSplitLight i
            { (View.ProcessLight.chooseShadowMap camera st.world.renderer isShadowed split0).1
              with shadowMap := none }).splitLights_ i = some s := hs
        rw [setSplitLight_get, if_pos rfl] at hs'
        cases hs'
        refine ⟨fun _ => rfl, fun hne => (hne hc).elim⟩
      · intro split0' h0' hc hsh hcs hfail
        cases h0'
        refine ⟨_, (setSplitLight_get _ _ _ _).trans (if_pos rfl), ?_, rfl, hc⟩
        exact (c4 hsh hcs hfail).1
      · intro h
        show st.numLitGeometries = st.numLitGeometries + (st.view.litGeometries_ i).length
        rw [h]
        rfl
      · intro h
        show st.numShadowCasters = st.numShadowCasters + (st.view.shadowCasters_ i).length
        rw [h]
        rfl
    · obtain ⟨f1, f2, f3, _, f5, f6, f7, _, f9⟩ := finishSplit_spec camera V W i gb sb st
      have hVi : V.splitLights_ i =
          some (View.ProcessLight.chooseShadowMap camera st.world.renderer isShadowed
            split0).1 := by
        rw [hs, setSplitLight_get, if_pos rfl]
      obtain ⟨s, g1, g2, g3⟩ := f9 _ hVi
      rw [he]
      refine ⟨f1.trans hw, ?_, ?_, ?_, ?_, ?_, ?_, ?_, ?_⟩
      · intro j hji
        refine ⟨?_, ?_, ?_⟩
        · rw [f7 j hji, hs, setSplitLight_get, if_neg hji]
        · rw [f2]
          exact (hj j hji).1
        · rw [f3]
          exact (hj j hji).2
      · rw [g1]
        simp
      · intro hc s' hs'
        rw [g1] at hs'
        cases hs'
        rw [f3]
        constructor
        · intro hV
          exact (g2 hV).1
        · intro hV
          have hcam' : (View.ProcessLight.chooseShadowMap camera st.world.renderer isShadowed
              split0).1.shadowCamera ≠ none := by
            rcases hcam with h | h
            · rw [h] at hV
              exact (hV hc).elim
            · exact h
          obtain ⟨m1, m2⟩ := g3 hV
          refine ⟨?_, ?_⟩
          · rw [m1]
            exact c1 hcam'
          · intro hn
            exact hcam' (m2.mp hn)
      · intro d hd
        rw [f2] at hd
        exact hlit d hd
      · intro d hd
        rw [f3] at hd
        exact hcast d hd
      · intro split0' h0' hc hsh hcs hfail
        cases h0'
        obtain ⟨k1, k2, _⟩ := c4 hsh hcs hfail
        have hV : V.shadowCasters_ i = [] := by
          rcases hcam with h | h
          · rw [h, hc]
          · exact (h k1).elim
        refine ⟨s, g1, ?_, (g2 hV).1, ?_⟩
        · rw [(g2 hV).2]
          exact k1
        · rw [f3]
          exact hV
      · intro _
        rw [f5, f2]
      · intro _
        rw [f6, f3]

theorem splitFold_succ (camera : Camera) (octree : Octree) (isShadowed useOcclusion : Bool)
    (st0 : ProcessLightState) (k : Nat) :
    (List.range (k + 1)).foldl (View.ProcessLight.splitStep camera octree isShadowed useOcclusion)
        st0 =
      View.ProcessLight.splitStep camera octree isShadowed useOcclusion
        ((List.range k).foldl (View.ProcessLight.splitStep camera octree isShadowed useOcclusion)
          st0) k := by
  rw [List.range_succ, List.foldl_append]
  rfl

theorem splitFold_frame_ge (camera : Camera) (octree : Octree) (isShadowed useOcclusion : Bool)
    (st0 : ProcessLightState) (k : Nat) :
    ((List.range k).foldl (View.ProcessLight.splitStep camera octree isShadowed useOcclusion)
        st0).view.withoutScratch = st0.view.withoutScratch ∧
    ∀ j, k ≤ j →
      ((List.range k).foldl (View.ProcessLight.splitStep camera octree isShadowed useOcclusion)
        st0).view.splitLights_ j = st0.view.splitLights_ j ∧
      ((List.range k).foldl (View.ProcessLight.splitStep camera octree isShadowed useOcclusion)
        st0).view.litGeometries_ j = st0.view.litGeometries_ j ∧
      ((List.range k).foldl (View.ProcessLight.splitStep camera octree isShadowed useOcclusion)
        st0).view.shadowCasters_ j = st0.view.shadowCasters_ j := by
  induction k with
  | zero => exact ⟨rfl, fun j _ => ⟨rfl, rfl, rfl⟩⟩
  | succ k ih =>
    rw [splitFold_succ]
    obtain ⟨s1, s2, _⟩ := splitStep_spec camera octree isShadowed useOcclusion
      ((List.range k).foldl (View.ProcessLight.splitStep camera octree isShadowed useOcclusion)
        st0) k
    refine ⟨s1.trans ih.1, ?_⟩
    intro j hj
    obtain ⟨a, b, c⟩ := s2 j (by omega)
    obtain ⟨a', b', c'⟩ := ih.2 j (by omega)
    exact ⟨a.trans a', b.trans b', c.trans c'⟩

theorem splitFold_frame_lt (camera : Camera) (octree : Octree) (isShadowed useOcclusion : Bool)
    (st0 : ProcessLightState) (k n : Nat) (i : Nat) (hi : i < k) :
    ((List.range (k + n)).foldl
        (View.ProcessLight.splitStep camera octree isShadowed useOcclusion)
        st0).view.splitLights_ i =
      ((List.range k).foldl (View.ProcessLight.splitStep camera octree isShadowed useOcclusion)
        st0).view.splitLights_ i ∧
    ((List.range (k + n)).foldl
        (View.ProcessLight.splitStep camera octree isShadowed useOcclusion)
        st0).view.litGeometries_ i =
      ((List.range k).foldl (View.ProcessLight.splitStep camera octree isShadowed useOcclusion)
        st0).view.litGeometries_ i ∧
    ((List.range (k + n)).foldl
        (View.ProcessLight.splitStep camera octree isShadowed useOcclusion)
        st0).view.shadowCasters_ i =
      ((List.range k).foldl (View.ProcessLight.splitStep camera octree isShadowed useOcclusion)
        st0).view.shadowCasters_ i := by
  induction n with
  | zero => exact ⟨rfl, rfl, rfl⟩
  | succ n ih =>
    rw [← Nat.add_assoc, splitFold_succ]
    obtain ⟨_, s2, _⟩ := splitStep_spec camera octree isShadowed useOcclusion
      ((List.range (k + n)).foldl
        (View.ProcessLight.splitStep camera octree isShadowed useOcclusion) st0) (k + n)
    obtain ⟨a, b, c⟩ := s2 i (by omega)
    exact ⟨a.trans ih.1, b.trans ih.2.1, c.trans ih.2.2⟩

theorem splitFold_inv (camera : Camera) (octree : Octree) (isShadowed useOcclusion : Bool)
    (st0 : ProcessLightState) (k : Nat)
    (hclear : ∀ i, i < k → st0.view.litGeometries_ i = [] ∧ st0.view.shadowCasters_ i = []) :
    ∀ i, i < k →
      (∀ s, ((List.range k).foldl
          (View.ProcessLight.splitStep camera octree isShadowed useOcclusion)
          st0).view.splitLights_ i = some s →
        (((List.range k).foldl
            (View.ProcessLight.splitStep camera octree isShadowed useOcclusion)
            st0).view.shadowCasters_ i = [] → s.shadowMap = none) ∧
        (((List.range k).foldl
            (View.ProcessLight.splitStep camera octree isShadowed useOcclusion)
            st0).view.shadowCasters_ i ≠ [] → s.shadowMap ≠ none ∧ s.shadowCamera ≠ none)) ∧
      (∀ d ∈ ((List.range k).foldl
          (View.ProcessLight.splitStep camera octree isShadowed useOcclusion)
          st0).view.litGeometries_ i,
        d ∈ st0.view.geometries_ ∨ d.beyondDrawDistance = false) ∧
      (∀ d ∈ ((List.range k).foldl
          (View.ProcessLight.splitStep camera octree isShadowed useOcclusion)
          st0).view.shadowCasters_ i, d.beyondDrawDistance = false) := by
  induction k with
  | zero =>
    intro i hi
    omega
  | succ k ih =>
    intro i hi
    rw [splitFold_succ]
    obtain ⟨_, s2, _, s4, s5, s6, _⟩ := splitStep_spec camera octree isShadowed useOcclusion
      ((List.range k).foldl (View.ProcessLight.splitStep camera octree isShadowed useOcclusion)
        st0) k
    obtain ⟨g0, g1⟩ := splitFold_frame_ge camera octree isShadowed useOcclusion st0 k
    by_cases hik : i = k
    · subst hik
      obtain ⟨_, gl, gc⟩ := g1 i (le_refl _)
      have hc0 := (hclear i hi)
      rw [hc0.1] at gl
      rw [hc0.2] at gc
      refine ⟨s4 gc, ?_, ?_⟩
      · intro d hd
        rcases s5 d hd with h | h | h
        · rw [gl] at h
          cases h
        · left
          have hg : ((List.range i).foldl
              (View.ProcessLight.splitStep camera octree isShadowed useOcclusion)
              st0).view.geometries_ = st0.view.geometries_ := by
            have hg0 := congrArg View.geometries_ g0
            exact hg0
          rw [← hg]
          exact h
        · exact Or.inr h
      · intro d hd
        rcases s6 d hd with h | h
        · rw [gc] at h
          cases h
        · exact h
    · have hlt : i < k := by omega
      obtain ⟨a, b, c⟩ := s2 i hik
      rw [a, b, c]
      exact ih (fun i hi => hclear i (by omega)) i hlt

theorem splitFold_fail (camera : Camera) (octree : Octree) (isShadowed useOcclusion : Bool)
    (st0 : ProcessLightState) (n i : Nat) (split0 : Light) (hi : i < n)
    (hclear : st0.view.shadowCasters_ i = [])
    (h0 : ((List.range i).foldl
      (View.ProcessLight.splitStep camera octree isShadowed useOcclusion)
      st0).view.splitLights_ i = some split0)
    (hsh : isShadowed = true) (hcs : split0.castShadows = true)
    (hfail : (((List.range i).foldl
      (View.ProcessLight.splitStep camera octree isShadowed useOcclusion)
      st0).world.renderer.CreateShadowCamera.2.GetShadowMap split0.shadowResolution).1 = none) :
    ∃ s, ((List.range n).foldl
        (View.ProcessLight.splitStep camera octree isShadowed useOcclusion)
        st0).view.splitLights_ i = some s ∧
      s.shadowCamera = none ∧ s.shadowMap = none ∧
      ((List.range n).foldl
        (View.ProcessLight.splitStep camera octree isShadowed useOcclusion)
        st0).view.shadowCasters_ i = [] := by
  obtain ⟨_, g1⟩ := splitFold_frame_ge camera octree isShadowed useOcclusion st0 i
  have hc : ((List.range i).foldl
      (View.ProcessLight.splitStep camera octree isShadowed useOcclusion)
      st0).view.shadowCasters_ i = [] := by
    rw [(g1 i (le_refl _)).2.2, hclear]
  obtain ⟨_, _, _, _, _, _, s7, _⟩ := splitStep_spec camera octree isShadowed useOcclusion
    ((List.range i).foldl (View.ProcessLight.splitStep camera octree isShadowed useOcclusion)
      st0) i
  obtain ⟨s, e1, e2, e3, e4⟩ := s7 split0 h0 hc hsh hcs hfail
  rw [← splitFold_succ] at e1 e4
  obtain ⟨m, hm⟩ : ∃ m, n = (i + 1) + m := ⟨n - (i + 1), by omega⟩
  obtain ⟨f1, _, f3⟩ := splitFold_frame_lt camera octree isShadowed useOcclusion st0 (i + 1) m i
    (by omega)
  rw [hm, f1, f3]
  exact ⟨s, e1, e2, e3, e4⟩

theorem setup_clear (camera : Camera) (octree : Octree) (v : View) (w : World) (light : Light)
    (i : Nat) (hi : i < (View.ProcessLight.setup camera octree v w light).numSplits) :
    (View.ProcessLight.setup camera octree v w light).state.view.litGeometries_ i = [] ∧
    (View.ProcessLight.setup camera octree v w light).state.view.shadowCasters_ i = [] := by
  unfold View.ProcessLight.setup at hi ⊢
  dsimp only at hi ⊢
  exact ⟨if_pos hi, if_pos hi⟩

theorem finish_cases (s : ProcessLightSetup) (st : ProcessLightState) :
    (View.ProcessLight.finish s st).1 = 0 ∧ st.numLitGeometries = 0 ∧
      (View.ProcessLight.finish s st).2.1 = st.view ∨
    ((View.ProcessLight.finish s st).1 = 1 ∧ st.numLitGeometries ≠ 0 ∧
      st.numShadowCasters = 0 ∧
      (View.ProcessLight.finish s st).2.1.shadowCasters_ = st.view.shadowCasters_ ∧
      (View.ProcessLight.finish s st).2.1.withoutScratch = st.view.withoutScratch ∧
      (∀ j, j ≠ 0 → (View.ProcessLight.finish s st).2.1.splitLights_ j =
        st.view.splitLights_ j) ∧
      (∀ j, j ≠ 0 → (View.ProcessLight.finish s st).2.1.litGeometries_ j =
        st.view.litGeometries_ j) ∧
      (View.ProcessLight.finish s st).2.1.litGeometries_ 0 =
        (if s.numSplits > 1 then
          dedupDrawables ((List.range s.numSplits).flatMap (fun i => st.view.litGeometries_ i))
        else st.view.litGeometries_ 0) ∧
      ∃ l, (View.ProcessLight.finish s st).2.1.splitLights_ 0 = some l ∧ l.shadowMap = none ∧
        l.id = (if s.isShadowed then s.light
          else match st.view.splitLights_ 0 with
            | some l => l
            | none => s.light).id) ∨
    ((View.ProcessLight.finish s st).1 = s.numSplits ∧ st.numLitGeometries ≠ 0 ∧
      st.numShadowCasters ≠ 0 ∧ (View.ProcessLight.finish s st).2.1 = st.view) := by
  unfold View.ProcessLight.finish
  by_cases h1 : st.numLitGeometries = 0
  · left
    rw [if_pos h1]
    exact ⟨rfl, h1, rfl⟩
  · right
    rw [if_neg h1]
    by_cases h2 : st.numShadowCasters = 0
    · left
      rw [if_pos h2]
      dsimp only
      refine ⟨rfl, h1, h2, ?_, ?_, ?_, ?_, ?_, ?_⟩
      · split_ifs <;> rfl
      · split_ifs <;> rfl
      · intro j hj
        rw [setSplitLight_get, if_neg hj]
        split_ifs <;> rfl
      · intro j hj
        by_cases h3 : s.numSplits > 1
        · rw [if_pos h3]
          simp [View.setSplitLight, Function.update, hj]
        · rw [if_neg h3]
          rfl
      · by_cases h3 : s.numSplits > 1
        · rw [if_pos h3, if_pos h3]
          simp [View.setSplitLight, Function.update]
        · rw [if_neg h3, if_neg h3]
          rfl
      · exact ⟨_, (setSplitLight_get _ _ _ _).trans (if_pos rfl), rfl, rfl⟩
    · right
      rw [if_neg h2]
      exact ⟨rfl, h1, h2, rfl⟩

/-- C11: after `ProcessLight`, every returned split that has no shadow casters has no shadow
map. In the split loop of `ProcessLight`, whenever the renderer supplies no shadow map for
the split of iteration `i` (the light is treated as shadowed, the split casts shadows, and
`GetShadowMap` returns null in the state before that iteration), that split has a null
shadow camera and a null shadow map and no shadow casters when the loop has ended. The view
that `ProcessLight` returns is the view the loop has left, unless no split has any shadow
caster while some split has a lit geometry: then the single returned split is the original
light with its shadow map cleared; the lists of shadow casters are those the loop has left
in every case. -/
theorem C11_ProcessLight_unshadowed_splits (camera : Camera) (octree : Octree) (v : View)
    (w : World) (light : Light) :
    (∀ i s, i < (View.ProcessLight camera octree v w light).1 →
      (View.ProcessLight camera octree v w light).2.1.splitLights_ i = some s →
      (View.ProcessLight camera octree v w light).2.1.shadowCasters_ i = [] →
      s.shadowMap = none) ∧
    (∀ i split0, i < (View.ProcessLight.setup camera octree v w light).numSplits →
      (View.ProcessLight.splitLoop camera octree v w light i).view.splitLights_ i =
        some split0 →
      (View.ProcessLight.setup camera octree v w light).isShadowed = true →
      split0.castShadows = true →
      ((View.ProcessLight.splitLoop camera octree v w light
        i).world.renderer.CreateShadowCamera.2.GetShadowMap split0.shadowResolution).1 = none →
      ∃ s, (View.ProcessLight.splitLoop camera octree v w light
          (View.ProcessLight.setup camera octree v w light).numSplits).view.splitLights_ i =
            some s ∧
        s.shadowCamera = none ∧ s.shadowMap = none ∧
        (View.ProcessLight.splitLoop camera octree v w light
          (View.ProcessLight.setup camera octree v w light).numSplits).view.shadowCasters_ i =
            []) ∧
    ((View.ProcessLight camera octree v w light).2.1.shadowCasters_ =
      (View.ProcessLight.splitLoop camera octree v w light
        (View.ProcessLight.setup camera octree v w light).numSplits).view.shadowCasters_) ∧
    ((View.ProcessLight camera octree v w light).2.1 =
        (View.ProcessLight.splitLoop camera octree v w light
          (View.ProcessLight.setup camera octree v w light).numSplits).view ∨
      ((View.ProcessLight camera octree v w light).1 = 1 ∧
        ∃ l, (View.ProcessLight camera octree v w light).2.1.splitLights_ 0 = some l ∧
          l.shadowMap = none)) := by
  have hinv := splitFold_inv camera octree
    (View.ProcessLight.setup camera octree v w light).isShadowed
    (View.ProcessLight.setup camera octree v w light).useOcclusion
    (View.ProcessLight.setup camera octree v w light).state
    (View.ProcessLight.setup camera octree v w light).numSplits
    (fun i hi => setup_clear camera octree v w light i hi)
  refine ⟨?_, ?_, ?_, ?_⟩
  · intro i s hi hs hc
    unfold View.ProcessLight at hi hs hc
    rcases finish_cases (View.ProcessLight.setup camera octree v w light)
      (View.ProcessLight.splitLoop camera octree v w light
        (View.ProcessLight.setup camera octree v w light).numSplits) with
      ⟨h1, _⟩ | ⟨h1, _, _, _, _, _, _, _, l, hl, hm, _⟩ | ⟨h1, _, _, h4⟩
    · rw [h1] at hi
      omega
    · rw [h1] at hi
      have hi0 : i = 0 := by omega
      subst hi0
      rw [hl] at hs
      cases hs
      exact hm
    · rw [h1] at hi
      rw [h4] at hs hc
      exact ((hinv i hi).1 s hs).1 hc
  · intro i split0 hi h0 hsh hcs hfail
    exact splitFold_fail camera octree _ _ _ _ i split0 hi
      (setup_clear camera octree v w light i hi).2 h0 hsh hcs hfail
  · unfold View.ProcessLight
    rcases finish_cases (View.ProcessLight.setup camera octree v w light)
      (View.ProcessLight.splitLoop camera octree v w light
        (View.ProcessLight.setup camera octree v w light).numSplits) with
      ⟨_, _, h⟩ | ⟨_, _, _, h, _⟩ | ⟨_, _, _, h⟩
    · rw [h]
    · exact h
    · rw [h]
  · unfold View.ProcessLight
    rcases finish_cases (View.ProcessLight.setup camera octree v w light)
      (View.ProcessLight.splitLoop camera octree v w light
        (View.ProcessLight.setup camera octree v w light).numSplits) with
      ⟨_, _, h⟩ | ⟨h1, _, _, _, _, _, _, _, l, hl, hm, _⟩ | ⟨_, _, _, h⟩
    · exact Or.inl h
    · exact Or.inr ⟨h1, l, hl, hm⟩
    · exact Or.inl h

/-- Witness for C11: a shadow-casting spot light in a view that draws shadows, with a
renderer that has no shadow map to hand out. The split of iteration 0 ends with a null shadow
camera, a null shadow map and no shadow casters. -/
theorem C11_ProcessLight_unshadowed_splits_witness :
    ∃ s, (View.ProcessLight.splitLoop Example.camera (Example.octree [] [Example.nearDrawable])
        Example.shadowView Example.litWorld Example.spotLight
        (View.ProcessLight.setup Example.camera (Example.octree [] [Example.nearDrawable])
          Example.shadowView Example.litWorld Example.spotLight).numSplits).view.splitLights_ 0 =
          some s ∧
      s.shadowCamera = none ∧ s.shadowMap = none ∧
      (View.ProcessLight.splitLoop Example.camera (Example.octree [] [Example.nearDrawable])
        Example.shadowView Example.litWorld Example.spotLight
        (View.ProcessLight.setup Example.camera (Example.octree [] [Example.nearDrawable])
          Example.shadowView Example.litWorld Example.spotLight).numSplits).view.shadowCasters_ 0 =
          [] :=
  (C11_ProcessLight_unshadowed_splits Example.camera (Example.octree [] [Example.nearDrawable])
    Example.shadowView Example.litWorld Example.spotLight).2.1 0
    (Example.world.renderer.CreateSplitLight Example.spotLight).1 (by decide) rfl rfl rfl rfl

theorem SortBatchesFrontToBack_sorted (l : List Batch) :
    (SortBatchesFrontToBack l).Pairwise (fun a b => a.distance_ ≤ b.distance_) := by
  unfold SortBatchesFrontToBack
  haveI : IsTotal Batch (fun a b => a.distance_ ≤ b.distance_) := ⟨fun a b => le_total _ _⟩
  haveI : IsTrans Batch (fun a b => a.distance_ ≤ b.distance_) :=
    ⟨fun a b c h1 h2 => le_trans h1 h2⟩
  exact List.sorted_insertionSort _ l

theorem SortBatchesBackToFront_sorted (l : List Batch) :
    (SortBatchesBackToFront l).Pairwise (fun a b => a.distance_ ≥ b.distance_) := by
  unfold SortBatchesBackToFront
  haveI : IsTotal Batch (fun a b => a.distance_ ≥ b.distance_) := ⟨fun a b => le_total _ _⟩
  haveI : IsTrans Batch (fun a b => a.distance_ ≥ b.distance_) :=
    ⟨fun a b c h1 h2 => le_trans h2 h1⟩
  exact List.sorted_insertionSort _ l

theorem SortFrontToBack_spec (q : BatchQueue) :
    q.SortFrontToBack.sortedPriorityBatches_.Pairwise (fun a b => a.distance_ ≤ b.distance_) ∧
    q.SortFrontToBack.sortedBatches_.Pairwise (fun a b => a.distance_ ≤ b.distance_) ∧
    q.SortFrontToBack.sortedPriorityBatches_.Perm (q.batches_.filter (fun b => b.hasPriority_)) ∧
    q.SortFrontToBack.sortedBatches_.Perm (q.batches_.filter (fun b => !b.hasPriority_)) ∧
    q.SortFrontToBack.added_ = q.added_ :=
  ⟨SortBatchesFrontToBack_sorted _, SortBatchesFrontToBack_sorted _,
    List.perm_insertionSort _ _, List.perm_insertionSort _ _, rfl⟩

theorem SortBackToFront_spec (q : BatchQueue) :
    q.SortBackToFront.sortedBatches_.Pairwise (fun a b => a.distance_ ≥ b.distance_) ∧
    q.SortBackToFront.sortedBatches_.Perm q.batches_ ∧
    q.SortBackToFront.sortedPriorityBatches_ = [] ∧
    q.SortBackToFront.added_ = q.added_ :=
  ⟨SortBatchesBackToFront_sorted _, List.perm_insertionSort _ _, rfl, rfl⟩

theorem SortBatches_opaque (v : View) (q : BatchQueue)
    (h : q ∈ Spec.opaqueQueues (View.SortBatches v)) :
    ∃ q0, q0 ∈ Spec.opaqueQueues v ∧ q = q0.SortFrontToBack := by
  unfold Spec.opaqueQueues at h ⊢
  unfold View.SortBatches at h
  by_cases hm : v.mode_ ≠ RenderMode.RENDER_FORWARD
  · simp only [hm, if_true, ne_eq, not_false_eq_true, List.mem_append, List.mem_cons,
      List.mem_singleton, List.mem_flatMap, List.mem_map, List.not_mem_nil, or_false] at h ⊢
    rcases h with (h | h) | h
    · rcases h with h | h
      · exact ⟨v.baseQueue_, Or.inl (Or.inl (Or.inl rfl)), h⟩
      · exact ⟨v.extraQueue_, Or.inl (Or.inl (Or.inr rfl)), h⟩
    · obtain ⟨lq, ⟨lq0, h0, rfl⟩, h⟩ := h
      rcases h with h | h
      · exact ⟨lq0.shadowBatches_, Or.inl (Or.inr ⟨lq0, h0, Or.inl rfl⟩), h⟩
      · exact ⟨lq0.litBatches_, Or.inl (Or.inr ⟨lq0, h0, Or.inr rfl⟩), h⟩
    · rcases h with h | h
      · exact ⟨v.gBufferQueue_, Or.inr (Or.inl rfl), h⟩
      · exact ⟨v.noShadowLightQueue_, Or.inr (Or.inr rfl), h⟩
  · simp only [hm, if_false, ne_eq, List.mem_append, List.mem_cons,
      List.mem_singleton, List.mem_flatMap, List.mem_map, List.not_mem_nil, or_false,
      List.append_nil] at h ⊢
    rcases h with h | h
    · rcases h with h | h
      · exact ⟨v.baseQueue_, Or.inl (Or.inl rfl), h⟩
      · exact ⟨v.extraQueue_, Or.inl (Or.inr rfl), h⟩
    · obtain ⟨lq, ⟨lq0, h0, rfl⟩, h⟩ := h
      rcases h with h | h
      · exact ⟨lq0.shadowBatches_, Or.inr ⟨lq0, h0, Or.inl rfl⟩, h⟩
      · exact ⟨lq0.litBatches_, Or.inr ⟨lq0, h0, Or.inr rfl⟩, h⟩

theorem SortBatches_transparent (v : View) :
    (View.SortBatches v).transparentQueue_ = v.transparentQueue_.SortBackToFront := by
  unfold View.SortBatches
  split_ifs <;> rfl

/-- C19, the claim as stated fails. In the base queue of the example view the near batch
(distance 5, no priority) is not farther away than the far batch (distance 10, priority),
but after `SortBatches` the far batch is drawn first, because the priority batches are
sorted and drawn apart from the others. In the extra queue two different batches are at the
same distance 5, so "A before B if A.distance <= B.distance" asks for each to come before the
other; they come in the order in which they were added. -/
theorem C19_counterexample :
    Example.nearBatch.distance_ ≤ Example.farPriorityBatch.distance_ ∧
    Spec.drawOrder (View.SortBatches Example.sortView).baseQueue_ =
      [Example.farPriorityBatch, Example.nearBatch] ∧
    Example.tiedBatch.distance_ ≤ Example.nearBatch.distance_ ∧
    Example.tiedBatch ≠ Example.nearBatch ∧
    Spec.drawOrder (View.SortBatches Example.sortView).extraQueue_ =
      [Example.nearBatch, Example.tiedBatch] := by
  refine ⟨by decide, by decide, by decide, by decide, by decide⟩

/-- C19, amended: after `SortBatches`, in every opaque queue (base, extra, the shadow and lit
queues of each light queue, and in the non-forward modes the G-buffer and no-shadow light
queues) each of the two sorted vectors is in ascending order of distance: a batch that
comes earlier in the vector is not farther away than one that comes later. The vector
`sortedPriorityBatches_` holds the individually drawn priority batches and `sortedBatches_`
the others. In the transparent queue `sortedBatches_` is in descending order of distance and
holds all individually drawn batches, and `sortedPriorityBatches_` is empty. -/
theorem C19_SortBatches_order (v : View) :
    (∀ q, q ∈ Spec.opaqueQueues (View.SortBatches v) →
      q.sortedPriorityBatches_.Pairwise (fun a b => a.distance_ ≤ b.distance_) ∧
      q.sortedBatches_.Pairwise (fun a b => a.distance_ ≤ b.distance_) ∧
      q.sortedPriorityBatches_.Perm (q.batches_.filter (fun b => b.hasPriority_)) ∧
      q.sortedBatches_.Perm (q.batches_.filter (fun b => !b.hasPriority_))) ∧
    (View.SortBatches v).transparentQueue_.sortedBatches_.Pairwise
      (fun a b => a.distance_ ≥ b.distance_) ∧
    (View.SortBatches v).transparentQueue_.sortedBatches_.Perm
      (View.SortBatches v).transparentQueue_.batches_ ∧
    (View.SortBatches v).transparentQueue_.sortedPriorityBatches_ = [] := by
  refine ⟨?_, ?_, ?_, ?_⟩
  · intro q hq
    obtain ⟨q0, _, rfl⟩ := SortBatches_opaque v q hq
    obtain ⟨h1, h2, h3, h4, _⟩ := SortFrontToBack_spec q0
    exact ⟨h1, h2, h3, h4⟩
  · rw [SortBatches_transparent]
    exact (SortBackToFront_spec _).1
  · rw [SortBatches_transparent]
    exact (SortBackToFront_spec _).2.1
  · rw [SortBatches_transparent]
    rfl

/-- Witness for C19: the sorted base queue of the example view. -/
theorem C19_SortBatches_order_witness :
    (View.SortBatches Example.sortView).baseQueue_.sortedBatches_.Pairwise
      (fun a b => a.distance_ ≤ b.distance_) :=
  ((C19_SortBatches_order Example.sortView).1 (View.SortBatches Example.sortView).baseQueue_
    (by simp [Spec.opaqueQueues])).2.1

theorem groupBatches_mem (n : Nat) :
    ∀ l : List Batch, l.length ≤ n → ∀ grp ∈ groupBatches l, ∀ b ∈ grp, b ∈ l := by
  induction n with
  | zero =>
    intro l hl grp hg
    have : l = [] := List.length_eq_zero.mp (by omega)
    subst this
    rw [groupBatches] at hg
    cases hg
  | succ n ih =>
    intro l hl grp hg b hb
    cases l with
    | nil =>
      rw [groupBatches] at hg
      cases hg
    | cons a rest =>
      rw [groupBatches, List.mem_cons] at hg
      rcases hg with hg | hg
      · subst hg
        rw [List.mem_cons] at hb
        rcases hb with hb | hb
        · subst hb
          exact List.mem_cons_self _ _
        · exact List.mem_cons_of_mem _ (List.mem_of_mem_filter hb)
      · have hlen : (rest.filter (fun x => !decide (x.groupKey = a.groupKey))).length ≤ n := by
          have := List.length_filter_le (fun x => !decide (x.groupKey = a.groupKey)) rest
          simp only [List.length_cons] at hl
          omega
        exact List.mem_cons_of_mem _ (List.mem_of_mem_filter (ih _ hlen grp hg b hb))

theorem priorityBatchGroups_priority (q : BatchQueue) :
    ∀ grp ∈ q.priorityBatchGroups_, ∀ b ∈ grp, b.hasPriority_ = true := by
  intro grp hg b hb
  unfold BatchQueue.priorityBatchGroups_ at hg
  have h := groupBatches_mem _ _ (le_refl _) grp hg b hb
  rw [List.mem_map] at h
  obtain ⟨p, hp, rfl⟩ := h
  have := List.of_mem_filter hp
  simp only [Bool.and_eq_true] at this
  exact this.2

theorem batchGroups_no_priority (q : BatchQueue) :
    ∀ grp ∈ q.batchGroups_, ∀ b ∈ grp, b.hasPriority_ = false := by
  intro grp hg b hb
  unfold BatchQueue.batchGroups_ at hg
  have h := groupBatches_mem _ _ (le_refl _) grp hg b hb
  rw [List.mem_map] at h
  obtain ⟨p, hp, rfl⟩ := h
  have := List.of_mem_filter hp
  simp only [Bool.and_eq_true, Bool.not_eq_true'] at this
  exact this.2

theorem groupBatches_nil : groupBatches [] = [] := by
  rw [groupBatches]

/-- C20, the claim as stated fails for the transparent queue. The example queue received a
batch without priority at distance 10 and a priority batch at distance 5, both drawn
individually. Sorted back to front, both are in `sortedBatches_`, and `RenderBatchQueue`
draws the batch without priority before the priority batch. -/
theorem C20_counterexample :
    View.RenderBatchQueue (View.SortBatches Example.blendView).transparentQueue_ =
      [DrawCall.single Example.farBatch, DrawCall.single Example.nearPriorityBatch] ∧
    Example.farBatch.hasPriority_ = false ∧ Example.nearPriorityBatch.hasPriority_ = true := by
  refine ⟨?_, rfl, rfl⟩
  rw [SortBatches_transparent]
  unfold View.RenderBatchQueue BatchQueue.priorityBatchGroups_ BatchQueue.batchGroups_
  have h1 : ((Example.blendView.transparentQueue_.SortBackToFront).added_.filter
      (fun p => Batch.instanced p && p.1.hasPriority_)).map Prod.fst = [] := by decide
  have h2 : ((Example.blendView.transparentQueue_.SortBackToFront).added_.filter
      (fun p => Batch.instanced p && !p.1.hasPriority_)).map Prod.fst = [] := by decide
  have h3 : (Example.blendView.transparentQueue_.SortBackToFront).sortedPriorityBatches_ = [] :=
    rfl
  have h4 : (Example.blendView.transparentQueue_.SortBackToFront).sortedBatches_ =
      [Example.farBatch, Example.nearPriorityBatch] := by decide
  rw [h1, h2, h3, h4, groupBatches_nil]
  rfl

/-- C20, amended: `RenderBatchQueue` draws the priority instanced groups, then the batches
of `sortedPriorityBatches_`, then the other instanced groups, then the batches of
`sortedBatches_`. For a queue sorted front to back (every queue but the transparent one) the
draw sequence therefore is a run of draws of priority batches followed by a run of draws of
batches without priority. A queue sorted back to front (the transparent queue) has its
individually drawn priority batches in `sortedBatches_`, drawn last in order of distance. A
queue to which no batch was added issues no draw at all, and neither does a cleared queue. -/
theorem C20_RenderBatchQueue_order (q : BatchQueue) :
    View.RenderBatchQueue q =
      q.priorityBatchGroups_.map DrawCall.group ++
        q.sortedPriorityBatches_.map DrawCall.single ++
        q.batchGroups_.map DrawCall.group ++ q.sortedBatches_.map DrawCall.single ∧
    (∃ P N, View.RenderBatchQueue q.SortFrontToBack = P ++ N ∧
      (∀ c ∈ P, ∀ b ∈ c.batches, b.hasPriority_ = true) ∧
      (∀ c ∈ N, ∀ b ∈ c.batches, b.hasPriority_ = false)) ∧
    (q.added_ = [] → View.RenderBatchQueue q.SortFrontToBack = [] ∧
      View.RenderBatchQueue q.SortBackToFront = []) ∧
    View.RenderBatchQueue BatchQueue.Clear = [] := by
  have hempty : ∀ q' : BatchQueue, q'.added_ = [] → q'.sortedPriorityBatches_ = [] →
      q'.sortedBatches_ = [] → View.RenderBatchQueue q' = [] := by
    intro q' h1 h2 h3
    unfold View.RenderBatchQueue BatchQueue.priorityBatchGroups_ BatchQueue.batchGroups_
    rw [h1, h2, h3]
    simp [groupBatches_nil]
  refine ⟨rfl, ?_, ?_, hempty _ rfl rfl rfl⟩
  · refine ⟨q.SortFrontToBack.priorityBatchGroups_.map DrawCall.group ++
        q.SortFrontToBack.sortedPriorityBatches_.map DrawCall.single,
      q.SortFrontToBack.batchGroups_.map DrawCall.group ++
        q.SortFrontToBack.sortedBatches_.map DrawCall.single, ?_, ?_, ?_⟩
    · unfold View.RenderBatchQueue
      simp only [List.append_assoc]
    · intro c hc b hb
      rw [List.mem_append, List.mem_map, List.mem_map] at hc
      rcases hc with ⟨grp, hg, rfl⟩ | ⟨x, hx, rfl⟩
      · exact priorityBatchGroups_priority _ grp hg b hb
      · have hb' : b = x := by simpa [DrawCall.batches] using hb
        subst hb'
        have := ((SortFrontToBack_spec q).2.2.1).subset hx
        simpa using (List.of_mem_filter this)
    · intro c hc b hb
      rw [List.mem_append, List.mem_map, List.mem_map] at hc
      rcases hc with ⟨grp, hg, rfl⟩ | ⟨x, hx, rfl⟩
      · exact batchGroups_no_priority _ grp hg b hb
      · have hb' : b = x := by simpa [DrawCall.batches] using hb
        subst hb'
        have := ((SortFrontToBack_spec q).2.2.2.1).subset hx
        simpa using (List.of_mem_filter this)
  · intro h
    constructor
    · apply hempty
      · exact h
      · show SortBatchesFrontToBack (q.batches_.filter _) = []
        unfold BatchQueue.batches_
        rw [h]
        rfl
      · show SortBatchesFrontToBack (q.batches_.filter _) = []
        unfold BatchQueue.batches_
        rw [h]
        rfl
    · apply hempty
      · exact h
      · rfl
      · show SortBatchesBackToFront q.batches_ = []
        unfold BatchQueue.batches_
        rw [h]
        rfl

/-- Witness for C20: a queue to which nothing was added issues no draw. -/
theorem C20_RenderBatchQueue_order_witness :
    View.RenderBatchQueue BatchQueue.Clear.SortFrontToBack = [] :=
  ((C20_RenderBatchQueue_order BatchQueue.Clear).2.2.1 rfl).1

theorem baseStep_skip (g : Graphics) (camera : Camera) (drawable : Drawable)
    (st : GetBatchesState) (j : Nat)
    (h : (drawable.GetBatch j).geometry_ = none ∨
      (View.GetTechnique g st.world.renderer st.view drawable
        (drawable.GetBatch j).material_).1 = none ∨
      st.world.HasBasePass drawable j = true) :
    View.GetBatches.baseStep g camera drawable st j = st := by
  unfold View.GetBatches.baseStep
  dsimp only
  cases hgeo : (drawable.GetBatch j).geometry_ with
  | none =>
    cases (View.GetTechnique g st.world.renderer st.view drawable
        (drawable.GetBatch j).material_).1 <;> rfl
  | some geo =>
    cases htech : (View.GetTechnique g st.world.renderer st.view drawable
        (drawable.GetBatch j).material_).1 with
    | none => rfl
    | some tech =>
      rcases h with h | h | h
      · rw [hgeo] at h
        cases h
      · rw [htech] at h
        cases h
      · dsimp only
        rw [if_pos h]

theorem baseStep_eq (g : Graphics) (camera : Camera) (drawable : Drawable)
    (st : GetBatchesState) (j : Nat) (geo : Nat) (tech : Technique)
    (hgeo : (drawable.GetBatch j).geometry_ = some geo)
    (htech : (View.GetTechnique g st.world.renderer st.view drawable
      (drawable.GetBatch j).material_).1 = some tech)
    (hbase : st.world.HasBasePass drawable j = false) :
    View.GetBatches.baseStep g camera drawable st j =
      match (if st.view.mode_ ≠ RenderMode.RENDER_FORWARD then
          tech.GetPass PassType.PASS_GBUFFER else none) with
      | some pass =>
        match tech.GetPass PassType.PASS_EXTRA with
        | some extra =>
          { st with view := { st.view with
              gBufferQueue_ := st.view.gBufferQueue_.AddBatch
                { Renderer.SetBatchShaders (Spec.filledBaseBatch g camera drawable st j) tech
                    pass true with hasPriority_ := !pass.alphaTest && !pass.alphaMask } false,
              baseQueue_ := st.view.baseQueue_.AddBatch
                (Renderer.SetBatchShaders
                  { Renderer.SetBatchShaders (Spec.filledBaseBatch g camera drawable st j) tech
                      pass true with hasPriority_ := !pass.alphaTest && !pass.alphaMask }
                  tech extra true) false } }
        | none =>
          { st with view := { st.view with
              gBufferQueue_ := st.view.gBufferQueue_.AddBatch
                { Renderer.SetBatchShaders (Spec.filledBaseBatch g camera drawable st j) tech
                    pass true with hasPriority_ := !pass.alphaTest && !pass.alphaMask }
                false } }
      | none =>
        match tech.GetPass PassType.PASS_BASE with
        | some pass =>
          if pass.blendMode = BlendMode.BLEND_REPLACE then
            { st with view := { st.view with
                baseQueue_ := st.view.baseQueue_.AddBatch
                  { Renderer.SetBatchShaders (Spec.filledBaseBatch g camera drawable st j) tech
                      pass true with hasPriority_ := !pass.alphaTest && !pass.alphaMask }
                  false } }
          else
            { st with view := { st.view with
                transparentQueue_ := st.view.transparentQueue_.AddBatch
                  { Renderer.SetBatchShaders (Spec.filledBaseBatch g camera drawable st j) tech
                      pass true with hasPriority_ := true } true } }
        | none =>
          match tech.GetPass PassType.PASS_EXTRA with
          | some pass =>
            { st with view := { st.view with
                extraQueue_ := st.view.extraQueue_.AddBatch
                  (Renderer.SetBatchShaders
                    { Spec.filledBaseBatch g camera drawable st j with hasPriority_ := false }
                    tech pass true) false } }
          | none => st := by
  unfold View.GetBatches.baseStep Spec.filledBaseBatch
  dsimp only
  rw [hgeo, htech]
  dsimp only
  rw [hbase]
  simp only [Bool.false_eq_true, if_false]

/-- C16, the claim as stated fails in deferred mode. The only technique of the material of
the example drawable has a G-buffer pass and a base pass with alpha blending. In a deferred
view the base-pass loop body of `GetBatches` adds the batch of the drawable to the G-buffer
queue and leaves the transparent queue empty. -/
theorem C16_counterexample :
    (View.GetTechnique Example.graphicsDeferred Example.world.renderer Example.deferredView
      Example.batchDrawable (Example.batchDrawable.GetBatch 0).material_).1 =
        some Example.gbufferAlphaTechnique ∧
    Example.gbufferAlphaTechnique.GetPass PassType.PASS_BASE = some Example.alphaPass ∧
    Example.alphaPass.blendMode ≠ BlendMode.BLEND_REPLACE ∧
    (View.GetBatches.baseStep Example.graphicsDeferred Example.camera Example.batchDrawable
      (Example.batchState Example.deferredView) 0).view.transparentQueue_ = BatchQueue.Clear ∧
    (View.GetBatches.baseStep Example.graphicsDeferred Example.camera Example.batchDrawable
      (Example.batchState Example.deferredView) 0).view.gBufferQueue_.batches.length = 1 := by
  refine ⟨by decide, rfl, by decide, by decide, by decide⟩

/-- C16, amended: take a batch of a visible geometry that reaches the pass selection of the
base-pass loop of `GetBatches` (non-null geometry, resolved technique, no lit base pass) and
whose technique has a base pass with a blend mode other than replace. In forward mode, and
in the other modes when the technique has no G-buffer pass, the batch is added to the
transparent queue, with priority and without instancing, and no other queue changes. In a
non-forward mode with a G-buffer pass in the technique the batch goes to the G-buffer queue
instead and the transparent queue does not change. -/
theorem C16_GetBatches_transparent_base (g : Graphics) (camera : Camera) (drawable : Drawable)
    (st : GetBatchesState) (j : Nat) (geo : Nat) (tech : Technique) (pass : Pass)
    (hgeo : (drawable.GetBatch j).geometry_ = some geo)
    (htech : (View.GetTechnique g st.world.renderer st.view drawable
      (drawable.GetBatch j).material_).1 = some tech)
    (hbase : st.world.HasBasePass drawable j = false)
    (hpass : tech.GetPass PassType.PASS_BASE = some pass)
    (hblend : pass.blendMode ≠ BlendMode.BLEND_REPLACE) :
    (st.view.mode_ = RenderMode.RENDER_FORWARD ∨ tech.GetPass PassType.PASS_GBUFFER = none →
      View.GetBatches.baseStep g camera drawable st j =
        { st with view := { st.view with
            transparentQueue_ := st.view.transparentQueue_.AddBatch
              { Renderer.SetBatchShaders (Spec.filledBaseBatch g camera drawable st j) tech
                  pass true with hasPriority_ := true } true } }) ∧
    (∀ gpass, st.view.mode_ ≠ RenderMode.RENDER_FORWARD →
      tech.GetPass PassType.PASS_GBUFFER = some gpass →
      (View.GetBatches.baseStep g camera drawable st j).view.transparentQueue_ =
        st.view.transparentQueue_ ∧
      (View.GetBatches.baseStep g camera drawable st j).view.gBufferQueue_ =
        st.view.gBufferQueue_.AddBatch
          { Renderer.SetBatchShaders (Spec.filledBaseBatch g camera drawable st j) tech
              gpass true with hasPriority_ := !gpass.alphaTest && !gpass.alphaMask } false) := by
  rw [baseStep_eq g camera drawable st j geo tech hgeo htech hbase]
  constructor
  · intro h
    have hG : (if st.view.mode_ ≠ RenderMode.RENDER_FORWARD then
        tech.GetPass PassType.PASS_GBUFFER else none) = none := by
      rcases h with h | h
      · rw [if_neg (fun hn => hn h)]
      · rw [h]
        split_ifs <;> rfl
    rw [hG, hpass]
    dsimp only
    rw [if_neg hblend]
  · intro gpass hm hg
    rw [if_pos hm, hg]
    dsimp only
    cases tech.GetPass PassType.PASS_EXTRA with
    | some extra => exact ⟨rfl, rfl⟩
    | none => exact ⟨rfl, rfl⟩

/-- Witness for C16: the example drawable in a forward view. -/
theorem C16_GetBatches_transparent_base_witness :
    View.GetBatches.baseStep Example.graphics Example.camera Example.batchDrawable
        (Example.batchState View.init) 0 =
      { Example.batchState View.init with view := { View.init with
          transparentQueue_ := View.init.transparentQueue_.AddBatch
            { Renderer.SetBatchShaders
                (Spec.filledBaseBatch Example.graphics Example.camera Example.batchDrawable
                  (Example.batchState View.init) 0)
                Example.gbufferAlphaTechnique Example.alphaPass true with
              hasPriority_ := true } true } } :=
  (C16_GetBatches_transparent_base Example.graphics Example.camera Example.batchDrawable
    (Example.batchState View.init) 0 1 Example.gbufferAlphaTechnique Example.alphaPass
    rfl (by decide) rfl rfl (by decide)).1 (Or.inl rfl)

/-- C17: take a batch of a visible geometry with a non-null geometry, a resolved technique
and no lit base pass, in the base-pass loop of `GetBatches`. In a non-forward mode, if the
technique has a G-buffer pass, the batch is added to the G-buffer queue, and with the extra
pass also to the base queue when the technique has one, and to no other queue. Otherwise
(forward mode, or no G-buffer pass), if the technique has a base pass the batch is added to
the base queue when the pass blends with replace and to the transparent queue when it does
not, and to no other queue; if it has no base pass but an extra pass the batch is added to
the extra queue only; if it has neither, nothing changes. -/
theorem C17_GetBatches_base_pass_selection (g : Graphics) (camera : Camera)
    (drawable : Drawable) (st : GetBatchesState) (j : Nat) (geo : Nat) (tech : Technique)
    (hgeo : (drawable.GetBatch j).geometry_ = some geo)
    (htech : (View.GetTechnique g st.world.renderer st.view drawable
      (drawable.GetBatch j).material_).1 = some tech)
    (hbase : st.world.HasBasePass drawable j = false) :
    (∀ pass, st.view.mode_ ≠ RenderMode.RENDER_FORWARD →
      tech.GetPass PassType.PASS_GBUFFER = some pass →
      (∀ extra, tech.GetPass PassType.PASS_EXTRA = some extra →
        View.GetBatches.baseStep g camera drawable st j =
          { st with view := { st.view with
              gBufferQueue_ := st.view.gBufferQueue_.AddBatch
                { Renderer.SetBatchShaders (Spec.filledBaseBatch g camera drawable st j) tech
                    pass true with hasPriority_ := !pass.alphaTest && !pass.alphaMask } false,
              baseQueue_ := st.view.baseQueue_.AddBatch
                (Renderer.SetBatchShaders
                  { Renderer.SetBatchShaders (Spec.filledBaseBatch g camera drawable st j) tech
                      pass true with hasPriority_ := !pass.alphaTest && !pass.alphaMask }
                  tech extra true) false } }) ∧
      (tech.GetPass PassType.PASS_EXTRA = none →
        View.GetBatches.baseStep g camera drawable st j =
          { st with view := { st.view with
              gBufferQueue_ := st.view.gBufferQueue_.AddBatch
                { Renderer.SetBatchShaders (Spec.filledBaseBatch g camera drawable st j) tech
                    pass true with hasPriority_ := !pass.alphaTest && !pass.alphaMask }
                false } })) ∧
    (st.view.mode_ = RenderMode.RENDER_FORWARD ∨ tech.GetPass PassType.PASS_GBUFFER = none →
      (∀ pass, tech.GetPass PassType.PASS_BASE = some pass →
        (pass.blendMode = BlendMode.BLEND_REPLACE →
          View.GetBatches.baseStep g camera drawable st j =
            { st with view := { st.view with
                baseQueue_ := st.view.baseQueue_.AddBatch
                  { Renderer.SetBatchShaders (Spec.filledBaseBatch g camera drawable st j) tech
                      pass true with hasPriority_ := !pass.alphaTest && !pass.alphaMask }
                  false } }) ∧
        (pass.blendMode ≠ BlendMode.BLEND_REPLACE →
          View.GetBatches.baseStep g camera drawable st j =
            { st with view := { st.view with
                transparentQueue_ := st.view.transparentQueue_.AddBatch
                  { Renderer.SetBatchShaders (Spec.filledBaseBatch g camera drawable st j) tech
                      pass true with hasPriority_ := true } true } })) ∧
      (tech.GetPass PassType.PASS_BASE = none →
        (∀ extra, tech.GetPass PassType.PASS_EXTRA = some extra →
          View.GetBatches.baseStep g camera drawable st j =
            { st with view := { st.view with
                extraQueue_ := st.view.extraQueue_.AddBatch
                  (Renderer.SetBatchShaders
                    { Spec.filledBaseBatch g camera drawable st j with hasPriority_ := false }
                    tech extra true) false } }) ∧
        (tech.GetPass PassType.PASS_EXTRA = none →
          View.GetBatches.baseStep g camera drawable st j = st))) := by
  rw [baseStep_eq g camera drawable st j geo tech hgeo htech hbase]
  constructor
  · intro pass hm hg
    rw [if_pos hm, hg]
    dsimp only
    constructor
    · intro extra he
      rw [he]
    · intro he
      rw [he]
  · intro h
    have hG : (if st.view.mode_ ≠ RenderMode.RENDER_FORWARD then
        tech.GetPass PassType.PASS_GBUFFER else none) = none := by
      rcases h with h | h
      · rw [if_neg (fun hn => hn h)]
      · rw [h]
        split_ifs <;> rfl
    rw [hG]
    dsimp only
    constructor
    · intro pass hp
      rw [hp]
      dsimp only
      constructor
      · intro hb
        rw [if_pos hb]
      · intro hb
        rw [if_neg hb]
    · intro hp
      rw [hp]
      dsimp only
      constructor
      · intro extra he
        rw [he]
      · intro he
        rw [he]

/-- Witness for C17: the example drawable in a deferred view; its technique has a G-buffer
pass and no extra pass, so its batch goes to the G-buffer queue only. -/
theorem C17_GetBatches_base_pass_selection_witness :
    View.GetBatches.baseStep Example.graphicsDeferred Example.camera Example.batchDrawable
        (Example.batchState Example.deferredView) 0 =
      { Example.batchState Example.deferredView with view := { Example.deferredView with
          gBufferQueue_ := Example.deferredView.gBufferQueue_.AddBatch
            { Renderer.SetBatchShaders
                (Spec.filledBaseBatch Example.graphicsDeferred Example.camera
                  Example.batchDrawable (Example.batchState Example.deferredView) 0)
                Example.gbufferAlphaTechnique Example.opaquePass true with
              hasPriority_ := !Example.opaquePass.alphaTest && !Example.opaquePass.alphaMask }
            false } } :=
  ((C17_GetBatches_base_pass_selection Example.graphicsDeferred Example.camera
    Example.batchDrawable (Example.batchState Example.deferredView) 0 1
    Example.gbufferAlphaTechnique rfl (by decide) rfl).1 Example.opaquePass (by decide) rfl).2 rfl

theorem addsOnly_refl (good : Batch → Prop) (v : View) : Spec.addsOnly good v v :=
  fun _ h => Or.inl h

theorem addsOnly_trans (good : Batch → Prop) (v1 v2 v3 : View)
    (h12 : Spec.addsOnly good v1 v2) (h23 : Spec.addsOnly good v2 v3) :
    Spec.addsOnly good v1 v3 := by
  intro b hb
  rcases h23 b hb with h | h
  · exact h12 b h
  · exact Or.inr h

theorem addsOnly_mono (good good' : Batch → Prop) (v1 v2 : View)
    (hg : ∀ b, good b → good' b) (h : Spec.addsOnly good v1 v2) :
    Spec.addsOnly good' v1 v2 := by
  intro b hb
  rcases h b hb with h | h
  · exact Or.inl h
  · exact Or.inr (hg b h)

theorem addsOnly_of_eq (good : Batch → Prop) (v1 v2 : View)
    (h : Spec.drawableBatches v2 = Spec.drawableBatches v1) : Spec.addsOnly good v1 v2 := by
  intro b hb
  rw [h] at hb
  exact Or.inl hb

theorem mem_AddBatch (q : BatchQueue) (x : Batch) (n : Bool) (b : Batch) :
    b ∈ (q.AddBatch x n).batches ↔ b ∈ q.batches ∨ b = x := by
  unfold BatchQueue.AddBatch BatchQueue.batches
  simp

theorem mem_modify {α : Type} (f : α → α) (l : List α) :
    ∀ (i : Nat) (x : α), x ∈ l.modify f i → x ∈ l ∨ ∃ y, y ∈ l ∧ x = f y := by
  induction l with
  | nil =>
    intro i x h
    cases i <;> simp [List.modify] at h
  | cons a rest ih =>
    intro i x h
    cases i with
    | zero =>
      simp only [List.modify_zero_cons, List.mem_cons] at h
      rcases h with h | h
      · exact Or.inr ⟨a, List.mem_cons_self _ _, h⟩
      · exact Or.inl (List.mem_cons_of_mem _ h)
    | succ i =>
      simp only [List.modify_succ_cons, List.mem_cons] at h
      rcases h with h | h
      · exact Or.inl (h ▸ List.mem_cons_self _ _)
      · rcases ih i x h with h | ⟨y, hy, hx⟩
        · exact Or.inl (List.mem_cons_of_mem _ h)
        · exact Or.inr ⟨y, List.mem_cons_of_mem _ hy, hx⟩

theorem map_modify {α β : Type} (f : α → α) (p : α → β) (hp : ∀ x, p (f x) = p x)
    (l : List α) : ∀ i : Nat, (l.modify f i).map p = l.map p := by
  induction l with
  | nil =>
    intro i
    cases i <;> simp [List.modify]
  | cons a rest ih =>
    intro i
    cases i with
    | zero => simp [hp]
    | succ i => simp [ih i]

theorem addsOnly_gBuffer (good : Batch → Prop) (v : View) (x : Batch) (n : Bool)
    (hx : good x) :
    Spec.addsOnly good v { v with gBufferQueue_ := v.gBufferQueue_.AddBatch x n } := by
  intro b hb
  simp only [Spec.drawableBatches, List.mem_append, mem_AddBatch] at hb ⊢
  rcases hb with (((((hb | hb) | hb) | hb) | hb) | hb)
  · exact Or.inl (Or.inl (Or.inl (Or.inl (Or.inl hb))))
  · subst hb
    exact Or.inr hx
  · exact Or.inl (Or.inl (Or.inl (Or.inl (Or.inr hb))))
  · exact Or.inl (Or.inl (Or.inl (Or.inr hb)))
  · exact Or.inl (Or.inl (Or.inr hb))
  · exact Or.inl (Or.inr hb)

theorem addsOnly_base (good : Batch → Prop) (v : View) (x : Batch) (n : Bool)
    (hx : good x) :
    Spec.addsOnly good v { v with baseQueue_ := v.baseQueue_.AddBatch x n } := by
  intro b hb
  simp only [Spec.drawableBatches, List.mem_append, mem_AddBatch] at hb ⊢
  rcases hb with ((((hb | (hb | hb)) | hb) | hb) | hb)
  · exact Or.inl (Or.inl (Or.inl (Or.inl (Or.inl hb))))
  · exact Or.inl (Or.inl (Or.inl (Or.inl (Or.inr hb))))
  · subst hb
    exact Or.inr hx
  · exact Or.inl (Or.inl (Or.inl (Or.inr hb)))
  · exact Or.inl (Or.inl (Or.inr hb))
  · exact Or.inl (Or.inr hb)

theorem addsOnly_extra (good : Batch → Prop) (v : View) (x : Batch) (n : Bool)
    (hx : good x) :
    Spec.addsOnly good v { v with extraQueue_ := v.extraQueue_.AddBatch x n } := by
  intro b hb
  simp only [Spec.drawableBatches, List.mem_append, mem_AddBatch] at hb ⊢
  rcases hb with ((((hb | hb) | (hb | hb)) | hb) | hb)
  · exact Or.inl (Or.inl (Or.inl (Or.inl (Or.inl hb))))
  · exact Or.inl (Or.inl (Or.inl (Or.inl (Or.inr hb))))
  · exact Or.inl (Or.inl (Or.inl (Or.inr hb)))
  · subst hb
    exact Or.inr hx
  · exact Or.inl (Or.inl (Or.inr hb))
  · exact Or.inl (Or.inr hb)

theorem addsOnly_transparent (good : Batch → Prop) (v : View) (x : Batch) (n : Bool)
    (hx : good x) :
    Spec.addsOnly good v { v with transparentQueue_ := v.transparentQueue_.AddBatch x n } := by
  intro b hb
  simp only [Spec.drawableBatches, List.mem_append, mem_AddBatch] at hb ⊢
  rcases hb with ((((hb | hb) | hb) | (hb | hb)) | hb)
  · exact Or.inl (Or.inl (Or.inl (Or.inl (Or.inl hb))))
  · exact Or.inl (Or.inl (Or.inl (Or.inl (Or.inr hb))))
  · exact Or.inl (Or.inl (Or.inl (Or.inr hb)))
  · exact Or.inl (Or.inl (Or.inr hb))
  · subst hb
    exact Or.inr hx
  · exact Or.inl (Or.inr hb)

theorem addsOnly_modify (good : Batch → Prop) (v : View) (i : Nat)
    (f : LightBatchQueue → LightBatchQueue)
    (hf : ∀ q b, b ∈ (f q).shadowBatches_.batches ++ (f q).litBatches_.batches →
      b ∈ q.shadowBatches_.batches ++ q.litBatches_.batches ∨ good b) :
    Spec.addsOnly good v (v.modifyLightQueue i f) := by
  intro b hb
  unfold Spec.drawableBatches View.modifyLightQueue at hb
  unfold Spec.drawableBatches
  rw [List.mem_append] at hb ⊢
  rcases hb with hb | hb
  · exact Or.inl (Or.inl hb)
  · rw [List.mem_flatMap] at hb
    obtain ⟨q', hq', hbq⟩ := hb
    rcases mem_modify f _ i q' hq' with h | ⟨q, hq, rfl⟩
    · exact Or.inl (Or.inr (List.mem_flatMap.mpr ⟨q', h, hbq⟩))
    · rcases hf q b hbq with h | h
      · exact Or.inl (Or.inr (List.mem_flatMap.mpr ⟨q, hq, h⟩))
      · exact Or.inr h

theorem withoutDrawableBatches_modify (v : View) (i : Nat)
    (f : LightBatchQueue → LightBatchQueue)
    (hf : ∀ q, (f q).withoutDrawableBatches = q.withoutDrawableBatches) :
    (v.modifyLightQueue i f).withoutDrawableBatches = v.withoutDrawableBatches := by
  unfold View.withoutDrawableBatches View.modifyLightQueue
  dsimp only
  rw [map_modify f LightBatchQueue.withoutDrawableBatches hf]

theorem shadowBatchStep_spec (g : Graphics) (splitLight : Light) (queueIndex : Nat)
    (drawable : Drawable) (st : GetBatchesState) (l : Nat) :
    ((drawable.GetBatch l).geometry_ = none ∨
      (View.GetTechnique g st.world.renderer st.view drawable
        (drawable.GetBatch l).material_).1 = none →
      View.GetBatches.shadowBatchStep g splitLight queueIndex drawable st l = st) ∧
    (View.GetBatches.shadowBatchStep g splitLight queueIndex drawable st
      l).view.withoutDrawableBatches = st.view.withoutDrawableBatches ∧
    { View.GetBatches.shadowBatchStep g splitLight queueIndex drawable st l with
      view := st.view } = st ∧
    Spec.addsOnly (Spec.resolvedFrom g st drawable l) st.view
      (View.GetBatches.shadowBatchStep g splitLight queueIndex drawable st l).view := by
  unfold View.GetBatches.shadowBatchStep
  dsimp only
  cases hgeo : (drawable.GetBatch l).geometry_ with
  | none =>
    cases (View.GetTechnique g st.world.renderer st.view drawable
        (drawable.GetBatch l).material_).1 <;>
      exact ⟨fun _ => rfl, rfl, rfl, addsOnly_refl _ _⟩
  | some geo =>
    cases htech : (View.GetTechnique g st.world.renderer st.view drawable
        (drawable.GetBatch l).material_).1 with
    | none => exact ⟨fun _ => rfl, rfl, rfl, addsOnly_refl _ _⟩
    | some tech =>
      dsimp only
      cases hpass : tech.GetPass PassType.PASS_SHADOW with
      | none =>
        refine ⟨fun _ => rfl, rfl, rfl, addsOnly_refl _ _⟩
      | some pass =>
        dsimp only
        refine ⟨fun h => ?_, ?_, rfl, ?_⟩
        · rcases h with h | h <;> cases h
        · exact withoutDrawableBatches_modify _ _ _ (fun q => rfl)
        · apply addsOnly_modify
          intro q b hb
          rw [List.mem_append, mem_AddBatch] at hb
          rcases hb with (hb | hb) | hb
          · exact Or.inl (List.mem_append.mpr (Or.inl hb))
          · right
            subst hb
            refine ⟨?_, ?_, ?_, ?_⟩
            · exact hgeo.symm
            · exact fun h => by cases h
            · exact htech.symm
            · exact fun h => by cases h
          · exact Or.inl (List.mem_append.mpr (Or.inr hb))

theorem baseStep_spec (g : Graphics) (camera : Camera) (drawable : Drawable)
    (st : GetBatchesState) (j : Nat) :
    ((drawable.GetBatch j).geometry_ = none ∨
      (View.GetTechnique g st.world.renderer st.view drawable
        (drawable.GetBatch j).material_).1 = none →
      View.GetBatches.baseStep g camera drawable st j = st) ∧
    (View.GetBatches.baseStep g camera drawable st j).view.withoutDrawableBatches =
      st.view.withoutDrawableBatches ∧
    { View.GetBatches.baseStep g camera drawable st j with view := st.view } = st ∧
    Spec.addsOnly (Spec.resolvedFrom g st drawable j) st.view
      (View.GetBatches.baseStep g camera drawable st j).view := by
  refine ⟨fun h => baseStep_skip g camera drawable st j
    (h.elim Or.inl (fun h => Or.inr (Or.inl h))), ?_⟩
  cases hgeo : (drawable.GetBatch j).geometry_ with
  | none =>
    rw [baseStep_skip g camera drawable st j (Or.inl hgeo)]
    exact ⟨rfl, rfl, addsOnly_refl _ _⟩
  | some geo =>
    cases htech : (View.GetTechnique g st.world.renderer st.view drawable
        (drawable.GetBatch j).material_).1 with
    | none =>
      rw [baseStep_skip g camera drawable st j (Or.inr (Or.inl htech))]
      exact ⟨rfl, rfl, addsOnly_refl _ _⟩
    | some tech =>
      cases hbase : st.world.HasBasePass drawable j with
      | true =>
        rw [baseStep_skip g camera drawable st j (Or.inr (Or.inr hbase))]
        exact ⟨rfl, rfl, addsOnly_refl _ _⟩
      | false =>
        have hgood : ∀ b : Batch, b.geometry_ = (drawable.GetBatch j).geometry_ →
            b.technique_ = some tech → Spec.resolvedFrom g st drawable j b := by
          intro b h1 h2
          refine ⟨h1, ?_, ?_, ?_⟩
          · rw [h1, hgeo]
            exact fun h => by cases h
          · rw [h2, htech]
          · rw [h2]
            exact fun h => by cases h
        rw [baseStep_eq g camera drawable st j geo tech hgeo htech hbase]
        cases hG : (if st.view.mode_ ≠ RenderMode.RENDER_FORWARD then
            tech.GetPass PassType.PASS_GBUFFER else none) with
        | some pass =>
          dsimp only
          cases hE : tech.GetPass PassType.PASS_EXTRA with
          | some extra =>
            refine ⟨rfl, rfl, ?_⟩
            have h1 := addsOnly_gBuffer (Spec.resolvedFrom g st drawable j) st.view
              { Renderer.SetBatchShaders (Spec.filledBaseBatch g camera drawable st j) tech
                  pass true with hasPriority_ := !pass.alphaTest && !pass.alphaMask } false
              (hgood _ rfl rfl)
            exact addsOnly_trans _ _ _ _ h1
              (addsOnly_base _ _ _ false (hgood _ (by rfl) (by rfl)))
          | none =>
            exact ⟨rfl, rfl, addsOnly_gBuffer _ st.view _ false (hgood _ rfl rfl)⟩
        | none =>
          dsimp only
          cases hB : tech.GetPass PassType.PASS_BASE with
          | some pass =>
            dsimp only
            split_ifs
            · exact ⟨rfl, rfl, addsOnly_base _ st.view _ false (hgood _ rfl rfl)⟩
            · exact ⟨rfl, rfl, addsOnly_transparent _ st.view _ true (hgood _ rfl rfl)⟩
          | none =>
            dsimp only
            cases hE : tech.GetPass PassType.PASS_EXTRA with
            | some extra =>
              exact ⟨rfl, rfl, addsOnly_extra _ st.view _ false (hgood _ rfl rfl)⟩
            | none => exact ⟨rfl, rfl, addsOnly_refl _ _⟩

theorem addBatch_spec (drawable : Drawable) (light : Nat) (splitLight : Light)
    (lightQueue : Option Nat) (st : GetBatchesState) (w : World) (i : Nat) (litBatch : Batch)
    (tech : Technique) (pass : Pass) (good : Batch → Prop)
    (hgood : ∀ b : Batch, b.geometry_ = litBatch.geometry_ → b.technique_ = some tech →
      good b) :
    (View.GetLitBatches.addBatch drawable light splitLight lightQueue st w i litBatch tech
      pass).view.withoutDrawableBatches = st.view.withoutDrawableBatches ∧
    (View.GetLitBatches.addBatch drawable light splitLight lightQueue st w i litBatch tech
      pass).world = w ∧
    (View.GetLitBatches.addBatch drawable light splitLight lightQueue st w i litBatch tech
      pass).maxLightsDrawables = st.maxLightsDrawables ∧
    (View.GetLitBatches.addBatch drawable light splitLight lightQueue st w i litBatch tech
      pass).lightQueueIndex = st.lightQueueIndex ∧
    (View.GetLitBatches.addBatch drawable light splitLight lightQueue st w i litBatch tech
      pass).lightQueueCount = st.lightQueueCount ∧
    Spec.addsOnly good st.view
      (View.GetLitBatches.addBatch drawable light splitLight lightQueue st w i litBatch tech
        pass).view := by
  unfold View.GetLitBatches.addBatch
  dsimp only
  split_ifs with hrep hfw
  · cases lightQueue with
    | some index =>
      dsimp only
      refine ⟨withoutDrawableBatches_modify _ _ _ (fun q => rfl), rfl, rfl, rfl, rfl, ?_⟩
      apply addsOnly_modify
      intro q b hb
      rw [List.mem_append, mem_AddBatch] at hb
      rcases hb with hb | (hb | hb)
      · exact Or.inl (List.mem_append.mpr (Or.inl hb))
      · exact Or.inl (List.mem_append.mpr (Or.inr hb))
      · right
        subst hb
        exact hgood _ rfl rfl
    | none => exact ⟨rfl, rfl, rfl, rfl, rfl, addsOnly_refl _ _⟩
  · exact ⟨rfl, rfl, rfl, rfl, rfl,
      addsOnly_base _ st.view _ false (hgood _ (by rfl) (by rfl))⟩
  · exact ⟨rfl, rfl, rfl, rfl, rfl,
      addsOnly_transparent _ st.view _ true (hgood _ (by rfl) (by rfl))⟩
  · exact ⟨rfl, rfl, rfl, rfl, rfl,
      addsOnly_transparent _ st.view _ true (hgood _ (by rfl) (by rfl))⟩

theorem GetLitBatches_step_spec (g : Graphics) (camera : Camera) (drawable : Drawable)
    (light : Nat) (splitLight : Light) (lightQueue : Option Nat) (st : GetBatchesState)
    (i : Nat) :
    ((drawable.GetBatch i).geometry_ = none ∨
      (View.GetTechnique g st.world.renderer st.view drawable
        (drawable.GetBatch i).material_).1 = none →
      View.GetLitBatches.step g camera drawable light splitLight lightQueue st i = st) ∧
    (View.GetLitBatches.step g camera drawable light splitLight lightQueue st
      i).view.withoutDrawableBatches = st.view.withoutDrawableBatches ∧
    (View.GetLitBatches.step g camera drawable light splitLight lightQueue st
      i).world.renderer = st.world.renderer ∧
    (View.GetLitBatches.step g camera drawable light splitLight lightQueue st
      i).maxLightsDrawables = st.maxLightsDrawables ∧
    (View.GetLitBatches.step g camera drawable light splitLight lightQueue st
      i).lightQueueIndex = st.lightQueueIndex ∧
    (View.GetLitBatches.step g camera drawable light splitLight lightQueue st
      i).lightQueueCount = st.lightQueueCount ∧
    Spec.addsOnly (Spec.resolvedFrom g st drawable i) st.view
      (View.GetLitBatches.step g camera drawable light splitLight lightQueue st i).view := by
  unfold View.GetLitBatches.step
  dsimp only
  cases hgeo : (drawable.GetBatch i).geometry_ with
  | none =>
    cases (View.GetTechnique g st.world.renderer st.view drawable
        (drawable.GetBatch i).material_).1 <;>
      exact ⟨fun _ => rfl, rfl, rfl, rfl, rfl, rfl, addsOnly_refl _ _⟩
  | some geo =>
    cases htech : (View.GetTechnique g st.world.renderer st.view drawable
        (drawable.GetBatch i).material_).1 with
    | none => exact ⟨fun _ => rfl, rfl, rfl, rfl, rfl, rfl, addsOnly_refl _ _⟩
    | some tech =>
      have hgood : ∀ b : Batch, b.geometry_ = some geo →
          b.technique_ = some tech → Spec.resolvedFrom g st drawable i b := by
        intro b h1 h2
        refine ⟨?_, ?_, ?_, ?_⟩
        · rw [h1, hgeo]
        · rw [h1]
          exact fun h => by cases h
        · rw [h2, htech]
        · rw [h2]
          exact fun h => by cases h
      have hw : ∀ c : Bool,
          (if c = true then st.world.SetBasePass drawable i else st.world).renderer =
            st.world.renderer := by
        intro c
        split_ifs <;> rfl
      refine ⟨fun h => (by rcases h with h | h <;> cases h), ?_⟩
      dsimp only
      by_cases hskip : st.view.mode_ ≠ RenderMode.RENDER_FORWARD ∧
          tech.HasPass PassType.PASS_GBUFFER = true
      · rw [if_pos hskip]
        exact ⟨rfl, rfl, rfl, rfl, rfl, addsOnly_refl _ _⟩
      · rw [if_neg hskip]
        generalize View.GetLitBatches.litBasePass st.view st.world drawable light splitLight
          tech i = litBase
        cases hp : (match litBase with
            | some p => some p
            | none => tech.GetPass PassType.PASS_LIGHT) with
        | none => exact ⟨rfl, hw _, rfl, rfl, rfl, addsOnly_refl _ _⟩
        | some pass =>
          dsimp only
          obtain ⟨a1, a2, a3, a4, a5, a6⟩ := addBatch_spec drawable light splitLight lightQueue
            st (if litBase.isSome = true then st.world.SetBasePass drawable i else st.world) i
            { geometry_ := some geo,
              material_ := (View.GetTechnique g st.world.renderer st.view drawable
                (drawable.GetBatch i).material_).2,
              worldTransform_ := (drawable.GetBatch i).worldTransform_,
              camera_ := some camera.id, light_ := some splitLight.id,
              distance_ := drawable.distance, hasPriority_ := litBase.isSome,
              overrideView_ := (drawable.GetBatch i).overrideView_,
              pass_ := (drawable.GetBatch i).pass_,
              technique_ := (drawable.GetBatch i).technique_,
              allowShadows_ := (drawable.GetBatch i).allowShadows_,
              instancible_ := (drawable.GetBatch i).instancible_ }
            tech pass (Spec.resolvedFrom g st drawable i) (fun b h1 h2 => hgood b h1 h2)
          refine ⟨a1, ?_, a3, a4, a5, a6⟩
          rw [a2]
          exact hw _

theorem foldl_rel {σ α : Type} (R : σ → σ → Prop) (hrefl : ∀ s, R s s)
    (htrans : ∀ a b c, R a b → R b c → R a c) (f : σ → α → σ) (hf : ∀ s a, R s (f s a)) :
    ∀ (l : List α) (s : σ), R s (l.foldl f s) := by
  intro l
  induction l with
  | nil => exact fun s => hrefl s
  | cons a rest ih => exact fun s => htrans _ _ _ (hf s a) (ih (f s a))

theorem batchFrame_refl (st : GetBatchesState) : Spec.batchFrame st st :=
  ⟨rfl, rfl, rfl, rfl, addsOnly_refl _ _⟩

theorem batchFrame_trans (a b c : GetBatchesState) (h1 : Spec.batchFrame a b)
    (h2 : Spec.batchFrame b c) : Spec.batchFrame a c :=
  ⟨h2.1.trans h1.1, h2.2.1.trans h1.2.1, h2.2.2.1.trans h1.2.2.1,
    h2.2.2.2.1.trans h1.2.2.2.1, addsOnly_trans _ _ _ _ h1.2.2.2.2 h2.2.2.2.2⟩

theorem resolvedFrom_resolved (g : Graphics) (st : GetBatchesState) (drawable : Drawable)
    (i : Nat) (b : Batch) (h : Spec.resolvedFrom g st drawable i b) : Spec.resolved b :=
  ⟨h.2.1, h.2.2.2⟩

theorem shadowBatchStep_frame (g : Graphics) (splitLight : Light) (queueIndex : Nat)
    (drawable : Drawable) (st : GetBatchesState) (l : Nat) :
    Spec.batchFrame st (View.GetBatches.shadowBatchStep g splitLight queueIndex drawable st l) := by
  obtain ⟨_, h2, h3, h4⟩ := shadowBatchStep_spec g splitLight queueIndex drawable st l
  refine ⟨h2, ?_, ?_, ?_, addsOnly_mono _ _ _ _ (resolvedFrom_resolved g st drawable l) h4⟩
  · have h := congrArg (fun s => s.world.renderer) h3
    exact h
  · have h := congrArg GetBatchesState.lightQueueIndex h3
    exact h
  · have h := congrArg GetBatchesState.lightQueueCount h3
    exact h

theorem baseStep_frame (g : Graphics) (camera : Camera) (drawable : Drawable)
    (st : GetBatchesState) (j : Nat) :
    Spec.batchFrame st (View.GetBatches.baseStep g camera drawable st j) := by
  obtain ⟨_, h2, h3, h4⟩ := baseStep_spec g camera drawable st j
  refine ⟨h2, ?_, ?_, ?_, addsOnly_mono _ _ _ _ (resolvedFrom_resolved g st drawable j) h4⟩
  · have h := congrArg (fun s => s.world.renderer) h3
    exact h
  · have h := congrArg GetBatchesState.lightQueueIndex h3
    exact h
  · have h := congrArg GetBatchesState.lightQueueCount h3
    exact h

theorem GetLitBatches_step_frame (g : Graphics) (camera : Camera) (drawable : Drawable)
    (light : Nat) (splitLight : Light) (lightQueue : Option Nat) (st : GetBatchesState)
    (i : Nat) :
    Spec.batchFrame st
      (View.GetLitBatches.step g camera drawable light splitLight lightQueue st i) := by
  obtain ⟨_, h2, h3, _, h5, h6, h7⟩ :=
    GetLitBatches_step_spec g camera drawable light splitLight lightQueue st i
  exact ⟨h2, h3, h5, h6, addsOnly_mono _ _ _ _ (resolvedFrom_resolved g st drawable i) h7⟩

theorem GetLitBatches_frame (g : Graphics) (camera : Camera) (drawable : Drawable)
    (light : Nat) (splitLight : Light) (lightQueue : Option Nat) (st : GetBatchesState) :
    Spec.batchFrame st
      (View.GetLitBatches g camera drawable light splitLight lightQueue st) := by
  unfold View.GetLitBatches
  exact foldl_rel Spec.batchFrame batchFrame_refl batchFrame_trans _
    (fun s i => GetLitBatches_step_frame g camera drawable light splitLight lightQueue s i) _ _

theorem litGeometryStep_frame (g : Graphics) (camera : Camera) (light : Light)
    (splitLight : Light) (st : GetBatchesState) (drawable : Drawable) :
    Spec.batchFrame st (View.GetBatches.litGeometryStep g camera light splitLight st drawable) := by
  unfold View.GetBatches.litGeometryStep
  split_ifs
  · exact GetLitBatches_frame _ _ _ _ _ _ _
  · exact ⟨rfl, rfl, rfl, rfl, addsOnly_refl _ _⟩
  · exact ⟨rfl, rfl, rfl, rfl, addsOnly_refl _ _⟩

theorem maxLightsStep_frame (g : Graphics) (camera : Camera) (drawable : Drawable)
    (st : GetBatchesState) (splitLight : Light) :
    Spec.batchFrame st (View.GetBatches.maxLightsStep g camera drawable st splitLight) := by
  unfold View.GetBatches.maxLightsStep
  exact GetLitBatches_frame _ _ _ _ _ _ _

theorem maxLights_frame (g : Graphics) (camera : Camera) (st : GetBatchesState) :
    Spec.batchFrame st (View.GetBatches.maxLights g camera st) := by
  unfold View.GetBatches.maxLights
  refine foldl_rel Spec.batchFrame batchFrame_refl batchFrame_trans _ ?_ _ _
  intro s drawable
  refine batchFrame_trans _ { s with world := s.world.LimitLights drawable } _
    ⟨rfl, rfl, rfl, rfl, addsOnly_refl _ _⟩ ?_
  exact foldl_rel Spec.batchFrame batchFrame_refl batchFrame_trans _
    (fun s' l => maxLightsStep_frame g camera drawable s' l) _ _

theorem base_frame (g : Graphics) (camera : Camera) (st : GetBatchesState) :
    Spec.batchFrame st (View.GetBatches.base g camera st) := by
  unfold View.GetBatches.base
  refine foldl_rel Spec.batchFrame batchFrame_refl batchFrame_trans _ ?_ _ _
  intro s drawable
  exact foldl_rel Spec.batchFrame batchFrame_refl batchFrame_trans _
    (fun s' j => baseStep_frame g camera drawable s' j) _ _

theorem shadowBatches_frame (g : Graphics) (splitLight : Light) (casters : List Drawable)
    (st : GetBatchesState) :
    Spec.batchFrame st (View.GetBatches.shadowBatches g splitLight casters st) := by
  unfold View.GetBatches.shadowBatches
  refine foldl_rel Spec.batchFrame batchFrame_refl batchFrame_trans _ ?_ _ _
  intro s drawable
  exact foldl_rel Spec.batchFrame batchFrame_refl batchFrame_trans _
    (fun s' l => shadowBatchStep_frame g splitLight s.lightQueueCount drawable s' l) _ _

theorem litGeometries_frame (g : Graphics) (camera : Camera) (light : Light)
    (splitLight : Light) (lit : List Drawable) (st : GetBatchesState) :
    Spec.batchFrame st
      (lit.foldl (View.GetBatches.litGeometryStep g camera light splitLight) st) :=
  foldl_rel Spec.batchFrame batchFrame_refl batchFrame_trans _
    (fun s d => litGeometryStep_frame g camera light splitLight s d) _ _

theorem volumeBatchesAt_frame (v v' : View)
    (h : v'.withoutDrawableBatches = v.withoutDrawableBatches) (k : Nat) :
    Spec.volumeBatchesAt v' k = Spec.volumeBatchesAt v k := by
  have hq : v'.lightQueues_.map LightBatchQueue.withoutDrawableBatches =
      v.lightQueues_.map LightBatchQueue.withoutDrawableBatches := by
    have h' := congrArg View.lightQueues_ h
    exact h'
  have hk := congrArg (fun l : List LightBatchQueue => (l[k]?).map LightBatchQueue.volumeBatches_) hq
  simp only [List.getElem?_map, Option.map_map] at hk
  exact hk

theorem frame_fields (v v' : View)
    (h : v'.withoutDrawableBatches = v.withoutDrawableBatches) :
    v'.mode_ = v.mode_ ∧ v'.noShadowLightQueue_ = v.noShadowLightQueue_ ∧
    v'.litGeometries_ = v.litGeometries_ ∧ v'.shadowCasters_ = v.shadowCasters_ ∧
    v'.splitLights_ = v.splitLights_ ∧ v'.geometries_ = v.geometries_ ∧
    v'.lights_ = v.lights_ ∧ v'.lightQueues_.length = v.lightQueues_.length ∧
    v'.withoutScratch.withoutQueues = v.withoutScratch.withoutQueues := by
  refine ⟨?_, ?_, ?_, ?_, ?_, ?_, ?_, ?_, ?_⟩
  · have h' := congrArg View.mode_ h
    exact h'
  · have h' := congrArg View.noShadowLightQueue_ h
    exact h'
  · have h' := congrArg View.litGeometries_ h
    exact h'
  · have h' := congrArg View.shadowCasters_ h
    exact h'
  · have h' := congrArg View.splitLights_ h
    exact h'
  · have h' := congrArg View.geometries_ h
    exact h'
  · have h' := congrArg View.lights_ h
    exact h'
  · have h' := congrArg (fun x => x.lightQueues_.length) h
    simp only [View.withoutDrawableBatches, List.length_map] at h'
    exact h'
  · have h' := congrArg (fun x => x.withoutScratch.withoutQueues) h
    exact h'

theorem volumeBatch_congr (camera : Camera) (w w' : World) (splitLight : Light)
    (h : w'.renderer = w.renderer) :
    View.GetBatches.volumeBatch camera w' splitLight =
      View.GetBatches.volumeBatch camera w splitLight := by
  unfold View.GetBatches.volumeBatch
  rw [h]

theorem resetLightQueue_spec (splitLight : Light) (fs : Bool) (st : GetBatchesState)
    (hidx : st.lightQueueCount < st.view.lightQueues_.length) :
    Spec.volumeBatchesAt (View.GetBatches.resetLightQueue splitLight fs st).view
      st.lightQueueCount = some [] ∧
    (∀ k, k ≠ st.lightQueueCount →
      Spec.volumeBatchesAt (View.GetBatches.resetLightQueue splitLight fs st).view k =
        Spec.volumeBatchesAt st.view k) := by
  unfold View.GetBatches.resetLightQueue Spec.volumeBatchesAt View.modifyLightQueue
  dsimp only
  constructor
  · rw [List.getElem?_modify, List.getElem?_eq_getElem hidx]
    simp
  · intro k hk
    rw [List.getElem?_modify]
    cases st.view.lightQueues_[k]? <;> simp [Ne.symm hk]

theorem GetBatches_splitStep_none (g : Graphics) (camera : Camera) (light : Light)
    (acc : GetBatchesState × Bool) (j : Nat) (h : acc.1.view.splitLights_ j = none) :
    View.GetBatches.splitStep g camera light acc j = acc := by
  unfold View.GetBatches.splitStep
  dsimp only
  rw [h]

theorem GetBatches_splitStep_eq (g : Graphics) (camera : Camera) (light : Light)
    (st : GetBatchesState) (fs : Bool) (j : Nat) (splitLight : Light)
    (hsplit : st.view.splitLights_ j = some splitLight) :
    ∃ st2 st3, Spec.batchFrame (View.GetBatches.resetLightQueue splitLight fs st) st2 ∧
      Spec.batchFrame st2 st3 ∧
      View.GetBatches.splitStep g camera light (st, fs) j =
        (if (st.view.litGeometries_ j).length ≠ 0 then
          View.GetBatches.storeLightQueue camera splitLight fs st3
        else (st2, fs)) := by
  unfold View.GetBatches.splitStep
  dsimp only
  rw [hsplit]
  dsimp only
  refine ⟨_, _, shadowBatches_frame g splitLight
      ((View.GetBatches.resetLightQueue splitLight fs st).view.shadowCasters_ j)
      (View.GetBatches.resetLightQueue splitLight fs st),
    litGeometries_frame g camera light splitLight
      ((View.GetBatches.shadowBatches g splitLight
        ((View.GetBatches.resetLightQueue splitLight fs st).view.shadowCasters_ j)
        (View.GetBatches.resetLightQueue splitLight fs st)).view.litGeometries_ j)
      (View.GetBatches.shadowBatches g splitLight
        ((View.GetBatches.resetLightQueue splitLight fs st).view.shadowCasters_ j)
        (View.GetBatches.resetLightQueue splitLight fs st)), ?_⟩
  have hl : (View.GetBatches.shadowBatches g splitLight
      ((View.GetBatches.resetLightQueue splitLight fs st).view.shadowCasters_ j)
      (View.GetBatches.resetLightQueue splitLight fs st)).view.litGeometries_ =
      st.view.litGeometries_ :=
    (frame_fields _ _ (shadowBatches_frame g splitLight _ _).1).2.2.1
  rw [hl]

theorem volumeBatchesAt_push (v : View) (i : Nat) (x : Batch) :
    Spec.volumeBatchesAt
        (v.modifyLightQueue i (fun q => { q with volumeBatches_ := q.volumeBatches_ ++ [x] })) i =
      (Spec.volumeBatchesAt v i).map (fun l => l ++ [x]) ∧
    (∀ k, k ≠ i →
      Spec.volumeBatchesAt
          (v.modifyLightQueue i (fun q => { q with volumeBatches_ := q.volumeBatches_ ++ [x] }))
          k = Spec.volumeBatchesAt v k) := by
  unfold Spec.volumeBatchesAt View.modifyLightQueue
  dsimp only
  constructor
  · rw [List.getElem?_modify]
    cases v.lightQueues_[i]? <;> simp
  · intro k hk
    rw [List.getElem?_modify]
    cases v.lightQueues_[k]? <;> simp [Ne.symm hk]

/-- C18: the split loop body of `GetBatches` for a split `j` whose light queue exists (the
vector was resized for all splits of the light before the loop). In a non-forward mode, when
the split has at least one lit geometry, exactly one light volume batch is emitted: if the
split has a shadow map or is a split point light, the batch is the only light volume batch
of the light queue of the split, which is stored (`lightQueueCount` grows by one and the
split is entered into `lightQueueIndex`), and the no-shadow light queue does not change;
otherwise the batch is added to the no-shadow light queue, the light queue of the split has
no light volume batch and is not stored. A split without lit geometries emits no light
volume batch and stores no light queue. In forward mode no light volume batch is emitted.
The light volume batches of the other light queues never change. -/
theorem C18_GetBatches_light_volume_batch (g : Graphics) (camera : Camera) (light : Light)
    (st : GetBatchesState) (fs : Bool) (j : Nat) (splitLight : Light)
    (hsplit : st.view.splitLights_ j = some splitLight)
    (hidx : st.lightQueueCount < st.view.lightQueues_.length) :
    (st.view.mode_ ≠ RenderMode.RENDER_FORWARD → st.view.litGeometries_ j ≠ [] →
      (splitLight.shadowMap.isSome = true ∨
        splitLight.lightType = LightType.LIGHT_SPLITPOINT) →
      Spec.volumeBatchesAt (View.GetBatches.splitStep g camera light (st, fs) j).1.view
          st.lightQueueCount =
        some [View.GetBatches.volumeBatch camera st.world splitLight] ∧
      (View.GetBatches.splitStep g camera light (st, fs) j).1.view.noShadowLightQueue_ =
        st.view.noShadowLightQueue_ ∧
      (View.GetBatches.splitStep g camera light (st, fs) j).1.lightQueueCount =
        st.lightQueueCount + 1 ∧
      (View.GetBatches.splitStep g camera light (st, fs) j).1.lightQueueIndex =
        (splitLight.id, st.lightQueueCount) :: st.lightQueueIndex) ∧
    (st.view.mode_ ≠ RenderMode.RENDER_FORWARD → st.view.litGeometries_ j ≠ [] →
      ¬ (splitLight.shadowMap.isSome = true ∨
        splitLight.lightType = LightType.LIGHT_SPLITPOINT) →
      (View.GetBatches.splitStep g camera light (st, fs) j).1.view.noShadowLightQueue_ =
        st.view.noShadowLightQueue_.AddBatch
          (View.GetBatches.volumeBatch camera st.world splitLight) true ∧
      Spec.volumeBatchesAt (View.GetBatches.splitStep g camera light (st, fs) j).1.view
          st.lightQueueCount = some [] ∧
      (View.GetBatches.splitStep g camera light (st, fs) j).1.lightQueueCount =
        st.lightQueueCount ∧
      (View.GetBatches.splitStep g camera light (st, fs) j).1.lightQueueIndex =
        st.lightQueueIndex) ∧
    (st.view.litGeometries_ j = [] →
      (View.GetBatches.splitStep g camera light (st, fs) j).1.view.noShadowLightQueue_ =
        st.view.noShadowLightQueue_ ∧
      Spec.volumeBatchesAt (View.GetBatches.splitStep g camera light (st, fs) j).1.view
          st.lightQueueCount = some [] ∧
      (View.GetBatches.splitStep g camera light (st, fs) j).1.lightQueueCount =
        st.lightQueueCount ∧
      (View.GetBatches.splitStep g camera light (st, fs) j).1.lightQueueIndex =
        st.lightQueueIndex) ∧
    (st.view.mode_ = RenderMode.RENDER_FORWARD →
      (View.GetBatches.splitStep g camera light (st, fs) j).1.view.noShadowLightQueue_ =
        st.view.noShadowLightQueue_ ∧
      Spec.volumeBatchesAt (View.GetBatches.splitStep g camera light (st, fs) j).1.view
          st.lightQueueCount = some []) ∧
    (∀ k, k ≠ st.lightQueueCount →
      Spec.volumeBatchesAt (View.GetBatches.splitStep g camera light (st, fs) j).1.view k =
        Spec.volumeBatchesAt st.view k) := by
  obtain ⟨st2, st3, f12, f23, he⟩ :=
    GetBatches_splitStep_eq g camera light st fs j splitLight hsplit
  obtain ⟨r1, r2⟩ := resetLightQueue_spec splitLight fs st hidx
  have f13 := batchFrame_trans _ _ _ f12 f23
  obtain ⟨p2, _, i2, c2, _⟩ := f12
  obtain ⟨p3, w3, i3, c3, _⟩ := f13
  have c2' : st2.lightQueueCount = st.lightQueueCount := c2
  have c3' : st3.lightQueueCount = st.lightQueueCount := c3
  have i2' : st2.lightQueueIndex = st.lightQueueIndex := i2
  have i3' : st3.lightQueueIndex = st.lightQueueIndex := i3
  have w3' : st3.world.renderer = st.world.renderer := w3
  obtain ⟨m2, n2, _⟩ := frame_fields _ _ p2
  obtain ⟨m3, n3, _⟩ := frame_fields _ _ p3
  have m3' : st3.view.mode_ = st.view.mode_ := m3
  have n2' : st2.view.noShadowLightQueue_ = st.view.noShadowLightQueue_ := n2
  have n3' : st3.view.noShadowLightQueue_ = st.view.noShadowLightQueue_ := n3
  have v2 : ∀ k, Spec.volumeBatchesAt st2.view k =
      Spec.volumeBatchesAt (View.GetBatches.resetLightQueue splitLight fs st).view k :=
    volumeBatchesAt_frame _ _ p2
  have v3 : ∀ k, Spec.volumeBatchesAt st3.view k =
      Spec.volumeBatchesAt (View.GetBatches.resetLightQueue splitLight fs st).view k :=
    volumeBatchesAt_frame _ _ p3
  have hlen : ∀ h : st.view.litGeometries_ j ≠ [], (st.view.litGeometries_ j).length ≠ 0 :=
    fun h hl => h (List.length_eq_zero.mp hl)
  rw [he]
  refine ⟨?_, ?_, ?_, ?_, ?_⟩
  · intro hm hl hs
    rw [if_pos (hlen hl)]
    unfold View.GetBatches.storeLightQueue
    rw [if_pos (by rw [m3']; exact hm), if_pos hs]
    dsimp only
    refine ⟨?_, n3', by rw [c3'], by rw [c3', i3']⟩
    rw [c3', (volumeBatchesAt_push _ _ _).1, v3, r1, volumeBatch_congr camera _ _ _ w3']
    rfl
  · intro hm hl hs
    rw [if_pos (hlen hl)]
    unfold View.GetBatches.storeLightQueue
    rw [if_pos (by rw [m3']; exact hm), if_neg hs]
    dsimp only
    refine ⟨?_, ?_, c3', i3'⟩
    · rw [n3', volumeBatch_congr camera _ _ _ w3']
    · exact (volumeBatchesAt_frame _ st3.view rfl _).trans ((v3 _).trans r1)
  · intro hl
    rw [if_neg (by rw [hl]; simp)]
    exact ⟨n2', (v2 _).trans r1, c2', i2'⟩
  · intro hm
    by_cases hl : (st.view.litGeometries_ j).length ≠ 0
    · rw [if_pos hl]
      unfold View.GetBatches.storeLightQueue
      rw [if_neg (by rw [m3']; exact fun h => h hm)]
      exact ⟨n3', (v3 _).trans r1⟩
    · rw [if_neg hl]
      exact ⟨n2', (v2 _).trans r1⟩
  · intro k hk
    rw [← r2 k hk]
    by_cases hl : (st.view.litGeometries_ j).length ≠ 0
    · rw [if_pos hl]
      unfold View.GetBatches.storeLightQueue
      split_ifs
      · dsimp only
        rw [(volumeBatchesAt_push _ _ _).2 k (by rw [c3']; exact hk)]
        exact v3 k
      · exact (volumeBatchesAt_frame _ st3.view rfl _).trans (v3 k)
      · exact v3 k
    · rw [if_neg hl]
      exact v2 k

/-- Witness for C18: in the deferred example view the split of the spot light, which has no
shadow map, sends its light volume batch to the no-shadow light queue. -/
theorem C18_GetBatches_light_volume_batch_witness :
    (View.GetBatches.splitStep Example.graphicsDeferred Example.camera Example.spotLight
        (Example.batchState Example.deferredLitView, false) 0).1.view.noShadowLightQueue_ =
      Example.deferredLitView.noShadowLightQueue_.AddBatch
        (View.GetBatches.volumeBatch Example.camera Example.world Example.spotLight) true :=
  ((C18_GetBatches_light_volume_batch Example.graphicsDeferred Example.camera
    Example.spotLight (Example.batchState Example.deferredLitView) false 0 Example.spotLight
    rfl (by decide)).2.1 (by decide) (by decide) (by decide)).1

theorem SplitLight_loop_frame (camera : Camera) (light : Light) (splits : Nat)
    (farClip nearClip : Rat) (createExtraSplit : Bool) :
    ∀ (n i : Nat) (v : View) (w : World), splits - i ≤ n →
      (View.SplitLight.loop camera light splits farClip nearClip createExtraSplit i v
        w).2.1.withoutScratch = v.withoutScratch := by
  intro n
  induction n with
  | zero =>
    intro i v w h
    rw [View.SplitLight.loop, if_neg (by omega)]
  | succ n ih =>
    intro i v w h
    rw [View.SplitLight.loop]
    by_cases hi : i < splits
    · rw [if_pos hi]
      dsimp only
      split_ifs
      · rfl
      · exact (ih (i + 1) _ _ (by omega)).trans rfl
      · exact (ih (i + 1) _ _ (by omega)).trans rfl
    · rw [if_neg hi]

theorem pointLoop_frame (light : Light) (faces : List (Nat × (Int × Int × Int))) :
    ∀ (v : View) (w : World),
      (View.SplitLight.pointLoop light faces v w).1.withoutScratch = v.withoutScratch := by
  unfold View.SplitLight.pointLoop
  induction faces with
  | nil => exact fun v w => rfl
  | cons a rest ih =>
    intro v w
    rw [List.foldl_cons]
    exact (ih _ _).trans rfl

theorem SplitLight_frame (camera : Camera) (v : View) (w : World) (light : Light) :
    (View.SplitLight camera v w light).2.1.withoutScratch = v.withoutScratch := by
  unfold View.SplitLight
  dsimp only
  split_ifs
  · exact SplitLight_loop_frame camera light _ _ _ _ _ 0 v w (le_refl _)
  · exact SplitLight_loop_frame camera light _ _ _ _ _ 0 v w (le_refl _)
  · exact SplitLight_loop_frame camera light _ _ _ _ _ 0 v w (le_refl _)
  · exact SplitLight_loop_frame camera light _ _ _ _ _ 0 v w (le_refl _)
  · exact pointLoop_frame light _ v w
  · rfl

theorem setup_frame (camera : Camera) (octree : Octree) (v : View) (w : World) (light : Light) :
    (View.ProcessLight.setup camera octree v w light).state.view.withoutScratch =
      v.withoutScratch := by
  have hocc : ∀ (v' : View) (w' : World) (l : Light) (b : Bool),
      (View.ProcessLight.shadowOcclusion camera octree v' w' l b).2.1.withoutScratch =
        v'.withoutScratch := by
    intro v' w' l b
    unfold View.ProcessLight.shadowOcclusion
    split_ifs <;> rfl
  unfold View.ProcessLight.setup
  dsimp only
  refine (hocc _ _ _ _).trans ?_
  by_cases hs : View.ProcessLight.isShadowed v light = true
  · rw [if_pos hs]
    exact SplitLight_frame camera v w _
  · rw [if_neg hs]
    rfl

theorem ProcessLight_frame (camera : Camera) (octree : Octree) (v : View) (w : World)
    (light : Light) :
    (View.ProcessLight camera octree v w light).2.1.withoutScratch = v.withoutScratch := by
  have hloop : (View.ProcessLight.splitLoop camera octree v w light
      (View.ProcessLight.setup camera octree v w light).numSplits).view.withoutScratch =
      v.withoutScratch :=
    (splitFold_frame_ge camera octree _ _ _ _).1.trans (setup_frame camera octree v w light)
  unfold View.ProcessLight
  rcases finish_cases (View.ProcessLight.setup camera octree v w light)
    (View.ProcessLight.splitLoop camera octree v w light
      (View.ProcessLight.setup camera octree v w light).numSplits) with
    ⟨_, _, h⟩ | ⟨_, _, _, _, h, _⟩ | ⟨_, _, _, h⟩
  · rw [h]
    exact hloop
  · exact h.trans hloop
  · rw [h]
    exact hloop

theorem dedupDrawables_mem (n : Nat) :
    ∀ l : List Drawable, l.length ≤ n → ∀ d ∈ dedupDrawables l, d ∈ l := by
  induction n with
  | zero =>
    intro l hl d hd
    have : l = [] := List.length_eq_zero.mp (by omega)
    subst this
    rw [dedupDrawables] at hd
    cases hd
  | succ n ih =>
    intro l hl d hd
    cases l with
    | nil =>
      rw [dedupDrawables] at hd
      cases hd
    | cons a rest =>
      rw [dedupDrawables, List.mem_cons] at hd
      rcases hd with hd | hd
      · subst hd
        exact List.mem_cons_self _ _
      · have hlen : (rest.filter (fun x => decide (x.id ≠ a.id))).length ≤ n := by
          have := List.length_filter_le (fun x => decide (x.id ≠ a.id)) rest
          simp only [List.length_cons] at hl
          omega
        exact List.mem_cons_of_mem _ (List.mem_of_mem_filter (ih _ hlen d hd))

theorem ProcessLight_within_draw_distance (camera : Camera) (octree : Octree) (v : View)
    (w : World) (light : Light) (hgeo : ∀ d ∈ v.geometries_, d.beyondDrawDistance = false)
    (i : Nat) (hi : i < (View.ProcessLight camera octree v w light).1) :
    (∀ d ∈ (View.ProcessLight camera octree v w light).2.1.litGeometries_ i,
      d.beyondDrawDistance = false) ∧
    (∀ d ∈ (View.ProcessLight camera octree v w light).2.1.shadowCasters_ i,
      d.beyondDrawDistance = false) := by
  have hinv := splitFold_inv camera octree
    (View.ProcessLight.setup camera octree v w light).isShadowed
    (View.ProcessLight.setup camera octree v w light).useOcclusion
    (View.ProcessLight.setup camera octree v w light).state
    (View.ProcessLight.setup camera octree v w light).numSplits
    (fun i hi => setup_clear camera octree v w light i hi)
  have hg : (View.ProcessLight.setup camera octree v w light).state.view.geometries_ =
      v.geometries_ := by
    have h := congrArg View.geometries_ (setup_frame camera octree v w light)
    exact h
  have hlit : ∀ k, k < (View.ProcessLight.setup camera octree v w light).numSplits →
      ∀ d ∈ (View.ProcessLight.splitLoop camera octree v w light
        (View.ProcessLight.setup camera octree v w light).numSplits).view.litGeometries_ k,
      d.beyondDrawDistance = false := by
    intro k hk d hd
    rcases (hinv k hk).2.1 d hd with h | h
    · rw [hg] at h
      exact hgeo d h
    · exact h
  have hcast : ∀ k, k < (View.ProcessLight.setup camera octree v w light).numSplits →
      ∀ d ∈ (View.ProcessLight.splitLoop camera octree v w light
        (View.ProcessLight.setup camera octree v w light).numSplits).view.shadowCasters_ k,
      d.beyondDrawDistance = false := fun k hk => (hinv k hk).2.2
  unfold View.ProcessLight at hi ⊢
  rcases finish_cases (View.ProcessLight.setup camera octree v w light)
    (View.ProcessLight.splitLoop camera octree v w light
      (View.ProcessLight.setup camera octree v w light).numSplits) with
    ⟨h1, _⟩ | ⟨h1, hn, _, hsc, _, _, _, hl0, _⟩ | ⟨h1, _, _, h4⟩
  · rw [h1] at hi
    omega
  · rw [h1] at hi
    have hi0 : i = 0 := by omega
    subst hi0
    have hpos : 0 < (View.ProcessLight.setup camera octree v w light).numSplits := by
      by_contra hz
      have hz' : (View.ProcessLight.setup camera octree v w light).numSplits = 0 := by omega
      apply hn
      unfold View.ProcessLight.splitLoop
      rw [hz']
      rfl
    constructor
    · intro d hd
      rw [hl0] at hd
      split_ifs at hd
      · have hd' := dedupDrawables_mem _ _ (le_refl _) d hd
        rw [List.mem_flatMap] at hd'
        obtain ⟨k, hk, hdk⟩ := hd'
        exact hlit k (List.mem_range.mp hk) d hdk
      · exact hlit 0 hpos d hd
    · intro d hd
      rw [hsc] at hd
      exact hcast 0 hpos d hd
  · rw [h1] at hi
    rw [h4]
    exact ⟨hlit i hi, hcast i hi⟩

theorem coreFrame_refl (v : View) : Spec.coreFrame v v := ⟨rfl, addsOnly_refl _ _⟩

theorem coreFrame_trans (a b c : View) (h1 : Spec.coreFrame a b) (h2 : Spec.coreFrame b c) :
    Spec.coreFrame a c :=
  ⟨h2.1.trans h1.1, addsOnly_trans _ _ _ _ h1.2 h2.2⟩

theorem coreFrame_of_batchFrame (st st' : GetBatchesState) (h : Spec.batchFrame st st') :
    Spec.coreFrame st.view st'.view :=
  ⟨(frame_fields _ _ h.1).2.2.2.2.2.2.2.2, h.2.2.2.2⟩

theorem coreFrame_of_scratch (v v' : View) (h : v'.withoutScratch = v.withoutScratch) :
    Spec.coreFrame v v' := by
  constructor
  · rw [h]
  · apply addsOnly_of_eq
    have h' := congrArg Spec.drawableBatches h
    exact h'

theorem resetLightQueue_core (splitLight : Light) (fs : Bool) (st : GetBatchesState) :
    Spec.coreFrame st.view (View.GetBatches.resetLightQueue splitLight fs st).view := by
  unfold View.GetBatches.resetLightQueue
  refine ⟨rfl, ?_⟩
  apply addsOnly_modify
  intro q b hb
  simp [BatchQueue.batches, BatchQueue.Clear] at hb

theorem storeLightQueue_core (camera : Camera) (splitLight : Light) (fs : Bool)
    (st : GetBatchesState) :
    Spec.coreFrame st.view
      (View.GetBatches.storeLightQueue camera splitLight fs st).1.view := by
  unfold View.GetBatches.storeLightQueue
  split_ifs
  · refine ⟨rfl, ?_⟩
    apply addsOnly_modify
    intro q b hb
    exact Or.inl hb
  · exact ⟨rfl, addsOnly_refl _ _⟩
  · exact ⟨rfl, addsOnly_refl _ _⟩

theorem GetBatches_splitStep_core (g : Graphics) (camera : Camera) (light : Light)
    (acc : GetBatchesState × Bool) (j : Nat) :
    Spec.coreFrame acc.1.view (View.GetBatches.splitStep g camera light acc j).1.view := by
  cases hs : acc.1.view.splitLights_ j with
  | none =>
    rw [GetBatches_splitStep_none g camera light acc j hs]
    exact coreFrame_refl _
  | some splitLight =>
    obtain ⟨st2, st3, f12, f23, he⟩ :=
      GetBatches_splitStep_eq g camera light acc.1 acc.2 j splitLight hs
    have hacc : acc = (acc.1, acc.2) := rfl
    rw [hacc, he]
    have c1 := resetLightQueue_core splitLight acc.2 acc.1
    have c2 := coreFrame_of_batchFrame _ _ f12
    have c3 := coreFrame_of_batchFrame _ _ f23
    split_ifs
    · exact coreFrame_trans _ _ _ c1 (coreFrame_trans _ _ _ c2
        (coreFrame_trans _ _ _ c3 (storeLightQueue_core camera splitLight acc.2 st3)))
    · exact coreFrame_trans _ _ _ c1 c2

theorem resize_core (v : View) (n : Nat) :
    Spec.coreFrame v { v with lightQueues_ := resizeLightQueues v.lightQueues_ n } := by
  refine ⟨rfl, ?_⟩
  intro b hb
  left
  unfold Spec.drawableBatches at hb ⊢
  rw [List.mem_append] at hb ⊢
  rcases hb with hb | hb
  · exact Or.inl hb
  · right
    rw [List.mem_flatMap] at hb ⊢
    obtain ⟨q, hq, hbq⟩ := hb
    unfold resizeLightQueues at hq
    rw [List.mem_append] at hq
    rcases hq with hq | hq
    · exact ⟨q, List.mem_of_mem_take hq, hbq⟩
    · have := List.eq_of_mem_replicate hq
      subst this
      simp [LightBatchQueue.empty, BatchQueue.batches, BatchQueue.Clear] at hbq

theorem prepareLightQueues_core (st : GetBatchesState) (splits : Nat) :
    Spec.coreFrame st.view (View.GetBatches.prepareLightQueues st splits).view := by
  unfold View.GetBatches.prepareLightQueues
  split_ifs
  · exact resize_core _ _
  · exact coreFrame_refl _

theorem lightStep_core (g : Graphics) (camera : Camera) (octree : Octree)
    (st : GetBatchesState) (light : Light) :
    Spec.coreFrame st.view (View.GetBatches.lightStep g camera octree st light).view := by
  have hp := coreFrame_of_scratch _ _ (ProcessLight_frame camera octree st.view st.world light)
  unfold View.GetBatches.lightStep
  dsimp only
  by_cases h0 : (View.ProcessLight camera octree st.view st.world light).1 = 0
  · rw [if_pos h0]
    exact hp
  · rw [if_neg h0]
    refine coreFrame_trans _ _ _ hp ?_
    have hfold : ∀ (s0 : GetBatchesState × Bool) (l : List Nat),
        Spec.coreFrame s0.1.view
          (l.foldl (View.GetBatches.splitStep g camera light) s0).1.view := by
      intro s0 l
      exact foldl_rel (fun a b : GetBatchesState × Bool => Spec.coreFrame a.1.view b.1.view)
        (fun s => coreFrame_refl _) (fun a b c h1 h2 => coreFrame_trans _ _ _ h1 h2) _
        (fun s j => GetBatches_splitStep_core g camera light s j) l s0
    exact coreFrame_trans _ _ _ (prepareLightQueues_core _ _) (hfold _ _)

theorem lights_core (g : Graphics) (camera : Camera) (octree : Octree) (v : View) (w : World) :
    Spec.coreFrame v (View.GetBatches.lights g camera octree v w).view := by
  unfold View.GetBatches.lights
  dsimp only
  refine coreFrame_trans _ _ _ ?_ (resize_core _ _)
  exact foldl_rel (fun a b : GetBatchesState => Spec.coreFrame a.view b.view)
    (fun s => coreFrame_refl _) (fun a b c h1 h2 => coreFrame_trans _ _ _ h1 h2) _
    (fun s l => lightStep_core g camera octree s l) v.lights_
    { view := v, world := w, litTransparencies := [], maxLightsDrawables := [],
      lightQueueIndex := [], lightQueueCount := 0 }

theorem SortBatches_core (v : View) : Spec.coreFrame v (View.SortBatches v) := by
  constructor
  · unfold View.SortBatches
    split_ifs <;> rfl
  · apply addsOnly_of_eq
    unfold View.SortBatches Spec.drawableBatches
    split_ifs <;>
      simp [BatchQueue.SortFrontToBack, BatchQueue.SortBackToFront, BatchQueue.batches,
        List.flatMap_map]

theorem GetBatches_core (g : Graphics) (camera : Camera) (octree : Octree) (v : View)
    (w : World) : Spec.coreFrame v (View.GetBatches g camera octree v w).1 := by
  unfold View.GetBatches
  dsimp only
  exact coreFrame_trans _ _ _ (lights_core g camera octree v w)
    (coreFrame_trans _ _ _ (coreFrame_of_batchFrame _ _ (maxLights_frame g camera _))
      (coreFrame_trans _ _ _ (coreFrame_of_batchFrame _ _ (base_frame g camera _))
        (SortBatches_core _)))

theorem GetDrawables_step_geometries (frame : FrameInfo) (zone : Option Zone)
    (st : GetDrawablesState) (d : Drawable) :
    (∀ x ∈ (View.GetDrawables.step frame zone st d).geometries,
      x ∈ st.geometries ∨ (x = d ∧ d.beyondDrawDistance = false)) ∧
    (d.beyondDrawDistance = false → d.drawableFlags &&& DRAWABLE_GEOMETRY ≠ 0 →
      d ∈ (View.GetDrawables.step frame zone st d).geometries) := by
  unfold View.GetDrawables.step
  by_cases hb : d.beyondDrawDistance = true
  · rw [if_pos hb]
    refine ⟨fun x hx => Or.inl hx, fun h => ?_⟩
    rw [hb] at h
    cases h
  · rw [if_neg hb]
    have hb' : d.beyondDrawDistance = false := by simpa using hb
    dsimp only
    by_cases hg : d.drawableFlags &&& DRAWABLE_GEOMETRY ≠ 0
    · rw [if_pos hg]
      refine ⟨fun x hx => ?_, fun _ _ => ?_⟩
      · rw [List.mem_append, List.mem_singleton] at hx
        rcases hx with hx | hx
        · exact Or.inl hx
        · exact Or.inr ⟨hx, hb'⟩
      · exact List.mem_append.mpr (Or.inr (List.mem_singleton.mpr rfl))
    · rw [if_neg hg]
      refine ⟨fun x hx => Or.inl ?_, fun _ h => (hg h).elim⟩
      by_cases hl : d.drawableFlags &&& DRAWABLE_LIGHT ≠ 0
      · rw [if_pos hl] at hx
        cases zone with
        | none => exact hx
        | some z =>
          dsimp only at hx
          by_cases hm : d.viewMask &&& z.viewMask = 0
          · rw [if_pos hm] at hx
            exact hx
          · rw [if_neg hm] at hx
            exact hx
      · rw [if_neg hl] at hx
        exact hx

theorem GetDrawables_fold_geometries (frame : FrameInfo) (zone : Option Zone)
    (l : List Drawable) :
    ∀ st : GetDrawablesState, (∀ x ∈ st.geometries, x.beyondDrawDistance = false) →
      ∀ x ∈ (l.foldl (View.GetDrawables.step frame zone) st).geometries,
        x.beyondDrawDistance = false := by
  induction l with
  | nil => exact fun st h => h
  | cons d rest ih =>
    intro st h
    rw [List.foldl_cons]
    apply ih
    intro x hx
    rcases (GetDrawables_step_geometries frame zone st d).1 x hx with hx | ⟨rfl, hb⟩
    · exact h x hx
    · exact hb

theorem GetDrawables_geometries (camera : Camera) (octree : Octree) (v : View) (w : World)
    (h : ∀ x ∈ v.geometries_, x.beyondDrawDistance = false) :
    ∀ x ∈ (View.GetDrawables camera octree v w).1.geometries_, x.beyondDrawDistance = false := by
  unfold View.GetDrawables
  dsimp only
  exact GetDrawables_fold_geometries _ _ _ _ h

theorem GetDrawables_queues (camera : Camera) (octree : Octree) (v : View) (w : World) :
    Spec.drawableBatches (View.GetDrawables camera octree v w).1 = Spec.drawableBatches v :=
  rfl

theorem coreFrame_geometries (v v' : View) (h : Spec.coreFrame v v') :
    v'.geometries_ = v.geometries_ := by
  have h' := congrArg View.geometries_ h.1
  exact h'

theorem GetBatches_after_GetDrawables (g : Graphics) (camera : Camera) (octree : Octree)
    (v : View) (w : World) (hgeo : v.geometries_ = []) (hq : Spec.drawableBatches v = []) :
    (∀ x ∈ (View.GetBatches g camera octree (View.GetDrawables camera octree v w).1
        (View.GetDrawables camera octree v w).2).1.geometries_,
      x.beyondDrawDistance = false) ∧
    (∀ b ∈ Spec.drawableBatches (View.GetBatches g camera octree
        (View.GetDrawables camera octree v w).1 (View.GetDrawables camera octree v w).2).1,
      Spec.resolved b) := by
  have hc := GetBatches_core g camera octree (View.GetDrawables camera octree v w).1
    (View.GetDrawables camera octree v w).2
  have hg := coreFrame_geometries _ _ hc
  have c2 := hc.2
  constructor
  · intro x hx
    rw [hg] at hx
    refine GetDrawables_geometries camera octree v w ?_ x hx
    intro y hy
    rw [hgeo] at hy
    cases hy
  · intro b hb
    rcases c2 b hb with h | h
    · rw [GetDrawables_queues, hq] at h
      cases h
    · exact h

theorem clearFrame_empty (v : View) :
    v.clearFrame.geometries_ = [] ∧ Spec.drawableBatches v.clearFrame = [] :=
  ⟨rfl, rfl⟩

theorem Update_body_spec (g : Graphics) (camera : Camera) (octree : Octree) (v : View)
    (w : World) (frame : FrameInfo) :
    (∀ x ∈ (View.Update.body g camera octree v w frame).1.geometries_,
      x.beyondDrawDistance = false) ∧
    (∀ b ∈ Spec.drawableBatches (View.Update.body g camera octree v w frame).1,
      Spec.resolved b) := by
  unfold View.Update.body
  dsimp only
  by_cases hp : (!camera.projectionValid) = true
  · rw [if_pos hp]
    constructor
    · intro x hx
      rw [(clearFrame_empty _).1] at hx
      cases hx
    · intro b hb
      rw [(clearFrame_empty _).2] at hb
      cases hb
  · rw [if_neg hp]
    exact GetBatches_after_GetDrawables g _ octree _ _ rfl rfl

theorem beyondDrawDistance_iff (d : Drawable) :
    d.beyondDrawDistance = true ↔ (d.drawDistance > 0 ∧ d.distance > d.drawDistance) := by
  unfold Drawable.beyondDrawDistance
  simp

/-- C9: take a drawable with a draw distance `d > 0` whose distance from the camera is
greater than `d`. After an `Update` of a view with camera and octree it is not in the
visible geometry list. For every light of every type, `ProcessLight` on a view with that
visible geometry list leaves it out of the lit-geometry list and out of the shadow caster
list of every returned split, so neither a base-pass batch nor a lit batch is made from it.
A drawable with draw distance 0 always passes the draw distance test: if it is a geometry,
the loop body of `GetDrawables` puts it into the visible geometry list. -/
theorem C9_draw_distance_excludes (g : Graphics) (v : View) (w : World) (frame : FrameInfo)
    (camera : Camera) (octree : Octree) (d : Drawable)
    (hc : v.camera_ = some camera) (ho : v.octree_ = some octree)
    (hd : d.drawDistance > 0) (hdist : d.distance > d.drawDistance) :
    d ∉ (View.Update g v w frame).1.geometries_ ∧
    (∀ (lightCamera : Camera) (lightOctree : Octree) (v' : View) (w' : World) (light : Light),
      v'.geometries_ = (View.Update g v w frame).1.geometries_ →
      ∀ i, i < (View.ProcessLight lightCamera lightOctree v' w' light).1 →
        d ∉ (View.ProcessLight lightCamera lightOctree v' w' light).2.1.litGeometries_ i ∧
        d ∉ (View.ProcessLight lightCamera lightOctree v' w' light).2.1.shadowCasters_ i) ∧
    (∀ x : Drawable, x.drawDistance = 0 →
      x.beyondDrawDistance = false ∧
      ∀ (frame' : FrameInfo) (zone : Option Zone) (st : GetDrawablesState),
        x.drawableFlags &&& DRAWABLE_GEOMETRY ≠ 0 →
        x ∈ (View.GetDrawables.step frame' zone st x).geometries) := by
  have hb : d.beyondDrawDistance = true := (beyondDrawDistance_iff d).mpr ⟨hd, hdist⟩
  have hgeo : ∀ x ∈ (View.Update g v w frame).1.geometries_, x.beyondDrawDistance = false := by
    rw [Update_set g v w frame camera octree hc ho]
    exact (Update_body_spec g camera octree v w frame).1
  refine ⟨?_, ?_, ?_⟩
  · intro hmem
    have := hgeo d hmem
    rw [hb] at this
    cases this
  · intro lightCamera lightOctree v' w' light hv i hi
    have hgeo' : ∀ x ∈ v'.geometries_, x.beyondDrawDistance = false := by
      rw [hv]
      exact hgeo
    obtain ⟨h1, h2⟩ := ProcessLight_within_draw_distance lightCamera lightOctree v' w' light
      hgeo' i hi
    constructor
    · intro hmem
      have := h1 d hmem
      rw [hb] at this
      cases this
    · intro hmem
      have := h2 d hmem
      rw [hb] at this
      cases this
  · intro x hx
    have hx' : x.beyondDrawDistance = false := by
      cases hbx : x.beyondDrawDistance with
      | false => rfl
      | true =>
        have := ((beyondDrawDistance_iff x).mp hbx).1
        rw [hx] at this
        exact (lt_irrefl _ this).elim
    exact ⟨hx', fun frame' zone st hflag =>
      (GetDrawables_step_geometries frame' zone st x).2 hx' hflag⟩

/-- Witness for C9: the example drawable with draw distance 50 at distance 60 is returned by
every octree query of the example view and is not in the visible geometry list after
`Update`. -/
theorem C9_draw_distance_excludes_witness :
    Example.drawable.drawDistance > 0 ∧
    Example.drawable.distance > Example.drawable.drawDistance ∧
    Example.drawable ∉
      (View.Update Example.graphics Example.distanceView Example.world
        Example.frame).1.geometries_ :=
  ⟨by decide, by decide,
    (C9_draw_distance_excludes Example.graphics Example.distanceView Example.world
      Example.frame Example.camera (Example.octree [] [Example.drawable, Example.nearDrawable])
      Example.drawable rfl rfl (by decide) (by decide)).1⟩

/-- C2, the claim as stated fails in the non-forward modes. The deferred example view sees
a spot light without shadows and one geometry lit by it. `Update` adds the batch of the
geometry to the G-buffer queue with its geometry and technique, and it adds the light volume
batch of the light to the no-shadow light queue: that batch has the light volume geometry of
the renderer and no technique, because `SetLightVolumeShaders` is given none. -/
theorem C2_counterexample :
    Example.camera.projectionValid = true ∧
    ((View.Update Example.graphicsDeferred Example.deferredSceneView Example.volumeWorld
      Example.frame).1.noShadowLightQueue_.batches.map
        (fun b => (b.geometry_, b.technique_))) = [(some 900, none)] ∧
    ((View.Update Example.graphicsDeferred Example.deferredSceneView Example.volumeWorld
      Example.frame).1.gBufferQueue_.batches.map
        (fun b => (b.geometry_, b.technique_))) =
      [(some 1, some Example.gbufferAlphaTechnique)] := by
  refine ⟨rfl, by decide, by decide⟩

/-- C2, amended: after an `Update` of a view with camera and octree, every batch made from a
drawable (every batch in the G-buffer, base, extra and transparent queues and in the shadow
and lit queues of the light queues) has a non-null geometry and a non-null technique. In
each of the three loop bodies that make these batches (shadow batches, lit batches, base
batches) a batch whose geometry is null or for which `GetTechnique` returns null changes
nothing, and every batch the body adds has the geometry of the source batch and the
technique returned by `GetTechnique`. The light volume batches of the non-forward modes are
the exception: they carry the light volume geometry of the renderer and no technique. -/
theorem C2_Update_drawable_batches_resolved (g : Graphics) (v : View) (w : World)
    (frame : FrameInfo) (camera : Camera) (octree : Octree)
    (hc : v.camera_ = some camera) (ho : v.octree_ = some octree) :
    (∀ b ∈ Spec.drawableBatches (View.Update g v w frame).1,
      b.geometry_ ≠ none ∧ b.technique_ ≠ none) ∧
    (∀ (splitLight : Light) (queueIndex : Nat) (drawable : Drawable) (st : GetBatchesState)
        (l : Nat),
      ((drawable.GetBatch l).geometry_ = none ∨
        (View.GetTechnique g st.world.renderer st.view drawable
          (drawable.GetBatch l).material_).1 = none →
        View.GetBatches.shadowBatchStep g splitLight queueIndex drawable st l = st) ∧
      Spec.addsOnly (Spec.resolvedFrom g st drawable l) st.view
        (View.GetBatches.shadowBatchStep g splitLight queueIndex drawable st l).view) ∧
    (∀ (cam : Camera) (drawable : Drawable) (light : Nat) (splitLight : Light)
        (lightQueue : Option Nat) (st : GetBatchesState) (i : Nat),
      ((drawable.GetBatch i).geometry_ = none ∨
        (View.GetTechnique g st.world.renderer st.view drawable
          (drawable.GetBatch i).material_).1 = none →
        View.GetLitBatches.step g cam drawable light splitLight lightQueue st i = st) ∧
      Spec.addsOnly (Spec.resolvedFrom g st drawable i) st.view
        (View.GetLitBatches.step g cam drawable light splitLight lightQueue st i).view) ∧
    (∀ (cam : Camera) (drawable : Drawable) (st : GetBatchesState) (j : Nat),
      ((drawable.GetBatch j).geometry_ = none ∨
        (View.GetTechnique g st.world.renderer st.view drawable
          (drawable.GetBatch j).material_).1 = none →
        View.GetBatches.baseStep g cam drawable st j = st) ∧
      Spec.addsOnly (Spec.resolvedFrom g st drawable j) st.view
        (View.GetBatches.baseStep g cam drawable st j).view) ∧
    (∀ (cam : Camera) (w' : World) (splitLight : Light),
      (View.GetBatches.volumeBatch cam w' splitLight).technique_ = none ∧
      (View.GetBatches.volumeBatch cam w' splitLight).geometry_ =
        w'.renderer.lightGeometry splitLight) := by
  refine ⟨?_, ?_, ?_, ?_, fun _ _ _ => ⟨rfl, rfl⟩⟩
  · rw [Update_set g v w frame camera octree hc ho]
    exact (Update_body_spec g camera octree v w frame).2
  · intro splitLight queueIndex drawable st l
    obtain ⟨h1, _, _, h4⟩ := shadowBatchStep_spec g splitLight queueIndex drawable st l
    exact ⟨h1, h4⟩
  · intro cam drawable light splitLight lightQueue st i
    obtain ⟨h1, _, _, _, _, _, h7⟩ :=
      GetLitBatches_step_spec g cam drawable light splitLight lightQueue st i
    exact ⟨h1, h7⟩
  · intro cam drawable st j
    obtain ⟨h1, _, _, h4⟩ := baseStep_spec g cam drawable st j
    exact ⟨h1, h4⟩

/-- Witness for C2: the drawable batches of the deferred example view after `Update`. -/
theorem C2_Update_drawable_batches_resolved_witness :
    Example.deferredSceneView.camera_ = some Example.camera ∧
    Example.deferredSceneView.octree_ = some Example.litOctree ∧
    ∀ b ∈ Spec.drawableBatches
        (View.Update Example.graphicsDeferred Example.deferredSceneView Example.volumeWorld
          Example.frame).1,
      b.geometry_ ≠ none ∧ b.technique_ ≠ none :=
  ⟨rfl, rfl,
    (C2_Update_drawable_batches_resolved Example.graphicsDeferred Example.deferredSceneView
      Example.volumeWorld Example.frame Example.camera Example.litOctree rfl rfl).1⟩

theorem prepareLightQueues_length (st : GetBatchesState) (splits : Nat) :
    st.lightQueueCount + splits ≤
      (View.GetBatches.prepareLightQueues st splits).view.lightQueues_.length ∧
    (View.GetBatches.prepareLightQueues st splits).lightQueueCount = st.lightQueueCount := by
  unfold View.GetBatches.prepareLightQueues
  by_cases h : st.view.lightQueues_.length < st.lightQueueCount + splits
  · rw [if_pos h]
    refine ⟨?_, rfl⟩
    show _ ≤ (resizeLightQueues st.view.lightQueues_ (st.lightQueueCount + splits)).length
    unfold resizeLightQueues
    rw [List.length_append, List.length_take, List.length_replicate]
    omega
  · rw [if_neg h]
    exact ⟨by omega, rfl⟩

theorem GetBatches_splitStep_count (g : Graphics) (camera : Camera) (light : Light)
    (acc : GetBatchesState × Bool) (j : Nat) :
    (View.GetBatches.splitStep g camera light acc j).1.view.lightQueues_.length =
      acc.1.view.lightQueues_.length ∧
    acc.1.lightQueueCount ≤ (View.GetBatches.splitStep g camera light acc j).1.lightQueueCount ∧
    (View.GetBatches.splitStep g camera light acc j).1.lightQueueCount ≤
      acc.1.lightQueueCount + 1 := by
  cases hs : acc.1.view.splitLights_ j with
  | none =>
    rw [GetBatches_splitStep_none g camera light acc j hs]
    exact ⟨rfl, le_refl _, Nat.le_succ _⟩
  | some splitLight =>
    obtain ⟨st2, st3, f12, f23, he⟩ :=
      GetBatches_splitStep_eq g camera light acc.1 acc.2 j splitLight hs
    have hacc : acc = (acc.1, acc.2) := rfl
    rw [hacc, he]
    have f13 := batchFrame_trans _ _ _ f12 f23
    have l1 : (View.GetBatches.resetLightQueue splitLight acc.2 acc.1).view.lightQueues_.length =
        acc.1.view.lightQueues_.length := by
      unfold View.GetBatches.resetLightQueue View.modifyLightQueue
      exact List.length_modify _ _ _
    have l2 : st2.view.lightQueues_.length = acc.1.view.lightQueues_.length :=
      ((frame_fields _ _ f12.1).2.2.2.2.2.2.2.1).trans l1
    have l3 : st3.view.lightQueues_.length = acc.1.view.lightQueues_.length :=
      ((frame_fields _ _ f13.1).2.2.2.2.2.2.2.1).trans l1
    have c2 : st2.lightQueueCount = acc.1.lightQueueCount := f12.2.2.2.1
    have c3 : st3.lightQueueCount = acc.1.lightQueueCount := f13.2.2.2.1
    by_cases hl : (acc.1.view.litGeometries_ j).length ≠ 0
    · rw [if_pos hl]
      unfold View.GetBatches.storeLightQueue
      split_ifs
      · dsimp only
        refine ⟨?_, by omega, by omega⟩
        unfold View.modifyLightQueue
        exact (List.length_modify _ _ _).trans l3
      · exact ⟨l3, by rw [c3], by rw [c3]; exact Nat.le_succ _⟩
      · dsimp only
        exact ⟨l3, by omega, by omega⟩
    · rw [if_neg hl]
      exact ⟨l2, by rw [c2], by rw [c2]; exact Nat.le_succ _⟩

theorem GetBatches_splitFold_count (g : Graphics) (camera : Camera) (light : Light)
    (s0 : GetBatchesState × Bool) (k : Nat) :
    ((List.range k).foldl (View.GetBatches.splitStep g camera light) s0).1.view.lightQueues_.length =
      s0.1.view.lightQueues_.length ∧
    ((List.range k).foldl (View.GetBatches.splitStep g camera light) s0).1.lightQueueCount ≤
      s0.1.lightQueueCount + k := by
  induction k with
  | zero => exact ⟨rfl, le_refl _⟩
  | succ k ih =>
    rw [List.range_succ, List.foldl_append]
    obtain ⟨h1, _, h3⟩ := GetBatches_splitStep_count g camera light
      ((List.range k).foldl (View.GetBatches.splitStep g camera light) s0) k
    exact ⟨h1.trans ih.1, by
      have := ih.2
      show (View.GetBatches.splitStep g camera light _ k).1.lightQueueCount ≤ _
      omega⟩

theorem lightStep_queue_exists (g : Graphics) (camera : Camera) (light : Light)
    (st : GetBatchesState) (splits j : Nat) (hj : j < splits) :
    ((List.range j).foldl (View.GetBatches.splitStep g camera light)
        (View.GetBatches.prepareLightQueues st splits, false)).1.lightQueueCount <
      ((List.range j).foldl (View.GetBatches.splitStep g camera light)
        (View.GetBatches.prepareLightQueues st splits, false)).1.view.lightQueues_.length := by
  obtain ⟨p1, p2⟩ := prepareLightQueues_length st splits
  obtain ⟨h1, h2⟩ := GetBatches_splitFold_count g camera light
    (View.GetBatches.prepareLightQueues st splits, false) j
  rw [h1]
  have h2' : ((List.range j).foldl (View.GetBatches.splitStep g camera light)
      (View.GetBatches.prepareLightQueues st splits, false)).1.lightQueueCount ≤
      (View.GetBatches.prepareLightQueues st splits).lightQueueCount + j := h2
  have p1' : st.lightQueueCount + splits ≤
      (View.GetBatches.prepareLightQueues st splits).view.lightQueues_.length := p1
  show _ < (View.GetBatches.prepareLightQueues st splits).view.lightQueues_.length
  omega

theorem FindAnimation_loop_lt (nameHash : Nat) :
    ∀ (l : List AnimationControl) (i : Nat), i + l.length ≤ M_MAX_UNSIGNED →
      AnimationController.FindAnimation.loop nameHash l i ≠ M_MAX_UNSIGNED →
      i ≤ AnimationController.FindAnimation.loop nameHash l i ∧
      AnimationController.FindAnimation.loop nameHash l i < i + l.length := by
  intro l
  induction l with
  | nil =>
    intro i _ h
    exact (h rfl).elim
  | cons a rest ih =>
    intro i hlen h
    unfold AnimationController.FindAnimation.loop at h ⊢
    simp only [List.length_cons] at hlen ⊢
    by_cases ha : a.hash_ = nameHash
    · rw [if_pos ha]
      omega
    · rw [if_neg ha] at h ⊢
      obtain ⟨h1, h2⟩ := ih (i + 1) (by omega) h
      omega

theorem FindAnimation_loop_modify (nameHash : Nat) (f : AnimationControl → AnimationControl)
    (hf : ∀ a, (f a).hash_ = a.hash_) :
    ∀ (l : List AnimationControl) (i k : Nat),
      AnimationController.FindAnimation.loop nameHash (l.modify f k) i =
        AnimationController.FindAnimation.loop nameHash l i := by
  intro l
  induction l with
  | nil =>
    intro i k
    cases k <;> rfl
  | cons a rest ih =>
    intro i k
    cases k with
    | zero =>
      simp only [List.modify_zero_cons, AnimationController.FindAnimation.loop, hf]
    | succ k =>
      rw [List.modify_succ_cons]
      show (if a.hash_ = nameHash then i
        else AnimationController.FindAnimation.loop nameHash (List.modify f k rest) (i + 1)) =
        (if a.hash_ = nameHash then i
        else AnimationController.FindAnimation.loop nameHash rest (i + 1))
      rw [ih]

theorem FindAnimation_modify (c : AnimationController) (name : Nat)
    (f : AnimationControl → AnimationControl) (hf : ∀ a, (f a).hash_ = a.hash_) (k : Nat) :
    (AnimationController.FindAnimation
      { c with animations_ := c.animations_.modify f k } name).1 =
      (c.FindAnimation name).1 := by
  unfold AnimationController.FindAnimation
  dsimp only
  rw [FindAnimation_loop_modify _ _ hf]

theorem Fade_spec (c : AnimationController) (name : Nat) (targetWeight fadeTime : Rat)
    (hlen : c.animations_.length ≤ M_MAX_UNSIGNED)
    (h : (c.Fade name targetWeight fadeTime).1 = true) :
    (c.Fade name targetWeight fadeTime).2.GetFadeTarget name = ClampFloat targetWeight 0 1 ∧
    (c.Fade name targetWeight fadeTime).2.GetFadeTime name = ClampFloat targetWeight 0 1 ∧
    Spec.storedFadeTime (c.Fade name targetWeight fadeTime).2 name =
      some (max fadeTime M_EPSILON) := by
  unfold AnimationController.Fade at h ⊢
  dsimp only at h ⊢
  by_cases hi : (c.FindAnimation name).1 = M_MAX_UNSIGNED
  · rw [if_pos hi] at h
    cases h
  · rw [if_neg hi]
    have hlt : (c.FindAnimation name).1 < c.animations_.length := by
      have h2 := (FindAnimation_loop_lt _ c.animations_ 0
        (by rw [Nat.zero_add]; exact hlen) hi).2
      rw [Nat.zero_add] at h2
      exact h2
    have hget : ∀ f : AnimationControl → AnimationControl,
        (c.animations_.modify f (c.FindAnimation name).1)[(c.FindAnimation name).1]? =
          some (f (c.animations_.get ⟨(c.FindAnimation name).1, hlt⟩)) := by
      intro f
      rw [List.getElem?_modify, List.getElem?_eq_getElem hlt]
      simp
    refine ⟨?_, ?_, ?_⟩
    · unfold AnimationController.GetFadeTarget
      dsimp only
      rw [FindAnimation_modify c name _ ?_ _, if_neg hi, hget]
      intro a
      rfl
    · unfold AnimationController.GetFadeTime
      dsimp only
      rw [FindAnimation_modify c name _ ?_ _, if_neg hi, hget]
      intro a
      rfl
    · unfold Spec.storedFadeTime
      rw [FindAnimation_modify c name _ ?_ _]
      · dsimp only
        rw [hget]
        rfl
      · intro a
        rfl

/-- C30 at a failing input: the controller plays the animation with name hash 7, and
`Fade(name, 0.5, 2)` returns true. The fade target is 0.5 and the stored fade time is 2, but
`GetFadeTime` returns 0.5: it reads `targetWeight_` where it should read `fadeTime_`. -/
theorem C30_GetFadeTime_returns_target_weight :
    Example.controller.IsPlaying 7 = true ∧
    (Example.controller.Fade 7 (1 / 2) 2).1 = true ∧
    (Example.controller.Fade 7 (1 / 2) 2).2.GetFadeTarget 7 = 1 / 2 ∧
    Spec.storedFadeTime (Example.controller.Fade 7 (1 / 2) 2).2 7 = some 2 ∧
    max (2 : Rat) M_EPSILON = 2 ∧
    (Example.controller.Fade 7 (1 / 2) 2).2.GetFadeTime 7 = 1 / 2 := by
  have hlen : Example.controller.animations_.length ≤ M_MAX_UNSIGNED := by decide
  have hret : (Example.controller.Fade 7 (1 / 2) 2).1 = true := rfl
  obtain ⟨h1, h2, h3⟩ := Fade_spec Example.controller 7 (1 / 2) 2 hlen hret
  have hc : ClampFloat (1 / 2) 0 1 = 1 / 2 := by
    unfold ClampFloat
    norm_num
  have hm : max (2 : Rat) M_EPSILON = 2 := by
    unfold M_EPSILON
    norm_num
  rw [hc] at h1 h2
  rw [hm] at h3
  exact ⟨rfl, hret, h1, h3, hm, h2⟩

theorem GetTechnique_loop_congr (g1 g2 : Graphics) (v1 v2 : View) (lodDistance : Rat)
    (hsm3 : g1.sm3Support = g2.sm3Support)
    (hquality : v1.materialQuality_ = v2.materialQuality_) :
    ∀ l : List TechniqueEntry,
      View.GetTechnique.loop g1 v1 lodDistance l = View.GetTechnique.loop g2 v2 lodDistance l := by
  intro l
  induction l with
  | nil => rfl
  | cons entry rest ih =>
    unfold View.GetTechnique.loop
    rw [ih, hsm3, hquality]

/-- C22, the claim as written, fails for a null material: two calls with the same (null)
material, the same drawable, the same material quality and the same SM3 support return
different techniques when the renderers' default materials differ. -/
theorem C22_counterexample :
    (none : Option Material) = none ∧
    Example.drawable.lodDistance = Example.drawable.lodDistance ∧
    Example.definedView.materialQuality_ = Example.definedView.materialQuality_ ∧
    Example.graphics.sm3Support = Example.graphics.sm3Support ∧
    (View.GetTechnique Example.graphics Example.renderer Example.definedView Example.drawable none).1 =
      none ∧
    (View.GetTechnique Example.graphics Example.materialRenderer Example.definedView Example.drawable
      none).1 = some Example.techniqueLow ∧
    (View.GetTechnique Example.graphics Example.renderer Example.definedView Example.drawable none).1 ≠
      (View.GetTechnique Example.graphics Example.materialRenderer Example.definedView Example.drawable
        none).1 := by
  decide

/-- C22, amended: `GetTechnique` is a function of the material, the LOD distance of the
drawable, the material quality level, the SM3 support and, for a null material, the default
material of the renderer. Two calls that agree on these return the same technique and leave the
same material in the reference parameter; for a material that is not null nothing is asked of
the default materials. -/
theorem C22_GetTechnique_pure (g1 g2 : Graphics) (r1 r2 : Renderer) (v1 v2 : View)
    (drawable1 drawable2 : Drawable) (material : Option Material)
    (hlod : drawable1.lodDistance = drawable2.lodDistance)
    (hquality : v1.materialQuality_ = v2.materialQuality_)
    (hsm3 : g1.sm3Support = g2.sm3Support)
    (hdefault : material = none → r1.defaultMaterial = r2.defaultMaterial) :
    View.GetTechnique g1 r1 v1 drawable1 material =
      View.GetTechnique g2 r2 v2 drawable2 material := by
  cases material with
  | none =>
    have hd := hdefault rfl
    unfold View.GetTechnique
    dsimp only
    rw [hd, hlod]
    cases r2.defaultMaterial with
    | none => rfl
    | some m =>
      dsimp only
      rw [GetTechnique_loop_congr g1 g2 v1 v2 _ hsm3 hquality]
  | some m =>
    unfold View.GetTechnique
    dsimp only
    rw [hlod, GetTechnique_loop_congr g1 g2 v1 v2 _ hsm3 hquality]

theorem C22_GetTechnique_pure_witness :
    Example.drawable.lodDistance = Example.drawable.lodDistance ∧
    Example.definedView.materialQuality_ = Example.definedView.materialQuality_ ∧
    Example.graphics.sm3Support = Example.graphicsDeferred.sm3Support ∧
    ((some Example.material : Option Material) = none →
      Example.renderer.defaultMaterial = Example.materialRenderer.defaultMaterial) ∧
    View.GetTechnique Example.graphics Example.renderer Example.definedView Example.drawable
        (some Example.material) =
      View.GetTechnique Example.graphicsDeferred Example.materialRenderer Example.definedView
        Example.drawable (some Example.material) :=
  ⟨rfl, rfl, rfl, fun h => Option.noConfusion h,
    C22_GetTechnique_pure Example.graphics Example.graphicsDeferred Example.renderer
      Example.materialRenderer Example.definedView Example.definedView Example.drawable Example.drawable
      (some Example.material) rfl rfl rfl (fun h => Option.noConfusion h)⟩

theorem UpdateOccluders_loop_spec (w : World) (camera : Camera) :
    ∀ (post pre : List Drawable), (pre ++ post).length < 4294967296 →
      View.UpdateOccluders.loop w camera pre.length (pre ++ post) =
        pre ++ (post.filter (fun o => !View.UpdateOccluders.erase w camera o)).map
          (fun o => { o with sortValue := View.UpdateOccluders.sortKey camera o }) := by
  intro post
  induction post with
  | nil =>
    intro pre hlen
    rw [View.UpdateOccluders.loop]
    have hmod : (pre ++ ([] : List Drawable)).length % 4294967296 = pre.length := by
      rw [Nat.mod_eq_of_lt hlen]
      simp
    rw [dif_neg (by rw [hmod]; exact Nat.lt_irrefl _)]
    simp
  | cons x post ih =>
    intro pre hlen
    rw [View.UpdateOccluders.loop]
    have hlen' : pre.length + (post.length + 1) < 4294967296 := by
      simpa using hlen
    have hguard : pre.length < (pre ++ x :: post).length % 4294967296 := by
      rw [Nat.mod_eq_of_lt hlen]
      simp
    rw [dif_pos hguard]
    have hget : ∀ h, (pre ++ x :: post).get ⟨pre.length, h⟩ = x := by
      intro h
      rw [List.get_eq_getElem, List.getElem_append_right (Nat.le_refl _)]
      simp
    dsimp only
    rw [hget]
    by_cases he : View.UpdateOccluders.erase w camera x = true
    · rw [if_pos he]
      have hidx : ((pre.length + 4294967296 - 1) % 4294967296 + 1) % 4294967296 = pre.length := by
        omega
      have hlist : (pre ++ x :: post).eraseIdx pre.length = pre ++ post := by
        rw [List.eraseIdx_append_of_length_le (Nat.le_refl _)]
        simp
      rw [hidx, hlist, ih pre (by simp; omega)]
      simp [List.filter_cons, he]
    · rw [if_neg he]
      have hidx : (pre.length + 1) % 4294967296 =
          (pre ++ [{ x with sortValue := View.UpdateOccluders.sortKey camera x }]).length := by
        simp
        omega
      have hlist : (pre ++ x :: post).set pre.length
          { x with sortValue := View.UpdateOccluders.sortKey camera x } =
          (pre ++ [{ x with sortValue := View.UpdateOccluders.sortKey camera x }]) ++ post := by
        simp
      rw [hidx, hlist, ih _ (by simp; omega)]
      simp [List.filter_cons, he]

theorem UpdateOccluders_erase_iff (w : World) (camera : Camera) (o : Drawable) :
    View.UpdateOccluders.erase w camera o = true ↔
      ((o.drawDistance > 0 ∧ o.distance > o.drawDistance) ∨
        (if camera.orthographic = true then
          divLess o.boxDiagonal camera.orthoSize w.renderer.occluderSizeThreshold = true
        else
          divLess (o.boxDiagonal * camera.halfViewSize) o.distance
            w.renderer.occluderSizeThreshold = true)) := by
  unfold View.UpdateOccluders.erase Drawable.beyondDrawDistance
  cases ho : camera.orthographic <;>
    simp only [Bool.not_false, Bool.not_true, if_true, Bool.false_eq_true, if_false]
  · by_cases hs : divLess (o.boxDiagonal * camera.halfViewSize) o.distance
        w.renderer.occluderSizeThreshold = true
    · simp [hs]
    · simp [hs]
  · by_cases hs : divLess o.boxDiagonal camera.orthoSize w.renderer.occluderSizeThreshold = true
    · simp [hs]
    · simp [hs]

/-- C21: for a vector of occluders whose size fits an `unsigned`, the erase loop of
`UpdateOccluders` leaves exactly the occluders that are not to be erased, each once and in
their input order, each with its sort key stored; an occluder is erased if and only if its
distance exceeds its positive draw distance or its screen coverage is below the occluder size
threshold; and `UpdateOccluders` returns a permutation of the kept occluders. -/
theorem C21_UpdateOccluders_filters (w : World) (camera : Camera) (occluders : List Drawable)
    (hsize : occluders.length < 4294967296) :
    View.UpdateOccluders.loop w camera 0 occluders =
      (occluders.filter (fun o => !View.UpdateOccluders.erase w camera o)).map
        (fun o => { o with sortValue := View.UpdateOccluders.sortKey camera o }) ∧
    (∀ o, View.UpdateOccluders.erase w camera o = true ↔
      ((o.drawDistance > 0 ∧ o.distance > o.drawDistance) ∨
        (if camera.orthographic = true then
          divLess o.boxDiagonal camera.orthoSize w.renderer.occluderSizeThreshold = true
        else
          divLess (o.boxDiagonal * camera.halfViewSize) o.distance
            w.renderer.occluderSizeThreshold = true))) ∧
    (View.UpdateOccluders w camera occluders).Perm
      ((occluders.filter (fun o => !View.UpdateOccluders.erase w camera o)).map
        (fun o => { o with sortValue := View.UpdateOccluders.sortKey camera o })) := by
  have hloop := UpdateOccluders_loop_spec w camera occluders [] (by simpa using hsize)
  simp only [List.length_nil, List.nil_append] at hloop
  refine ⟨hloop, UpdateOccluders_erase_iff w camera, ?_⟩
  unfold View.UpdateOccluders
  dsimp only
  rw [hloop]
  split_ifs
  · exact List.perm_insertionSort _ _
  · exact List.Perm.refl _

theorem C21_UpdateOccluders_filters_witness :
    [Example.drawable, Example.occluder, Example.drawable, Example.occluder].length <
      4294967296 ∧
    View.UpdateOccluders.erase Example.world Example.camera Example.drawable = true ∧
    View.UpdateOccluders.erase Example.world Example.camera Example.occluder = false ∧
    View.UpdateOccluders.loop Example.world Example.camera 0
        [Example.drawable, Example.occluder, Example.drawable, Example.occluder] =
      [{ Example.occluder with sortValue := 0 }, { Example.occluder with sortValue := 0 }] := by
  have he1 : View.UpdateOccluders.erase Example.world Example.camera Example.drawable = true := by
    simp [View.UpdateOccluders.erase, divLess, Drawable.beyondDrawDistance, Example.drawable,
      Example.world, Example.camera, Example.renderer]
    norm_num
  have he2 : View.UpdateOccluders.erase Example.world Example.camera Example.occluder = false := by
    simp [View.UpdateOccluders.erase, divLess, Drawable.beyondDrawDistance, Example.drawable,
      Example.occluder, Example.world, Example.camera, Example.renderer]
    norm_num
  have hf : List.filter (fun o => !View.UpdateOccluders.erase Example.world Example.camera o)
      [Example.drawable, Example.occluder, Example.drawable, Example.occluder] =
      [Example.occluder, Example.occluder] := by
    simp only [List.filter, he1, he2, Bool.not_true, Bool.not_false]
  have h := (C21_UpdateOccluders_filters Example.world Example.camera
    [Example.drawable, Example.occluder, Example.drawable, Example.occluder] (by decide)).1
  refine ⟨by decide, he1, he2, h.trans ?_⟩
  rw [hf]
  simp [View.UpdateOccluders.sortKey, Example.occluder, Example.drawable]

/-- C26 at the failing input: a shadowed directional light with a cascade count of 0 and a
shadow range (100) below the far clip distance of the camera (1000), processed after a spot
light whose split is still in `splitLights_[0]`. `SplitLight` returns 1, which is at most
`MAX_LIGHT_SPLITS`, but creates no split light and assigns no entry: `splitLights_[0]` is
the spot light of the earlier call. `ProcessLight` enters its split loop with that entry and
one split to process, and the first iteration of the loop processes the spot light. -/
theorem C26_SplitLight_stale_split :
    Example.noCascadeLight.shadowCascade.splits_ = 0 ∧
    Example.noCascadeLight.shadowCascade.shadowRange_ < Example.camera.farClip ∧
    Example.staleView.splitLights_ 0 = some Example.spotLight ∧
    (View.SplitLight Example.camera Example.staleView Example.world Example.noCascadeLight).1 =
      1 ∧
    (View.SplitLight Example.camera Example.staleView Example.world Example.noCascadeLight).1 ≤
      MAX_LIGHT_SPLITS ∧
    (View.SplitLight Example.camera Example.staleView Example.world
      Example.noCascadeLight).2.1.splitLights_ 0 = some Example.spotLight ∧
    (View.SplitLight Example.camera Example.staleView Example.world
      Example.noCascadeLight).2.2.renderer.numSplitLights =
        Example.world.renderer.numSplitLights ∧
    (View.ProcessLight.setup Example.camera Example.litOctree Example.staleView Example.world
      Example.noCascadeLight).isShadowed = true ∧
    (View.ProcessLight.setup Example.camera Example.litOctree Example.staleView Example.world
      Example.noCascadeLight).numSplits = 1 ∧
    (View.ProcessLight.setup Example.camera Example.litOctree Example.staleView Example.world
      Example.noCascadeLight).state.view.splitLights_ 0 = some Example.spotLight ∧
    ((View.ProcessLight.splitLoop Example.camera Example.litOctree Example.staleView
      Example.world Example.noCascadeLight 1).view.splitLights_ 0).map Drawable.id =
        some Example.spotLight.id ∧
    Example.spotLight.id ≠ Example.noCascadeLight.id := by
  have hr : Example.noCascadeLight.shadowCascade.shadowRange_ < Example.camera.farClip := by
    decide
  have hs : View.SplitLight Example.camera Example.staleView Example.world
      Example.noCascadeLight = (1, Example.staleView, Example.world) :=
    SplitLight_no_cascade Example.camera Example.staleView Example.world Example.noCascadeLight
      rfl rfl hr
  have hs' : View.SplitLight Example.camera Example.staleView Example.world
      (View.ProcessLight.setDefaultTextures Example.world Example.noCascadeLight) =
      (1, Example.staleView, Example.world) :=
    SplitLight_no_cascade Example.camera Example.staleView Example.world _ rfl rfl hr
  have hsetup : View.ProcessLight.setup Example.camera Example.litOctree Example.staleView
      Example.world Example.noCascadeLight =
      { numSplits := 1, isShadowed := true, useOcclusion := false,
        light := Example.noCascadeLight,
        state :=
          { view := { Example.staleView with
              litGeometries_ := fun i => if i < 1 then [] else Example.staleView.litGeometries_ i,
              shadowCasters_ := fun i => if i < 1 then [] else Example.staleView.shadowCasters_ i },
            world := Example.world, numLitGeometries := 0, numShadowCasters := 0 } } := by
    unfold View.ProcessLight.setup
    dsimp only
    rw [hs']
    rfl
  have hloop : ((View.ProcessLight.splitLoop Example.camera Example.litOctree Example.staleView
      Example.world Example.noCascadeLight 1).view.splitLights_ 0).map Drawable.id =
        some Example.spotLight.id := by
    unfold View.ProcessLight.splitLoop
    rw [hsetup]
    decide
  rw [hs, hsetup]
  exact ⟨rfl, hr, rfl, rfl, by decide, rfl, rfl, rfl, rfl, rfl, hloop, by decide⟩

/-- C25 at a failing input: a transparent drawable with one batch lies in faces 0 and 1 of a
shadowed point light, so `GetBatches` calls `GetLitBatches` for it once with each of the two
split lights and the same set `litTransparencies`. The first call records the triple
(original light, drawable, 0) and adds a batch that carries the original light. The second
call finds the triple recorded and still adds a batch, which carries the split light of face
1: the transparent queue holds two lit batches for the one triple. -/
theorem C25_GetLitBatches_lit_twice :
    (Example.pointFace 0).lightType = LightType.LIGHT_SPLITPOINT ∧
    (Example.pointFace 1).lightType = LightType.LIGHT_SPLITPOINT ∧
    (Example.pointFace 0).originalLight = some Example.pointLight.id ∧
    (Example.pointFace 1).originalLight = some Example.pointLight.id ∧
    (Example.pointFace 1).id = 2001 ∧
    (View.GetLitBatches Example.graphics Example.camera Example.transparentDrawable
      Example.pointLight.id (Example.pointFace 0) (some 0)
      (Example.batchState Example.pointLitView)).litTransparencies =
        [(Example.pointLight.id, Example.transparentDrawable.id, 0)] ∧
    ((View.GetLitBatches Example.graphics Example.camera Example.transparentDrawable
      Example.pointLight.id (Example.pointFace 0) (some 0)
      (Example.batchState Example.pointLitView)).view.transparentQueue_.batches.map
        (fun b => (b.geometry_, b.light_))) = [(some 1, some Example.pointLight.id)] ∧
    ((View.GetLitBatches Example.graphics Example.camera Example.transparentDrawable
      Example.pointLight.id (Example.pointFace 1) (some 1)
      (View.GetLitBatches Example.graphics Example.camera Example.transparentDrawable
        Example.pointLight.id (Example.pointFace 0) (some 0)
        (Example.batchState Example.pointLitView))).view.transparentQueue_.batches.map
        (fun b => (b.geometry_, b.light_))) =
      [(some 1, some Example.pointLight.id), (some 1, some 2001)] := by
  decide

theorem FinalizeShadowCamera_undefined (camera : Camera) (v : View) (r : Renderer)
    (light : Light) (geometryBoxDefined shadowCasterBoxDefined : Bool) (shadowCamera : Camera)
    (h : geometryBoxDefined = false ∨ shadowCasterBoxDefined = false) :
    View.FinalizeShadowCamera camera v r light geometryBoxDefined shadowCasterBoxDefined
      shadowCamera = shadowCamera := by
  unfold View.FinalizeShadowCamera
  rcases h with h | h <;> simp [h]

/-- C23 at a failing input: a shadowed spot light with shadow focusing and zooming out
disabled, a shadow map of width 1024 and one shadow caster. `ProcessLight` returns one split
with that shadow caster, and the zoom of its shadow camera is 1, not 1 * (1024 - 2) / 1024:
the boxes passed to `FinalizeShadowCamera` are only merged into when focusing is enabled, and
with an undefined box the function returns before the safety zoom. With focusing enabled the
same light gets the zoom 1022 / 1024. -/
theorem C23_FinalizeShadowCamera_no_safety_zoom :
    Example.spotLight.lightType = LightType.LIGHT_SPOT ∧
    Example.spotLight.shadowFocus = false ∧
    (View.ProcessLight Example.camera (Example.octree [] [Example.caster]) Example.shadowView
      Example.shadowMapWorld Example.spotLight).1 = 1 ∧
    (View.ProcessLight Example.camera (Example.octree [] [Example.caster]) Example.shadowView
      Example.shadowMapWorld Example.spotLight).2.1.shadowCasters_ 0 = [Example.caster] ∧
    ((View.ProcessLight Example.camera (Example.octree [] [Example.caster]) Example.shadowView
      Example.shadowMapWorld Example.spotLight).2.1.splitLights_ 0).map
        (fun split => (split.lightType, split.shadowMap, split.shadowCamera.map Camera.zoom)) =
      some (LightType.LIGHT_SPOT, some 500, some 1) ∧
    Example.shadowMapWorld.renderer.shadowMapWidth 500 = 1024 ∧
    (1 : Rat) * (((1024 - 2 : Int) : Rat) / ((1024 : Int) : Rat)) ≠ 1 ∧
    ((View.ProcessLight Example.camera (Example.octree [] [Example.caster]) Example.shadowView
      Example.shadowMapWorld Example.focusedSpotLight).2.1.splitLights_ 0).map
        (fun split => (split.lightType, split.shadowMap, split.shadowCamera.map Camera.zoom)) =
      some (LightType.LIGHT_SPOT, some 500, some (1022 / 1024)) := by
  have hfocus : ((View.ProcessLight Example.camera (Example.octree [] [Example.caster])
      Example.shadowView Example.shadowMapWorld Example.focusedSpotLight).2.1.splitLights_ 0).map
        (fun split => (split.lightType, split.shadowMap, split.shadowCamera.map Camera.zoom)) =
      some (LightType.LIGHT_SPOT, some 500,
        some ((1 : Rat) * (((1024 - 2 : Int) : Rat) / ((1024 : Int) : Rat)))) := by
    rfl
  refine ⟨rfl, rfl, by decide, by decide, by decide, rfl, by norm_num, ?_⟩
  rw [hfocus]
  norm_num

theorem dedupDrawables_spec (n : Nat) :
    ∀ l : List Drawable, l.length ≤ n →
      (dedupDrawables l).Pairwise (fun a b => a.id ≠ b.id) ∧
      (∀ d ∈ l, ∃ d' ∈ dedupDrawables l, d'.id = d.id) := by
  induction n with
  | zero =>
    intro l hl
    have : l = [] := List.length_eq_zero.mp (by omega)
    subst this
    rw [dedupDrawables]
    exact ⟨List.Pairwise.nil, fun d hd => by cases hd⟩
  | succ n ih =>
    intro l hl
    cases l with
    | nil =>
      rw [dedupDrawables]
      exact ⟨List.Pairwise.nil, fun d hd => by cases hd⟩
    | cons a rest =>
      have hlen : (rest.filter (fun x => decide (x.id ≠ a.id))).length ≤ n := by
        have := List.length_filter_le (fun x => decide (x.id ≠ a.id)) rest
        simp only [List.length_cons] at hl
        omega
      obtain ⟨ih1, ih2⟩ := ih _ hlen
      rw [dedupDrawables]
      refine ⟨List.Pairwise.cons ?_ ih1, ?_⟩
      · intro b hb
        have hb' := dedupDrawables_mem n _ hlen b hb
        have hne := (List.mem_filter.mp hb').2
        simp only [ne_eq, decide_eq_true_eq] at hne
        exact fun h => hne h.symm
      · intro d hd
        rw [List.mem_cons] at hd
        by_cases hid : d.id = a.id
        · exact ⟨a, List.mem_cons_self _ _, hid.symm⟩
        · have hdr : d ∈ rest := by
            rcases hd with hd | hd
            · subst hd
              exact (hid rfl).elim
            · exact hd
          have hdf : d ∈ rest.filter (fun x => decide (x.id ≠ a.id)) :=
            List.mem_filter.mpr ⟨hdr, by simpa using hid⟩
          obtain ⟨d', hd', he⟩ := ih2 d hdf
          exact ⟨d', List.mem_cons_of_mem _ hd', he⟩

theorem chooseShadowMap_id (camera : Camera) (r : Renderer) (isShadowed : Bool)
    (split : Light) :
    (View.ProcessLight.chooseShadowMap camera r isShadowed split).1.id = split.id := by
  unfold View.ProcessLight.chooseShadowMap
  dsimp only
  split_ifs <;> rfl

theorem finishSplit_id (camera : Camera) (v : View) (w : World) (i : Nat) (gb sb : Bool)
    (st : ProcessLightState) (s : Light)
    (h : (View.ProcessLight.finishSplit camera v w i gb sb st).view.splitLights_ i = some s) :
    ∃ s0, v.splitLights_ i = some s0 ∧ s.id = s0.id := by
  unfold View.ProcessLight.finishSplit at h
  dsimp only at h
  cases h0 : v.splitLights_ i with
  | none =>
    rw [h0] at h
    dsimp only at h
    rw [h0] at h
    cases h
  | some split =>
    rw [h0] at h
    dsimp only at h
    refine ⟨split, rfl, ?_⟩
    by_cases hc : (v.shadowCasters_ i).length = 0
    · rw [if_pos hc, setSplitLight_get, if_pos rfl] at h
      cases h
      rfl
    · rw [if_neg hc, setSplitLight_get, if_pos rfl] at h
      cases h
      rfl

theorem splitStep_id (camera : Camera) (octree : Octree) (isShadowed useOcclusion : Bool)
    (st : ProcessLightState) (i : Nat) (s : Light)
    (h : (View.ProcessLight.splitStep camera octree isShadowed useOcclusion st
      i).view.splitLights_ i = some s) :
    ∃ s0, st.view.splitLights_ i = some s0 ∧ s.id = s0.id := by
  cases h0 : st.view.splitLights_ i with
  | none =>
    rw [splitStep_none camera octree isShadowed useOcclusion st i h0, h0] at h
    cases h
  | some split0 =>
    refine ⟨split0, rfl, ?_⟩
    rcases splitStep_cases camera octree isShadowed useOcclusion st i split0 h0 with
      ⟨he, _⟩ | ⟨V, W, gb, sb, he, hV, _⟩
    · rw [he] at h
      dsimp only at h
      rw [setSplitLight_get, if_pos rfl] at h
      cases h
      exact chooseShadowMap_id camera st.world.renderer isShadowed split0
    · rw [he] at h
      obtain ⟨s0, hs0, hid⟩ := finishSplit_id camera V W i gb sb st s h
      rw [hV, setSplitLight_get, if_pos rfl] at hs0
      cases hs0
      rw [hid]
      exact chooseShadowMap_id camera st.world.renderer isShadowed split0

theorem splitFold_id (camera : Camera) (octree : Octree) (isShadowed useOcclusion : Bool)
    (st0 : ProcessLightState) (k : Nat) :
    ∀ i s, ((List.range k).foldl
        (View.ProcessLight.splitStep camera octree isShadowed useOcclusion)
        st0).view.splitLights_ i = some s →
      ∃ s0, st0.view.splitLights_ i = some s0 ∧ s.id = s0.id := by
  induction k with
  | zero =>
    intro i s h
    exact ⟨s, h, rfl⟩
  | succ k ih =>
    intro i s h
    rw [splitFold_succ] at h
    by_cases hik : i = k
    · subst hik
      obtain ⟨s1, h1, e1⟩ := splitStep_id camera octree isShadowed useOcclusion _ i s h
      obtain ⟨s0, h0, e0⟩ := ih i s1 h1
      exact ⟨s0, h0, e1.trans e0⟩
    · have hf := ((splitStep_spec camera octree isShadowed useOcclusion
        ((List.range k).foldl (View.ProcessLight.splitStep camera octree isShadowed useOcclusion)
          st0) k).2.1 i hik).1
      rw [hf] at h
      exact ih i s h

theorem splitFold_counts (camera : Camera) (octree : Octree) (isShadowed useOcclusion : Bool)
    (st0 : ProcessLightState) (k : Nat)
    (hclear : ∀ i, i < k → st0.view.litGeometries_ i = [] ∧ st0.view.shadowCasters_ i = []) :
    ((List.range k).foldl (View.ProcessLight.splitStep camera octree isShadowed useOcclusion)
        st0).numLitGeometries =
      st0.numLitGeometries + ((List.range k).map (fun i =>
        (((List.range k).foldl
          (View.ProcessLight.splitStep camera octree isShadowed useOcclusion)
          st0).view.litGeometries_ i).length)).sum ∧
    ((List.range k).foldl (View.ProcessLight.splitStep camera octree isShadowed useOcclusion)
        st0).numShadowCasters =
      st0.numShadowCasters + ((List.range k).map (fun i =>
        (((List.range k).foldl
          (View.ProcessLight.splitStep camera octree isShadowed useOcclusion)
          st0).view.shadowCasters_ i).length)).sum := by
  induction k with
  | zero => exact ⟨rfl, rfl⟩
  | succ k ih =>
    obtain ⟨ih1, ih2⟩ := ih (fun i hi => hclear i (by omega))
    obtain ⟨_, g1⟩ := splitFold_frame_ge camera octree isShadowed useOcclusion st0 k
    obtain ⟨_, gl, gc⟩ := g1 k (le_refl _)
    rw [(hclear k (by omega)).1] at gl
    rw [(hclear k (by omega)).2] at gc
    obtain ⟨_, s2, _, _, _, _, _, s8, s9⟩ := splitStep_spec camera octree isShadowed useOcclusion
      ((List.range k).foldl (View.ProcessLight.splitStep camera octree isShadowed useOcclusion)
        st0) k
    have hl := s8 gl
    have hc := s9 gc
    rw [splitFold_succ, List.range_succ, List.map_append, List.sum_append]
    refine ⟨?_, ?_⟩
    · rw [hl, ih1]
      have hmap : (List.range k).map (fun i =>
          ((View.ProcessLight.splitStep camera octree isShadowed useOcclusion
            ((List.range k).foldl
              (View.ProcessLight.splitStep camera octree isShadowed useOcclusion) st0)
            k).view.litGeometries_ i).length) =
          (List.range k).map (fun i =>
            (((List.range k).foldl
              (View.ProcessLight.splitStep camera octree isShadowed useOcclusion)
              st0).view.litGeometries_ i).length) := by
        apply List.map_congr_left
        intro i hi
        have hne : i ≠ k := Nat.ne_of_lt (List.mem_range.mp hi)
        rw [(s2 i hne).2.1]
      rw [hmap]
      simp only [List.map_cons, List.map_nil, List.sum_cons, List.sum_nil]
      omega
    · rw [List.map_append, List.sum_append, hc, ih2]
      have hmap : (List.range k).map (fun i =>
          ((View.ProcessLight.splitStep camera octree isShadowed useOcclusion
            ((List.range k).foldl
              (View.ProcessLight.splitStep camera octree isShadowed useOcclusion) st0)
            k).view.shadowCasters_ i).length) =
          (List.range k).map (fun i =>
            (((List.range k).foldl
              (View.ProcessLight.splitStep camera octree isShadowed useOcclusion)
              st0).view.shadowCasters_ i).length) := by
        apply List.map_congr_left
        intro i hi
        have hne : i ≠ k := Nat.ne_of_lt (List.mem_range.mp hi)
        rw [(s2 i hne).2.2]
      rw [hmap]
      simp only [List.map_cons, List.map_nil, List.sum_cons, List.sum_nil]
      omega

theorem sum_lengths_eq_zero (k : Nat) (f : Nat → List Drawable) :
    ((List.range k).map (fun i => (f i).length)).sum = 0 ↔ ∀ i, i < k → f i = [] := by
  constructor
  · intro h i hi
    have hz : ∀ x ∈ (List.range k).map (fun i => (f i).length), x = 0 :=
      List.sum_eq_zero_iff.mp h
    exact List.length_eq_zero.mp
      (hz _ (List.mem_map.mpr ⟨i, List.mem_range.mpr hi, rfl⟩))
  · intro h
    apply List.sum_eq_zero
    intro x hx
    obtain ⟨i, hi, rfl⟩ := List.mem_map.mp hx
    rw [h i (List.mem_range.mp hi)]
    rfl

theorem setDefaultTextures_id (w : World) (light : Light) :
    (View.ProcessLight.setDefaultTextures w light).id = light.id := by
  unfold View.ProcessLight.setDefaultTextures
  dsimp only
  split_ifs <;> rfl

theorem shadowOcclusion_spec (camera : Camera) (octree : Octree) (v : View) (w : World)
    (light : Light) (isShadowed : Bool) :
    (View.ProcessLight.shadowOcclusion camera octree v w light isShadowed).1.id = light.id ∧
    (View.ProcessLight.shadowOcclusion camera octree v w light isShadowed).2.1.splitLights_ =
      v.splitLights_ := by
  unfold View.ProcessLight.shadowOcclusion
  split_ifs <;> exact ⟨rfl, rfl⟩

theorem setup_light_id (camera : Camera) (octree : Octree) (v : View) (w : World)
    (light : Light) :
    (View.ProcessLight.setup camera octree v w light).light.id = light.id := by
  unfold View.ProcessLight.setup
  dsimp only
  exact (shadowOcclusion_spec camera octree _ _ _ _).1.trans (setDefaultTextures_id w light)

theorem setup_unshadowed (camera : Camera) (octree : Octree) (v : View) (w : World)
    (light : Light) (h : (View.ProcessLight.setup camera octree v w light).isShadowed = false) :
    (View.ProcessLight.setup camera octree v w light).numSplits = 1 ∧
    ∃ l0, (View.ProcessLight.setup camera octree v w light).state.view.splitLights_ 0 =
      some l0 ∧ l0.id = light.id := by
  have h' : View.ProcessLight.isShadowed v light = false := h
  unfold View.ProcessLight.setup
  dsimp only
  rw [h']
  simp only [Bool.false_eq_true, if_false]
  refine ⟨trivial, View.ProcessLight.setDefaultTextures w light, ?_, setDefaultTextures_id w light⟩
  have hs := (shadowOcclusion_spec camera octree
    (v.setSplitLight 0 (View.ProcessLight.setDefaultTextures w light)) w
    (View.ProcessLight.setDefaultTextures w light) false).2
  have hs0 := congrFun hs 0
  rw [setSplitLight_get, if_pos rfl] at hs0
  exact hs0

theorem splitFold_none (camera : Camera) (octree : Octree) (isShadowed useOcclusion : Bool)
    (st0 : ProcessLightState) (k : Nat)
    (hclear : ∀ i, i < k → st0.view.shadowCasters_ i = []) :
    ∀ i, i < k →
      ((List.range k).foldl (View.ProcessLight.splitStep camera octree isShadowed useOcclusion)
        st0).view.splitLights_ i = none →
      ((List.range k).foldl (View.ProcessLight.splitStep camera octree isShadowed useOcclusion)
        st0).view.shadowCasters_ i = [] := by
  induction k with
  | zero =>
    intro i hi
    omega
  | succ k ih =>
    intro i hi h
    rw [splitFold_succ] at h ⊢
    obtain ⟨_, s2, s3, _⟩ := splitStep_spec camera octree isShadowed useOcclusion
      ((List.range k).foldl (View.ProcessLight.splitStep camera octree isShadowed useOcclusion)
        st0) k
    by_cases hik : i = k
    · subst hik
      have h0 := s3.mp h
      rw [splitStep_none camera octree isShadowed useOcclusion _ i h0]
      rw [((splitFold_frame_ge camera octree isShadowed useOcclusion st0 i).2 i (le_refl _)).2.2]
      exact hclear i hi
    · obtain ⟨a, _, c⟩ := s2 i hik
      rw [a] at h
      rw [c]
      exact ih (fun j hj => hclear j (by omega)) i (by omega) h

theorem splitLoop_counts (camera : Camera) (octree : Octree) (v : View) (w : World)
    (light : Light) :
    ((View.ProcessLight.splitLoop camera octree v w light
        (View.ProcessLight.setup camera octree v w light).numSplits).numLitGeometries = 0 ↔
      ∀ i, i < (View.ProcessLight.setup camera octree v w light).numSplits →
        (View.ProcessLight.splitLoop camera octree v w light
          (View.ProcessLight.setup camera octree v w light).numSplits).view.litGeometries_ i =
            []) ∧
    ((View.ProcessLight.splitLoop camera octree v w light
        (View.ProcessLight.setup camera octree v w light).numSplits).numShadowCasters = 0 ↔
      ∀ i, i < (View.ProcessLight.setup camera octree v w light).numSplits →
        (View.ProcessLight.splitLoop camera octree v w light
          (View.ProcessLight.setup camera octree v w light).numSplits).view.shadowCasters_ i =
            []) := by
  obtain ⟨h1, h2⟩ := splitFold_counts camera octree
    (View.ProcessLight.setup camera octree v w light).isShadowed
    (View.ProcessLight.setup camera octree v w light).useOcclusion
    (View.ProcessLight.setup camera octree v w light).state
    (View.ProcessLight.setup camera octree v w light).numSplits
    (fun i hi => setup_clear camera octree v w light i hi)
  have z1 : (View.ProcessLight.setup camera octree v w light).state.numLitGeometries = 0 := rfl
  have z2 : (View.ProcessLight.setup camera octree v w light).state.numShadowCasters = 0 := rfl
  rw [z1, Nat.zero_add] at h1
  rw [z2, Nat.zero_add] at h2
  unfold View.ProcessLight.splitLoop
  rw [h1, h2]
  exact ⟨sum_lengths_eq_zero _ _, sum_lengths_eq_zero _ _⟩

/-- C24: with the lists `litGeometries_` and `shadowCasters_` that the split loop of
`ProcessLight` has filled for the splits below `numSplits`: if every lit geometry list is
empty, `ProcessLight` returns 0. If some lit geometry list is not empty and every shadow
caster list is empty, it returns 1, `splitLights_[0]` is the original light with a null
shadow map, and if the light was split into more than one split `litGeometries_[0]` holds no
drawable twice, holds every drawable of every per-split list, and holds nothing else. -/
theorem C24_ProcessLight_return (camera : Camera) (octree : Octree) (v : View) (w : World)
    (light : Light) :
    ((∀ i, i < (View.ProcessLight.setup camera octree v w light).numSplits →
        (View.ProcessLight.splitLoop camera octree v w light
          (View.ProcessLight.setup camera octree v w light).numSplits).view.litGeometries_ i =
            []) →
      (View.ProcessLight camera octree v w light).1 = 0) ∧
    ((∃ i, i < (View.ProcessLight.setup camera octree v w light).numSplits ∧
        (View.ProcessLight.splitLoop camera octree v w light
          (View.ProcessLight.setup camera octree v w light).numSplits).view.litGeometries_ i ≠
            []) →
      (∀ i, i < (View.ProcessLight.setup camera octree v w light).numSplits →
        (View.ProcessLight.splitLoop camera octree v w light
          (View.ProcessLight.setup camera octree v w light).numSplits).view.shadowCasters_ i =
            []) →
      (View.ProcessLight camera octree v w light).1 = 1 ∧
      (∃ l, (View.ProcessLight camera octree v w light).2.1.splitLights_ 0 = some l ∧
        l.id = light.id ∧ l.shadowMap = none) ∧
      ((View.ProcessLight.setup camera octree v w light).numSplits > 1 →
        ((View.ProcessLight camera octree v w light).2.1.litGeometries_ 0).Pairwise
          (fun a b => a.id ≠ b.id) ∧
        (∀ i, i < (View.ProcessLight.setup camera octree v w light).numSplits →
          ∀ d ∈ (View.ProcessLight.splitLoop camera octree v w light
            (View.ProcessLight.setup camera octree v w light).numSplits).view.litGeometries_ i,
          ∃ d' ∈ (View.ProcessLight camera octree v w light).2.1.litGeometries_ 0,
            d'.id = d.id) ∧
        (∀ d ∈ (View.ProcessLight camera octree v w light).2.1.litGeometries_ 0,
          ∃ i, i < (View.ProcessLight.setup camera octree v w light).numSplits ∧
            d ∈ (View.ProcessLight.splitLoop camera octree v w light
              (View.ProcessLight.setup camera octree v w light).numSplits).view.litGeometries_
                i))) := by
  obtain ⟨hlit, hcast⟩ := splitLoop_counts camera octree v w light
  have hP : View.ProcessLight camera octree v w light =
      View.ProcessLight.finish (View.ProcessLight.setup camera octree v w light)
        (View.ProcessLight.splitLoop camera octree v w light
          (View.ProcessLight.setup camera octree v w light).numSplits) := rfl
  refine ⟨?_, ?_⟩
  · intro hall
    have hz := hlit.mpr hall
    rw [hP]
    unfold View.ProcessLight.finish
    dsimp only
    rw [if_pos hz]
  · intro hex hall
    obtain ⟨i0, hi0, hne0⟩ := hex
    have hnz : (View.ProcessLight.splitLoop camera octree v w light
        (View.ProcessLight.setup camera octree v w light).numSplits).numLitGeometries ≠ 0 :=
      fun hz => hne0 (hlit.mp hz i0 hi0)
    have hcz := hcast.mpr hall
    rw [hP]
    rcases finish_cases (View.ProcessLight.setup camera octree v w light)
      (View.ProcessLight.splitLoop camera octree v w light
        (View.ProcessLight.setup camera octree v w light).numSplits) with
      ⟨_, hz, _⟩ | ⟨hret, _, _, _, _, _, _, hl0, l, hl, hmap, hid⟩ | ⟨_, _, hc, _⟩
    · exact (hnz hz).elim
    · refine ⟨hret, ⟨l, hl, ?_, hmap⟩, ?_⟩
      · rw [hid]
        by_cases hsh : (View.ProcessLight.setup camera octree v w light).isShadowed = true
        · rw [if_pos hsh]
          exact setup_light_id camera octree v w light
        · rw [if_neg hsh]
          have hsh' : (View.ProcessLight.setup camera octree v w light).isShadowed = false := by
            simpa using hsh
          obtain ⟨hn, l0, hl0', hid0⟩ := setup_unshadowed camera octree v w light hsh'
          cases hs : (View.ProcessLight.splitLoop camera octree v w light
              (View.ProcessLight.setup camera octree v w light).numSplits).view.splitLights_ 0 with
          | none => exact setup_light_id camera octree v w light
          | some l1 =>
            dsimp only
            obtain ⟨s0, hs0, he⟩ := splitFold_id camera octree
              (View.ProcessLight.setup camera octree v w light).isShadowed
              (View.ProcessLight.setup camera octree v w light).useOcclusion
              (View.ProcessLight.setup camera octree v w light).state
              (View.ProcessLight.setup camera octree v w light).numSplits 0 l1 hs
            rw [hl0'] at hs0
            cases hs0
            exact he.trans hid0
      · intro hgt
        rw [hl0, if_pos hgt]
        obtain ⟨d1, d2⟩ := dedupDrawables_spec _
          ((List.range (View.ProcessLight.setup camera octree v w light).numSplits).flatMap
            (fun i => (View.ProcessLight.splitLoop camera octree v w light
              (View.ProcessLight.setup camera octree v w light).numSplits).view.litGeometries_
                i)) (le_refl _)
        refine ⟨d1, ?_, ?_⟩
        · intro i hi d hd
          exact d2 d (List.mem_flatMap.mpr ⟨i, List.mem_range.mpr hi, hd⟩)
        · intro d hd
          have hm := dedupDrawables_mem _ _ (le_refl _) d hd
          obtain ⟨i, hi, hdi⟩ := List.mem_flatMap.mp hm
          exact ⟨i, List.mem_range.mp hi, hdi⟩
    · exact (hc hcz).elim

theorem C24_ProcessLight_return_witness :
    (∃ i, i < (View.ProcessLight.setup Example.camera (Example.octree [] [Example.nearDrawable])
          Example.shadowView Example.litWorld Example.pointLight).numSplits ∧
        (View.ProcessLight.splitLoop Example.camera (Example.octree [] [Example.nearDrawable])
          Example.shadowView Example.litWorld Example.pointLight
          (View.ProcessLight.setup Example.camera (Example.octree [] [Example.nearDrawable])
            Example.shadowView Example.litWorld
            Example.pointLight).numSplits).view.litGeometries_ i ≠ []) ∧
    (∀ i, i < (View.ProcessLight.setup Example.camera (Example.octree [] [Example.nearDrawable])
          Example.shadowView Example.litWorld Example.pointLight).numSplits →
        (View.ProcessLight.splitLoop Example.camera (Example.octree [] [Example.nearDrawable])
          Example.shadowView Example.litWorld Example.pointLight
          (View.ProcessLight.setup Example.camera (Example.octree [] [Example.nearDrawable])
            Example.shadowView Example.litWorld
            Example.pointLight).numSplits).view.shadowCasters_ i = []) ∧
    (View.ProcessLight.setup Example.camera (Example.octree [] [Example.nearDrawable])
      Example.shadowView Example.litWorld Example.pointLight).numSplits > 1 ∧
    (View.ProcessLight Example.camera (Example.octree [] [Example.nearDrawable])
      Example.shadowView Example.litWorld Example.pointLight).1 = 1 ∧
    ((View.ProcessLight Example.camera (Example.octree [] [Example.nearDrawable])
      Example.shadowView Example.litWorld Example.pointLight).2.1.litGeometries_ 0).Pairwise
        (fun a b => a.id ≠ b.id) :=
  ⟨⟨0, by decide, by decide⟩, by decide, by decide,
    ((C24_ProcessLight_return Example.camera (Example.octree [] [Example.nearDrawable])
      Example.shadowView Example.litWorld Example.pointLight).2
        ⟨0, by decide, by decide⟩ (by decide)).1,
    (((C24_ProcessLight_return Example.camera (Example.octree [] [Example.nearDrawable])
      Example.shadowView Example.litWorld Example.pointLight).2
        ⟨0, by decide, by decide⟩ (by decide)).2.2 (by decide)).1⟩

/-- C27: a split whose shadow caster list is not empty has a shadow camera and a shadow map
that are not null, both right after the split loop of `ProcessLight` has processed split `i`,
where `FinalizeShadowCamera` reads the shadow map, and in the splits that `ProcessLight`
returns, where `GetBatches` reads the shadow camera. -/
theorem C27_ProcessLight_casters_have_shadow_map (camera : Camera) (octree : Octree) (v : View)
    (w : World) (light : Light) :
    (∀ i, i < (View.ProcessLight.setup camera octree v w light).numSplits →
      (View.ProcessLight.splitLoop camera octree v w light (i + 1)).view.shadowCasters_ i ≠ [] →
      ∃ s, (View.ProcessLight.splitLoop camera octree v w light (i + 1)).view.splitLights_ i =
          some s ∧ s.shadowMap ≠ none ∧ s.shadowCamera ≠ none) ∧
    (∀ i, i < (View.ProcessLight camera octree v w light).1 →
      (View.ProcessLight camera octree v w light).2.1.shadowCasters_ i ≠ [] →
      ∃ s, (View.ProcessLight camera octree v w light).2.1.splitLights_ i = some s ∧
        s.shadowMap ≠ none ∧ s.shadowCamera ≠ none) := by
  have hfold : ∀ k, k ≤ (View.ProcessLight.setup camera octree v w light).numSplits →
      ∀ i, i < k →
        (View.ProcessLight.splitLoop camera octree v w light k).view.shadowCasters_ i ≠ [] →
        ∃ s, (View.ProcessLight.splitLoop camera octree v w light k).view.splitLights_ i =
          some s ∧ s.shadowMap ≠ none ∧ s.shadowCamera ≠ none := by
    intro k hk i hi hc
    have hclear : ∀ j, j < k →
        (View.ProcessLight.setup camera octree v w light).state.view.litGeometries_ j = [] ∧
        (View.ProcessLight.setup camera octree v w light).state.view.shadowCasters_ j = [] :=
      fun j hj => setup_clear camera octree v w light j (by omega)
    cases hs : (View.ProcessLight.splitLoop camera octree v w light k).view.splitLights_ i with
    | none =>
      exact (hc (splitFold_none camera octree _ _ _ k (fun j hj => (hclear j hj).2) i hi
        hs)).elim
    | some s =>
      exact ⟨s, rfl, ((splitFold_inv camera octree _ _ _ k hclear i hi).1 s hs).2 hc⟩
  refine ⟨fun i hi hc => hfold (i + 1) (by omega) i (by omega) hc, ?_⟩
  intro i hi hc
  obtain ⟨_, hcast⟩ := splitLoop_counts camera octree v w light
  have hP : View.ProcessLight camera octree v w light =
      View.ProcessLight.finish (View.ProcessLight.setup camera octree v w light)
        (View.ProcessLight.splitLoop camera octree v w light
          (View.ProcessLight.setup camera octree v w light).numSplits) := rfl
  rw [hP] at hi hc ⊢
  rcases finish_cases (View.ProcessLight.setup camera octree v w light)
    (View.ProcessLight.splitLoop camera octree v w light
      (View.ProcessLight.setup camera octree v w light).numSplits) with
    ⟨hret, _, _⟩ | ⟨hret, hnz, hcz, hsc, _⟩ | ⟨hret, _, _, hview⟩
  · rw [hret] at hi
    omega
  · rw [hret] at hi
    have hi0 : i = 0 := by omega
    subst hi0
    rw [hsc] at hc
    have hpos : 0 < (View.ProcessLight.setup camera octree v w light).numSplits := by
      by_contra hn
      have hn0 : (View.ProcessLight.setup camera octree v w light).numSplits = 0 := by omega
      apply hnz
      exact (splitLoop_counts camera octree v w light).1.mpr (fun j hj => by omega)
    exact (hc (hcast.mp hcz 0 hpos)).elim
  · rw [hret] at hi
    rw [hview] at hc ⊢
    exact hfold _ (le_refl _) i hi hc

theorem C27_ProcessLight_casters_have_shadow_map_witness :
    0 < (View.ProcessLight Example.camera (Example.octree [] [Example.caster])
      Example.shadowView Example.shadowMapWorld Example.spotLight).1 ∧
    (View.ProcessLight Example.camera (Example.octree [] [Example.caster]) Example.shadowView
      Example.shadowMapWorld Example.spotLight).2.1.shadowCasters_ 0 ≠ [] ∧
    ∃ s, (View.ProcessLight Example.camera (Example.octree [] [Example.caster])
        Example.shadowView Example.shadowMapWorld Example.spotLight).2.1.splitLights_ 0 =
          some s ∧ s.shadowMap ≠ none ∧ s.shadowCamera ≠ none :=
  ⟨by decide, by decide,
    (C27_ProcessLight_casters_have_shadow_map Example.camera
      (Example.octree [] [Example.caster]) Example.shadowView Example.shadowMapWorld
      Example.spotLight).2 0 (by decide) (by decide)⟩

theorem queueHeaderAt_frame (v v' : View)
    (h : v'.withoutDrawableBatches = v.withoutDrawableBatches) (k : Nat) :
    Spec.queueHeaderAt v' k = Spec.queueHeaderAt v k := by
  have hq : v'.lightQueues_.map LightBatchQueue.withoutDrawableBatches =
      v.lightQueues_.map LightBatchQueue.withoutDrawableBatches := by
    have h' := congrArg View.lightQueues_ h
    exact h'
  have hk := congrArg (fun l : List LightBatchQueue =>
    (l[k]?).map (fun q => (q.firstSplit_, q.volumeBatches_))) hq
  simp only [List.getElem?_map, Option.map_map] at hk
  exact hk

theorem queueHeaderAt_eq (v v' : View) (h : v'.lightQueues_ = v.lightQueues_) (k : Nat) :
    Spec.queueHeaderAt v' k = Spec.queueHeaderAt v k := by
  unfold Spec.queueHeaderAt
  rw [h]

theorem resetLightQueue_header (splitLight : Light) (fs : Bool) (st : GetBatchesState)
    (hidx : st.lightQueueCount < st.view.lightQueues_.length) :
    Spec.queueHeaderAt (View.GetBatches.resetLightQueue splitLight fs st).view
      st.lightQueueCount = some (!fs, []) ∧
    (∀ k, k ≠ st.lightQueueCount →
      Spec.queueHeaderAt (View.GetBatches.resetLightQueue splitLight fs st).view k =
        Spec.queueHeaderAt st.view k) := by
  unfold View.GetBatches.resetLightQueue Spec.queueHeaderAt View.modifyLightQueue
  dsimp only
  constructor
  · rw [List.getElem?_modify, List.getElem?_eq_getElem hidx]
    simp
  · intro k hk
    rw [List.getElem?_modify]
    cases st.view.lightQueues_[k]? <;> simp [Ne.symm hk]

theorem queueHeaderAt_push (v : View) (i : Nat) (x : Batch) :
    Spec.queueHeaderAt
        (v.modifyLightQueue i (fun q => { q with volumeBatches_ := q.volumeBatches_ ++ [x] })) i =
      (Spec.queueHeaderAt v i).map (fun p => (p.1, p.2 ++ [x])) ∧
    (∀ k, k ≠ i →
      Spec.queueHeaderAt
          (v.modifyLightQueue i (fun q => { q with volumeBatches_ := q.volumeBatches_ ++ [x] }))
          k = Spec.queueHeaderAt v k) := by
  unfold Spec.queueHeaderAt View.modifyLightQueue
  dsimp only
  constructor
  · rw [List.getElem?_modify]
    cases v.lightQueues_[i]? <;> simp
  · intro k hk
    rw [List.getElem?_modify]
    cases v.lightQueues_[k]? <;> simp [Ne.symm hk]

theorem GetBatches_splitStep_header (g : Graphics) (camera : Camera) (light : Light)
    (st : GetBatchesState) (fs : Bool) (j : Nat) (splitLight : Light)
    (hsplit : st.view.splitLights_ j = some splitLight)
    (hidx : st.lightQueueCount < st.view.lightQueues_.length) :
    (∀ k, k ≠ st.lightQueueCount →
      Spec.queueHeaderAt (View.GetBatches.splitStep g camera light (st, fs) j).1.view k =
        Spec.queueHeaderAt st.view k) ∧
    (∃ vb, Spec.queueHeaderAt (View.GetBatches.splitStep g camera light (st, fs) j).1.view
        st.lightQueueCount = some (!fs, vb) ∧ vb.length ≤ 1) ∧
    (((View.GetBatches.splitStep g camera light (st, fs) j).1.lightQueueCount =
          st.lightQueueCount ∧
        (View.GetBatches.splitStep g camera light (st, fs) j).2 = fs) ∨
      ((View.GetBatches.splitStep g camera light (st, fs) j).1.lightQueueCount =
          st.lightQueueCount + 1 ∧
        (View.GetBatches.splitStep g camera light (st, fs) j).2 = true)) := by
  obtain ⟨st2, st3, f12, f23, he⟩ :=
    GetBatches_splitStep_eq g camera light st fs j splitLight hsplit
  obtain ⟨r1, r2⟩ := resetLightQueue_header splitLight fs st hidx
  have f13 := batchFrame_trans _ _ _ f12 f23
  obtain ⟨p2, _, _, c2, _⟩ := f12
  obtain ⟨p3, _, _, c3, _⟩ := f13
  have c2' : st2.lightQueueCount = st.lightQueueCount := c2
  have c3' : st3.lightQueueCount = st.lightQueueCount := c3
  have v2 : ∀ k, Spec.queueHeaderAt st2.view k =
      Spec.queueHeaderAt (View.GetBatches.resetLightQueue splitLight fs st).view k :=
    queueHeaderAt_frame _ _ p2
  have v3 : ∀ k, Spec.queueHeaderAt st3.view k =
      Spec.queueHeaderAt (View.GetBatches.resetLightQueue splitLight fs st).view k :=
    queueHeaderAt_frame _ _ p3
  rw [he]
  by_cases hl : (st.view.litGeometries_ j).length ≠ 0
  · rw [if_pos hl]
    unfold View.GetBatches.storeLightQueue
    split_ifs
    · dsimp only
      refine ⟨?_, ?_, Or.inr ⟨by rw [c3'], rfl⟩⟩
      · intro k hk
        rw [(queueHeaderAt_push _ _ _).2 k (by rw [c3']; exact hk), v3 k]
        exact r2 k hk
      · refine ⟨[View.GetBatches.volumeBatch camera st3.world splitLight], ?_, le_refl _⟩
        rw [c3', (queueHeaderAt_push _ _ _).1, v3, r1]
        rfl
    · dsimp only
      refine ⟨?_, ⟨[], ?_, Nat.zero_le _⟩, Or.inl ⟨c3', rfl⟩⟩
      · intro k hk
        exact ((queueHeaderAt_eq _ st3.view rfl k).trans (v3 k)).trans (r2 k hk)
      · exact ((queueHeaderAt_eq _ st3.view rfl _).trans (v3 _)).trans r1
    · dsimp only
      refine ⟨?_, ⟨[], ?_, Nat.zero_le _⟩, Or.inr ⟨by rw [c3'], rfl⟩⟩
      · intro k hk
        exact (v3 k).trans (r2 k hk)
      · exact (v3 _).trans r1
  · rw [if_neg hl]
    refine ⟨?_, ⟨[], ?_, Nat.zero_le _⟩, Or.inl ⟨c2', rfl⟩⟩
    · intro k hk
      exact (v2 k).trans (r2 k hk)
    · exact (v2 _).trans r1

theorem GetBatches_splitFold_header (g : Graphics) (camera : Camera) (light : Light)
    (s0 : GetBatchesState × Bool) (splits : Nat) (hfs : s0.2 = false)
    (hlen : s0.1.lightQueueCount + splits ≤ s0.1.view.lightQueues_.length) :
    ∀ j, j ≤ splits →
      s0.1.lightQueueCount ≤
        ((List.range j).foldl (View.GetBatches.splitStep g camera light) s0).1.lightQueueCount ∧
      (((List.range j).foldl (View.GetBatches.splitStep g camera light) s0).2 = true ↔
        s0.1.lightQueueCount <
          ((List.range j).foldl (View.GetBatches.splitStep g camera light)
            s0).1.lightQueueCount) ∧
      (∀ k, k < s0.1.lightQueueCount →
        Spec.queueHeaderAt
          ((List.range j).foldl (View.GetBatches.splitStep g camera light) s0).1.view k =
          Spec.queueHeaderAt s0.1.view k) ∧
      (∀ k, s0.1.lightQueueCount ≤ k →
        k < ((List.range j).foldl (View.GetBatches.splitStep g camera light)
          s0).1.lightQueueCount →
        ∃ vb, Spec.queueHeaderAt
            ((List.range j).foldl (View.GetBatches.splitStep g camera light) s0).1.view k =
            some (decide (k = s0.1.lightQueueCount), vb) ∧ vb.length ≤ 1) := by
  intro j
  induction j with
  | zero =>
    intro _
    refine ⟨le_refl _, ?_, fun k _ => rfl, ?_⟩
    · show s0.2 = true ↔ s0.1.lightQueueCount < s0.1.lightQueueCount
      rw [hfs]
      simp
    · intro k h1 h2
      have h2' : k < s0.1.lightQueueCount := h2
      omega
  | succ j ih =>
    intro hj
    obtain ⟨i1, i2, i3, i4⟩ := ih (by omega)
    obtain ⟨hlenj, hcntj⟩ := GetBatches_splitFold_count g camera light s0 j
    rw [List.range_succ, List.foldl_append]
    show _ ≤ (View.GetBatches.splitStep g camera light
        ((List.range j).foldl (View.GetBatches.splitStep g camera light) s0) j).1.lightQueueCount ∧
      ((View.GetBatches.splitStep g camera light
        ((List.range j).foldl (View.GetBatches.splitStep g camera light) s0) j).2 = true ↔
        _ < (View.GetBatches.splitStep g camera light
          ((List.range j).foldl (View.GetBatches.splitStep g camera light)
            s0) j).1.lightQueueCount) ∧
      (∀ k, k < s0.1.lightQueueCount →
        Spec.queueHeaderAt (View.GetBatches.splitStep g camera light
          ((List.range j).foldl (View.GetBatches.splitStep g camera light) s0) j).1.view k =
          Spec.queueHeaderAt s0.1.view k) ∧
      (∀ k, s0.1.lightQueueCount ≤ k →
        k < (View.GetBatches.splitStep g camera light
          ((List.range j).foldl (View.GetBatches.splitStep g camera light)
            s0) j).1.lightQueueCount →
        ∃ vb, Spec.queueHeaderAt (View.GetBatches.splitStep g camera light
            ((List.range j).foldl (View.GetBatches.splitStep g camera light) s0) j).1.view k =
            some (decide (k = s0.1.lightQueueCount), vb) ∧ vb.length ≤ 1)
    generalize (List.range j).foldl (View.GetBatches.splitStep g camera light) s0 = a at *
    cases hs : a.1.view.splitLights_ j with
    | none =>
      rw [GetBatches_splitStep_none g camera light a j hs]
      exact ⟨i1, i2, i3, i4⟩
    | some splitLight =>
      have hidx : a.1.lightQueueCount < a.1.view.lightQueues_.length := by
        rw [hlenj]
        omega
      have ha : a = (a.1, a.2) := rfl
      obtain ⟨h1, ⟨vb, h2, h2'⟩, h3⟩ :=
        GetBatches_splitStep_header g camera light a.1 a.2 j splitLight hs hidx
      rw [← ha] at h1 h2 h3
      rcases h3 with ⟨hc, hf⟩ | ⟨hc, hf⟩
      · rw [hc, hf]
        refine ⟨i1, i2, ?_, ?_⟩
        · intro k hk
          rw [h1 k (by omega)]
          exact i3 k hk
        · intro k hk1 hk2
          rw [h1 k (by omega)]
          exact i4 k hk1 hk2
      · rw [hc, hf]
        refine ⟨by omega, ?_, ?_, ?_⟩
        · constructor
          · intro _
            omega
          · intro _
            rfl
        · intro k hk
          rw [h1 k (by omega)]
          exact i3 k hk
        · intro k hk1 hk2
          by_cases hk : k = a.1.lightQueueCount
          · subst hk
            refine ⟨vb, ?_, h2'⟩
            rw [h2]
            congr 2
            cases hfa : a.2 with
            | true =>
              have := i2.mp hfa
              simp only [Bool.not_true]
              symm
              rw [decide_eq_false_iff_not]
              omega
            | false =>
              have hnot : ¬ s0.1.lightQueueCount < a.1.lightQueueCount := by
                intro hlt
                have := i2.mpr hlt
                rw [hfa] at this
                cases this
              simp only [Bool.not_false]
              symm
              rw [decide_eq_true_eq]
              omega
          · rw [h1 k hk]
            exact i4 k hk1 (by omega)

theorem resizeLightQueues_spec (l : List LightBatchQueue) (n : Nat) :
    (resizeLightQueues l n).length = n ∧
    ∀ k, k < n → k < l.length → (resizeLightQueues l n)[k]? = l[k]? := by
  unfold resizeLightQueues
  constructor
  · rw [List.length_append, List.length_take, List.length_replicate]
    omega
  · intro k hk hl
    rw [List.getElem?_append_left (by rw [List.length_take]; omega), List.getElem?_take]
    simp [hk]

theorem prepareLightQueues_header (st : GetBatchesState) (splits : Nat)
    (hG : st.lightQueueCount ≤ st.view.lightQueues_.length) :
    ∀ k, k < st.lightQueueCount →
      Spec.queueHeaderAt (View.GetBatches.prepareLightQueues st splits).view k =
        Spec.queueHeaderAt st.view k := by
  intro k hk
  unfold View.GetBatches.prepareLightQueues
  by_cases h : st.view.lightQueues_.length < st.lightQueueCount + splits
  · rw [if_pos h]
    unfold Spec.queueHeaderAt
    dsimp only
    rw [(resizeLightQueues_spec _ _).2 k (by omega) (by omega)]
  · rw [if_neg h]

theorem lightStep_header (g : Graphics) (camera : Camera) (octree : Octree)
    (st : GetBatchesState) (light : Light)
    (hG : st.lightQueueCount ≤ st.view.lightQueues_.length) :
    (View.GetBatches.lightStep g camera octree st light).lightQueueCount ≤
      (View.GetBatches.lightStep g camera octree st light).view.lightQueues_.length ∧
    st.lightQueueCount ≤ (View.GetBatches.lightStep g camera octree st light).lightQueueCount ∧
    (∀ k, k < st.lightQueueCount →
      Spec.queueHeaderAt (View.GetBatches.lightStep g camera octree st light).view k =
        Spec.queueHeaderAt st.view k) ∧
    (∀ k, st.lightQueueCount ≤ k →
      k < (View.GetBatches.lightStep g camera octree st light).lightQueueCount →
      ∃ vb, Spec.queueHeaderAt (View.GetBatches.lightStep g camera octree st light).view k =
        some (decide (k = st.lightQueueCount), vb) ∧ vb.length ≤ 1) := by
  have hq : (View.ProcessLight camera octree st.view st.world light).2.1.lightQueues_ =
      st.view.lightQueues_ := by
    have h := congrArg View.lightQueues_ (ProcessLight_frame camera octree st.view st.world light)
    exact h
  unfold View.GetBatches.lightStep
  dsimp only
  by_cases h0 : (View.ProcessLight camera octree st.view st.world light).1 = 0
  · rw [if_pos h0]
    dsimp only
    refine ⟨by rw [hq]; exact hG, le_refl _, fun k _ => queueHeaderAt_eq _ _ hq k, ?_⟩
    intro k h1 h2
    omega
  · rw [if_neg h0]
    have hG1 : ({ st with
        view := (View.ProcessLight camera octree st.view st.world light).2.1,
        world := (View.ProcessLight camera octree st.view st.world light).2.2 } :
          GetBatchesState).lightQueueCount ≤
        ({ st with
          view := (View.ProcessLight camera octree st.view st.world light).2.1,
          world := (View.ProcessLight camera octree st.view st.world light).2.2 } :
            GetBatchesState).view.lightQueues_.length := by
      show st.lightQueueCount ≤
        (View.ProcessLight camera octree st.view st.world light).2.1.lightQueues_.length
      rw [hq]
      exact hG
    obtain ⟨p1, p2⟩ := prepareLightQueues_length
      { st with
        view := (View.ProcessLight camera octree st.view st.world light).2.1,
        world := (View.ProcessLight camera octree st.view st.world light).2.2 }
      (View.ProcessLight camera octree st.view st.world light).1
    have p3 := prepareLightQueues_header
      { st with
        view := (View.ProcessLight camera octree st.view st.world light).2.1,
        world := (View.ProcessLight camera octree st.view st.world light).2.2 }
      (View.ProcessLight camera octree st.view st.world light).1 hG1
    obtain ⟨f1, f2⟩ := GetBatches_splitFold_count g camera light
      (View.GetBatches.prepareLightQueues
        { st with
          view := (View.ProcessLight camera octree st.view st.world light).2.1,
          world := (View.ProcessLight camera octree st.view st.world light).2.2 }
        (View.ProcessLight camera octree st.view st.world light).1, false)
      (View.ProcessLight camera octree st.view st.world light).1
    obtain ⟨i1, _, i3, i4⟩ := GetBatches_splitFold_header g camera light
      (View.GetBatches.prepareLightQueues
        { st with
          view := (View.ProcessLight camera octree st.view st.world light).2.1,
          world := (View.ProcessLight camera octree st.view st.world light).2.2 }
        (View.ProcessLight camera octree st.view st.world light).1, false)
      (View.ProcessLight camera octree st.view st.world light).1 rfl
      (by
        show (View.GetBatches.prepareLightQueues _ _).lightQueueCount + _ ≤
          (View.GetBatches.prepareLightQueues _ _).view.lightQueues_.length
        rw [p2]
        exact p1)
      (View.ProcessLight camera octree st.view st.world light).1 (le_refl _)
    generalize (List.range (View.ProcessLight camera octree st.view st.world light).1).foldl
      (View.GetBatches.splitStep g camera light)
      (View.GetBatches.prepareLightQueues
        { st with
          view := (View.ProcessLight camera octree st.view st.world light).2.1,
          world := (View.ProcessLight camera octree st.view st.world light).2.2 }
        (View.ProcessLight camera octree st.view st.world light).1, false) = a at *
    have p2' : (View.GetBatches.prepareLightQueues
        { st with
          view := (View.ProcessLight camera octree st.view st.world light).2.1,
          world := (View.ProcessLight camera octree st.view st.world light).2.2 }
        (View.ProcessLight camera octree st.view st.world light).1).lightQueueCount =
        st.lightQueueCount := p2
    have f1' : a.1.view.lightQueues_.length =
        (View.GetBatches.prepareLightQueues
          { st with
            view := (View.ProcessLight camera octree st.view st.world light).2.1,
            world := (View.ProcessLight camera octree st.view st.world light).2.2 }
          (View.ProcessLight camera octree st.view st.world light).1).view.lightQueues_.length :=
      f1
    have f2' : a.1.lightQueueCount ≤
        (View.GetBatches.prepareLightQueues
          { st with
            view := (View.ProcessLight camera octree st.view st.world light).2.1,
            world := (View.ProcessLight camera octree st.view st.world light).2.2 }
          (View.ProcessLight camera octree st.view st.world light).1).lightQueueCount +
          (View.ProcessLight camera octree st.view st.world light).1 := f2
    have p1' : st.lightQueueCount + (View.ProcessLight camera octree st.view st.world light).1 ≤
        (View.GetBatches.prepareLightQueues
          { st with
            view := (View.ProcessLight camera octree st.view st.world light).2.1,
            world := (View.ProcessLight camera octree st.view st.world light).2.2 }
          (View.ProcessLight camera octree st.view st.world light).1).view.lightQueues_.length :=
      p1
    have i1' : st.lightQueueCount ≤ a.1.lightQueueCount := by
      have := i1
      rw [p2'] at this
      exact this
    refine ⟨by omega, i1', ?_, ?_⟩
    · intro k hk
      have h3 := i3 k (by rw [p2']; exact hk)
      rw [h3]
      exact (p3 k hk).trans (queueHeaderAt_eq _ _ hq k)
    · intro k hk1 hk2
      have h4 := i4 k (by rw [p2']; exact hk1) hk2
      rw [p2'] at h4
      exact h4

theorem lightsState_succ (g : Graphics) (camera : Camera) (octree : Octree) (v : View)
    (w : World) (n : Nat) (hn : n < v.lights_.length) :
    Spec.lightsState g camera octree v w (n + 1) =
      View.GetBatches.lightStep g camera octree (Spec.lightsState g camera octree v w n)
        (v.lights_.get ⟨n, hn⟩) := by
  unfold Spec.lightsState
  rw [List.take_succ, List.foldl_append, List.getElem?_eq_getElem hn]
  rfl

theorem lightsState_inv (g : Graphics) (camera : Camera) (octree : Octree) (v : View)
    (w : World) :
    ∀ n, n ≤ v.lights_.length →
      (Spec.lightsState g camera octree v w n).lightQueueCount ≤
        (Spec.lightsState g camera octree v w n).view.lightQueues_.length := by
  intro n
  induction n with
  | zero =>
    intro _
    exact Nat.zero_le _
  | succ n ih =>
    intro hn
    rw [lightsState_succ g camera octree v w n (by omega)]
    exact (lightStep_header g camera octree _ _ (ih (by omega))).1

theorem lightsState_later (g : Graphics) (camera : Camera) (octree : Octree) (v : View)
    (w : World) (n : Nat) :
    ∀ m, n + m ≤ v.lights_.length →
      (Spec.lightsState g camera octree v w n).lightQueueCount ≤
        (Spec.lightsState g camera octree v w (n + m)).lightQueueCount ∧
      ∀ k, k < (Spec.lightsState g camera octree v w n).lightQueueCount →
        Spec.queueHeaderAt (Spec.lightsState g camera octree v w (n + m)).view k =
          Spec.queueHeaderAt (Spec.lightsState g camera octree v w n).view k := by
  intro m
  induction m with
  | zero =>
    intro _
    exact ⟨le_refl _, fun k _ => rfl⟩
  | succ m ih =>
    intro hm
    obtain ⟨ih1, ih2⟩ := ih (by omega)
    have hs := lightsState_succ g camera octree v w (n + m) (by omega)
    obtain ⟨_, h2, h3, _⟩ := lightStep_header g camera octree
      (Spec.lightsState g camera octree v w (n + m)) (v.lights_.get ⟨n + m, by omega⟩)
      (lightsState_inv g camera octree v w (n + m) (by omega))
    rw [← hs] at h2 h3
    refine ⟨le_trans ih1 h2, ?_⟩
    intro k hk
    show Spec.queueHeaderAt (Spec.lightsState g camera octree v w (n + m + 1)).view k = _
    rw [h3 k (by omega)]
    exact ih2 k hk

theorem GetBatches_headers (g : Graphics) (camera : Camera) (octree : Octree) (v : View)
    (w : World) :
    (View.GetBatches g camera octree v w).1.lightQueues_.length =
      (Spec.lightsState g camera octree v w v.lights_.length).lightQueueCount ∧
    ∀ k, k < (Spec.lightsState g camera octree v w v.lights_.length).lightQueueCount →
      Spec.queueHeaderAt (View.GetBatches g camera octree v w).1 k =
        Spec.queueHeaderAt (Spec.lightsState g camera octree v w v.lights_.length).view k := by
  have hinv := lightsState_inv g camera octree v w v.lights_.length (le_refl _)
  have hL : View.GetBatches.lights g camera octree v w =
      { Spec.lightsState g camera octree v w v.lights_.length with
        view := { (Spec.lightsState g camera octree v w v.lights_.length).view with
          lightQueues_ := resizeLightQueues
            (Spec.lightsState g camera octree v w v.lights_.length).view.lightQueues_
            (Spec.lightsState g camera octree v w v.lights_.length).lightQueueCount } } := by
    unfold View.GetBatches.lights Spec.lightsState
    rw [List.take_length]
  obtain ⟨r1, r2⟩ := resizeLightQueues_spec
    (Spec.lightsState g camera octree v w v.lights_.length).view.lightQueues_
    (Spec.lightsState g camera octree v w v.lights_.length).lightQueueCount
  have hlen0 : (View.GetBatches.lights g camera octree v w).view.lightQueues_.length =
      (Spec.lightsState g camera octree v w v.lights_.length).lightQueueCount := by
    rw [hL]
    exact r1
  have hhead0 : ∀ k,
      k < (Spec.lightsState g camera octree v w v.lights_.length).lightQueueCount →
      Spec.queueHeaderAt (View.GetBatches.lights g camera octree v w).view k =
        Spec.queueHeaderAt (Spec.lightsState g camera octree v w v.lights_.length).view k := by
    intro k hk
    rw [hL]
    unfold Spec.queueHeaderAt
    dsimp only
    rw [r2 k hk (by omega)]
  have f1 := maxLights_frame g camera (View.GetBatches.lights g camera octree v w)
  have f2 := base_frame g camera
    (View.GetBatches.maxLights g camera (View.GetBatches.lights g camera octree v w))
  have f12 := batchFrame_trans _ _ _ f1 f2
  have hsort : ∀ u : View, (View.SortBatches u).lightQueues_.length = u.lightQueues_.length ∧
      ∀ k, Spec.queueHeaderAt (View.SortBatches u) k = Spec.queueHeaderAt u k := by
    intro u
    have hlq : (View.SortBatches u).lightQueues_ = u.lightQueues_.map
        (fun q => { q with
          shadowBatches_ := q.shadowBatches_.SortFrontToBack,
          litBatches_ := q.litBatches_.SortFrontToBack }) := by
      unfold View.SortBatches
      split_ifs <;> rfl
    unfold Spec.queueHeaderAt
    rw [hlq]
    refine ⟨List.length_map _ _, ?_⟩
    intro k
    rw [List.getElem?_map, Option.map_map]
    rfl
  have hG : (View.GetBatches g camera octree v w).1 =
      View.SortBatches (View.GetBatches.base g camera
        (View.GetBatches.maxLights g camera
          (View.GetBatches.lights g camera octree v w))).view := rfl
  rw [hG]
  refine ⟨?_, ?_⟩
  · rw [(hsort _).1, (frame_fields _ _ f12.1).2.2.2.2.2.2.2.1]
    exact hlen0
  · intro k hk
    rw [(hsort _).2 k, queueHeaderAt_frame _ _ f12.1 k]
    exact hhead0 k hk

/-- C29: after `GetBatches`, the size of `lightQueues_` is the number of light queues that
were stored. The queues stored while the n-th light of `lights_` was processed are those
from the count of stored queues before that light up to the count after it; the first of
them has `firstSplit_` true, the later ones have it false, and each of them holds at most one
light volume batch. The counts start at 0 and never decrease, so every queue of the final
vector belongs to exactly one light. -/
theorem C29_GetBatches_light_queues (g : Graphics) (camera : Camera) (octree : Octree)
    (v : View) (w : World) :
    (View.GetBatches g camera octree v w).1.lightQueues_.length =
      (Spec.lightsState g camera octree v w v.lights_.length).lightQueueCount ∧
    (Spec.lightsState g camera octree v w 0).lightQueueCount = 0 ∧
    (∀ n, n < v.lights_.length →
      (Spec.lightsState g camera octree v w n).lightQueueCount ≤
        (Spec.lightsState g camera octree v w (n + 1)).lightQueueCount ∧
      (Spec.lightsState g camera octree v w (n + 1)).lightQueueCount ≤
        (Spec.lightsState g camera octree v w v.lights_.length).lightQueueCount) ∧
    (∀ n k, n < v.lights_.length →
      (Spec.lightsState g camera octree v w n).lightQueueCount ≤ k →
      k < (Spec.lightsState g camera octree v w (n + 1)).lightQueueCount →
      ∃ q, (View.GetBatches g camera octree v w).1.lightQueues_[k]? = some q ∧
        q.firstSplit_ = decide (k = (Spec.lightsState g camera octree v w n).lightQueueCount) ∧
        q.volumeBatches_.length ≤ 1) := by
  obtain ⟨hlen, hhead⟩ := GetBatches_headers g camera octree v w
  have hstep : ∀ n, n < v.lights_.length →
      (Spec.lightsState g camera octree v w n).lightQueueCount ≤
        (Spec.lightsState g camera octree v w (n + 1)).lightQueueCount ∧
      (Spec.lightsState g camera octree v w (n + 1)).lightQueueCount ≤
        (Spec.lightsState g camera octree v w v.lights_.length).lightQueueCount := by
    intro n hn
    have h1 := (lightsState_later g camera octree v w n 1 (by omega)).1
    have h2 := (lightsState_later g camera octree v w (n + 1) (v.lights_.length - (n + 1))
      (by omega)).1
    have he : n + 1 + (v.lights_.length - (n + 1)) = v.lights_.length := by omega
    rw [he] at h2
    exact ⟨h1, h2⟩
  refine ⟨hlen, rfl, hstep, ?_⟩
  intro n k hn hk1 hk2
  obtain ⟨_, _, _, h4⟩ := lightStep_header g camera octree
    (Spec.lightsState g camera octree v w n) (v.lights_.get ⟨n, hn⟩)
    (lightsState_inv g camera octree v w n (by omega))
  rw [← lightsState_succ g camera octree v w n hn] at h4
  obtain ⟨vb, hvb, hvl⟩ := h4 k hk1 hk2
  have hlater := (lightsState_later g camera octree v w (n + 1) (v.lights_.length - (n + 1))
    (by omega)).2 k hk2
  have he : n + 1 + (v.lights_.length - (n + 1)) = v.lights_.length := by omega
  rw [he] at hlater
  have hfin := (hhead k (lt_of_lt_of_le hk2 (hstep n hn).2)).trans (hlater.trans hvb)
  unfold Spec.queueHeaderAt at hfin
  cases hq : (View.GetBatches g camera octree v w).1.lightQueues_[k]? with
  | none =>
    rw [hq] at hfin
    cases hfin
  | some q =>
    rw [hq] at hfin
    simp only [Option.map_some', Option.some.injEq, Prod.mk.injEq] at hfin
    exact ⟨q, rfl, hfin.1, by rw [hfin.2]; exact hvl⟩

theorem C29_GetBatches_light_queues_witness :
    0 < Example.spotLitView.lights_.length ∧
    (Spec.lightsState Example.graphics Example.camera (Example.octree [] [Example.caster])
      Example.spotLitView Example.shadowMapWorld 0).lightQueueCount ≤ 0 ∧
    0 < (Spec.lightsState Example.graphics Example.camera (Example.octree [] [Example.caster])
      Example.spotLitView Example.shadowMapWorld (0 + 1)).lightQueueCount ∧
    ∃ q, (View.GetBatches Example.graphics Example.camera (Example.octree [] [Example.caster])
        Example.spotLitView Example.shadowMapWorld).1.lightQueues_[0]? = some q ∧
      q.firstSplit_ = decide (0 = (Spec.lightsState Example.graphics Example.camera
        (Example.octree [] [Example.caster]) Example.spotLitView
        Example.shadowMapWorld 0).lightQueueCount) ∧
      q.volumeBatches_.length ≤ 1 :=
  ⟨by decide, by decide, by decide,
    (C29_GetBatches_light_queues Example.graphics Example.camera
      (Example.octree [] [Example.caster]) Example.spotLitView Example.shadowMapWorld).2.2.2
      0 0 (by decide) (by decide) (by decide)⟩

theorem worldFrame_refl (w : World) : Spec.worldFrame w w := ⟨rfl, rfl, rfl⟩

theorem worldFrame_trans (a b c : World) (h1 : Spec.worldFrame a b) (h2 : Spec.worldFrame b c) :
    Spec.worldFrame a c :=
  ⟨h2.1.trans h1.1, h2.2.1.trans h1.2.1, h2.2.2.trans h1.2.2⟩

theorem SplitLight_loop_world (camera : Camera) (light : Light) (splits : Nat)
    (farClip nearClip : Rat) (createExtraSplit : Bool) :
    ∀ (n i : Nat) (v : View) (w : World), splits - i ≤ n →
      Spec.worldFrame w
        (View.SplitLight.loop camera light splits farClip nearClip createExtraSplit i v w).2.2 := by
  intro n
  induction n with
  | zero =>
    intro i v w h
    rw [View.SplitLight.loop, if_neg (by omega)]
    exact worldFrame_refl w
  | succ n ih =>
    intro i v w h
    rw [View.SplitLight.loop]
    by_cases hi : i < splits
    · rw [if_pos hi]
      dsimp only
      split_ifs
      · exact worldFrame_refl w
      · exact worldFrame_trans _ _ _ ⟨rfl, rfl, rfl⟩ (ih (i + 1) _ _ (by omega))
      · exact worldFrame_trans _ _ _ ⟨rfl, rfl, rfl⟩ (ih (i + 1) _ _ (by omega))
    · rw [if_neg hi]
      exact worldFrame_refl w

theorem pointLoop_world (light : Light) (faces : List (Nat × (Int × Int × Int))) :
    ∀ (v : View) (w : World),
      Spec.worldFrame w (View.SplitLight.pointLoop light faces v w).2 := by
  unfold View.SplitLight.pointLoop
  induction faces with
  | nil =>
    intro v w
    exact worldFrame_refl w
  | cons f rest ih =>
    intro v w
    rw [List.foldl_cons]
    exact worldFrame_trans _ _ _ ⟨rfl, rfl, rfl⟩ (ih _ _)

theorem SplitLight_world (camera : Camera) (v : View) (w : World) (light : Light) :
    Spec.worldFrame w (View.SplitLight camera v w light).2.2 := by
  unfold View.SplitLight
  dsimp only
  split_ifs
  all_goals
    first
    | exact SplitLight_loop_world camera light _ _ _ _ _ 0 v w (le_refl _)
    | exact pointLoop_world light _ v w
    | exact ⟨rfl, rfl, rfl⟩

theorem shadowOcclusion_world (camera : Camera) (octree : Octree) (v : View) (w : World)
    (light : Light) (isShadowed : Bool) :
    Spec.worldFrame w
      (View.ProcessLight.shadowOcclusion camera octree v w light isShadowed).2.2.1 := by
  unfold View.ProcessLight.shadowOcclusion
  split_ifs <;> exact ⟨rfl, rfl, rfl⟩

theorem setup_world (camera : Camera) (octree : Octree) (v : View) (w : World)
    (light : Light) :
    Spec.worldFrame w (View.ProcessLight.setup camera octree v w light).state.world := by
  unfold View.ProcessLight.setup
  dsimp only
  refine worldFrame_trans _ _ _ ?_ (shadowOcclusion_world camera octree _ _ _ _)
  by_cases hs : View.ProcessLight.isShadowed v light = true
  · rw [if_pos hs]
    exact SplitLight_world camera v w _
  · rw [if_neg hs]
    exact worldFrame_refl w

theorem MarkInShadowView_world (w : World) (frame : FrameInfo) (d : Drawable) :
    Spec.worldFrame w (w.MarkInShadowView frame d) := by
  unfold World.MarkInShadowView
  split_ifs <;> exact ⟨rfl, rfl, rfl⟩

theorem ProcessLightQuery_step_world (frame : FrameInfo) (light : Light)
    (mergeBoxes getLit getCasters : Bool) (st : LightQueryState) (d : Drawable) :
    Spec.worldFrame st.world
      (View.ProcessLightQuery.step frame light mergeBoxes getLit getCasters st d).world := by
  have hlit : ∀ (b : Bool) (s : LightQueryState),
      (View.ProcessLightQuery.addLit mergeBoxes getLit b s d).world = s.world := by
    intro b s
    unfold View.ProcessLightQuery.addLit
    split_ifs <;> rfl
  have hcast : ∀ (b : Bool) (s : LightQueryState),
      Spec.worldFrame s.world
        (View.ProcessLightQuery.addCaster frame light mergeBoxes getCasters b s d).world := by
    intro b s
    unfold View.ProcessLightQuery.addCaster
    split_ifs
    all_goals (try exact worldFrame_refl _)
    all_goals
      (cases light.shadowCamera <;> (try dsimp only) <;> (try split_ifs) <;>
        first
        | exact worldFrame_refl _
        | exact MarkInShadowView_world _ _ _)
  unfold View.ProcessLightQuery.step
  split_ifs
  · exact worldFrame_refl _
  · exact worldFrame_refl _
  · dsimp only
    have h := hcast (st.world.IsInView frame d)
      (View.ProcessLightQuery.addLit mergeBoxes getLit (st.world.IsInView frame d) st d)
    rw [hlit] at h
    exact h

theorem ProcessLightQuery_world (camera : Camera) (v : View) (w : World) (i : Nat)
    (result : List Drawable) (gb sb getLit getCasters : Bool) :
    Spec.worldFrame w
      (View.ProcessLightQuery camera v w i result gb sb getLit getCasters).2.1 := by
  unfold View.ProcessLightQuery
  cases v.splitLights_ i with
  | none => exact worldFrame_refl w
  | some light =>
    dsimp only
    exact foldl_rel (fun a b : LightQueryState => Spec.worldFrame a.world b.world)
      (fun s => worldFrame_refl _) (fun a b c h1 h2 => worldFrame_trans _ _ _ h1 h2) _
      (fun s d => ProcessLightQuery_step_world _ _ _ _ _ s d) result _

theorem chooseShadowMap_renderer (camera : Camera) (r : Renderer) (isShadowed : Bool)
    (split : Light) :
    (View.ProcessLight.chooseShadowMap camera r isShadowed split).2.2.limitLights =
      r.limitLights := by
  unfold View.ProcessLight.chooseShadowMap
  dsimp only
  split_ifs <;> rfl

theorem splitStep_world (camera : Camera) (octree : Octree) (isShadowed useOcclusion : Bool)
    (st : ProcessLightState) (i : Nat) :
    Spec.worldFrame st.world
      (View.ProcessLight.splitStep camera octree isShadowed useOcclusion st i).world := by
  have hch : ∀ split0 : Light, Spec.worldFrame st.world
      { st.world with
        renderer :=
          (View.ProcessLight.chooseShadowMap camera st.world.renderer isShadowed split0).2.2 } :=
    fun split0 => ⟨rfl, rfl, chooseShadowMap_renderer camera _ isShadowed split0⟩
  unfold View.ProcessLight.splitStep
  cases h0 : st.view.splitLights_ i with
  | none => exact worldFrame_refl _
  | some split0 =>
    dsimp only
    cases split0.lightType with
    | LIGHT_DIRECTIONAL =>
      dsimp only
      split_ifs
      · exact hch split0
      · rw [(finishSplit_spec camera _ _ i _ _ st).2.2.2.1]
        exact worldFrame_trans _ _ _ (hch split0) (ProcessLightQuery_world camera _ _ i _ _ _ _ _)
      · rw [(finishSplit_spec camera _ _ i _ _ st).2.2.2.1]
        exact hch split0
    | LIGHT_POINT =>
      dsimp only
      rw [(finishSplit_spec camera _ _ i _ _ st).2.2.2.1]
      exact worldFrame_trans _ _ _ (hch split0) (ProcessLightQuery_world camera _ _ i _ _ _ _ _)
    | LIGHT_SPOT =>
      dsimp only
      rw [(finishSplit_spec camera _ _ i _ _ st).2.2.2.1]
      exact worldFrame_trans _ _ _ (hch split0) (ProcessLightQuery_world camera _ _ i _ _ _ _ _)
    | LIGHT_SPLITPOINT =>
      dsimp only
      rw [(finishSplit_spec camera _ _ i _ _ st).2.2.2.1]
      exact worldFrame_trans _ _ _ (hch split0) (ProcessLightQuery_world camera _ _ i _ _ _ _ _)

theorem ProcessLight_world (camera : Camera) (octree : Octree) (v : View) (w : World)
    (light : Light) :
    Spec.worldFrame w (View.ProcessLight camera octree v w light).2.2 := by
  have hloop : Spec.worldFrame w (View.ProcessLight.splitLoop camera octree v w light
      (View.ProcessLight.setup camera octree v w light).numSplits).world := by
    refine worldFrame_trans _ _ _ (setup_world camera octree v w light) ?_
    unfold View.ProcessLight.splitLoop
    exact foldl_rel (fun a b : ProcessLightState => Spec.worldFrame a.world b.world)
      (fun s => worldFrame_refl _) (fun a b c h1 h2 => worldFrame_trans _ _ _ h1 h2) _
      (fun s i => splitStep_world camera octree _ _ s i) _ _
  have hfin : ∀ (s : ProcessLightSetup) (st : ProcessLightState),
      (View.ProcessLight.finish s st).2.2 = st.world := by
    intro s st
    unfold View.ProcessLight.finish
    dsimp only
    split_ifs <;> rfl
  unfold View.ProcessLight
  rw [hfin]
  exact hloop

theorem mem_keptLitBatches (v : View) (n : Nat) (b : Batch) :
    b ∈ Spec.keptLitBatches v n ↔
      b ∈ v.baseQueue_.batches ∨ b ∈ v.transparentQueue_.batches ∨
        ∃ k q, k < n ∧ v.lightQueues_[k]? = some q ∧ b ∈ q.litBatches_.batches := by
  unfold Spec.keptLitBatches
  simp only [List.mem_append, List.mem_flatMap, or_assoc]
  constructor
  · rintro (h | h | ⟨q, hq, hb⟩)
    · exact Or.inl h
    · exact Or.inr (Or.inl h)
    · obtain ⟨k, hk⟩ := List.mem_iff_getElem?.mp hq
      rw [List.getElem?_take] at hk
      by_cases hkn : k < n
      · rw [if_pos hkn] at hk
        exact Or.inr (Or.inr ⟨k, q, hkn, hk, hb⟩)
      · rw [if_neg hkn] at hk
        cases hk
  · rintro (h | h | ⟨k, q, hkn, hk, hb⟩)
    · exact Or.inl h
    · exact Or.inr (Or.inl h)
    · refine Or.inr (Or.inr ⟨q, List.mem_iff_getElem?.mpr ⟨k, ?_⟩, hb⟩)
      rw [List.getElem?_take, if_pos hkn]
      exact hk

theorem litBaseStep_refl (fresh : Nat → Prop) (n : Nat) (cur : Option Nat)
    (st : GetBatchesState) : Spec.litBaseStep fresh n cur st st :=
  ⟨fun _ h => h, fun _ _ _ h => Or.inl h, fun _ _ h => Or.inl h⟩

theorem litBaseStep_trans (fresh : Nat → Prop) (n : Nat) (cur : Option Nat)
    (a b c : GetBatchesState) (h1 : Spec.litBaseStep fresh n cur a b)
    (h2 : Spec.litBaseStep fresh n cur b c) : Spec.litBaseStep fresh n cur a c := by
  obtain ⟨a1, a2, a3⟩ := h1
  obtain ⟨b1, b2, b3⟩ := h2
  refine ⟨fun x hx => b1 x (a1 x hx), ?_, ?_⟩
  · intro id i hf hc
    rcases b2 id i hf hc with h | h
    · rcases a2 id i hf h with h' | ⟨d, x, hd, hx, hl⟩
      · exact Or.inl h'
      · exact Or.inr ⟨d, x, hd, b1 x hx, hl⟩
    · exact Or.inr h
  · intro id l hl
    rcases b3 id l hl with h | h
    · exact a3 id l h
    · exact Or.inr h

theorem kept_of_queues (v v' : View) (n : Nat)
    (hb : ∀ b ∈ v.baseQueue_.batches, b ∈ v'.baseQueue_.batches)
    (ht : ∀ b ∈ v.transparentQueue_.batches, b ∈ v'.transparentQueue_.batches)
    (hq : ∀ k q, k < n → v.lightQueues_[k]? = some q →
      ∃ q', v'.lightQueues_[k]? = some q' ∧
        ∀ b ∈ q.litBatches_.batches, b ∈ q'.litBatches_.batches) :
    ∀ b ∈ Spec.keptLitBatches v n, b ∈ Spec.keptLitBatches v' n := by
  intro b h
  rw [mem_keptLitBatches] at h ⊢
  rcases h with h | h | ⟨k, q, hk, hq1, hb1⟩
  · exact Or.inl (hb b h)
  · exact Or.inr (Or.inl (ht b h))
  · obtain ⟨q', hq', hsub⟩ := hq k q hk hq1
    exact Or.inr (Or.inr ⟨k, q', hk, hq', hsub b hb1⟩)

theorem kept_modify (v : View) (n idx : Nat) (f : LightBatchQueue → LightBatchQueue)
    (hf : ∀ q, ∀ b ∈ q.litBatches_.batches, b ∈ (f q).litBatches_.batches) :
    ∀ b ∈ Spec.keptLitBatches v n, b ∈ Spec.keptLitBatches (v.modifyLightQueue idx f) n := by
  apply kept_of_queues
  · exact fun b h => h
  · exact fun b h => h
  · intro k q hk hq
    unfold View.modifyLightQueue
    dsimp only
    rw [List.getElem?_modify, hq]
    by_cases hik : idx = k
    · exact ⟨f q, by simp [hik], hf q⟩
    · exact ⟨q, by simp [hik], fun b h => h⟩

theorem kept_modify_ge (v : View) (n idx : Nat) (f : LightBatchQueue → LightBatchQueue)
    (hge : n ≤ idx) :
    ∀ b ∈ Spec.keptLitBatches v n, b ∈ Spec.keptLitBatches (v.modifyLightQueue idx f) n := by
  apply kept_of_queues
  · exact fun b h => h
  · exact fun b h => h
  · intro k q hk hq
    unfold View.modifyLightQueue
    dsimp only
    rw [List.getElem?_modify, hq]
    have hik : ¬ idx = k := by omega
    exact ⟨q, by simp [hik], fun b h => h⟩

theorem kept_modify_new (v : View) (n idx : Nat) (x : Batch) (nb : Bool) (hn : idx < n)
    (hlen : idx < v.lightQueues_.length) :
    x ∈ Spec.keptLitBatches
      (v.modifyLightQueue idx
        (fun q => { q with litBatches_ := q.litBatches_.AddBatch x nb })) n := by
  rw [mem_keptLitBatches]
  refine Or.inr (Or.inr ⟨idx,
    { v.lightQueues_.get ⟨idx, hlen⟩ with
      litBatches_ := (v.lightQueues_.get ⟨idx, hlen⟩).litBatches_.AddBatch x nb }, hn, ?_, ?_⟩)
  · unfold View.modifyLightQueue
    dsimp only
    rw [List.getElem?_modify, List.getElem?_eq_getElem hlen]
    simp
  · exact (mem_AddBatch _ _ _ _).mpr (Or.inr rfl)

theorem kept_le (v : View) (n m : Nat) (h : n ≤ m) :
    ∀ b ∈ Spec.keptLitBatches v n, b ∈ Spec.keptLitBatches v m := by
  intro b hb
  rw [mem_keptLitBatches] at hb ⊢
  rcases hb with hb | hb | ⟨k, q, hk, hq, hb⟩
  · exact Or.inl hb
  · exact Or.inr (Or.inl hb)
  · exact Or.inr (Or.inr ⟨k, q, by omega, hq, hb⟩)

theorem addBatch_kept (drawable : Drawable) (light : Nat) (splitLight : Light)
    (lightQueue : Option Nat) (st : GetBatchesState) (w : World) (i : Nat) (litBatch : Batch)
    (tech : Technique) (pass : Pass) (n : Nat) :
    (∀ b ∈ Spec.keptLitBatches st.view n,
      b ∈ Spec.keptLitBatches (View.GetLitBatches.addBatch drawable light splitLight lightQueue
        st w i litBatch tech pass).view n) ∧
    ((st.view.mode_ = RenderMode.RENDER_FORWARD →
        ∃ idx, lightQueue = some idx ∧ idx < n ∧ idx < st.view.lightQueues_.length) →
      ∃ b ∈ Spec.keptLitBatches (View.GetLitBatches.addBatch drawable light splitLight
          lightQueue st w i litBatch tech pass).view n,
        b.geometry_ = litBatch.geometry_ ∧ b.worldTransform_ = litBatch.worldTransform_ ∧
        b.hasPriority_ = litBatch.hasPriority_ ∧ b.technique_ = some tech ∧
        b.pass_ = some pass) := by
  unfold View.GetLitBatches.addBatch
  dsimp only
  split_ifs with hrep hfw
  · cases lightQueue with
    | some index =>
      dsimp only
      refine ⟨kept_modify _ _ _ _
        (fun q b hb => (mem_AddBatch _ _ _ _).mpr (Or.inl hb)), ?_⟩
      intro hq
      obtain ⟨idx, he, h1, h2⟩ := hq hfw
      cases he
      exact ⟨_, kept_modify_new _ _ _ _ _ h1 h2, rfl, rfl, rfl, rfl, rfl⟩
    | none =>
      refine ⟨fun b hb => hb, ?_⟩
      intro hq
      obtain ⟨idx, he, _⟩ := hq hfw
      cases he
  · refine ⟨kept_of_queues _ _ _ (fun b hb => (mem_AddBatch _ _ _ _).mpr (Or.inl hb))
      (fun b hb => hb) (fun k q _ hq => ⟨q, hq, fun b hb => hb⟩), ?_⟩
    intro _
    refine ⟨_, (mem_keptLitBatches _ _ _).mpr (Or.inl ((mem_AddBatch _ _ _ _).mpr (Or.inr rfl))),
      rfl, rfl, rfl, rfl, rfl⟩
  · refine ⟨kept_of_queues _ _ _ (fun b hb => hb)
      (fun b hb => (mem_AddBatch _ _ _ _).mpr (Or.inl hb))
      (fun k q _ hq => ⟨q, hq, fun b hb => hb⟩), ?_⟩
    intro _
    refine ⟨_, (mem_keptLitBatches _ _ _).mpr
      (Or.inr (Or.inl ((mem_AddBatch _ _ _ _).mpr (Or.inr rfl)))), rfl, rfl, rfl, rfl, rfl⟩
  · refine ⟨kept_of_queues _ _ _ (fun b hb => hb)
      (fun b hb => (mem_AddBatch _ _ _ _).mpr (Or.inl hb))
      (fun k q _ hq => ⟨q, hq, fun b hb => hb⟩), ?_⟩
    intro _
    refine ⟨_, (mem_keptLitBatches _ _ _).mpr
      (Or.inr (Or.inl ((mem_AddBatch _ _ _ _).mpr (Or.inr rfl)))), rfl, rfl, rfl, rfl, rfl⟩

theorem litBasePass_some (v : View) (w : World) (drawable : Drawable) (light : Nat)
    (splitLight : Light) (tech : Technique) (i : Nat) (p : Pass)
    (h : View.GetLitBatches.litBasePass v w drawable light splitLight tech i = some p) :
    (∃ first rest, v.lights_ = first :: rest ∧ light = first.id) ∧
    splitLight.lightType = LightType.LIGHT_DIRECTIONAL ∧
    w.HasBasePass drawable i = false ∧
    tech.GetPass PassType.PASS_LITBASE = some p := by
  unfold View.GetLitBatches.litBasePass at h
  dsimp only at h
  split_ifs at h with hc
  simp only [Bool.and_eq_true, decide_eq_true_eq, Bool.not_eq_true'] at hc
  obtain ⟨⟨hfirst, hdir⟩, hbase⟩ := hc
  refine ⟨?_, hdir, hbase, h⟩
  cases hl : v.lights_ with
  | nil =>
    rw [hl] at hfirst
    cases hfirst
  | cons first rest =>
    rw [hl] at hfirst
    exact ⟨first, rest, rfl, by simpa using hfirst⟩

theorem GetLitBatches_step_litBase (fresh : Nat → Prop) (n : Nat) (cur : Option Nat)
    (g : Graphics) (camera : Camera) (drawable : Drawable) (light : Nat) (splitLight : Light)
    (lightQueue : Option Nat) (st : GetBatchesState) (i : Nat)
    (hq : fresh drawable.id → st.view.mode_ = RenderMode.RENDER_FORWARD →
      ∃ idx, lightQueue = some idx ∧ idx < n ∧ idx < st.view.lightQueues_.length) :
    Spec.litBaseStep fresh n cur st
      (View.GetLitBatches.step g camera drawable light splitLight lightQueue st i) := by
  unfold View.GetLitBatches.step
  dsimp only
  cases hgeo : (drawable.GetBatch i).geometry_ with
  | none =>
    cases (View.GetTechnique g st.world.renderer st.view drawable
        (drawable.GetBatch i).material_).1 <;>
      exact litBaseStep_refl _ _ _ _
  | some geo =>
    cases htech : (View.GetTechnique g st.world.renderer st.view drawable
        (drawable.GetBatch i).material_).1 with
    | none => exact litBaseStep_refl _ _ _ _
    | some tech =>
      dsimp only
      by_cases hskip : st.view.mode_ ≠ RenderMode.RENDER_FORWARD ∧
          tech.HasPass PassType.PASS_GBUFFER = true
      · rw [if_pos hskip]
        exact litBaseStep_refl _ _ _ _
      · rw [if_neg hskip]
        generalize hlb : View.GetLitBatches.litBasePass st.view st.world drawable light
          splitLight tech i = litBase
        cases hp : (match litBase with
            | some p => some p
            | none => tech.GetPass PassType.PASS_LIGHT) with
        | none =>
          cases litBase with
          | some p => cases hp
          | none => exact litBaseStep_refl _ _ _ _
        | some pass =>
          dsimp only
          obtain ⟨_, a2, _, _, _, _⟩ := addBatch_spec drawable light splitLight lightQueue
            st (if litBase.isSome = true then st.world.SetBasePass drawable i else st.world) i
            { geometry_ := some geo,
              material_ := (View.GetTechnique g st.world.renderer st.view drawable
                (drawable.GetBatch i).material_).2,
              worldTransform_ := (drawable.GetBatch i).worldTransform_,
              camera_ := some camera.id, light_ := some splitLight.id,
              distance_ := drawable.distance, hasPriority_ := litBase.isSome,
              overrideView_ := (drawable.GetBatch i).overrideView_,
              pass_ := (drawable.GetBatch i).pass_,
              technique_ := (drawable.GetBatch i).technique_,
              allowShadows_ := (drawable.GetBatch i).allowShadows_,
              instancible_ := (drawable.GetBatch i).instancible_ }
            tech pass (fun _ => True) (fun _ _ _ => trivial)
          obtain ⟨k1, k2⟩ := addBatch_kept drawable light splitLight lightQueue
            st (if litBase.isSome = true then st.world.SetBasePass drawable i else st.world) i
            { geometry_ := some geo,
              material_ := (View.GetTechnique g st.world.renderer st.view drawable
                (drawable.GetBatch i).material_).2,
              worldTransform_ := (drawable.GetBatch i).worldTransform_,
              camera_ := some camera.id, light_ := some splitLight.id,
              distance_ := drawable.distance, hasPriority_ := litBase.isSome,
              overrideView_ := (drawable.GetBatch i).overrideView_,
              pass_ := (drawable.GetBatch i).pass_,
              technique_ := (drawable.GetBatch i).technique_,
              allowShadows_ := (drawable.GetBatch i).allowShadows_,
              instancible_ := (drawable.GetBatch i).instancible_ }
            tech pass n
          refine ⟨k1, ?_, ?_⟩
          · intro id i' hf hflag
            rw [a2] at hflag
            cases litBase with
            | none => exact Or.inl hflag
            | some p =>
              cases hp
              by_cases hid : id = drawable.id
              · subst hid
                by_cases hi : i' = i
                · subst hi
                  right
                  obtain ⟨b, hb, g1, g2, g3, g4, g5⟩ := k2 (hq hf)
                  refine ⟨drawable, b, rfl, hb, ?_, g2, g3, tech, _, g4, ?_, g5⟩
                  · rw [g1, hgeo]
                  · exact (litBasePass_some _ _ _ _ _ _ _ _ hlb).2.2.2
                · left
                  simpa [World.SetBasePass, Function.update, hi] using hflag
              · left
                simpa [World.SetBasePass, Function.update, hid] using hflag
          · intro id l hl
            rw [a2] at hl
            left
            cases litBase with
            | none => exact hl
            | some p => exact hl

theorem litBaseStep_view (fresh : Nat → Prop) (n : Nat) (cur : Option Nat)
    (st st' : GetBatchesState) (hw : st'.world = st.world)
    (hk : ∀ b ∈ Spec.keptLitBatches st.view n, b ∈ Spec.keptLitBatches st'.view n) :
    Spec.litBaseStep fresh n cur st st' :=
  ⟨hk, fun id i _ h => Or.inl (by rw [hw] at h; exact h),
    fun id l h => Or.inl (by rw [hw] at h; exact h)⟩

theorem GetLitBatches_litBase (fresh : Nat → Prop) (n : Nat) (cur : Option Nat)
    (g : Graphics) (camera : Camera) (drawable : Drawable) (light : Nat) (splitLight : Light)
    (lightQueue : Option Nat) (st : GetBatchesState)
    (hq : fresh drawable.id → st.view.mode_ = RenderMode.RENDER_FORWARD →
      ∃ idx, lightQueue = some idx ∧ idx < n ∧ idx < st.view.lightQueues_.length) :
    Spec.litBaseStep fresh n cur st
      (View.GetLitBatches g camera drawable light splitLight lightQueue st) := by
  unfold View.GetLitBatches
  generalize List.range drawable.GetNumBatches = l
  induction l generalizing st with
  | nil => exact litBaseStep_refl _ _ _ _
  | cons i rest ih =>
    rw [List.foldl_cons]
    refine litBaseStep_trans _ _ _ _ _ _
      (GetLitBatches_step_litBase fresh n cur g camera drawable light splitLight lightQueue st i
        hq) (ih _ ?_)
    have hf := frame_fields _ _
      (GetLitBatches_step_frame g camera drawable light splitLight lightQueue st i).1
    rw [hf.1, hf.2.2.2.2.2.2.2.1]
    exact hq

theorem shadowBatchStep_litBase (fresh : Nat → Prop) (n : Nat) (cur : Option Nat)
    (g : Graphics) (splitLight : Light) (queueIndex : Nat) (drawable : Drawable)
    (st : GetBatchesState) (l : Nat) :
    Spec.litBaseStep fresh n cur st
      (View.GetBatches.shadowBatchStep g splitLight queueIndex drawable st l) := by
  unfold View.GetBatches.shadowBatchStep
  dsimp only
  cases (drawable.GetBatch l).geometry_ with
  | none =>
    cases (View.GetTechnique g st.world.renderer st.view drawable
        (drawable.GetBatch l).material_).1 <;>
      exact litBaseStep_refl _ _ _ _
  | some geo =>
    cases (View.GetTechnique g st.world.renderer st.view drawable
        (drawable.GetBatch l).material_).1 with
    | none => exact litBaseStep_refl _ _ _ _
    | some tech =>
      dsimp only
      cases tech.GetPass PassType.PASS_SHADOW with
      | none => exact litBaseStep_refl _ _ _ _
      | some pass =>
        exact litBaseStep_view _ _ _ _ _ rfl (kept_modify _ _ _ _ (fun q b hb => hb))

theorem shadowBatches_litBase (fresh : Nat → Prop) (n : Nat) (cur : Option Nat)
    (g : Graphics) (splitLight : Light) (casters : List Drawable) (st : GetBatchesState) :
    Spec.litBaseStep fresh n cur st (View.GetBatches.shadowBatches g splitLight casters st) := by
  unfold View.GetBatches.shadowBatches
  exact foldl_rel (Spec.litBaseStep fresh n cur) (litBaseStep_refl _ _ _)
    (litBaseStep_trans _ _ _) _
    (fun s d => foldl_rel (Spec.litBaseStep fresh n cur) (litBaseStep_refl _ _ _)
      (litBaseStep_trans _ _ _) _
      (fun s' l => shadowBatchStep_litBase fresh n cur g splitLight _ d s' l) _ _) _ _

theorem litGeometryStep_litBase (fresh : Nat → Prop) (n : Nat) (g : Graphics)
    (camera : Camera) (light : Light) (splitLight : Light) (st : GetBatchesState)
    (drawable : Drawable)
    (hq : st.view.mode_ = RenderMode.RENDER_FORWARD →
      st.lightQueueCount < n ∧ st.lightQueueCount < st.view.lightQueues_.length) :
    Spec.litBaseStep fresh n (some splitLight.id) st
      (View.GetBatches.litGeometryStep g camera light splitLight st drawable) := by
  unfold View.GetBatches.litGeometryStep
  by_cases hmax : drawable.maxLights = 0
  · rw [if_pos hmax]
    exact GetLitBatches_litBase fresh n _ g camera drawable light.id splitLight _ st
      (fun _ hm => ⟨_, rfl, (hq hm).1, (hq hm).2⟩)
  · rw [if_neg hmax]
    refine ⟨fun b hb => hb, fun id i _ h => Or.inl h, ?_⟩
    intro id l hl
    have hl' : l ∈ Function.update st.world.lights drawable.id
        (st.world.lights drawable.id ++ [splitLight]) id := hl
    by_cases hid : id = drawable.id
    · subst hid
      rw [Function.update_same, List.mem_append, List.mem_singleton] at hl'
      rcases hl' with h | h
      · exact Or.inl h
      · exact Or.inr (by rw [h])
    · rw [Function.update_noteq hid] at hl'
      exact Or.inl hl'

theorem litGeometries_litBase (fresh : Nat → Prop) (n : Nat) (g : Graphics)
    (camera : Camera) (light : Light) (splitLight : Light) (lit : List Drawable) :
    ∀ st : GetBatchesState,
      (st.view.mode_ = RenderMode.RENDER_FORWARD →
        st.lightQueueCount < n ∧ st.lightQueueCount < st.view.lightQueues_.length) →
      Spec.litBaseStep fresh n (some splitLight.id) st
        (lit.foldl (View.GetBatches.litGeometryStep g camera light splitLight) st) := by
  induction lit with
  | nil => exact fun st _ => litBaseStep_refl _ _ _ _
  | cons d rest ih =>
    intro st hq
    rw [List.foldl_cons]
    refine litBaseStep_trans _ _ _ _ _ _
      (litGeometryStep_litBase fresh n g camera light splitLight st d hq) (ih _ ?_)
    have hb := litGeometryStep_frame g camera light splitLight st d
    have hf := frame_fields _ _ hb.1
    have hc : (View.GetBatches.litGeometryStep g camera light splitLight st d).lightQueueCount =
        st.lightQueueCount := hb.2.2.2.1
    rw [hf.1, hf.2.2.2.2.2.2.2.1, hc]
    exact hq

theorem resetLightQueue_litBase (fresh : Nat → Prop) (n : Nat) (cur : Option Nat)
    (splitLight : Light) (fs : Bool) (st : GetBatchesState) (hn : n ≤ st.lightQueueCount) :
    Spec.litBaseStep fresh n cur st (View.GetBatches.resetLightQueue splitLight fs st) :=
  litBaseStep_view _ _ _ _ _ rfl (kept_modify_ge _ _ _ _ hn)

theorem storeLightQueue_kept (camera : Camera) (splitLight : Light) (fs : Bool)
    (st : GetBatchesState) (n : Nat) :
    (View.GetBatches.storeLightQueue camera splitLight fs st).1.world = st.world ∧
    (∀ b ∈ Spec.keptLitBatches st.view n,
      b ∈ Spec.keptLitBatches (View.GetBatches.storeLightQueue camera splitLight fs st).1.view
        n) := by
  unfold View.GetBatches.storeLightQueue
  split_ifs
  · exact ⟨rfl, kept_modify _ _ _ _ (fun q b hb => hb)⟩
  · exact ⟨rfl, kept_of_queues _ _ _ (fun b hb => hb) (fun b hb => hb)
      (fun k q _ hq => ⟨q, hq, fun b hb => hb⟩)⟩
  · exact ⟨rfl, fun b hb => hb⟩

theorem baseStep_litBase (fresh : Nat → Prop) (n : Nat) (cur : Option Nat) (g : Graphics)
    (camera : Camera) (drawable : Drawable) (st : GetBatchesState) (j : Nat) :
    Spec.litBaseStep fresh n cur st (View.GetBatches.baseStep g camera drawable st j) := by
  have hadd : ∀ (q : BatchQueue) (x : Batch) (nb : Bool), ∀ b ∈ q.batches,
      b ∈ (q.AddBatch x nb).batches :=
    fun q x nb b hb => (mem_AddBatch _ _ _ _).mpr (Or.inl hb)
  have hsame : ∀ k (q : LightBatchQueue), k < n → st.view.lightQueues_[k]? = some q →
      ∃ q', st.view.lightQueues_[k]? = some q' ∧
        ∀ b ∈ q.litBatches_.batches, b ∈ q'.litBatches_.batches :=
    fun k q _ hq => ⟨q, hq, fun b hb => hb⟩
  cases hgeo : (drawable.GetBatch j).geometry_ with
  | none =>
    rw [baseStep_skip g camera drawable st j (Or.inl hgeo)]
    exact litBaseStep_refl _ _ _ _
  | some geo =>
    cases htech : (View.GetTechnique g st.world.renderer st.view drawable
        (drawable.GetBatch j).material_).1 with
    | none =>
      rw [baseStep_skip g camera drawable st j (Or.inr (Or.inl htech))]
      exact litBaseStep_refl _ _ _ _
    | some tech =>
      cases hbase : st.world.HasBasePass drawable j with
      | true =>
        rw [baseStep_skip g camera drawable st j (Or.inr (Or.inr hbase))]
        exact litBaseStep_refl _ _ _ _
      | false =>
        rw [baseStep_eq g camera drawable st j geo tech hgeo htech hbase]
        cases (if st.view.mode_ ≠ RenderMode.RENDER_FORWARD then
            tech.GetPass PassType.PASS_GBUFFER else none) with
        | some pass =>
          dsimp only
          cases tech.GetPass PassType.PASS_EXTRA with
          | some extra =>
            exact litBaseStep_view _ _ _ _ _ rfl
              (kept_of_queues _ _ _ (hadd _ _ _) (fun b hb => hb) hsame)
          | none =>
            exact litBaseStep_view _ _ _ _ _ rfl
              (kept_of_queues _ _ _ (fun b hb => hb) (fun b hb => hb) hsame)
        | none =>
          dsimp only
          cases tech.GetPass PassType.PASS_BASE with
          | some pass =>
            dsimp only
            split_ifs
            · exact litBaseStep_view _ _ _ _ _ rfl
                (kept_of_queues _ _ _ (hadd _ _ _) (fun b hb => hb) hsame)
            · exact litBaseStep_view _ _ _ _ _ rfl
                (kept_of_queues _ _ _ (fun b hb => hb) (hadd _ _ _) hsame)
          | none =>
            dsimp only
            cases tech.GetPass PassType.PASS_EXTRA with
            | some extra =>
              exact litBaseStep_view _ _ _ _ _ rfl
                (kept_of_queues _ _ _ (fun b hb => hb) (fun b hb => hb) hsame)
            | none => exact litBaseStep_refl _ _ _ _

theorem base_litBase (fresh : Nat → Prop) (n : Nat) (cur : Option Nat) (g : Graphics)
    (camera : Camera) (st : GetBatchesState) :
    Spec.litBaseStep fresh n cur st (View.GetBatches.base g camera st) := by
  unfold View.GetBatches.base
  generalize st.view.geometries_ = l
  exact foldl_rel (Spec.litBaseStep fresh n cur) (litBaseStep_refl _ _ _)
    (litBaseStep_trans _ _ _) _
    (fun s d => foldl_rel (Spec.litBaseStep fresh n cur) (litBaseStep_refl _ _ _)
      (litBaseStep_trans _ _ _) _
      (fun s' j => baseStep_litBase fresh n cur g camera d s' j) _ _) _ _

theorem GetBatches_splitStep_unfold (g : Graphics) (camera : Camera) (light : Light)
    (st : GetBatchesState) (fs : Bool) (j : Nat) (splitLight : Light)
    (hs : st.view.splitLights_ j = some splitLight) :
    View.GetBatches.splitStep g camera light (st, fs) j =
      if ((View.GetBatches.shadowBatches g splitLight
          ((View.GetBatches.resetLightQueue splitLight fs st).view.shadowCasters_ j)
          (View.GetBatches.resetLightQueue splitLight fs st)).view.litGeometries_ j).length ≠ 0 then
        View.GetBatches.storeLightQueue camera splitLight fs
          (((View.GetBatches.shadowBatches g splitLight
            ((View.GetBatches.resetLightQueue splitLight fs st).view.shadowCasters_ j)
            (View.GetBatches.resetLightQueue splitLight fs st)).view.litGeometries_ j).foldl
            (View.GetBatches.litGeometryStep g camera light splitLight)
            (View.GetBatches.shadowBatches g splitLight
              ((View.GetBatches.resetLightQueue splitLight fs st).view.shadowCasters_ j)
              (View.GetBatches.resetLightQueue splitLight fs st)))
      else
        (View.GetBatches.shadowBatches g splitLight
          ((View.GetBatches.resetLightQueue splitLight fs st).view.shadowCasters_ j)
          (View.GetBatches.resetLightQueue splitLight fs st), fs) := by
  unfold View.GetBatches.splitStep
  dsimp only
  rw [hs]

theorem storeLightQueue_forward (camera : Camera) (splitLight : Light) (fs : Bool)
    (st : GetBatchesState) (hm : st.view.mode_ = RenderMode.RENDER_FORWARD) :
    (View.GetBatches.storeLightQueue camera splitLight fs st).1 =
      { st with
        lightQueueIndex := (splitLight.id, st.lightQueueCount) :: st.lightQueueIndex,
        lightQueueCount := st.lightQueueCount + 1 } := by
  unfold View.GetBatches.storeLightQueue
  rw [if_neg (fun h => h hm)]

theorem storeLightQueue_mode (camera : Camera) (splitLight : Light) (fs : Bool)
    (st : GetBatchesState) :
    (View.GetBatches.storeLightQueue camera splitLight fs st).1.view.mode_ = st.view.mode_ := by
  unfold View.GetBatches.storeLightQueue
  split_ifs <;> rfl

theorem litBaseInv_step (fresh : Nat → Prop) (limit : Drawable → List Light → List Light)
    (st st' : GetBatchesState) (hinv : Spec.litBaseInv fresh limit st)
    (hstep : Spec.litBaseStep fresh
      (if st.view.mode_ = RenderMode.RENDER_FORWARD then st.lightQueueCount else 0) none st st')
    (hm : st'.view.mode_ = st.view.mode_) (hi : st'.lightQueueIndex = st.lightQueueIndex)
    (hc : st'.lightQueueCount = st.lightQueueCount)
    (hr : st'.world.renderer.limitLights = st.world.renderer.limitLights) :
    Spec.litBaseInv fresh limit st' := by
  obtain ⟨i1, i2, i3⟩ := hinv
  obtain ⟨s1, s2, s3⟩ := hstep
  refine ⟨?_, ?_, hr.trans i3⟩
  · intro id i hf hflag
    rw [hm, hc]
    rcases s2 id i hf hflag with h | h
    · obtain ⟨d, b, hd, hb, hl⟩ := i1 id i hf h
      exact ⟨d, b, hd, s1 b hb, hl⟩
    · exact h
  · intro hfw
    rw [hm] at hfw
    obtain ⟨j1, j2⟩ := i2 hfw
    rw [hi, hc]
    refine ⟨j1, ?_⟩
    intro id hf l hl
    rcases s3 id l hl with h | h
    · exact j2 id hf l h
    · cases h

theorem litBaseInv_step_deferred (fresh : Nat → Prop)
    (limit : Drawable → List Light → List Light) (cur : Option Nat)
    (st st' : GetBatchesState) (hinv : Spec.litBaseInv fresh limit st)
    (hnf : st.view.mode_ ≠ RenderMode.RENDER_FORWARD)
    (hstep : Spec.litBaseStep fresh 0 cur st st')
    (hm : st'.view.mode_ = st.view.mode_)
    (hr : st'.world.renderer.limitLights = st.world.renderer.limitLights) :
    Spec.litBaseInv fresh limit st' := by
  obtain ⟨i1, _, i3⟩ := hinv
  obtain ⟨s1, s2, _⟩ := hstep
  refine ⟨?_, ?_, hr.trans i3⟩
  · intro id i hf hflag
    rw [hm, if_neg hnf]
    rcases s2 id i hf hflag with h | h
    · obtain ⟨d, b, hd, hb, hl⟩ := i1 id i hf h
      rw [if_neg hnf] at hb
      exact ⟨d, b, hd, s1 b hb, hl⟩
    · exact h
  · intro hfw
    rw [hm] at hfw
    exact (hnf hfw).elim

theorem GetBatches_splitStep_inv (fresh : Nat → Prop)
    (limit : Drawable → List Light → List Light) (g : Graphics) (camera : Camera)
    (light : Light) (st : GetBatchesState) (fs : Bool) (j : Nat)
    (hinv : Spec.litBaseInv fresh limit st)
    (hidx : st.lightQueueCount < st.view.lightQueues_.length) :
    Spec.litBaseInv fresh limit (View.GetBatches.splitStep g camera light (st, fs) j).1 := by
  cases hs : st.view.splitLights_ j with
  | none =>
    rw [GetBatches_splitStep_none g camera light (st, fs) j hs]
    exact hinv
  | some sl =>
    rw [GetBatches_splitStep_unfold g camera light st fs j sl hs]
    have r0 : ∀ n, n ≤ st.lightQueueCount → Spec.litBaseStep fresh n none st
        (View.GetBatches.resetLightQueue sl fs st) :=
      fun n hn => resetLightQueue_litBase fresh n none sl fs st hn
    have w1 : (View.GetBatches.resetLightQueue sl fs st).world = st.world := rfl
    have c1 : (View.GetBatches.resetLightQueue sl fs st).lightQueueCount =
        st.lightQueueCount := rfl
    have x1 : (View.GetBatches.resetLightQueue sl fs st).lightQueueIndex =
        st.lightQueueIndex := rfl
    have m1 : (View.GetBatches.resetLightQueue sl fs st).view.mode_ = st.view.mode_ := rfl
    have len1 : (View.GetBatches.resetLightQueue sl fs st).view.lightQueues_.length =
        st.view.lightQueues_.length := by
      unfold View.GetBatches.resetLightQueue View.modifyLightQueue
      exact List.length_modify _ _ _
    generalize View.GetBatches.resetLightQueue sl fs st = st1 at *
    generalize st1.view.shadowCasters_ j = cs
    have f12 := shadowBatches_frame g sl cs st1
    have s12 : ∀ n, Spec.litBaseStep fresh n none st1
        (View.GetBatches.shadowBatches g sl cs st1) :=
      fun n => shadowBatches_litBase fresh n none g sl cs st1
    generalize View.GetBatches.shadowBatches g sl cs st1 = st2 at *
    obtain ⟨p2, rr2, x2, c2, _⟩ := f12
    have c2' : st2.lightQueueCount = st.lightQueueCount := c2.trans c1
    have x2' : st2.lightQueueIndex = st.lightQueueIndex := x2.trans x1
    have m2 : st2.view.mode_ = st.view.mode_ := (frame_fields _ _ p2).1.trans m1
    have len2 : st2.view.lightQueues_.length = st.view.lightQueues_.length :=
      (frame_fields _ _ p2).2.2.2.2.2.2.2.1.trans len1
    have r2 : st2.world.renderer.limitLights = st.world.renderer.limitLights := by
      rw [rr2, w1]
    generalize st2.view.litGeometries_ j = ls
    have f23 := litGeometries_frame g camera light sl ls st2
    have s23 : ∀ n, (st2.view.mode_ = RenderMode.RENDER_FORWARD →
        st2.lightQueueCount < n ∧ st2.lightQueueCount < st2.view.lightQueues_.length) →
        Spec.litBaseStep fresh n (some sl.id) st2
          (ls.foldl (View.GetBatches.litGeometryStep g camera light sl) st2) :=
      fun n h => litGeometries_litBase fresh n g camera light sl ls st2 h
    generalize ls.foldl (View.GetBatches.litGeometryStep g camera light sl) st2 = st3 at *
    obtain ⟨p3, rr3, x3, c3, _⟩ := f23
    have c3' : st3.lightQueueCount = st.lightQueueCount := c3.trans c2'
    have x3' : st3.lightQueueIndex = st.lightQueueIndex := x3.trans x2'
    have m3 : st3.view.mode_ = st.view.mode_ := (frame_fields _ _ p3).1.trans m2
    have r3 : st3.world.renderer.limitLights = st.world.renderer.limitLights := by
      rw [rr3]
      exact r2
    by_cases hm : st.view.mode_ = RenderMode.RENDER_FORWARD
    · by_cases hl : ls.length ≠ 0
      · rw [if_pos hl, storeLightQueue_forward camera sl fs st3 (m3.trans hm)]
        have L := s23 (st.lightQueueCount + 1) (fun _ => by
          rw [c2', len2]
          exact ⟨Nat.lt_succ_self _, hidx⟩)
        have S := s12 (st.lightQueueCount + 1)
        have R := r0 st.lightQueueCount (le_refl _)
        obtain ⟨i1, i2, i3⟩ := hinv
        obtain ⟨j1, j2⟩ := i2 hm
        refine ⟨?_, ?_, r3.trans i3⟩
        · intro id i hf hflag
          have hflag' : st3.world.basePassFlags id i = true := hflag
          show ∃ d b, d.id = id ∧
            b ∈ Spec.keptLitBatches st3.view
              (if st3.view.mode_ = RenderMode.RENDER_FORWARD then st3.lightQueueCount + 1
                else 0) ∧ Spec.isLitBaseBatch d i b
          rw [if_pos (m3.trans hm), c3']
          rcases L.2.1 id i hf hflag' with h | h
          · rcases S.2.1 id i hf h with h' | ⟨d, b, hd, hb, hlb⟩
            · rw [w1] at h'
              obtain ⟨d, b, hd, hb, hlb⟩ := i1 id i hf h'
              rw [if_pos hm] at hb
              exact ⟨d, b, hd,
                L.1 b (S.1 b (kept_le _ _ _ (Nat.le_succ _) b (R.1 b hb))), hlb⟩
            · exact ⟨d, b, hd, L.1 b hb, hlb⟩
          · exact h
        · intro _
          show (∀ p ∈ (sl.id, st3.lightQueueCount) :: st3.lightQueueIndex,
              p.2 < st3.lightQueueCount + 1) ∧
            (∀ id, fresh id → ∀ l ∈ st3.world.lights id,
              ∃ p ∈ (sl.id, st3.lightQueueCount) :: st3.lightQueueIndex, p.1 = l.id)
          rw [x3', c3']
          constructor
          · intro p hp
            rw [List.mem_cons] at hp
            rcases hp with hp | hp
            · rw [hp]
              exact Nat.lt_succ_self _
            · exact Nat.lt_succ_of_lt (j1 p hp)
          · intro id hf l hl3
            rcases L.2.2 id l hl3 with h | h
            · rcases S.2.2 id l h with h' | h'
              · rw [w1] at h'
                obtain ⟨p, hp, he⟩ := j2 id hf l h'
                exact ⟨p, List.mem_cons_of_mem _ hp, he⟩
              · cases h'
            · exact ⟨_, List.mem_cons_self _ _, (Option.some.inj h).symm⟩
      · rw [if_neg hl]
        refine litBaseInv_step fresh limit st st2 hinv ?_ m2 x2' c2' r2
        rw [if_pos hm]
        exact litBaseStep_trans _ _ _ _ _ _ (r0 _ (le_refl _)) (s12 _)
    · have hstep2 : Spec.litBaseStep fresh 0 (some sl.id) st st2 := by
        obtain ⟨a1, a2, a3⟩ := litBaseStep_trans _ _ _ _ _ _ (r0 0 (Nat.zero_le _)) (s12 0)
        exact ⟨a1, a2, fun id l h => (a3 id l h).elim Or.inl (fun h' => by cases h')⟩
      by_cases hl : ls.length ≠ 0
      · rw [if_pos hl]
        have L := s23 0 (fun h => (hm (m2 ▸ h)).elim)
        obtain ⟨k1, k2⟩ := storeLightQueue_kept camera sl fs st3 0
        refine litBaseInv_step_deferred fresh limit (some sl.id) st _ hinv hm ?_
          ((storeLightQueue_mode camera sl fs st3).trans m3) (by rw [k1]; exact r3)
        have hst := litBaseStep_trans _ _ _ _ _ _ hstep2 L
        exact litBaseStep_trans _ _ _ _ _ _ hst
          (litBaseStep_view _ _ _ _ _ k1 k2)
      · rw [if_neg hl]
        exact litBaseInv_step_deferred fresh limit (some sl.id) st st2 hinv hm hstep2 m2 r2

theorem GetBatches_splitFold_inv (fresh : Nat → Prop)
    (limit : Drawable → List Light → List Light) (g : Graphics) (camera : Camera)
    (light : Light) (s0 : GetBatchesState × Bool) (splits : Nat)
    (hlen : s0.1.lightQueueCount + splits ≤ s0.1.view.lightQueues_.length)
    (hinv : Spec.litBaseInv fresh limit s0.1) :
    ∀ k, k ≤ splits →
      Spec.litBaseInv fresh limit
        ((List.range k).foldl (View.GetBatches.splitStep g camera light) s0).1 := by
  intro k
  induction k with
  | zero => exact fun _ => hinv
  | succ k ih =>
    intro hk
    obtain ⟨h1, h2⟩ := GetBatches_splitFold_count g camera light s0 k
    rw [List.range_succ, List.foldl_append]
    exact GetBatches_splitStep_inv fresh limit g camera light
      ((List.range k).foldl (View.GetBatches.splitStep g camera light) s0).1
      ((List.range k).foldl (View.GetBatches.splitStep g camera light) s0).2 k
      (ih (by omega)) (by rw [h1]; omega)

theorem prepareLightQueues_litBase (fresh : Nat → Prop) (n : Nat) (cur : Option Nat)
    (st : GetBatchesState) (splits : Nat) :
    Spec.litBaseStep fresh n cur st (View.GetBatches.prepareLightQueues st splits) := by
  unfold View.GetBatches.prepareLightQueues
  by_cases h : st.view.lightQueues_.length < st.lightQueueCount + splits
  · rw [if_pos h]
    refine litBaseStep_view _ _ _ _ _ rfl
      (kept_of_queues _ _ _ (fun b hb => hb) (fun b hb => hb) ?_)
    intro k q _ hq
    have hk : k < st.view.lightQueues_.length := by
      by_contra hn
      rw [List.getElem?_eq_none (by omega)] at hq
      cases hq
    refine ⟨q, ?_, fun b hb => hb⟩
    show (resizeLightQueues st.view.lightQueues_ (st.lightQueueCount + splits))[k]? = some q
    rw [(resizeLightQueues_spec _ _).2 k (by omega) hk]
    exact hq
  · rw [if_neg h]
    exact litBaseStep_refl _ _ _ _

theorem lightStep_inv (fresh : Nat → Prop) (limit : Drawable → List Light → List Light)
    (g : Graphics) (camera : Camera) (octree : Octree) (st : GetBatchesState) (light : Light)
    (hinv : Spec.litBaseInv fresh limit st) :
    Spec.litBaseInv fresh limit (View.GetBatches.lightStep g camera octree st light) := by
  have hfr := ProcessLight_frame camera octree st.view st.world light
  have hwf := ProcessLight_world camera octree st.view st.world light
  have hq : (View.ProcessLight camera octree st.view st.world light).2.1.lightQueues_ =
      st.view.lightQueues_ := by
    have h := congrArg View.lightQueues_ hfr
    exact h
  have hb : (View.ProcessLight camera octree st.view st.world light).2.1.baseQueue_ =
      st.view.baseQueue_ := by
    have h := congrArg View.baseQueue_ hfr
    exact h
  have ht : (View.ProcessLight camera octree st.view st.world light).2.1.transparentQueue_ =
      st.view.transparentQueue_ := by
    have h := congrArg View.transparentQueue_ hfr
    exact h
  have hm : (View.ProcessLight camera octree st.view st.world light).2.1.mode_ =
      st.view.mode_ := by
    have h := congrArg View.mode_ hfr
    exact h
  have hk : ∀ n, Spec.keptLitBatches
      (View.ProcessLight camera octree st.view st.world light).2.1 n =
      Spec.keptLitBatches st.view n := by
    intro n
    unfold Spec.keptLitBatches
    rw [hq, hb, ht]
  have hinv1 : Spec.litBaseInv fresh limit
      { st with
        view := (View.ProcessLight camera octree st.view st.world light).2.1,
        world := (View.ProcessLight camera octree st.view st.world light).2.2 } := by
    obtain ⟨i1, i2, i3⟩ := hinv
    refine ⟨?_, ?_, hwf.2.2.trans i3⟩
    · intro id i hf hflag
      have hflag' : (View.ProcessLight camera octree st.view st.world
          light).2.2.basePassFlags id i = true := hflag
      rw [hwf.1] at hflag'
      obtain ⟨d, b, hd, hb', hl⟩ := i1 id i hf hflag'
      refine ⟨d, b, hd, ?_, hl⟩
      show b ∈ Spec.keptLitBatches (View.ProcessLight camera octree st.view st.world light).2.1
        (if (View.ProcessLight camera octree st.view st.world light).2.1.mode_ =
          RenderMode.RENDER_FORWARD then st.lightQueueCount else 0)
      rw [hk, hm]
      exact hb'
    · intro hfw
      have hfw' : (View.ProcessLight camera octree st.view st.world light).2.1.mode_ =
          RenderMode.RENDER_FORWARD := hfw
      rw [hm] at hfw'
      obtain ⟨j1, j2⟩ := i2 hfw'
      refine ⟨j1, ?_⟩
      intro id hf l hl
      have hl' : l ∈ (View.ProcessLight camera octree st.view st.world light).2.2.lights id :=
        hl
      rw [hwf.2.1] at hl'
      exact j2 id hf l hl'
  unfold View.GetBatches.lightStep
  dsimp only
  by_cases h0 : (View.ProcessLight camera octree st.view st.world light).1 = 0
  · rw [if_pos h0]
    exact hinv1
  · rw [if_neg h0]
    obtain ⟨p1, p2⟩ := prepareLightQueues_length
      { st with
        view := (View.ProcessLight camera octree st.view st.world light).2.1,
        world := (View.ProcessLight camera octree st.view st.world light).2.2 }
      (View.ProcessLight camera octree st.view st.world light).1
    have hprep : Spec.litBaseInv fresh limit
        (View.GetBatches.prepareLightQueues
          { st with
            view := (View.ProcessLight camera octree st.view st.world light).2.1,
            world := (View.ProcessLight camera octree st.view st.world light).2.2 }
          (View.ProcessLight camera octree st.view st.world light).1) := by
      refine litBaseInv_step fresh limit _ _ hinv1 (prepareLightQueues_litBase _ _ _ _ _) ?_ ?_
        p2 ?_
      · unfold View.GetBatches.prepareLightQueues
        split_ifs <;> rfl
      · unfold View.GetBatches.prepareLightQueues
        split_ifs <;> rfl
      · unfold View.GetBatches.prepareLightQueues
        split_ifs <;> rfl
    exact GetBatches_splitFold_inv fresh limit g camera light
      (View.GetBatches.prepareLightQueues
        { st with
          view := (View.ProcessLight camera octree st.view st.world light).2.1,
          world := (View.ProcessLight camera octree st.view st.world light).2.2 }
        (View.ProcessLight camera octree st.view st.world light).1, false)
      (View.ProcessLight camera octree st.view st.world light).1
      (by
        show (View.GetBatches.prepareLightQueues _ _).lightQueueCount + _ ≤
          (View.GetBatches.prepareLightQueues _ _).view.lightQueues_.length
        rw [p2]
        exact p1)
      hprep _ (le_refl _)

theorem lights_inv (fresh : Nat → Prop) (limit : Drawable → List Light → List Light)
    (g : Graphics) (camera : Camera) (octree : Octree) (v : View) (w : World)
    (hfresh : ∀ id i, fresh id → w.basePassFlags id i = false)
    (hlights : ∀ id, fresh id → w.lights id = [])
    (hlimit : w.renderer.limitLights = limit) :
    Spec.litBaseInv fresh limit (View.GetBatches.lights g camera octree v w) ∧
    (View.GetBatches.lights g camera octree v w).lightQueueCount =
      (View.GetBatches.lights g camera octree v w).view.lightQueues_.length := by
  have h0 : Spec.litBaseInv fresh limit
      { view := v, world := w, litTransparencies := [], maxLightsDrawables := [],
        lightQueueIndex := [], lightQueueCount := 0 } := by
    refine ⟨?_, ?_, hlimit⟩
    · intro id i hf hflag
      have hflag' : w.basePassFlags id i = true := hflag
      rw [hfresh id i hf] at hflag'
      cases hflag'
    · intro _
      refine ⟨fun p hp => (by cases hp), ?_⟩
      intro id hf l hl
      have hl' : l ∈ w.lights id := hl
      rw [hlights id hf] at hl'
      cases hl'
  have hfold : ∀ (l : List Light) (s : GetBatchesState),
      Spec.litBaseInv fresh limit s → s.lightQueueCount ≤ s.view.lightQueues_.length →
      Spec.litBaseInv fresh limit (l.foldl (View.GetBatches.lightStep g camera octree) s) ∧
      (l.foldl (View.GetBatches.lightStep g camera octree) s).lightQueueCount ≤
        (l.foldl (View.GetBatches.lightStep g camera octree) s).view.lightQueues_.length := by
    intro l
    induction l with
    | nil => exact fun s h1 h2 => ⟨h1, h2⟩
    | cons a rest ih =>
      intro s h1 h2
      rw [List.foldl_cons]
      exact ih _ (lightStep_inv fresh limit g camera octree s a h1)
        (lightStep_header g camera octree s a h2).1
  obtain ⟨f1, f2⟩ := hfold v.lights_ _ h0 (Nat.zero_le _)
  unfold View.GetBatches.lights
  dsimp only
  generalize v.lights_.foldl (View.GetBatches.lightStep g camera octree)
    { view := v, world := w, litTransparencies := [], maxLightsDrawables := [],
      lightQueueIndex := [], lightQueueCount := 0 } = s at f1 f2
  obtain ⟨r1, r2⟩ := resizeLightQueues_spec s.view.lightQueues_ s.lightQueueCount
  refine ⟨?_, r1.symm⟩
  refine litBaseInv_step fresh limit s _ f1 ?_ rfl rfl rfl rfl
  refine litBaseStep_view _ _ _ _ _ rfl
    (kept_of_queues _ _ _ (fun b hb => hb) (fun b hb => hb) ?_)
  intro k q hk hq
  have hk' : k < s.view.lightQueues_.length := by
    by_contra hn
    rw [List.getElem?_eq_none (by omega)] at hq
    cases hq
  refine ⟨q, ?_, fun b hb => hb⟩
  show (resizeLightQueues s.view.lightQueues_ s.lightQueueCount)[k]? = some q
  by_cases hm : s.view.mode_ = RenderMode.RENDER_FORWARD
  · rw [if_pos hm] at hk
    rw [r2 k hk hk']
    exact hq
  · rw [if_neg hm] at hk
    omega

theorem litBaseInv_frame (fresh : Nat → Prop) (limit : Drawable → List Light → List Light)
    (st st' : GetBatchesState) (hinv : Spec.litBaseInv fresh limit st)
    (hframe : Spec.batchFrame st st')
    (hstep : Spec.litBaseStep fresh
      (if st.view.mode_ = RenderMode.RENDER_FORWARD then st.lightQueueCount else 0) none st st') :
    Spec.litBaseInv fresh limit st' := by
  obtain ⟨p, r, x, c, _⟩ := hframe
  exact litBaseInv_step fresh limit st st' hinv hstep (frame_fields _ _ p).1 x c (by rw [r])

theorem maxLightsStep_litBase (fresh : Nat → Prop) (n : Nat) (g : Graphics) (camera : Camera)
    (drawable : Drawable) (st : GetBatchesState) (splitLight : Light)
    (hq : fresh drawable.id → st.view.mode_ = RenderMode.RENDER_FORWARD →
      ∃ p ∈ st.lightQueueIndex, p.1 = splitLight.id)
    (hidx : st.view.mode_ = RenderMode.RENDER_FORWARD →
      ∀ p ∈ st.lightQueueIndex, p.2 < n ∧ p.2 < st.view.lightQueues_.length) :
    Spec.litBaseStep fresh n none st
      (View.GetBatches.maxLightsStep g camera drawable st splitLight) := by
  unfold View.GetBatches.maxLightsStep
  dsimp only
  apply GetLitBatches_litBase
  intro hf hm
  obtain ⟨p, hp, he⟩ := hq hf hm
  cases hfind : st.lightQueueIndex.find? (fun p => decide (p.1 = splitLight.id)) with
  | none =>
    have hnone := List.find?_eq_none.mp hfind p hp
    simp only [decide_eq_true_eq] at hnone
    exact (hnone he).elim
  | some p' =>
    have hmem := List.mem_of_find?_eq_some hfind
    exact ⟨p'.2, rfl, (hidx hm p' hmem).1, (hidx hm p' hmem).2⟩

theorem maxLights_inner_inv (fresh : Nat → Prop) (limit : Drawable → List Light → List Light)
    (g : Graphics) (camera : Camera) (drawable : Drawable) :
    ∀ (ls : List Light) (s : GetBatchesState),
      Spec.litBaseInv fresh limit s → s.lightQueueCount ≤ s.view.lightQueues_.length →
      (∀ l ∈ ls, fresh drawable.id → s.view.mode_ = RenderMode.RENDER_FORWARD →
        ∃ p ∈ s.lightQueueIndex, p.1 = l.id) →
      Spec.litBaseInv fresh limit
        (ls.foldl (View.GetBatches.maxLightsStep g camera drawable) s) ∧
      (ls.foldl (View.GetBatches.maxLightsStep g camera drawable) s).lightQueueCount ≤
        (ls.foldl (View.GetBatches.maxLightsStep g camera drawable) s).view.lightQueues_.length := by
  intro ls
  induction ls with
  | nil => exact fun s h1 h2 _ => ⟨h1, h2⟩
  | cons a rest ih =>
    intro s h1 h2 h3
    rw [List.foldl_cons]
    have hfr := maxLightsStep_frame g camera drawable s a
    have hff := frame_fields _ _ hfr.1
    have hstep := maxLightsStep_litBase fresh
      (if s.view.mode_ = RenderMode.RENDER_FORWARD then s.lightQueueCount else 0) g camera
      drawable s a (h3 a (List.mem_cons_self _ _))
      (fun hm p hp => by
        rw [if_pos hm]
        have := (h1.2.1 hm).1 p hp
        exact ⟨this, by omega⟩)
    have hc : (View.GetBatches.maxLightsStep g camera drawable s a).lightQueueCount =
        s.lightQueueCount := hfr.2.2.2.1
    have hx : (View.GetBatches.maxLightsStep g camera drawable s a).lightQueueIndex =
        s.lightQueueIndex := hfr.2.2.1
    refine ih _ (litBaseInv_frame fresh limit s _ h1 hfr hstep) ?_ ?_
    · rw [hc, hff.2.2.2.2.2.2.2.1]
      exact h2
    · intro l hl hf hm
      rw [hx]
      rw [hff.1] at hm
      exact h3 l (List.mem_cons_of_mem _ hl) hf hm

theorem maxLights_inv (fresh : Nat → Prop) (limit : Drawable → List Light → List Light)
    (hsub : ∀ d l x, x ∈ limit d l → x ∈ l)
    (g : Graphics) (camera : Camera) (st : GetBatchesState)
    (hinv : Spec.litBaseInv fresh limit st)
    (hG : st.lightQueueCount ≤ st.view.lightQueues_.length) :
    Spec.litBaseInv fresh limit (View.GetBatches.maxLights g camera st) := by
  unfold View.GetBatches.maxLights
  have hfold : ∀ (ds : List Drawable) (s : GetBatchesState),
      Spec.litBaseInv fresh limit s → s.lightQueueCount ≤ s.view.lightQueues_.length →
      Spec.litBaseInv fresh limit
        (ds.foldl
          (fun (st : GetBatchesState) (drawable : Drawable) =>
            (({ st with world := st.world.LimitLights drawable } :
                GetBatchesState).world.lights drawable.id).foldl
              (View.GetBatches.maxLightsStep g camera drawable)
              { st with world := st.world.LimitLights drawable }) s) := by
    intro ds
    induction ds with
    | nil => exact fun s h1 _ => h1
    | cons d rest ih =>
      intro s h1 h2
      rw [List.foldl_cons]
      have hlim : Spec.litBaseInv fresh limit { s with world := s.world.LimitLights d } := by
        obtain ⟨i1, i2, i3⟩ := h1
        refine ⟨i1, ?_, i3⟩
        intro hm
        obtain ⟨j1, j2⟩ := i2 hm
        refine ⟨j1, ?_⟩
        intro id hf l hl
        have hl' : l ∈ Function.update s.world.lights d.id
            (s.world.renderer.limitLights d (s.world.lights d.id)) id := hl
        by_cases hid : id = d.id
        · subst hid
          rw [Function.update_same, i3] at hl'
          exact j2 _ hf l (hsub _ _ _ hl')
        · rw [Function.update_noteq hid] at hl'
          exact j2 id hf l hl'
      obtain ⟨k1, k2⟩ := maxLights_inner_inv fresh limit g camera d
        (({ s with world := s.world.LimitLights d } : GetBatchesState).world.lights d.id)
        { s with world := s.world.LimitLights d } hlim h2
        (fun l hl hf hm => (hlim.2.1 hm).2 d.id hf l hl)
      exact ih _ k1 k2
  exact hfold _ st hinv hG

theorem kept_sub_drawable (v : View) (n : Nat) :
    ∀ b ∈ Spec.keptLitBatches v n, b ∈ Spec.drawableBatches v := by
  intro b hb
  rw [mem_keptLitBatches] at hb
  unfold Spec.drawableBatches
  simp only [List.mem_append, List.mem_flatMap]
  rcases hb with hb | hb | ⟨k, q, _, hq, hb⟩
  · exact Or.inl (Or.inl (Or.inl (Or.inr hb)))
  · exact Or.inl (Or.inr hb)
  · exact Or.inr ⟨q, List.mem_iff_getElem?.mpr ⟨k, hq⟩, Or.inr hb⟩

theorem SortBatches_drawableBatches (v : View) :
    Spec.drawableBatches (View.SortBatches v) = Spec.drawableBatches v := by
  unfold View.SortBatches Spec.drawableBatches
  split_ifs <;>
    simp [BatchQueue.SortFrontToBack, BatchQueue.SortBackToFront, BatchQueue.batches,
      List.flatMap_map]

theorem GetBatches_litBase (fresh : Nat → Prop) (limit : Drawable → List Light → List Light)
    (hsub : ∀ d l x, x ∈ limit d l → x ∈ l)
    (g : Graphics) (camera : Camera) (octree : Octree) (v : View) (w : World)
    (hfresh : ∀ id i, fresh id → w.basePassFlags id i = false)
    (hlights : ∀ id, fresh id → w.lights id = [])
    (hlimit : w.renderer.limitLights = limit) :
    ∀ id i, fresh id → (View.GetBatches g camera octree v w).2.basePassFlags id i = true →
      ∃ d b, d.id = id ∧ b ∈ Spec.drawableBatches (View.GetBatches g camera octree v w).1 ∧
        Spec.isLitBaseBatch d i b := by
  obtain ⟨h1, h2⟩ := lights_inv fresh limit g camera octree v w hfresh hlights hlimit
  have h3 := maxLights_inv fresh limit hsub g camera _ h1 (le_of_eq h2)
  have h4 := litBaseInv_frame fresh limit _ _ h3 (base_frame g camera _)
    (base_litBase fresh _ none g camera _)
  intro id i hf hflag
  have hG : View.GetBatches g camera octree v w =
      (View.SortBatches (View.GetBatches.base g camera
        (View.GetBatches.maxLights g camera
          (View.GetBatches.lights g camera octree v w))).view,
        (View.GetBatches.base g camera
          (View.GetBatches.maxLights g camera
            (View.GetBatches.lights g camera octree v w))).world) := rfl
  rw [hG] at hflag ⊢
  obtain ⟨d, b, hd, hb, hl⟩ := h4.1 id i hf hflag
  refine ⟨d, b, hd, ?_, hl⟩
  show b ∈ Spec.drawableBatches (View.SortBatches _)
  rw [SortBatches_drawableBatches]
  exact kept_sub_drawable _ _ b hb

theorem MarkInView_fresh (w : World) (frame : FrameInfo) (d : Drawable) (id : Nat)
    (h : ∀ i, w.basePassFlags id i = false) (hl : id = d.id ∨ w.lights id = []) :
    Spec.freshIn (w.MarkInView frame d) id := by
  refine ⟨h, ?_⟩
  show Function.update w.lights d.id [] id = []
  by_cases hid : id = d.id
  · subst hid
    rw [Function.update_same]
  · rw [Function.update_noteq hid]
    exact hl.resolve_left hid

theorem ClearBasePass_flags (w : World) (d : Drawable) (id : Nat)
    (h : id = d.id ∨ ∀ i, w.basePassFlags id i = false) :
    ∀ i, (w.ClearBasePass d).basePassFlags id i = false := by
  intro i
  show Function.update w.basePassFlags d.id (fun _ => false) id i = false
  by_cases hid : id = d.id
  · subst hid
    rw [Function.update_same]
  · rw [Function.update_noteq hid]
    exact h.resolve_left hid i

theorem GetDrawables_step_fresh (frame : FrameInfo) (zone : Option Zone)
    (st : GetDrawablesState) (d : Drawable) :
    (∀ id, Spec.freshIn st.world id →
      Spec.freshIn (View.GetDrawables.step frame zone st d).world id) ∧
    (∀ x ∈ (View.GetDrawables.step frame zone st d).geometries,
      x ∈ st.geometries ∨
        Spec.freshIn (View.GetDrawables.step frame zone st d).world x.id) ∧
    (View.GetDrawables.step frame zone st d).world.renderer = st.world.renderer := by
  unfold View.GetDrawables.step
  by_cases hb : d.beyondDrawDistance = true
  · rw [if_pos hb]
    exact ⟨fun id h => h, fun x hx => Or.inl hx, rfl⟩
  · rw [if_neg hb]
    dsimp only
    by_cases hg : d.drawableFlags &&& DRAWABLE_GEOMETRY ≠ 0
    · rw [if_pos hg]
      refine ⟨?_, ?_, rfl⟩
      · intro id hf
        exact MarkInView_fresh _ _ _ _ (ClearBasePass_flags _ _ _ (Or.inr hf.1)) (Or.inr hf.2)
      · intro x hx
        rw [List.mem_append, List.mem_singleton] at hx
        rcases hx with hx | hx
        · exact Or.inl hx
        · right
          subst hx
          exact MarkInView_fresh _ _ _ _ (ClearBasePass_flags _ _ _ (Or.inl rfl)) (Or.inl rfl)
    · rw [if_neg hg]
      by_cases hl : d.drawableFlags &&& DRAWABLE_LIGHT ≠ 0
      · rw [if_pos hl]
        cases zone with
        | none => exact ⟨fun id h => h, fun x hx => Or.inl hx, rfl⟩
        | some z =>
          dsimp only
          by_cases hm : d.viewMask &&& z.viewMask = 0
          · rw [if_pos hm]
            exact ⟨fun id h => h, fun x hx => Or.inl hx, rfl⟩
          · rw [if_neg hm]
            exact ⟨fun id hf => MarkInView_fresh _ _ _ _ hf.1 (Or.inr hf.2),
              fun x hx => Or.inl hx, rfl⟩
      · rw [if_neg hl]
        exact ⟨fun id h => h, fun x hx => Or.inl hx, rfl⟩

theorem GetDrawables_fold_fresh (frame : FrameInfo) (zone : Option Zone)
    (l : List Drawable) :
    ∀ st : GetDrawablesState, (∀ x ∈ st.geometries, Spec.freshIn st.world x.id) →
      (∀ x ∈ (l.foldl (View.GetDrawables.step frame zone) st).geometries,
        Spec.freshIn (l.foldl (View.GetDrawables.step frame zone) st).world x.id) ∧
      (l.foldl (View.GetDrawables.step frame zone) st).world.renderer = st.world.renderer := by
  induction l with
  | nil => exact fun st h => ⟨h, rfl⟩
  | cons d rest ih =>
    intro st h
    rw [List.foldl_cons]
    obtain ⟨s1, s2, s3⟩ := GetDrawables_step_fresh frame zone st d
    obtain ⟨i1, i2⟩ := ih (View.GetDrawables.step frame zone st d) (by
      intro x hx
      rcases s2 x hx with hx' | hx'
      · exact s1 _ (h x hx')
      · exact hx')
    exact ⟨i1, i2.trans s3⟩

theorem GetDrawables_fresh (camera : Camera) (octree : Octree) (v : View) (w : World)
    (hgeo : v.geometries_ = []) :
    (∀ x ∈ (View.GetDrawables camera octree v w).1.geometries_,
      Spec.freshIn (View.GetDrawables camera octree v w).2 x.id) ∧
    (View.GetDrawables camera octree v w).2.renderer = w.renderer := by
  unfold View.GetDrawables
  dsimp only
  apply GetDrawables_fold_fresh
  intro x hx
  have hx' : x ∈ v.geometries_ := hx
  rw [hgeo] at hx'
  cases hx'

theorem GetBatches_after_GetDrawables_litBase (g : Graphics) (camera : Camera)
    (octree : Octree) (v : View) (w : World) (hgeo : v.geometries_ = [])
    (hsub : ∀ d l x, x ∈ w.renderer.limitLights d l → x ∈ l) :
    ∀ d ∈ (View.GetBatches g camera octree (View.GetDrawables camera octree v w).1
        (View.GetDrawables camera octree v w).2).1.geometries_,
      ∀ i, (View.GetBatches g camera octree (View.GetDrawables camera octree v w).1
          (View.GetDrawables camera octree v w).2).2.HasBasePass d i = true →
        ∃ d' b, d'.id = d.id ∧
          b ∈ Spec.drawableBatches (View.GetBatches g camera octree
            (View.GetDrawables camera octree v w).1
            (View.GetDrawables camera octree v w).2).1 ∧
          Spec.isLitBaseBatch d' i b := by
  have hc := GetBatches_core g camera octree (View.GetDrawables camera octree v w).1
    (View.GetDrawables camera octree v w).2
  have hg := coreFrame_geometries _ _ hc
  obtain ⟨f1, f2⟩ := GetDrawables_fresh camera octree v w hgeo
  intro d hd i hflag
  rw [hg] at hd
  exact GetBatches_litBase (Spec.freshIn (View.GetDrawables camera octree v w).2)
    w.renderer.limitLights hsub g camera octree _ _
    (fun id i hf => hf.1 i) (fun id hf => hf.2) (by rw [f2]) d.id i (f1 d hd) hflag

theorem Update_body_litBase (g : Graphics) (camera : Camera) (octree : Octree) (v : View)
    (w : World) (frame : FrameInfo)
    (hsub : ∀ d l x, x ∈ w.renderer.limitLights d l → x ∈ l) :
    ∀ d ∈ (View.Update.body g camera octree v w frame).1.geometries_,
      ∀ i, (View.Update.body g camera octree v w frame).2.HasBasePass d i = true →
        ∃ d' b, d'.id = d.id ∧
          b ∈ Spec.drawableBatches (View.Update.body g camera octree v w frame).1 ∧
          Spec.isLitBaseBatch d' i b := by
  unfold View.Update.body
  dsimp only
  by_cases hp : (!camera.projectionValid) = true
  · rw [if_pos hp]
    intro d hd
    rw [(clearFrame_empty _).1] at hd
    cases hd
  · rw [if_neg hp]
    exact GetBatches_after_GetDrawables_litBase g _ octree _ _ rfl hsub

theorem SetBasePass_mono (w : World) (drawable : Drawable) (i : Nat) (d : Drawable) (j : Nat)
    (h : w.HasBasePass d j = true) : (w.SetBasePass drawable i).HasBasePass d j = true := by
  show Function.update w.basePassFlags drawable.id
    (Function.update (w.basePassFlags drawable.id) i true) d.id j = true
  by_cases hid : d.id = drawable.id
  · rw [hid, Function.update_same]
    by_cases hj : j = i
    · rw [hj, Function.update_same]
    · rw [Function.update_noteq hj]
      rw [← hid]
      exact h
  · rw [Function.update_noteq hid]
    exact h

theorem SetBasePass_set (w : World) (drawable : Drawable) (i : Nat) :
    (w.SetBasePass drawable i).HasBasePass drawable i = true := by
  show Function.update w.basePassFlags drawable.id
    (Function.update (w.basePassFlags drawable.id) i true) drawable.id i = true
  rw [Function.update_same, Function.update_same]

theorem addBatch_world (drawable : Drawable) (light : Nat) (splitLight : Light)
    (lightQueue : Option Nat) (st : GetBatchesState) (w : World) (i : Nat) (litBatch : Batch)
    (tech : Technique) (pass : Pass) :
    (View.GetLitBatches.addBatch drawable light splitLight lightQueue st w i litBatch tech
      pass).world = w :=
  (addBatch_spec drawable light splitLight lightQueue st w i litBatch tech pass
    (fun _ => True) (fun _ _ _ => trivial)).2.1

theorem GetLitBatches_step_flags (g : Graphics) (camera : Camera) (drawable : Drawable)
    (light : Nat) (splitLight : Light) (lightQueue : Option Nat) (st : GetBatchesState)
    (i : Nat) :
    (∀ (d : Drawable) (j : Nat), st.world.HasBasePass d j = true →
      (View.GetLitBatches.step g camera drawable light splitLight lightQueue st
        i).world.HasBasePass d j = true) ∧
    (∀ (geo : Nat) (tech : Technique) (p : Pass),
      (drawable.GetBatch i).geometry_ = some geo →
      (View.GetTechnique g st.world.renderer st.view drawable
        (drawable.GetBatch i).material_).1 = some tech →
      ¬ (st.view.mode_ ≠ RenderMode.RENDER_FORWARD ∧
        tech.HasPass PassType.PASS_GBUFFER = true) →
      View.GetLitBatches.litBasePass st.view st.world drawable light splitLight tech i =
        some p →
      (View.GetLitBatches.step g camera drawable light splitLight lightQueue st
        i).world.HasBasePass drawable i = true) := by
  unfold View.GetLitBatches.step
  dsimp only
  cases hgeo : (drawable.GetBatch i).geometry_ with
  | none =>
    refine ⟨?_, fun geo tech p h => by cases h⟩
    cases (View.GetTechnique g st.world.renderer st.view drawable
        (drawable.GetBatch i).material_).1 <;> exact fun d j h => h
  | some geo =>
    cases htech : (View.GetTechnique g st.world.renderer st.view drawable
        (drawable.GetBatch i).material_).1 with
    | none => exact ⟨fun d j h => h, fun geo tech p _ h => by cases h⟩
    | some tech =>
      dsimp only
      by_cases hskip : st.view.mode_ ≠ RenderMode.RENDER_FORWARD ∧
          tech.HasPass PassType.PASS_GBUFFER = true
      · rw [if_pos hskip]
        refine ⟨fun d j h => h, fun geo' tech' p _ ht hn => ?_⟩
        cases ht
        exact absurd hskip hn
      · rw [if_neg hskip]
        generalize hlb : View.GetLitBatches.litBasePass st.view st.world drawable light
          splitLight tech i = litBase
        cases litBase with
        | none =>
          dsimp only
          refine ⟨?_, fun geo' tech' p _ ht _ hsel => ?_⟩
          · cases tech.GetPass PassType.PASS_LIGHT with
            | none => exact fun d j h => h
            | some pass =>
              dsimp only
              rw [addBatch_world]
              exact fun d j h => h
          · cases ht
            rw [hlb] at hsel
            cases hsel
        | some p =>
          dsimp only
          rw [addBatch_world]
          exact ⟨fun d j h => SetBasePass_mono _ _ _ _ _ h,
            fun _ _ _ _ _ _ _ => SetBasePass_set _ _ _⟩

/-- C28: within one `Update` with a camera and an octree, the lit base pass is selected by
`GetLitBatches` only for a directional split of the first light of the light list, and only
for a batch index that has no base pass yet; the step that selects it sets the base pass flag
of the batch index, and no step of `GetLitBatches` clears a flag, so the selection happens at
most once for a geometry and batch index. Every visible geometry whose flag is set for batch
index `i` after the `Update` has a lit base batch for its batch `i` (geometry and world
transform of that batch, the lit base pass of its technique, with priority) in one of the
batch queues of the view, and the base pass loop emits nothing for a batch index whose flag is
set. `LimitLights` of `Drawable` is taken to return lights of the list it is given. -/
theorem C28_Update_lit_base_once (g : Graphics) (v : View) (w : World) (frame : FrameInfo)
    (camera : Camera) (octree : Octree) (hc : v.camera_ = some camera)
    (ho : v.octree_ = some octree)
    (hsub : ∀ d l x, x ∈ w.renderer.limitLights d l → x ∈ l) :
    (∀ (u : View) (x : World) (drawable : Drawable) (light : Nat) (splitLight : Light)
        (tech : Technique) (i : Nat) (p : Pass),
      View.GetLitBatches.litBasePass u x drawable light splitLight tech i = some p →
        (∃ first rest, u.lights_ = first :: rest ∧ light = first.id) ∧
        splitLight.lightType = LightType.LIGHT_DIRECTIONAL ∧
        x.HasBasePass drawable i = false ∧
        tech.GetPass PassType.PASS_LITBASE = some p) ∧
    (∀ (cam : Camera) (drawable : Drawable) (light : Nat) (splitLight : Light)
        (lightQueue : Option Nat) (st : GetBatchesState) (i : Nat),
      (∀ (d : Drawable) (j : Nat), st.world.HasBasePass d j = true →
        (View.GetLitBatches.step g cam drawable light splitLight lightQueue st
          i).world.HasBasePass d j = true) ∧
      (∀ (geo : Nat) (tech : Technique) (p : Pass),
        (drawable.GetBatch i).geometry_ = some geo →
        (View.GetTechnique g st.world.renderer st.view drawable
          (drawable.GetBatch i).material_).1 = some tech →
        ¬ (st.view.mode_ ≠ RenderMode.RENDER_FORWARD ∧
          tech.HasPass PassType.PASS_GBUFFER = true) →
        View.GetLitBatches.litBasePass st.view st.world drawable light splitLight tech i =
          some p →
        (View.GetLitBatches.step g cam drawable light splitLight lightQueue st
          i).world.HasBasePass drawable i = true)) ∧
    (∀ d ∈ (View.Update g v w frame).1.geometries_, ∀ i,
      (View.Update g v w frame).2.HasBasePass d i = true →
        ∃ d' b, d'.id = d.id ∧ b ∈ Spec.drawableBatches (View.Update g v w frame).1 ∧
          Spec.isLitBaseBatch d' i b) ∧
    (∀ (cam : Camera) (drawable : Drawable) (st : GetBatchesState) (j : Nat),
      st.world.HasBasePass drawable j = true →
        View.GetBatches.baseStep g cam drawable st j = st) := by
  refine ⟨fun u x drawable light splitLight tech i p h =>
      litBasePass_some u x drawable light splitLight tech i p h,
    fun cam drawable light splitLight lightQueue st i =>
      GetLitBatches_step_flags g cam drawable light splitLight lightQueue st i, ?_,
    fun cam drawable st j h => baseStep_skip g cam drawable st j (Or.inr (Or.inr h))⟩
  rw [Update_set g v w frame camera octree hc ho]
  exact Update_body_litBase g camera octree v w frame hsub

/-- Witness for C28: in a forward-mode view with one directional light and one opaque
geometry whose technique has a lit base pass, the geometry is visible after the `Update`, its
base pass flag is set for batch 0, and a lit base batch of it is in the queues. -/
theorem C28_Update_lit_base_once_witness :
    (Example.sunView.camera_ = some Example.camera ∧
      Example.sunView.octree_ = some Example.sunOctree ∧
      (∀ d l x, x ∈ Example.world.renderer.limitLights d l → x ∈ l) ∧
      Example.litBaseDrawable ∈
        (View.Update Example.graphics Example.sunView Example.world
          Example.frame).1.geometries_ ∧
      (View.Update Example.graphics Example.sunView Example.world
        Example.frame).2.HasBasePass Example.litBaseDrawable 0 = true) ∧
    ∃ d' b, d'.id = Example.litBaseDrawable.id ∧
      b ∈ Spec.drawableBatches
        (View.Update Example.graphics Example.sunView Example.world Example.frame).1 ∧
      Spec.isLitBaseBatch d' 0 b :=
  have hd : Example.litBaseDrawable ∈
      (View.Update Example.graphics Example.sunView Example.world
        Example.frame).1.geometries_ := by decide!
  have hflag : (View.Update Example.graphics Example.sunView Example.world
      Example.frame).2.HasBasePass Example.litBaseDrawable 0 = true := by decide!
  ⟨⟨rfl, rfl, fun _ _ _ h => h, hd, hflag⟩,
    (C28_Update_lit_base_once Example.graphics Example.sunView Example.world Example.frame
      Example.camera Example.sunOctree rfl rfl (fun _ _ _ h => h)).2.2.1
      Example.litBaseDrawable hd 0 hflag⟩

end Urho3D
